import Mathlib

/-!
# VINS-Fisheye estimator: shallow embedding and verified properties

The definitions below embed `vins_estimator/src/estimator/estimator.cpp`.

* `double` values are rationals (`ℚ`) and every arithmetic expression is transcribed
  operator by operator.  Rounding is modelled where a property is about exact values:
  there the result of each operation is rounded with `roundDouble` (the steps
  `processMeasurementsDt`, and `double2vectorWith roundDouble`).  Everywhere else the
  arithmetic is exact, that is, rounding is idealised away.
* C arrays of size `WINDOW_SIZE + 1` (`Ps`, `Rs`, `Headers`, ...) are total functions
  `Nat → α`; only the indices `0..WINDOW_SIZE` are meaningful.
* `std::queue` / `std::vector` are lists with the front (index 0) at the head.
* Library routines (Eigen, `Utility`, the feature manager, `<cmath>`) whose code is not
  part of the estimator source are collected in the parameter record `Externals`.
-/

namespace VinsFisheye

/-! ## Linear-algebra carriers -/

/-- Eigen `Vector3d`, components idealised as rationals. -/
structure Vector3d where
  x : ℚ
  y : ℚ
  z : ℚ
  deriving DecidableEq

/-- Eigen `Matrix3d`, stored by rows. -/
structure Matrix3d where
  r0 : Vector3d
  r1 : Vector3d
  r2 : Vector3d
  deriving DecidableEq

/-- Eigen `Quaterniond` with the constructor order `(w, x, y, z)`. -/
structure Quaterniond where
  w : ℚ
  x : ℚ
  y : ℚ
  z : ℚ
  deriving DecidableEq

namespace Vector3d

/-- `Vector3d::Zero()`. -/
def zero : Vector3d := ⟨0, 0, 0⟩

/-- Component-wise sum `a + b`. -/
def add (a b : Vector3d) : Vector3d := ⟨a.x + b.x, a.y + b.y, a.z + b.z⟩

/-- Component-wise difference `a - b`. -/
def sub (a b : Vector3d) : Vector3d := ⟨a.x - b.x, a.y - b.y, a.z - b.z⟩

/-- Scalar multiple `c * a`. -/
def scale (c : ℚ) (a : Vector3d) : Vector3d := ⟨c * a.x, c * a.y, c * a.z⟩

/-- Quotient `a / c` of a vector by a scalar. -/
def divScalar (a : Vector3d) (c : ℚ) : Vector3d := ⟨a.x / c, a.y / c, a.z / c⟩

/-- Inner product. -/
def dot (a b : Vector3d) : ℚ := a.x * b.x + a.y * b.y + a.z * b.z

instance : Zero Vector3d := ⟨zero⟩
instance : Add Vector3d := ⟨add⟩
instance : Sub Vector3d := ⟨sub⟩
instance : HMul ℚ Vector3d Vector3d := ⟨scale⟩

end Vector3d

namespace Matrix3d

/-- `Matrix3d::Identity()`. -/
def identity : Matrix3d := ⟨⟨1, 0, 0⟩, ⟨0, 1, 0⟩, ⟨0, 0, 1⟩⟩

/-- Matrix-vector product `M * v`. -/
def mulVec (m : Matrix3d) (v : Vector3d) : Vector3d :=
  ⟨m.r0.dot v, m.r1.dot v, m.r2.dot v⟩

/-- Transpose `M.transpose()`. -/
def transpose (m : Matrix3d) : Matrix3d :=
  ⟨⟨m.r0.x, m.r1.x, m.r2.x⟩, ⟨m.r0.y, m.r1.y, m.r2.y⟩, ⟨m.r0.z, m.r1.z, m.r2.z⟩⟩

/-- Matrix product `A * B`. -/
def mul (a b : Matrix3d) : Matrix3d :=
  let bt := b.transpose
  ⟨⟨a.r0.dot bt.r0, a.r0.dot bt.r1, a.r0.dot bt.r2⟩,
   ⟨a.r1.dot bt.r0, a.r1.dot bt.r1, a.r1.dot bt.r2⟩,
   ⟨a.r2.dot bt.r0, a.r2.dot bt.r1, a.r2.dot bt.r2⟩⟩

instance : HMul Matrix3d Vector3d Vector3d := ⟨mulVec⟩
instance : Mul Matrix3d := ⟨mul⟩

end Matrix3d

/-- `Quaterniond::Identity()`. -/
def Quaterniond.identity : Quaterniond := ⟨1, 0, 0, 0⟩

/-- C `fabs` / `std::abs` on a double. -/
def fabs (a : ℚ) : ℚ := if a < 0 then -a else a

/-! ## Arrays -/

/-- Assignment `a[i] = v` on an array seen as a function. -/
def setAt {α : Type} (a : Nat → α) (i : Nat) (v : α) : Nat → α :=
  fun j => if j = i then v else a j

/-- Exchange `a[i].swap(a[j])` (also `std::swap(a[i], a[j])`). -/
def swapAt {α : Type} (a : Nat → α) (i j : Nat) : Nat → α :=
  setAt (setAt a i (a j)) j (a i)

/-! ## Double-precision rounding -/

/-- The power `2 ^ e` for an integer exponent `e`. -/
def pow2 (e : ℤ) : ℚ :=
  if 0 ≤ e then ((2 ^ e.toNat : ℕ) : ℚ) else 1 / ((2 ^ (-e).toNat : ℕ) : ℚ)

/-- Auxiliary recursion of `natLog2`, with a bound on the number of halvings. -/
def log2Fuel : Nat → Nat → Nat
  | 0, _ => 0
  | fuel + 1, n => if n < 2 then 0 else log2Fuel fuel (n / 2) + 1

/-- The position of the leading bit of a natural number `n ≠ 0`: the `k` with
`2 ^ k ≤ n < 2 ^ (k + 1)`. -/
def natLog2 (n : Nat) : Nat := log2Fuel n n

/-- The binary exponent of a positive rational `x`: the integer `e` with
`2 ^ e ≤ x < 2 ^ (e + 1)`. -/
def binaryExponent (x : ℚ) : ℤ :=
  let e0 : ℤ := (natLog2 x.num.natAbs : ℤ) - (natLog2 x.den : ℤ)
  if x < pow2 e0 then e0 - 1 else e0

/-- Rounding of a rational to the nearest integer, ties to the even one. -/
def roundHalfEven (q : ℚ) : ℤ :=
  let f := ⌊q⌋
  if q - f < 1 / 2 then f
  else if 1 / 2 < q - f then f + 1
  else if f % 2 = 0 then f else f + 1

/-- The value a C `double` takes when it is assigned the exact result `x` of an
arithmetic operation: IEEE 754 binary64 rounding to nearest, ties to even, to 53
significant bits (`x` is scaled to a significand in `[2^52, 2^53)`, the significand is
rounded to an integer and scaled back).  The exponent range is not bounded, so overflow
and subnormal numbers (magnitudes above `2^1024` or below `2^-1022`) are not modelled. -/
def roundDouble (x : ℚ) : ℚ :=
  if x = 0 then 0
  else
    let u := pow2 (binaryExponent |x| - 52)
    if x < 0 then -((roundHalfEven (|x| / u) : ℚ) * u) else (roundHalfEven (|x| / u) : ℚ) * u

/-- The rational `x` is a value of type `double`: rounding leaves it as it is. -/
def IsDouble (x : ℚ) : Prop := roundDouble x = x

instance (x : ℚ) : Decidable (IsDouble x) := by
  unfold IsDouble
  infer_instance

/-! ## Data model -/

/-- Modelled from the spec: `IntegrationBase` (its source, `integration_base.h`, is not
among the estimator sources).  A delta is started from an initial sample and reference
biases and buffers every sample pushed into it; the integrated quantities are functions
of exactly this data. -/
structure IntegrationBase where
  acc_0 : Vector3d
  gyr_0 : Vector3d
  linearized_ba : Vector3d
  linearized_bg : Vector3d
  dt_buf : List ℚ
  acc_buf : List Vector3d
  gyr_buf : List Vector3d
  deriving DecidableEq

/-- Constructor `IntegrationBase{acc_0, gyr_0, Ba, Bg}`: an empty delta. -/
def IntegrationBase.new (acc_0 gyr_0 ba bg : Vector3d) : IntegrationBase :=
  ⟨acc_0, gyr_0, ba, bg, [], [], []⟩

/-- Method `push_back(dt, acc, gyr)`: buffer one sample. -/
def IntegrationBase.push_back (p : IntegrationBase) (dt : ℚ) (acc gyr : Vector3d) :
    IntegrationBase :=
  { p with dt_buf := p.dt_buf ++ [dt], acc_buf := p.acc_buf ++ [acc],
           gyr_buf := p.gyr_buf ++ [gyr] }

/-- Modelled from the spec: `FeaturePerFrame` (declared in `feature_manager.h`, which is
not among the sources), one observation of a feature in one frame, with the members the
estimator reads. -/
structure FeaturePerFrame where
  point : Vector3d
  pointRight : Vector3d
  is_stereo : Bool
  cur_td : ℚ
  velocity : Vector3d
  velocityRight : Vector3d
  deriving DecidableEq

/-- Modelled from the spec: `FeaturePerId` (declared in `feature_manager.h`, which is not
among the sources), one tracked feature, with the members the estimator uses. -/
structure FeaturePerId where
  feature_id : Int
  start_frame : Int
  feature_per_frame : List FeaturePerFrame
  used_num : Nat
  estimated_depth : ℚ
  main_cam : Nat
  deriving DecidableEq

/-- Modelled from the spec: `FeatureManager` (declared in `feature_manager.h`, which is
not among the sources); `feature` is the `std::map<int, FeaturePerId>` as an
association list. -/
structure FeatureManager where
  feature : List (Int × FeaturePerId)
  last_track_num : Int
  deriving DecidableEq

/-- Modelled from the spec: `FeatureFrame` (its typedef is not among the sources), a map
feature id ↦ list of (camera id, observation vector). -/
abbrev FeatureFrame := List (Int × List (Int × List ℚ))

/-- An image (OpenCV `cv::Mat`), identified by its pixel payload. -/
structure CvMat where
  pixels : List Nat
  deriving DecidableEq

/-- The type `CvImages` is a `std::vector<cv::Mat>`. -/
abbrev CvImages := List CvMat

/-- Modelled from the spec: `ImageFrame` (declared in `initial_alignment.h`, which is not
among the sources), an entry of `all_image_frame`; a deleted pre-integration is `none`. -/
structure ImageFrame where
  points : FeatureFrame
  t : ℚ
  R : Matrix3d
  T : Vector3d
  pre_integration : Option IntegrationBase
  is_key_frame : Bool
  deriving DecidableEq

/-- Modelled from the spec: the enumeration `SolverFlag` of `estimator.h` (not among the
sources), the values of `solver_flag`. -/
inductive SolverFlag where
  | INITIAL
  | NON_LINEAR
  deriving DecidableEq

/-- Modelled from the spec: the enumeration `MarginalizationFlag` of `estimator.h` (not
among the sources), the values of `marginalization_flag`. -/
inductive MarginalizationFlag where
  | MARGIN_OLD
  | MARGIN_SECOND_NEW
  deriving DecidableEq

/-- The address of a parameter block handed to the solver and to the marginalizer
(`double *`): a row of one of the five parameter arrays, or the null pointer.  Rows of
the arrays are distinct memory, so distinct names are distinct addresses. -/
inductive BlockId where
  | para_Pose (i : Nat)
  | para_SpeedBias (i : Nat)
  | para_Ex_Pose (i : Nat)
  | para_Feature (i : Nat)
  | para_Td (i : Nat)
  | null
  deriving DecidableEq

/-- A stamped IMU reading, the element type of `accBuf` and `gyrBuf`. -/
abbrev Stamped := ℚ × Vector3d

/-- Modelled from the spec: `MarginalizationInfo` (source not among the estimator
sources); only its validity mark is recorded. -/
structure MarginalizationInfo where
  valid : Bool
  deriving DecidableEq

/-- Global configuration constants and variables (`parameters.h`, not among the
sources), taken as parameters.  `WINDOW_SIZE` is a positive constant (10 by default):
the code indexes slot `WINDOW_SIZE - 1`. -/
structure Config where
  WINDOW_SIZE : Nat
  window_pos : 0 < WINDOW_SIZE
  NUM_OF_CAM : Nat
  USE_IMU : Bool
  STEREO : Bool
  FISHEYE : Bool
  ENABLE_DEPTH : Bool
  FOCAL_LENGTH : ℚ
  THRES_OUTLIER : ℚ
  ESTIMATE_TD : Bool
  NUM_ITERATIONS : Nat
  SOLVER_TIME : ℚ
  TD : ℚ
  G : Vector3d

/-- Modelled from the spec: the cost functions the estimator hands to the solver and to
the marginalizer (`marginalization_factor.h`, `imu_factor.h` and the three projection
factor headers are not among the sources).  Each value records the constructor
arguments of the C++ object. -/
inductive Factor where
  | MarginalizationFactor (info : MarginalizationInfo)
  | IMUFactor (pre_integration : IntegrationBase)
  | ProjectionTwoFrameOneCamFactor
      (pts_i pts_j velocity_i velocity_j : Vector3d) (td_i td_j : ℚ)
  | ProjectionTwoFrameTwoCamFactor
      (pts_i pts_j velocity_i velocity_j : Vector3d) (td_i td_j : ℚ)
  | ProjectionOneFrameTwoCamFactor
      (pts_i pts_j velocity_i velocity_j : Vector3d) (td_i td_j : ℚ)
  deriving DecidableEq

/-- The loss function of a residual block: `NULL` or the `ceres::HuberLoss(1.0)` object
created at the start of `optimization`. -/
inductive LossFunction where
  | NULL
  | HuberLoss
  deriving DecidableEq

/-- One call `problem.AddResidualBlock(cost_function, loss_function, blocks...)`. -/
structure ResidualBlock where
  cost_function : Factor
  loss_function : LossFunction
  parameter_blocks : List BlockId
  deriving DecidableEq

/-- The `ceres::Problem` under construction, as the record of the calls made on it:
the blocks passed to `AddParameterBlock`, those passed to `SetParameterBlockConstant`,
and the residual blocks, each in call order. -/
structure Problem where
  parameter_blocks : List BlockId
  constant_blocks : List BlockId
  residual_blocks : List ResidualBlock
  deriving DecidableEq

/-- Modelled from the spec: `ResidualBlockInfo` (declared in `marginalization_factor.h`,
which is not among the sources): the arguments of its constructor. -/
structure ResidualBlockInfo where
  cost_function : Factor
  loss_function : LossFunction
  parameter_blocks : List BlockId
  drop_set : List Nat
  deriving DecidableEq

/-- The five parameter arrays a solve or a marginalization reads and writes through the
block addresses. -/
structure ParameterArrays where
  para_Pose : Nat → Nat → ℚ
  para_SpeedBias : Nat → Nat → ℚ
  para_Ex_Pose : Nat → Nat → ℚ
  para_Feature : Nat → Nat → ℚ
  para_Td : Nat → Nat → ℚ

/-- The fields of `ceres::Solver::Options` that `optimization` computes from variables. -/
structure SolverOptions where
  max_num_iterations : Nat
  max_solver_time_in_seconds : ℚ

/-- Modelled from the spec: `SFMFeature` (declared in `initial_sfm.h`, which is not among
the sources): a feature handed to the global structure-from-motion, with its
observations (slot, x, y). -/
structure SFMFeature where
  state : Bool
  id : Int
  observation : List (Int × ℚ × ℚ)
  deriving DecidableEq

/-- Modelled from the spec: what `VisualIMUAlignment(all_image_frame, Bgs, g, x)`
(`initial_aligment.cpp`, not among the sources) leaves in its reference arguments,
with its return value. -/
structure AlignmentResult where
  result : Bool
  all_image_frame : List (ℚ × ImageFrame)
  Bgs : Nat → Vector3d
  g : Vector3d
  x : List ℚ

/-- Modelled from the spec: the state of the member `initial_ex_rotation`
(`InitialEXRotation`, not among the sources): the arguments of the calls of
`CalibrationExRotation` made so far. -/
abbrev InitialEXRotation := List (List (Vector3d × Vector3d) × IntegrationBase)

/-- Routines called by the estimator whose code lives outside the estimator source:
Eigen and `<cmath>` numerics, `Utility`, OpenCV, the feature manager, the solver, the
marginalizer and the initialisation routines. -/
structure Externals where
  sqrt : ℚ → ℚ
  R2ypr : Matrix3d → Vector3d
  ypr2R : Vector3d → Matrix3d
  deltaQ : Vector3d → Quaterniond
  quatOfMatrix : Matrix3d → Quaterniond
  toRotationMatrix : Quaterniond → Matrix3d
  normalized : Quaterniond → Quaterniond
  quatMul : Quaterniond → Quaterniond → Quaterniond
  quatRotate : Quaterniond → Vector3d → Vector3d
  fmClearState : FeatureManager → FeatureManager
  fmRemoveBack : FeatureManager → FeatureManager
  fmRemoveBackShiftDepth :
    FeatureManager → Matrix3d → Vector3d → Matrix3d → Vector3d → FeatureManager
  fmRemoveFront : FeatureManager → Nat → FeatureManager
  fmGetDepthVector : FeatureManager → List (Int × ℚ)
  fmSetDepth : FeatureManager → List (Int × ℚ) → FeatureManager
  fmGetCorresponding : FeatureManager → Nat → Nat → List (Vector3d × Vector3d)
  solveRelativeRT : List (Vector3d × Vector3d) → Option (Matrix3d × Vector3d)
  ceresSolve : SolverOptions → Problem → ParameterArrays → ParameterArrays
  marginalize : List ResidualBlockInfo → ParameterArrays → MarginalizationInfo
  fmAddFeatureCheckParallax : FeatureManager → Nat → FeatureFrame → ℚ → Bool × FeatureManager
  fmInitFramePoseByPnP : FeatureManager → Nat → (Nat → Vector3d) → (Nat → Matrix3d) →
    (Nat → Vector3d) → (Nat → Matrix3d) → FeatureManager × (Nat → Vector3d) × (Nat → Matrix3d)
  fmTriangulate : FeatureManager → Nat → (Nat → Vector3d) → (Nat → Matrix3d) →
    (Nat → Vector3d) → (Nat → Matrix3d) → FeatureManager
  fmRemoveOutlier : FeatureManager → Finset Int → FeatureManager
  fmRemoveFailures : FeatureManager → FeatureManager
  fmClearDepth : FeatureManager → FeatureManager
  fmSetRic : FeatureManager → (Nat → Matrix3d) → FeatureManager
  CalibrationExRotation :
    InitialEXRotation → List (Vector3d × Vector3d) → IntegrationBase → Option Matrix3d
  solveGyroscopeBias :
    List (ℚ × ImageFrame) → (Nat → Vector3d) → List (ℚ × ImageFrame) × (Nat → Vector3d)
  sfmConstruct : Nat → Int → Matrix3d → Vector3d → List SFMFeature →
    Option ((Nat → Quaterniond) × (Nat → Vector3d) × List (Int × Vector3d))
  solvePnP : List Vector3d → List (ℚ × ℚ) → Matrix3d → Vector3d → Option (Matrix3d × Vector3d)
  VisualIMUAlignment : List (ℚ × ImageFrame) → (Nat → Vector3d) → Vector3d → AlignmentResult
  g2R : Vector3d → Matrix3d
  quatInverse : Quaterniond → Quaterniond
  inverse : Matrix3d × Vector3d → Matrix3d × Vector3d

/-- Modelled from the spec: the class `Estimator` (declared in `estimator.h`, which is not
among the sources).  The members are those the embedded functions of `estimator.cpp`
read or write, typed after their uses there; `ESTIMATE_EXTRINSIC`, `RIC` and `TIC` are
the global variables of that name, which the estimator writes or reads at run time. -/
structure Estimator where
  Headers : Nat → ℚ
  Ps : Nat → Vector3d
  Rs : Nat → Matrix3d
  Vs : Nat → Vector3d
  Bas : Nat → Vector3d
  Bgs : Nat → Vector3d
  dt_buf : Nat → List ℚ
  linear_acceleration_buf : Nat → List Vector3d
  angular_velocity_buf : Nat → List Vector3d
  pre_integrations : Nat → Option IntegrationBase
  tmp_pre_integration : Option IntegrationBase
  all_image_frame : List (ℚ × ImageFrame)
  tic : Nat → Vector3d
  ric : Nat → Matrix3d
  td : ℚ
  g : Vector3d
  acc_0 : Vector3d
  gyr_0 : Vector3d
  first_imu : Bool
  back_R0 : Matrix3d
  back_P0 : Vector3d
  last_R : Matrix3d
  last_P : Vector3d
  last_R0 : Matrix3d
  last_P0 : Vector3d
  frame_count : Nat
  sum_of_back : Int
  sum_of_front : Int
  solver_flag : SolverFlag
  marginalization_flag : MarginalizationFlag
  initial_timestamp : ℚ
  failure_occur : Int
  last_marginalization_info : Option MarginalizationInfo
  last_marginalization_parameter_blocks : List BlockId
  f_manager : FeatureManager
  para_Pose : Nat → Nat → ℚ
  para_SpeedBias : Nat → Nat → ℚ
  para_Ex_Pose : Nat → Nat → ℚ
  para_Feature : Nat → Nat → ℚ
  para_Td : Nat → Nat → ℚ
  param_feature_id : List Int
  param_feature_id_to_index : List (Int × Nat)
  latest_time : ℚ
  latest_P : Vector3d
  latest_V : Vector3d
  latest_Q : Quaterniond
  latest_Ba : Vector3d
  latest_Bg : Vector3d
  latest_acc_0 : Vector3d
  latest_gyr_0 : Vector3d
  fast_prop_inited : Bool
  accBuf : List Stamped
  gyrBuf : List Stamped
  featureBuf : List (ℚ × FeatureFrame)
  fisheye_imgs_upBuf : List CvImages
  fisheye_imgs_downBuf : List CvImages
  fisheye_imgs_stampBuf : List ℚ
  inputImageCnt : Int
  odometry_buf : List (ℚ × Matrix3d × Vector3d)
  openExEstimation : Bool
  ESTIMATE_EXTRINSIC : Int
  RIC : Nat → Matrix3d
  TIC : Nat → Vector3d
  key_poses : List Vector3d
  initial_ex_rotation : InitialEXRotation
  predictPts : List (Int × Vector3d)
  predictPts1 : List (Int × Vector3d)

/-! ## `slideWindow` -/

/-- Body of the shifting loop of `slideWindow` (MARGIN_OLD branch), iteration `i`. -/
def slideWindowShiftStep (cfg : Config) (s : Estimator) (i : Nat) : Estimator :=
  let s1 : Estimator :=
    { s with Headers := setAt s.Headers i (s.Headers (i + 1)),
             Rs := swapAt s.Rs i (i + 1),
             Ps := swapAt s.Ps i (i + 1) }
  if cfg.USE_IMU then
    { s1 with pre_integrations := swapAt s1.pre_integrations i (i + 1),
              dt_buf := swapAt s1.dt_buf i (i + 1),
              linear_acceleration_buf := swapAt s1.linear_acceleration_buf i (i + 1),
              angular_velocity_buf := swapAt s1.angular_velocity_buf i (i + 1),
              Vs := swapAt s1.Vs i (i + 1),
              Bas := swapAt s1.Bas i (i + 1),
              Bgs := swapAt s1.Bgs i (i + 1) }
  else s1

/-- The lookup `all_image_frame.find(t_0)`, deletion of the found entry's pre-integration and
erasure of `[begin, it_0)`.  The map is kept sorted by key, so the erased range is the
run of entries in front of the hit (the whole map when there is no hit). -/
def eraseBefore (t_0 : ℚ) : List (ℚ × ImageFrame) → List (ℚ × ImageFrame)
  | [] => []
  | (k, f) :: rest =>
    if k = t_0 then (k, { f with pre_integration := none }) :: rest
    else eraseBefore t_0 rest

/-- Function `Estimator::slideWindowOld`. -/
def slideWindowOld (ext : Externals) (s : Estimator) : Estimator :=
  let s1 : Estimator := { s with sum_of_back := s.sum_of_back + 1 }
  let shift_depth : Bool := if s1.solver_flag = SolverFlag.NON_LINEAR then true else false
  if shift_depth then
    let R0 := s1.back_R0 * s1.ric 0
    let R1 := s1.Rs 0 * s1.ric 0
    let P0 := s1.back_P0 + s1.back_R0 * s1.tic 0
    let P1 := s1.Ps 0 + s1.Rs 0 * s1.tic 0
    { s1 with f_manager := ext.fmRemoveBackShiftDepth s1.f_manager R0 P0 R1 P1 }
  else
    { s1 with f_manager := ext.fmRemoveBack s1.f_manager }

/-- Function `Estimator::slideWindowNew`. -/
def slideWindowNew (ext : Externals) (s : Estimator) : Estimator :=
  { s with sum_of_front := s.sum_of_front + 1,
           f_manager := ext.fmRemoveFront s.f_manager s.frame_count }

/-- Body of the merging loop of `slideWindow` (MARGIN_SECOND_NEW branch), iteration `i`:
sample `i` of slot `frame_count` is pushed into slot `frame_count - 1`.  A push through
a null `pre_integrations[frame_count - 1]` leaves it null. -/
def slideWindowMergeStep (s : Estimator) (i : Nat) : Estimator :=
  let fc := s.frame_count
  let tmp_dt := (s.dt_buf fc).getD i 0
  let tmp_linear_acceleration := (s.linear_acceleration_buf fc).getD i 0
  let tmp_angular_velocity := (s.angular_velocity_buf fc).getD i 0
  { s with
    pre_integrations := setAt s.pre_integrations (fc - 1)
      ((s.pre_integrations (fc - 1)).map
        (fun p => p.push_back tmp_dt tmp_linear_acceleration tmp_angular_velocity)),
    dt_buf := setAt s.dt_buf (fc - 1) (s.dt_buf (fc - 1) ++ [tmp_dt]),
    linear_acceleration_buf := setAt s.linear_acceleration_buf (fc - 1)
      (s.linear_acceleration_buf (fc - 1) ++ [tmp_linear_acceleration]),
    angular_velocity_buf := setAt s.angular_velocity_buf (fc - 1)
      (s.angular_velocity_buf (fc - 1) ++ [tmp_angular_velocity]) }

/-- The tail of both branches under `USE_IMU`: slot `WINDOW_SIZE` gets a fresh
pre-integration and empty sample buffers. -/
def resetNewestSlot (cfg : Config) (s : Estimator) : Estimator :=
  let W := cfg.WINDOW_SIZE
  { s with
    pre_integrations := setAt s.pre_integrations W
      (some (IntegrationBase.new s.acc_0 s.gyr_0 (s.Bas W) (s.Bgs W))),
    dt_buf := setAt s.dt_buf W [],
    linear_acceleration_buf := setAt s.linear_acceleration_buf W [],
    angular_velocity_buf := setAt s.angular_velocity_buf W [] }

/-- Function `Estimator::slideWindow`. -/
def slideWindow (ext : Externals) (cfg : Config) (s : Estimator) : Estimator :=
  let W := cfg.WINDOW_SIZE
  match s.marginalization_flag with
  | MarginalizationFlag.MARGIN_OLD =>
    let t_0 := s.Headers 0
    let s0 : Estimator := { s with back_R0 := s.Rs 0, back_P0 := s.Ps 0 }
    if s0.frame_count = W then
      let s1 := (List.range W).foldl (slideWindowShiftStep cfg) s0
      let s2 : Estimator :=
        { s1 with Headers := setAt s1.Headers W (s1.Headers (W - 1)),
                  Ps := setAt s1.Ps W (s1.Ps (W - 1)),
                  Rs := setAt s1.Rs W (s1.Rs (W - 1)) }
      let s3 : Estimator :=
        if cfg.USE_IMU then
          resetNewestSlot cfg
            { s2 with Vs := setAt s2.Vs W (s2.Vs (W - 1)),
                      Bas := setAt s2.Bas W (s2.Bas (W - 1)),
                      Bgs := setAt s2.Bgs W (s2.Bgs (W - 1)) }
        else s2
      let s4 : Estimator := { s3 with all_image_frame := eraseBefore t_0 s3.all_image_frame }
      slideWindowOld ext s4
    else s0
  | MarginalizationFlag.MARGIN_SECOND_NEW =>
    if s.frame_count = W then
      let fc := s.frame_count
      let s1 : Estimator :=
        { s with Headers := setAt s.Headers (fc - 1) (s.Headers fc),
                 Ps := setAt s.Ps (fc - 1) (s.Ps fc),
                 Rs := setAt s.Rs (fc - 1) (s.Rs fc) }
      let s2 : Estimator :=
        if cfg.USE_IMU then
          let s11 := (List.range (s1.dt_buf fc).length).foldl slideWindowMergeStep s1
          resetNewestSlot cfg
            { s11 with Vs := setAt s11.Vs (fc - 1) (s11.Vs fc),
                       Bas := setAt s11.Bas (fc - 1) (s11.Bas fc),
                       Bgs := setAt s11.Bgs (fc - 1) (s11.Bgs fc) }
        else s1
      slideWindowNew ext s2
    else s

/-! ## Closed forms used in the loop invariants -/

/-- The array after `k` iterations of `a[i] = a[i + 1]`. -/
def shiftedCopy {α : Type} (a : Nat → α) (k : Nat) : Nat → α :=
  fun j => if j < k then a (j + 1) else a j

/-- The array after `k` iterations of `a[i].swap(a[i + 1])`: the first element has
travelled to position `k`. -/
def rotated {α : Type} (a : Nat → α) (k : Nat) : Nat → α :=
  fun j => if j < k then a (j + 1) else if j = k then a 0 else a j

/-! ## Concrete objects for the witnesses -/

/-- A configuration with a window of three slots (`WINDOW_SIZE = 2`), two cameras, IMU
and stereo enabled. -/
def demoConfig : Config :=
  { WINDOW_SIZE := 2, window_pos := by decide, NUM_OF_CAM := 2, USE_IMU := true,
    STEREO := true, FISHEYE := false, ENABLE_DEPTH := false,
    FOCAL_LENGTH := 460, THRES_OUTLIER := 3, ESTIMATE_TD := true,
    NUM_ITERATIONS := 8, SOLVER_TIME := 1 / 25, TD := 0, G := ⟨0, 0, 981 / 100⟩ }

/-- Trivial stand-ins for the external routines. -/
def demoExternals : Externals :=
  { sqrt := fun a => a,
    R2ypr := fun _ => 0,
    ypr2R := fun _ => Matrix3d.identity,
    deltaQ := fun _ => Quaterniond.identity,
    quatOfMatrix := fun _ => Quaterniond.identity,
    toRotationMatrix := fun _ => Matrix3d.identity,
    normalized := fun q => q,
    quatMul := fun q _ => q,
    quatRotate := fun _ v => v,
    fmClearState := fun _ => ⟨[], 0⟩,
    fmRemoveBack := fun m => m,
    fmRemoveBackShiftDepth := fun m _ _ _ _ => m,
    fmRemoveFront := fun m _ => m,
    fmGetDepthVector := fun _ => [],
    fmSetDepth := fun m _ => m,
    fmGetCorresponding := fun _ _ _ => [],
    solveRelativeRT := fun _ => none,
    ceresSolve := fun _ _ a => a,
    marginalize := fun _ _ => ⟨true⟩,
    fmAddFeatureCheckParallax := fun m _ _ _ => (false, m),
    fmInitFramePoseByPnP := fun m _ Ps Rs _ _ => (m, Ps, Rs),
    fmTriangulate := fun m _ _ _ _ _ => m,
    fmRemoveOutlier := fun m _ => m,
    fmRemoveFailures := fun m => m,
    fmClearDepth := fun m => m,
    fmSetRic := fun m _ => m,
    CalibrationExRotation := fun _ _ _ => none,
    solveGyroscopeBias := fun frames Bgs => (frames, Bgs),
    sfmConstruct := fun _ _ _ _ _ => none,
    solvePnP := fun _ _ _ _ => none,
    VisualIMUAlignment := fun frames Bgs g => ⟨false, frames, Bgs, g, []⟩,
    g2R := fun _ => Matrix3d.identity,
    quatInverse := fun q => q,
    inverse := fun T => T }

/-- An estimator with every member zero, empty or identity. -/
def blankEstimator : Estimator :=
  { Headers := fun _ => 0, Ps := fun _ => 0, Rs := fun _ => Matrix3d.identity,
    Vs := fun _ => 0, Bas := fun _ => 0, Bgs := fun _ => 0,
    dt_buf := fun _ => [], linear_acceleration_buf := fun _ => [],
    angular_velocity_buf := fun _ => [], pre_integrations := fun _ => none,
    tmp_pre_integration := none, all_image_frame := [],
    tic := fun _ => 0, ric := fun _ => Matrix3d.identity, td := 0, g := 0,
    acc_0 := 0, gyr_0 := 0, first_imu := false,
    back_R0 := Matrix3d.identity, back_P0 := 0,
    last_R := Matrix3d.identity, last_P := 0, last_R0 := Matrix3d.identity, last_P0 := 0,
    frame_count := 0, sum_of_back := 0, sum_of_front := 0,
    solver_flag := SolverFlag.INITIAL,
    marginalization_flag := MarginalizationFlag.MARGIN_OLD,
    initial_timestamp := 0, failure_occur := 0,
    last_marginalization_info := none, last_marginalization_parameter_blocks := [],
    f_manager := ⟨[], 0⟩,
    para_Pose := fun _ _ => 0, para_SpeedBias := fun _ _ => 0,
    para_Ex_Pose := fun _ _ => 0, para_Feature := fun _ _ => 0, para_Td := fun _ _ => 0,
    param_feature_id := [], param_feature_id_to_index := [],
    latest_time := 0, latest_P := 0, latest_V := 0, latest_Q := Quaterniond.identity,
    latest_Ba := 0, latest_Bg := 0, latest_acc_0 := 0, latest_gyr_0 := 0,
    fast_prop_inited := false,
    accBuf := [], gyrBuf := [], featureBuf := [],
    fisheye_imgs_upBuf := [], fisheye_imgs_downBuf := [], fisheye_imgs_stampBuf := [],
    inputImageCnt := 0,
    odometry_buf := [], openExEstimation := false, ESTIMATE_EXTRINSIC := 0,
    RIC := fun _ => Matrix3d.identity, TIC := fun _ => 0, key_poses := [],
    initial_ex_rotation := [], predictPts := [], predictPts1 := [] }

/-- A full window (`frame_count = 2`) whose slot `i` carries header `i`, position and
velocity `(i, 0, 0)` and biases `(0, i, 0)`, `(0, 0, i)`; keyframe decision `MARGIN_OLD`. -/
def demoWindowOld : Estimator :=
  { blankEstimator with
    Headers := fun i => (i : ℚ),
    Ps := fun i => ⟨(i : ℚ), 0, 0⟩,
    Vs := fun i => ⟨(i : ℚ), 0, 0⟩,
    Bas := fun i => ⟨0, (i : ℚ), 0⟩,
    Bgs := fun i => ⟨0, 0, (i : ℚ)⟩,
    dt_buf := fun i => if i = 2 then [1 / 200, 1 / 200] else [1 / 100],
    linear_acceleration_buf := fun i => if i = 2 then [⟨0, 0, 1⟩, ⟨0, 0, 2⟩] else [0],
    angular_velocity_buf := fun i => if i = 2 then [⟨1, 0, 0⟩, ⟨2, 0, 0⟩] else [0],
    frame_count := 2 }

/-- The same full window with the non-keyframe decision `MARGIN_SECOND_NEW`. -/
def demoWindowNew : Estimator :=
  { demoWindowOld with marginalization_flag := MarginalizationFlag.MARGIN_SECOND_NEW }

/-! ## IMU queue: `getIMUInterval`, `IMUAvailable` -/

/-- First loop of `getIMUInterval`:
`while (accBuf.front().first <= t0) { accBuf.pop(); gyrBuf.pop(); }`.
The result is `none` when the loop reads the front of, or pops, an empty queue. -/
def dropStale (t0 : ℚ) : List Stamped → List Stamped → Option (List Stamped × List Stamped)
  | [], _ => none
  | a :: acc, gyr =>
    if a.1 ≤ t0 then
      match gyr with
      | [] => none
      | _ :: gyr1 => dropStale t0 acc gyr1
    else some (a :: acc, gyr)

/-- Second loop of `getIMUInterval`:
`while (accBuf.front().first < t1)` move the fronts of both queues to the output vectors.
The components are `(accBuf, gyrBuf, accVector, gyrVector)`; `none` as in `dropStale`. -/
def takeBefore (t1 : ℚ) :
    List Stamped → List Stamped → List Stamped → List Stamped →
      Option (List Stamped × List Stamped × List Stamped × List Stamped)
  | [], _, _, _ => none
  | a :: acc, gyr, accVector, gyrVector =>
    if a.1 < t1 then
      match gyr with
      | [] => none
      | g :: gyr1 => takeBefore t1 acc gyr1 (accVector ++ [a]) (gyrVector ++ [g])
    else some (a :: acc, gyr, accVector, gyrVector)

/-- What a call of `getIMUInterval` leaves behind: the returned flag, the estimator (its
two IMU queues are the only members written) and the two output vectors. -/
structure IMUIntervalOutcome where
  ret : Bool
  est : Estimator
  accVector : List Stamped
  gyrVector : List Stamped

/-- The queue-level content of a call of `getIMUInterval`: returned flag, `accBuf`,
`gyrBuf`, `accVector`, `gyrVector` after the call. -/
structure IMUIntervalQueues where
  ret : Bool
  accBuf : List Stamped
  gyrBuf : List Stamped
  accVector : List Stamped
  gyrVector : List Stamped
  deriving DecidableEq

/-- The body of `getIMUInterval` on the two queues and the two output vectors. -/
def getIMUIntervalQueues (accBuf gyrBuf : List Stamped) (t0 t1 : ℚ)
    (accVector gyrVector : List Stamped) : Option IMUIntervalQueues :=
  match accBuf.getLast? with
  | none => some ⟨false, accBuf, gyrBuf, accVector, gyrVector⟩
  | some back =>
    if t1 ≤ back.1 then
      match dropStale t0 accBuf gyrBuf with
      | none => none
      | some (acc1, gyr1) =>
        match takeBefore t1 acc1 gyr1 accVector gyrVector with
        | none => none
        | some (acc2, gyr2, accV, gyrV) =>
          match acc2.head?, gyr2.head? with
          | some a, some g => some ⟨true, acc2, gyr2, accV ++ [a], gyrV ++ [g]⟩
          | _, _ => none
    else some ⟨false, accBuf, gyrBuf, accVector, gyrVector⟩

/-- Function `Estimator::getIMUInterval(t0, t1, accVector, gyrVector)`; the result is
`none` when the call reads the front of, or pops, an empty queue. -/
def getIMUInterval (s : Estimator) (t0 t1 : ℚ) (accVector gyrVector : List Stamped) :
    Option IMUIntervalOutcome :=
  (getIMUIntervalQueues s.accBuf s.gyrBuf t0 t1 accVector gyrVector).map
    (fun q => ⟨q.ret, { s with accBuf := q.accBuf, gyrBuf := q.gyrBuf },
      q.accVector, q.gyrVector⟩)

/-- Function `Estimator::IMUAvailable(t)`. -/
def IMUAvailable (s : Estimator) (t : ℚ) : Bool :=
  match s.accBuf.getLast? with
  | none => false
  | some back => decide (t ≤ back.1)

/-- Two queues carry the same timestamps position by position, as `inputIMU` pushes them. -/
def StampsPaired (accBuf gyrBuf : List Stamped) : Prop :=
  accBuf.map Prod.fst = gyrBuf.map Prod.fst

instance (accBuf gyrBuf : List Stamped) : Decidable (StampsPaired accBuf gyrBuf) := by
  unfold StampsPaired
  infer_instance

/-! ## IMU input and fast-forward prediction -/

instance : HMul Vector3d ℚ Vector3d := ⟨fun v c => ⟨v.x * c, v.y * c, v.z * c⟩⟩

/-- Function `Estimator::fastPredictIMU(t, linear_acceleration, angular_velocity)`. -/
def fastPredictIMU (ext : Externals) (s : Estimator) (t : ℚ)
    (linear_acceleration angular_velocity : Vector3d) : Estimator :=
  if s.latest_time < 10 then s
  else
    let dt := t - s.latest_time
    let un_acc_0 := ext.quatRotate s.latest_Q (s.latest_acc_0 - s.latest_Ba) - s.g
    let un_gyr := (0.5 : ℚ) * (s.latest_gyr_0 + angular_velocity) - s.latest_Bg
    let q := ext.normalized (ext.quatMul s.latest_Q (ext.deltaQ (un_gyr * dt)))
    let un_acc_1 := ext.quatRotate q (linear_acceleration - s.latest_Ba) - s.g
    let un_acc := (0.5 : ℚ) * (un_acc_0 + un_acc_1)
    { s with latest_time := t,
             latest_Q := q,
             latest_P := s.latest_P + dt * s.latest_V + (0.5 * dt * dt) * un_acc,
             latest_V := s.latest_V + dt * un_acc,
             latest_acc_0 := linear_acceleration,
             latest_gyr_0 := angular_velocity }

/-- Function `Estimator::inputIMU(t, linearAcceleration, angularVelocity)`; the published
odometry is `(latest_P, latest_Q, latest_V, t)` of the returned state. -/
def inputIMU (ext : Externals) (s : Estimator) (t : ℚ)
    (linearAcceleration angularVelocity : Vector3d) : Estimator :=
  let s1 : Estimator :=
    { s with accBuf := s.accBuf ++ [(t, linearAcceleration)],
             gyrBuf := s.gyrBuf ++ [(t, angularVelocity)] }
  if s1.fast_prop_inited then fastPredictIMU ext s1 t linearAcceleration angularVelocity
  else s1

/-- Body of the first loop of `clearState`, slot `i`. -/
def clearStateSlot (s : Estimator) (i : Nat) : Estimator :=
  { s with Rs := setAt s.Rs i Matrix3d.identity,
           Ps := setAt s.Ps i 0,
           Vs := setAt s.Vs i 0,
           Bas := setAt s.Bas i 0,
           Bgs := setAt s.Bgs i 0,
           dt_buf := setAt s.dt_buf i [],
           linear_acceleration_buf := setAt s.linear_acceleration_buf i [],
           angular_velocity_buf := setAt s.angular_velocity_buf i [],
           pre_integrations := setAt s.pre_integrations i none }

/-- Body of the second loop of `clearState`, camera `i`. -/
def clearStateCam (s : Estimator) (i : Nat) : Estimator :=
  { s with tic := setAt s.tic i 0, ric := setAt s.ric i Matrix3d.identity }

/-- Function `Estimator::clearState`. -/
def clearState (ext : Externals) (cfg : Config) (s : Estimator) : Estimator :=
  let s1 := (List.range (cfg.WINDOW_SIZE + 1)).foldl clearStateSlot s
  let s2 := (List.range cfg.NUM_OF_CAM).foldl clearStateCam s1
  { s2 with first_imu := false,
            sum_of_back := 0,
            sum_of_front := 0,
            frame_count := 0,
            solver_flag := SolverFlag.INITIAL,
            latest_P := 0,
            latest_V := 0,
            latest_Q := Quaterniond.identity,
            fast_prop_inited := false,
            initial_timestamp := 0,
            all_image_frame := [],
            tmp_pre_integration := none,
            last_marginalization_info := none,
            last_marginalization_parameter_blocks := [],
            f_manager := ext.fmClearState s2.f_manager,
            failure_occur := 0 }

/-- One `inputIMU` call per element `(t, acc, gyr)` of the list, in order. -/
def inputIMUs (ext : Externals) (s : Estimator) (samples : List (ℚ × Vector3d × Vector3d)) :
    Estimator :=
  samples.foldl (fun st x => inputIMU ext st x.1 x.2.1 x.2.2) s

/-! ## Image input -/

/-- Increment of an `int`: two's-complement wrap-around into `[-2^31, 2^31)`. -/
def wrapInt32 (n : Int) : Int := (n + 2147483648) % 4294967296 - 2147483648

/-- Function `Estimator::inputImage(t, _img, _img1)`; `featureFrame` is the frame the
external tracker returns for this call (`featureTracker->trackImage(t, _img, _img1)`). -/
def inputImage (s : Estimator) (t : ℚ) (_img _img1 : CvMat) (featureFrame : FeatureFrame) :
    Estimator :=
  let s1 : Estimator := { s with inputImageCnt := wrapInt32 (s.inputImageCnt + 1) }
  if s1.inputImageCnt.tmod 2 = 0 then
    { s1 with featureBuf := s1.featureBuf ++ [(t, featureFrame)] }
  else s1

/-- Function `Estimator::is_next_odometry_frame`. -/
def is_next_odometry_frame (s : Estimator) : Bool := decide (s.inputImageCnt.tmod 2 = 1)

/-- Function `Estimator::inputFisheyeImage(t, fisheye_imgs_up, fisheye_imgs_down)` (the
`CvImages` overload); `featureFrame` is the frame the external tracker returns. -/
def inputFisheyeImage (cfg : Config) (s : Estimator) (t : ℚ)
    (fisheye_imgs_up fisheye_imgs_down : CvImages) (featureFrame : FeatureFrame) :
    Estimator :=
  let s1 : Estimator := { s with inputImageCnt := wrapInt32 (s.inputImageCnt + 1) }
  if s1.inputImageCnt.tmod 2 = 0 then
    let s2 : Estimator := { s1 with featureBuf := s1.featureBuf ++ [(t, featureFrame)] }
    if cfg.FISHEYE && cfg.ENABLE_DEPTH then
      { s2 with fisheye_imgs_upBuf := s2.fisheye_imgs_upBuf ++ [fisheye_imgs_up],
                fisheye_imgs_downBuf := s2.fisheye_imgs_downBuf ++ [fisheye_imgs_down],
                fisheye_imgs_stampBuf := s2.fisheye_imgs_stampBuf ++ [t] }
    else s2
  else s1

/-- One image-input call together with the feature frame the tracker returned for it. -/
inductive ImageCall where
  | image (t : ℚ) (img img1 : CvMat) (featureFrame : FeatureFrame)
  | fisheye (t : ℚ) (up down : CvImages) (featureFrame : FeatureFrame)

/-- Perform one image-input call. -/
def ImageCall.run (cfg : Config) (s : Estimator) : ImageCall → Estimator
  | ImageCall.image t img img1 ff => inputImage s t img img1 ff
  | ImageCall.fisheye t up down ff => inputFisheyeImage cfg s t up down ff

/-- The `(timestamp, feature frame)` pair of a call. -/
def ImageCall.entry : ImageCall → ℚ × FeatureFrame
  | ImageCall.image t _ _ ff => (t, ff)
  | ImageCall.fisheye t _ _ ff => (t, ff)

/-- The 2nd, 4th, 6th, ... elements of a list, in order. -/
def everySecond {α : Type} : List α → List α
  | _ :: b :: rest => b :: everySecond rest
  | _ => []

/-- The elements of a list that are enqueued when the call counter is currently odd
(`true`) or even (`false`): every call flips the parity, a call that makes it even is
enqueued. -/
def enqueuedFrom {α : Type} : Bool → List α → List α
  | _, [] => []
  | true, a :: rest => a :: enqueuedFrom false rest
  | false, _ :: rest => enqueuedFrom true rest

/-! ## The time-alignment scenario -/

/-- The stamps 0.000, 0.005, ..., 1.000. -/
def scenarioStamps : List ℚ := (List.range 201).map (fun k => (5 * (k : ℚ)) / 1000)

/-- An estimator whose IMU queues hold one sample per scenario stamp, acceleration
`(0, 0, 9.81)` and zero angular velocity. -/
def scenarioIMU : Estimator :=
  { blankEstimator with
    accBuf := scenarioStamps.map (fun t => (t, (⟨0, 0, 9.81⟩ : Vector3d))),
    gyrBuf := scenarioStamps.map (fun t => (t, (0 : Vector3d))) }

/-- The outcome of slicing the scenario queues up to `0.503 + 0.002`: the 102 samples
stamped `0.000 .. 0.505` are returned, the one stamped `0.505` stays at the front. -/
def scenarioOutcome : IMUIntervalOutcome :=
  { ret := true,
    est := { scenarioIMU with accBuf := scenarioIMU.accBuf.drop 101,
                              gyrBuf := scenarioIMU.gyrBuf.drop 101 },
    accVector := scenarioIMU.accBuf.take 102,
    gyrVector := scenarioIMU.gyrBuf.take 102 }

/-- Two queued samples stamped `0` and `0.01`; an image time `0.005` falls between them. -/
def sparseIMU : Estimator :=
  { blankEstimator with
    accBuf := [(0, ⟨0, 0, 9.81⟩), (1 / 100, ⟨0, 0, 9.81⟩)],
    gyrBuf := [(0, 0), (1 / 100, 0)] }

/-- A fast-forward state initialised at time `20` with velocity `(1, 0, 0)`. -/
def demoFastForward : Estimator :=
  { blankEstimator with
    fast_prop_inited := true, latest_time := 20,
    latest_V := ⟨1, 0, 0⟩, latest_acc_0 := ⟨0, 0, 9.81⟩, g := ⟨0, 0, 9.81⟩ }

/-- A fast-forward state initialised at time `0.5`, as when the first image stamps are
small (the time-alignment scenario uses stamps in `[0, 1]`). -/
def earlyFastForward : Estimator :=
  { blankEstimator with
    fast_prop_inited := true, latest_time := 1 / 2,
    latest_V := ⟨1, 0, 0⟩, latest_acc_0 := ⟨0, 0, 9.81⟩, g := ⟨0, 0, 9.81⟩ }

/-- Four image-input calls, alternating the pinhole and the fisheye entry point. -/
def demoCalls : List ImageCall :=
  [ImageCall.image 1 ⟨[1]⟩ ⟨[2]⟩ [(7, [])],
   ImageCall.fisheye 2 [⟨[3]⟩] [⟨[4]⟩] [(8, [])],
   ImageCall.image 3 ⟨[5]⟩ ⟨[6]⟩ [(9, [])],
   ImageCall.fisheye 4 [⟨[7]⟩] [⟨[8]⟩] [(10, [])]]

/-! ## Optimizer parameter arrays: `vector2double`, `double2vector` -/

/-- The quaternion `Quaterniond(p[6], p[3], p[4], p[5])` read from a 7-entry pose block. -/
def quatOfPara (p : Nat → ℚ) : Quaterniond := ⟨p 6, p 3, p 4, p 5⟩

/-- The vector `Vector3d(p[k], p[k + 1], p[k + 2])` read from a parameter block. -/
def vecOfPara (p : Nat → ℚ) (k : Nat) : Vector3d := ⟨p k, p (k + 1), p (k + 2)⟩

/-- A pose block after the seven assignments
`p[0..2] = t.x, t.y, t.z; Quaterniond q{R}; p[3..6] = q.x, q.y, q.z, q.w`. -/
def writePose (ext : Externals) (p : Nat → ℚ) (t : Vector3d) (R : Matrix3d) : Nat → ℚ :=
  let q := ext.quatOfMatrix R
  setAt (setAt (setAt (setAt (setAt (setAt (setAt p 0 t.x) 1 t.y) 2 t.z) 3 q.x) 4 q.y)
    5 q.z) 6 q.w

/-- A speed-bias block after the nine assignments from `Vs[i]`, `Bas[i]`, `Bgs[i]`. -/
def writeSpeedBias (p : Nat → ℚ) (v ba bg : Vector3d) : Nat → ℚ :=
  setAt (setAt (setAt (setAt (setAt (setAt (setAt (setAt (setAt p 0 v.x) 1 v.y) 2 v.z)
    3 ba.x) 4 ba.y) 5 ba.z) 6 bg.x) 7 bg.y) 8 bg.z

/-- Body of the first loop of `vector2double`, slot `i`. -/
def vector2doubleSlot (ext : Externals) (cfg : Config) (s : Estimator) (i : Nat) :
    Estimator :=
  let s1 : Estimator :=
    { s with para_Pose := setAt s.para_Pose i (writePose ext (s.para_Pose i) (s.Ps i) (s.Rs i)) }
  if cfg.USE_IMU then
    { s1 with
      para_SpeedBias := setAt s1.para_SpeedBias i
        (writeSpeedBias (s1.para_SpeedBias i) (s1.Vs i) (s1.Bas i) (s1.Bgs i)) }
  else s1

/-- Body of the second loop of `vector2double`, camera `i`. -/
def vector2doubleCam (ext : Externals) (s : Estimator) (i : Nat) : Estimator :=
  { s with
    para_Ex_Pose := setAt s.para_Ex_Pose i
      (writePose ext (s.para_Ex_Pose i) (s.tic i) (s.ric i)) }

/-- Assignment `m[k] = v` on a `std::map` with integer keys, kept sorted by key. -/
def mapSet {β : Type} : List (Int × β) → Int → β → List (Int × β)
  | [], k, v => [(k, v)]
  | (k1, v1) :: rest, k, v =>
    if k = k1 then (k, v) :: rest
    else if k < k1 then (k, v) :: (k1, v1) :: rest
    else (k1, v1) :: mapSet rest k v

/-- Body of the feature loop of `vector2double` for one entry `it` of the depth vector. -/
def vector2doubleFeature (s : Estimator) (it : Int × ℚ) : Estimator :=
  { s with
    para_Feature := setAt s.para_Feature s.param_feature_id.length
      (setAt (s.para_Feature s.param_feature_id.length) 0 it.2),
    param_feature_id_to_index :=
      mapSet s.param_feature_id_to_index it.1 s.param_feature_id.length,
    param_feature_id := s.param_feature_id ++ [it.1] }

/-- Function `Estimator::vector2double`. -/
def vector2double (ext : Externals) (cfg : Config) (s : Estimator) : Estimator :=
  let s1 := (List.range (cfg.WINDOW_SIZE + 1)).foldl (vector2doubleSlot ext cfg) s
  let s2 := (List.range cfg.NUM_OF_CAM).foldl (vector2doubleCam ext) s1
  let deps := ext.fmGetDepthVector s2.f_manager
  let s3 : Estimator := { s2 with param_feature_id := [] }
  let s4 := deps.foldl vector2doubleFeature s3
  { s4 with para_Td := setAt s4.para_Td 0 (setAt (s4.para_Td 0) 0 s4.td) }

/-- The yaw-gauge rotation `rot_diff` of `double2vector` (`USE_IMU` branch), from the
Euler angles `origin_R0` of the reference rotation: the yaw difference to the optimised
slot 0, or, within one degree of the Euler singularity, `Rs[0] * R(para_Pose[0])^T`. -/
def double2vectorRotDiff (ext : Externals) (s : Estimator) (origin_R0 : Vector3d) :
    Matrix3d :=
  let origin_R00 := ext.R2ypr (ext.toRotationMatrix (quatOfPara (s.para_Pose 0)))
  let y_diff := origin_R0.x - origin_R00.x
  let rot_diff := ext.ypr2R ⟨y_diff, 0, 0⟩
  if fabs (fabs origin_R0.y - 90) < 1.0 ∨ fabs (fabs origin_R00.y - 90) < 1.0 then
    s.Rs 0 * (ext.toRotationMatrix (quatOfPara (s.para_Pose 0))).transpose
  else rot_diff

/-- Body of the slot loop of `double2vector` with `USE_IMU`, slot `i`, in exact
arithmetic (`double2vectorSlotWith` is the same body with every operation rounded). -/
def double2vectorSlot (ext : Externals) (rot_diff : Matrix3d) (origin_P0 : Vector3d)
    (s : Estimator) (i : Nat) : Estimator :=
  { s with
    Rs := setAt s.Rs i
      (rot_diff * ext.toRotationMatrix (ext.normalized (quatOfPara (s.para_Pose i)))),
    Ps := setAt s.Ps i
      (rot_diff * (⟨s.para_Pose i 0 - s.para_Pose 0 0,
                    s.para_Pose i 1 - s.para_Pose 0 1,
                    s.para_Pose i 2 - s.para_Pose 0 2⟩ : Vector3d) + origin_P0),
    Vs := setAt s.Vs i (rot_diff * vecOfPara (s.para_SpeedBias i) 0),
    Bas := setAt s.Bas i (vecOfPara (s.para_SpeedBias i) 3),
    Bgs := setAt s.Bgs i (vecOfPara (s.para_SpeedBias i) 6) }

/-- Body of the slot loop of `double2vector` without `USE_IMU`, slot `i`. -/
def double2vectorSlotVisual (ext : Externals) (s : Estimator) (i : Nat) : Estimator :=
  { s with
    Rs := setAt s.Rs i (ext.toRotationMatrix (ext.normalized (quatOfPara (s.para_Pose i)))),
    Ps := setAt s.Ps i (vecOfPara (s.para_Pose i) 0) }

/-- Body of the extrinsic loop of `double2vector`, camera `i`. -/
def double2vectorCam (ext : Externals) (s : Estimator) (i : Nat) : Estimator :=
  { s with
    tic := setAt s.tic i (vecOfPara (s.para_Ex_Pose i) 0),
    ric := setAt s.ric i
      (ext.toRotationMatrix (ext.normalized (quatOfPara (s.para_Ex_Pose i)))) }

/-- Function `Estimator::double2vector`, in exact arithmetic (`double2vectorWith` is the
same function with every operation rounded). -/
def double2vector (ext : Externals) (cfg : Config) (s : Estimator) : Estimator :=
  let origin_R0 : Vector3d :=
    if s.failure_occur ≠ 0 then ext.R2ypr s.last_R0 else ext.R2ypr (s.Rs 0)
  let origin_P0 : Vector3d := if s.failure_occur ≠ 0 then s.last_P0 else s.Ps 0
  let s0 : Estimator := if s.failure_occur ≠ 0 then { s with failure_occur := 0 } else s
  let s1 : Estimator :=
    if cfg.USE_IMU then
      let rot_diff := double2vectorRotDiff ext s0 origin_R0
      (List.range (cfg.WINDOW_SIZE + 1)).foldl (double2vectorSlot ext rot_diff origin_P0) s0
    else
      (List.range (cfg.WINDOW_SIZE + 1)).foldl (double2vectorSlotVisual ext) s0
  let s2 : Estimator :=
    if cfg.USE_IMU then (List.range cfg.NUM_OF_CAM).foldl (double2vectorCam ext) s1 else s1
  let deps : List (Int × ℚ) :=
    (List.range s2.param_feature_id.length).foldl
      (fun d i => mapSet d (s2.param_feature_id.getD i 0) (s2.para_Feature i 0)) []
  let s3 : Estimator := { s2 with f_manager := ext.fmSetDepth s2.f_manager deps }
  if cfg.USE_IMU then { s3 with td := s3.para_Td 0 0 } else s3

/-! ### `double2vector` in `double` arithmetic

The same function with the result of every arithmetic operation passed through a
rounding `fl`: `fl = roundDouble` is the computation in `double`, `fl = id` is
`double2vector` itself. -/

/-- The difference `a - b` of two `Vector3d`, each component rounded by `fl`. -/
def Vector3d.subWith (fl : ℚ → ℚ) (a b : Vector3d) : Vector3d :=
  ⟨fl (a.x - b.x), fl (a.y - b.y), fl (a.z - b.z)⟩

/-- The sum `a + b` of two `Vector3d`, each component rounded by `fl`. -/
def Vector3d.addWith (fl : ℚ → ℚ) (a b : Vector3d) : Vector3d :=
  ⟨fl (a.x + b.x), fl (a.y + b.y), fl (a.z + b.z)⟩

/-- The inner product with every product and every sum rounded by `fl`, the terms added
from the left. -/
def Vector3d.dotWith (fl : ℚ → ℚ) (a b : Vector3d) : ℚ :=
  fl (fl (fl (a.x * b.x) + fl (a.y * b.y)) + fl (a.z * b.z))

/-- The matrix-vector product `M * v` with every operation rounded by `fl`. -/
def Matrix3d.mulVecWith (fl : ℚ → ℚ) (m : Matrix3d) (v : Vector3d) : Vector3d :=
  ⟨m.r0.dotWith fl v, m.r1.dotWith fl v, m.r2.dotWith fl v⟩

/-- The matrix product `A * B` with every operation rounded by `fl`. -/
def Matrix3d.mulWith (fl : ℚ → ℚ) (a b : Matrix3d) : Matrix3d :=
  let bt := b.transpose
  ⟨⟨a.r0.dotWith fl bt.r0, a.r0.dotWith fl bt.r1, a.r0.dotWith fl bt.r2⟩,
   ⟨a.r1.dotWith fl bt.r0, a.r1.dotWith fl bt.r1, a.r1.dotWith fl bt.r2⟩,
   ⟨a.r2.dotWith fl bt.r0, a.r2.dotWith fl bt.r1, a.r2.dotWith fl bt.r2⟩⟩

/-- The yaw-gauge rotation `rot_diff` of `double2vector` (`USE_IMU` branch) with every
arithmetic operation rounded by `fl`. -/
def double2vectorRotDiffWith (fl : ℚ → ℚ) (ext : Externals) (s : Estimator)
    (origin_R0 : Vector3d) : Matrix3d :=
  let origin_R00 := ext.R2ypr (ext.toRotationMatrix (quatOfPara (s.para_Pose 0)))
  let y_diff := fl (origin_R0.x - origin_R00.x)
  let rot_diff := ext.ypr2R ⟨y_diff, 0, 0⟩
  if fabs (fl (fabs origin_R0.y - 90)) < 1.0 ∨ fabs (fl (fabs origin_R00.y - 90)) < 1.0 then
    Matrix3d.mulWith fl (s.Rs 0)
      (ext.toRotationMatrix (quatOfPara (s.para_Pose 0))).transpose
  else rot_diff

/-- Body of the slot loop of `double2vector` with `USE_IMU`, slot `i`, with every
arithmetic operation rounded by `fl`:
`Rs[i] = rot_diff * R(para_Pose[i])`,
`Ps[i] = rot_diff * Vector3d(para_Pose[i][0] - para_Pose[0][0], ...) + origin_P0`,
`Vs[i] = rot_diff * Vector3d(para_SpeedBias[i][0], ...)`; the biases are copied. -/
def double2vectorSlotWith (fl : ℚ → ℚ) (ext : Externals) (rot_diff : Matrix3d)
    (origin_P0 : Vector3d) (s : Estimator) (i : Nat) : Estimator :=
  { s with
    Rs := setAt s.Rs i
      (Matrix3d.mulWith fl rot_diff
        (ext.toRotationMatrix (ext.normalized (quatOfPara (s.para_Pose i))))),
    Ps := setAt s.Ps i
      (Vector3d.addWith fl
        (Matrix3d.mulVecWith fl rot_diff
          (⟨fl (s.para_Pose i 0 - s.para_Pose 0 0),
            fl (s.para_Pose i 1 - s.para_Pose 0 1),
            fl (s.para_Pose i 2 - s.para_Pose 0 2)⟩ : Vector3d))
        origin_P0),
    Vs := setAt s.Vs i (Matrix3d.mulVecWith fl rot_diff (vecOfPara (s.para_SpeedBias i) 0)),
    Bas := setAt s.Bas i (vecOfPara (s.para_SpeedBias i) 3),
    Bgs := setAt s.Bgs i (vecOfPara (s.para_SpeedBias i) 6) }

/-- Function `Estimator::double2vector` with every arithmetic operation rounded by `fl`
(the arithmetic is in `rot_diff` and in the slot loop of the `USE_IMU` branch; the other
loops copy). -/
def double2vectorWith (fl : ℚ → ℚ) (ext : Externals) (cfg : Config) (s : Estimator) :
    Estimator :=
  let origin_R0 : Vector3d :=
    if s.failure_occur ≠ 0 then ext.R2ypr s.last_R0 else ext.R2ypr (s.Rs 0)
  let origin_P0 : Vector3d := if s.failure_occur ≠ 0 then s.last_P0 else s.Ps 0
  let s0 : Estimator := if s.failure_occur ≠ 0 then { s with failure_occur := 0 } else s
  let s1 : Estimator :=
    if cfg.USE_IMU then
      let rot_diff := double2vectorRotDiffWith fl ext s0 origin_R0
      (List.range (cfg.WINDOW_SIZE + 1)).foldl
        (double2vectorSlotWith fl ext rot_diff origin_P0) s0
    else
      (List.range (cfg.WINDOW_SIZE + 1)).foldl (double2vectorSlotVisual ext) s0
  let s2 : Estimator :=
    if cfg.USE_IMU then (List.range cfg.NUM_OF_CAM).foldl (double2vectorCam ext) s1 else s1
  let deps : List (Int × ℚ) :=
    (List.range s2.param_feature_id.length).foldl
      (fun d i => mapSet d (s2.param_feature_id.getD i 0) (s2.para_Feature i 0)) []
  let s3 : Estimator := { s2 with f_manager := ext.fmSetDepth s2.f_manager deps }
  if cfg.USE_IMU then { s3 with td := s3.para_Td 0 0 } else s3

/-- Every component of the vector is a value of type `double`. -/
def Vector3d.IsDouble (v : Vector3d) : Prop :=
  VinsFisheye.IsDouble v.x ∧ VinsFisheye.IsDouble v.y ∧ VinsFisheye.IsDouble v.z

instance (v : Vector3d) : Decidable v.IsDouble := by
  unfold Vector3d.IsDouble
  infer_instance

/-- Every entry of the matrix is a value of type `double`. -/
def Matrix3d.IsDouble (m : Matrix3d) : Prop := m.r0.IsDouble ∧ m.r1.IsDouble ∧ m.r2.IsDouble

instance (m : Matrix3d) : Decidable m.IsDouble := by
  unfold Matrix3d.IsDouble
  infer_instance

/-- The window `demoWindowOld` (identity rotations) with slot 0 at `(1, 0, 0)` and the
other slots at `(0.1, 0, 0)`, where `0.1` stands for the double nearest to it. -/
def demoOffsetWindow : Estimator :=
  { demoWindowOld with
    Ps := fun i => if i = 0 then ⟨1, 0, 0⟩ else ⟨roundDouble (1 / 10), 0, 0⟩ }

/-- A window whose parameter arrays were filled by a solver with arbitrary numbers:
`para_Pose[i][k] = 10 * i + k + 1`, `para_SpeedBias[i][k] = i + k`. -/
def demoSolved : Estimator :=
  { demoWindowOld with
    para_Pose := fun i k => 10 * (i : ℚ) + (k : ℚ) + 1,
    para_SpeedBias := fun i k => (i : ℚ) + (k : ℚ),
    para_Ex_Pose := fun i k => (i : ℚ) - (k : ℚ),
    para_Td := fun _ _ => 1 / 100 }

/-! ## Outlier rejection -/

/-- Eigen `v.norm()`, through the external square root. -/
def Vector3d.norm (ext : Externals) (v : Vector3d) : ℚ := ext.sqrt (v.dot v)

/-- Eigen `v.normalized()`. -/
def Vector3d.normalized (ext : Externals) (v : Vector3d) : Vector3d :=
  v.divScalar (v.norm ext)

/-- Function `Estimator::reprojectionError`. -/
def reprojectionError (ext : Externals) (cfg : Config)
    (Ri : Matrix3d) (Pi : Vector3d) (rici : Matrix3d) (tici : Vector3d)
    (Rj : Matrix3d) (Pj : Vector3d) (ricj : Matrix3d) (ticj : Vector3d)
    (depth : ℚ) (uvi uvj : Vector3d) : ℚ :=
  let pts_w := Ri * (rici * (depth * uvi) + tici) + Pi
  let pts_cj := ricj.transpose * (Rj.transpose * (pts_w - Pj) - ticj)
  if cfg.FISHEYE then
    (pts_cj.normalized ext - uvj).norm ext
  else
    let rx := (pts_cj.divScalar pts_cj.z).x - uvj.x
    let ry := (pts_cj.divScalar pts_cj.z).y - uvj.y
    ext.sqrt (rx * rx + ry * ry)

/-- The local variables `err`, `errCnt`, `imu_j` of the observation loop of
`outliersRejection`. -/
structure OutlierAcc where
  err : ℚ
  errCnt : Int
  imu_j : Int

/-- Body of the observation loop of `outliersRejection` for one `it_per_frame`, for a
feature anchored at `imu_i` with main camera `main_cam`, anchor bearing `pts_i` and
depth `depth`. -/
def outlierObservation (ext : Externals) (cfg : Config) (s : Estimator)
    (imu_i : Int) (main_cam : Nat) (pts_i : Vector3d) (depth : ℚ)
    (a : OutlierAcc) (it_per_frame : FeaturePerFrame) : OutlierAcc :=
  let imu_j := a.imu_j + 1
  let a1 : OutlierAcc :=
    if imu_i ≠ imu_j then
      let pts_j := it_per_frame.point
      let tmp_error := reprojectionError ext cfg
        (s.Rs imu_i.toNat) (s.Ps imu_i.toNat) (s.ric main_cam) (s.tic main_cam)
        (s.Rs imu_j.toNat) (s.Ps imu_j.toNat) (s.ric main_cam) (s.tic main_cam)
        depth pts_i pts_j
      ⟨a.err + tmp_error, a.errCnt + 1, imu_j⟩
    else ⟨a.err, a.errCnt, imu_j⟩
  if cfg.STEREO && it_per_frame.is_stereo then
    let pts_j_right := it_per_frame.pointRight
    if imu_i ≠ imu_j then
      let tmp_error := reprojectionError ext cfg
        (s.Rs imu_i.toNat) (s.Ps imu_i.toNat) (s.ric 0) (s.tic 0)
        (s.Rs imu_j.toNat) (s.Ps imu_j.toNat) (s.ric 1) (s.tic 1)
        depth pts_i pts_j_right
      ⟨a1.err + tmp_error, a1.errCnt + 1, imu_j⟩
    else
      let tmp_error := reprojectionError ext cfg
        (s.Rs imu_i.toNat) (s.Ps imu_i.toNat) (s.ric 0) (s.tic 0)
        (s.Rs imu_j.toNat) (s.Ps imu_j.toNat) (s.ric 1) (s.tic 1)
        depth pts_i pts_j_right
      ⟨a1.err + tmp_error, a1.errCnt + 1, imu_j⟩
  else a1

/-- The accumulators after the observation loop of `outliersRejection` for a feature with
first observation `first` (`feature_per_frame[0]`). -/
def outlierAccumulate (ext : Externals) (cfg : Config) (s : Estimator)
    (imu_i : Int) (main_cam : Nat) (depth : ℚ) (first : FeaturePerFrame)
    (feature_per_frame : List FeaturePerFrame) : OutlierAcc :=
  feature_per_frame.foldl
    (outlierObservation ext cfg s imu_i main_cam first.point depth) ⟨0, 0, imu_i - 1⟩

/-- The test `ave_err * FOCAL_LENGTH > THRES_OUTLIER` with `ave_err = err / errCnt`.  With
`errCnt = 0` the quotient is `0.0 / 0`, a NaN, and the comparison is false. -/
def outlierExceeds (cfg : Config) (a : OutlierAcc) : Bool :=
  if a.errCnt = 0 then false
  else decide ((a.err / (a.errCnt : ℚ)) * cfg.FOCAL_LENGTH > cfg.THRES_OUTLIER)

/-- Body of the feature loop of `outliersRejection` for one `_id`.  The result is `none`
when `feature_per_frame[0]` does not exist (also for an id missing from the map, for
which `operator[]` creates a feature without observations). -/
def outliersRejectionFeature (ext : Externals) (cfg : Config)
    (st : Estimator × Finset Int) (_id : Int) : Option (Estimator × Finset Int) :=
  let s := st.1
  match s.f_manager.feature.lookup _id with
  | none => none
  | some it_per_id =>
    match it_per_id.feature_per_frame with
    | [] => none
    | first :: _ =>
      let updated : FeaturePerId :=
        { it_per_id with used_num := it_per_id.feature_per_frame.length }
      let s1 : Estimator :=
        { s with f_manager :=
            { s.f_manager with feature := mapSet s.f_manager.feature _id updated } }
      let a := outlierAccumulate ext cfg s it_per_id.start_frame it_per_id.main_cam
        it_per_id.estimated_depth first it_per_id.feature_per_frame
      if outlierExceeds cfg a then some (s1, insert it_per_id.feature_id st.2)
      else some (s1, st.2)

/-- Function `Estimator::outliersRejection(removeIndex)`: the estimator (whose features get
`used_num` refreshed) and the set `removeIndex` after the call. -/
def outliersRejection (ext : Externals) (cfg : Config) (s : Estimator)
    (removeIndex : Finset Int) : Option (Estimator × Finset Int) :=
  s.param_feature_id.foldlM (outliersRejectionFeature ext cfg) (s, removeIndex)

/-! ### The criterion in the words of the specification -/

/-- Reprojection error on the main camera of the observation at window slot `imu_j`. -/
def mainCamError (ext : Externals) (cfg : Config) (s : Estimator) (f : FeaturePerId)
    (first : FeaturePerFrame) (imu_j : Int) (obs : FeaturePerFrame) : ℚ :=
  reprojectionError ext cfg
    (s.Rs f.start_frame.toNat) (s.Ps f.start_frame.toNat) (s.ric f.main_cam) (s.tic f.main_cam)
    (s.Rs imu_j.toNat) (s.Ps imu_j.toNat) (s.ric f.main_cam) (s.tic f.main_cam)
    f.estimated_depth first.point obs.point

/-- Reprojection error of the right-camera observation at window slot `imu_j`, lifted
through camera 0 and projected through camera 1. -/
def stereoError (ext : Externals) (cfg : Config) (s : Estimator) (f : FeaturePerId)
    (first : FeaturePerFrame) (imu_j : Int) (obs : FeaturePerFrame) : ℚ :=
  reprojectionError ext cfg
    (s.Rs f.start_frame.toNat) (s.Ps f.start_frame.toNat) (s.ric 0) (s.tic 0)
    (s.Rs imu_j.toNat) (s.Ps imu_j.toNat) (s.ric 1) (s.tic 1)
    f.estimated_depth first.point obs.pointRight

/-- The error terms of the observations numbered from `k` on: one main-camera term for
every non-anchor observation (`k ≠ 0`), and with `STEREO` one term for every stereo
observation. -/
def errorTermsFrom (ext : Externals) (cfg : Config) (s : Estimator) (f : FeaturePerId)
    (first : FeaturePerFrame) : Nat → List FeaturePerFrame → List ℚ
  | _, [] => []
  | k, obs :: rest =>
    (if k ≠ 0 then [mainCamError ext cfg s f first (f.start_frame + k) obs] else []) ++
    (if cfg.STEREO = true ∧ obs.is_stereo = true then
      [stereoError ext cfg s f first (f.start_frame + k) obs] else []) ++
    errorTermsFrom ext cfg s f first (k + 1) rest

/-- All error terms of a feature. -/
def errorTerms (ext : Externals) (cfg : Config) (s : Estimator) (f : FeaturePerId) : List ℚ :=
  match f.feature_per_frame with
  | [] => []
  | first :: rest => errorTermsFrom ext cfg s f first 0 (first :: rest)

/-- The mean reprojection error of a feature: sum of its error terms over their number. -/
def meanError (ext : Externals) (cfg : Config) (s : Estimator) (f : FeaturePerId) : ℚ :=
  (errorTerms ext cfg s f).sum / ((errorTerms ext cfg s f).length : ℚ)

/-- Every id of `param_feature_id` names a feature of the manager that is stored under
its own id and has at least one observation (as `getDepthVector` delivers them). -/
def FeatureIdsValid (s : Estimator) : Prop :=
  ∀ id ∈ s.param_feature_id, ∃ f, s.f_manager.feature.lookup id = some f ∧
    f.feature_id = id ∧ f.feature_per_frame ≠ []

/-- The verdict of the feature loop of `outliersRejection` on a feature: whether its
id gets inserted. -/
def outlierVerdict (ext : Externals) (cfg : Config) (s : Estimator) (f : FeaturePerId) :
    Bool :=
  match f.feature_per_frame with
  | [] => false
  | first :: _ =>
    outlierExceeds cfg (outlierAccumulate ext cfg s f.start_frame f.main_cam
      f.estimated_depth first f.feature_per_frame)

/-- A feature with its `used_num` counter blanked. -/
def eraseUsedNum (f : FeaturePerId) : FeaturePerId := { f with used_num := 0 }

/-- The estimator `st` differs from `s` at most in the `used_num` counters of features. -/
def SameUpToUsedNum (s st : Estimator) : Prop :=
  ∃ m, st = { s with f_manager := { s.f_manager with feature := m } } ∧
    ∀ id, (m.lookup id).map eraseUsedNum =
      (s.f_manager.feature.lookup id).map eraseUsedNum

/-- The window `demoWindowOld` with two features handed to the optimiser: feature 5,
anchored at slot 0 and seen at slot 1 two units off its predicted place, and feature 6,
seen at slot 1 exactly where predicted. -/
def demoFeatures : Estimator :=
  { demoWindowOld with
    param_feature_id := [5, 6],
    f_manager :=
      { feature :=
          [(5, { feature_id := 5, start_frame := 0,
                 feature_per_frame := [⟨⟨0, 0, 1⟩, ⟨0, 0, 1⟩, false, 0, 0, 0⟩,
                                       ⟨⟨1, 0, 1⟩, ⟨0, 0, 1⟩, false, 0, 0, 0⟩],
                 used_num := 0, estimated_depth := 1, main_cam := 0 }),
           (6, { feature_id := 6, start_frame := 0,
                 feature_per_frame := [⟨⟨0, 0, 1⟩, ⟨0, 0, 1⟩, false, 0, 0, 0⟩,
                                       ⟨⟨-1, 0, 1⟩, ⟨0, 0, 1⟩, false, 0, 0, 0⟩],
                 used_num := 0, estimated_depth := 1, main_cam := 0 })],
        last_track_num := 2 } }

/-! ## Depth thread: pairing a depth frame with an odometry -/

/-- An entry of `odometry_buf`: `(header, (R, P))`. -/
abbrev OdometryEntry := ℚ × Matrix3d × Vector3d

/-- The loop `while (odometry_buf.size() > 0 && odometry_buf.front().first < t - 1e-3)
odometry_buf.pop();` of `processDepthGeneration`: the popped entries and the queue left. -/
def dropOldOdometry (t : ℚ) : List OdometryEntry → List OdometryEntry × List OdometryEntry
  | [] => ([], [])
  | e :: rest =>
    if e.1 < t - 1e-3 then ((e :: (dropOldOdometry t rest).1), (dropOldOdometry t rest).2)
    else ([], e :: rest)

/-- What `processDepthGeneration` does with the odometry queue for one depth frame: the
estimator afterwards, the entries discarded as stale, and the entry the depth is
published with (`none` when the frame is skipped). -/
structure DepthOdometrySync where
  est : Estimator
  discarded : List OdometryEntry
  selected : Option OdometryEntry

/-- The odometry part of one pass of `processDepthGeneration` for a depth frame stamped
`t`.  The result is `none` while the queue is empty (the thread sleeps in
`while (odometry_buf.size() == 0)` and probes again). -/
def syncDepthOdometry (s : Estimator) (t : ℚ) : Option DepthOdometrySync :=
  match s.odometry_buf with
  | [] => none
  | first :: others =>
    match (dropOldOdometry t (first :: others)).2 with
    | [] =>
      some ⟨{ s with odometry_buf := [] }, (dropOldOdometry t (first :: others)).1, none⟩
    | e :: rest =>
      if fabs (e.1 - t) > 1e-3 then
        some ⟨{ s with odometry_buf := e :: rest },
          (dropOldOdometry t (first :: others)).1, none⟩
      else
        some ⟨{ s with odometry_buf := rest },
          (dropOldOdometry t (first :: others)).1, some e⟩

/-- A depth-thread state with three queued odometries stamped `0.9`, `1.0004`, `1.05`. -/
def demoOdometry : Estimator :=
  { blankEstimator with
    odometry_buf := [(9 / 10, Matrix3d.identity, 0), (10004 / 10000, Matrix3d.identity, 0),
                     (105 / 100, Matrix3d.identity, 0)] }

/-! ## Initialisation: `relativePose` -/

/-- The loop of `relativePose` that sums `(pts_0 - pts_1).norm()` over the
correspondences, `pts_0`, `pts_1` being the first two coordinates of each pair. -/
def sumParallax (ext : Externals) (corres : List (Vector3d × Vector3d)) : ℚ :=
  corres.foldl
    (fun sum_parallax c =>
      sum_parallax +
        ext.sqrt ((c.1.x - c.2.x) * (c.1.x - c.2.x) + (c.1.y - c.2.y) * (c.1.y - c.2.y)))
    0

/-- The value `average_parallax = 1.0 * sum_parallax / int(corres.size())`. -/
def averageParallax (ext : Externals) (corres : List (Vector3d × Vector3d)) : ℚ :=
  1.0 * sumParallax ext corres / (corres.length : ℚ)

/-- The values `relativePose` leaves in its return value and its three reference
arguments. -/
structure RelativePoseResult where
  ret : Bool
  relative_R : Matrix3d
  relative_T : Vector3d
  l : Int
  deriving DecidableEq

/-- The loop of `relativePose` over the slots listed, with the current contents of
the reference arguments.  `solveRelativeRT` (external) either fails, leaving
`relative_R`, `relative_T` as they are, or succeeds with a rotation and a translation. -/
def relativePoseFrom (ext : Externals) (cfg : Config) (s : Estimator) :
    List Nat → Matrix3d → Vector3d → Int → RelativePoseResult
  | [], relative_R, relative_T, l => ⟨false, relative_R, relative_T, l⟩
  | i :: rest, relative_R, relative_T, l =>
    let corres := ext.fmGetCorresponding s.f_manager i cfg.WINDOW_SIZE
    if corres.length > 20 then
      if averageParallax ext corres * 460 > 30 then
        match ext.solveRelativeRT corres with
        | some (R, T) => ⟨true, R, T, (i : Int)⟩
        | none => relativePoseFrom ext cfg s rest relative_R relative_T l
      else relativePoseFrom ext cfg s rest relative_R relative_T l
    else relativePoseFrom ext cfg s rest relative_R relative_T l

/-- Function `Estimator::relativePose(relative_R, relative_T, l)`. -/
def relativePose (ext : Externals) (cfg : Config) (s : Estimator)
    (relative_R : Matrix3d) (relative_T : Vector3d) (l : Int) : RelativePoseResult :=
  relativePoseFrom ext cfg s (List.range cfg.WINDOW_SIZE) relative_R relative_T l

/-- Slot `i` passes the three tests of `relativePose`: more than 20 correspondences with
slot `WINDOW_SIZE`, mean displacement times 460 above 30, and `solveRelativeRT`
succeeds. -/
def SlotAccepted (ext : Externals) (cfg : Config) (s : Estimator) (i : Nat) : Prop :=
  (ext.fmGetCorresponding s.f_manager i cfg.WINDOW_SIZE).length > 20 ∧
  averageParallax ext (ext.fmGetCorresponding s.f_manager i cfg.WINDOW_SIZE) * 460 > 30 ∧
  (ext.solveRelativeRT (ext.fmGetCorresponding s.f_manager i cfg.WINDOW_SIZE)).isSome = true

/-- The thresholds as the specification words them: at least 20 correspondences, mean
pixel displacement above 30, `solveRelativeRT` succeeds. -/
def SlotAcceptedAtLeast20 (ext : Externals) (cfg : Config) (s : Estimator) (i : Nat) : Prop :=
  (ext.fmGetCorresponding s.f_manager i cfg.WINDOW_SIZE).length ≥ 20 ∧
  averageParallax ext (ext.fmGetCorresponding s.f_manager i cfg.WINDOW_SIZE) * 460 > 30 ∧
  (ext.solveRelativeRT (ext.fmGetCorresponding s.f_manager i cfg.WINDOW_SIZE)).isSome = true

instance (ext : Externals) (cfg : Config) (s : Estimator) (i : Nat) :
    Decidable (SlotAccepted ext cfg s i) := by
  unfold SlotAccepted
  infer_instance

instance (ext : Externals) (cfg : Config) (s : Estimator) (i : Nat) :
    Decidable (SlotAcceptedAtLeast20 ext cfg s i) := by
  unfold SlotAcceptedAtLeast20
  infer_instance

/-- External routines under which slot 0 has `n` correspondences with the newest slot,
each displaced by one unit, no other slot has any, and the five-point solver succeeds
on every non-empty set (the square root is exact on 1). -/
def correspondingExternals (n : Nat) : Externals :=
  { demoExternals with
    fmGetCorresponding := fun _ i _ =>
      if i = 0 then List.replicate n ((⟨1, 0, 1⟩ : Vector3d), (⟨0, 0, 1⟩ : Vector3d)) else [],
    solveRelativeRT := fun c => if c = [] then none else some (Matrix3d.identity, ⟨1, 0, 0⟩) }

/-! ## `optimization`: the problem handed to the solver -/

/-- Modelled from the spec: member `sum_dt` of `IntegrationBase` (`integration_base.h` is
not among the sources), the time the delta covers: the sum of the buffered sample
intervals. -/
def IntegrationBase.sum_dt (p : IntegrationBase) : ℚ := p.dt_buf.sum

/-- A freshly constructed `ceres::Problem`. -/
def Problem.empty : Problem := ⟨[], [], []⟩

/-- Call `problem.AddParameterBlock(block, size[, parameterization])`. -/
def Problem.AddParameterBlock (problem : Problem) (block : BlockId) : Problem :=
  { problem with parameter_blocks := problem.parameter_blocks ++ [block] }

/-- Call `problem.SetParameterBlockConstant(block)`. -/
def Problem.SetParameterBlockConstant (problem : Problem) (block : BlockId) : Problem :=
  { problem with constant_blocks := problem.constant_blocks ++ [block] }

/-- Call `problem.AddResidualBlock(cost_function, loss_function, blocks...)`. -/
def Problem.AddResidualBlock (problem : Problem) (cost_function : Factor)
    (loss_function : LossFunction) (blocks : List BlockId) : Problem :=
  { problem with
    residual_blocks := problem.residual_blocks ++ [⟨cost_function, loss_function, blocks⟩] }

/-- A parameter block is a free variable of the problem when it was added and never set
constant. -/
def Problem.IsFree (problem : Problem) (block : BlockId) : Prop :=
  block ∈ problem.parameter_blocks ∧ block ∉ problem.constant_blocks

instance (problem : Problem) (block : BlockId) : Decidable (problem.IsFree block) := by
  unfold Problem.IsFree; infer_instance

/-- Body of the first loop of `optimization`: the pose and speed-bias blocks of slot `i`. -/
def addWindowBlock (cfg : Config) (problem : Problem) (i : Nat) : Problem :=
  let problem1 := problem.AddParameterBlock (BlockId.para_Pose i)
  if cfg.USE_IMU then problem1.AddParameterBlock (BlockId.para_SpeedBias i) else problem1

/-- Body of the camera loop of `optimization`, iteration `i`, on the pair of the member
`openExEstimation` and the problem. -/
def addExtrinsicBlock (ext : Externals) (cfg : Config) (s : Estimator)
    (st : Bool × Problem) (i : Nat) : Bool × Problem :=
  let problem := st.2.AddParameterBlock (BlockId.para_Ex_Pose i)
  if (s.ESTIMATE_EXTRINSIC ≠ 0 ∧ s.frame_count = cfg.WINDOW_SIZE ∧ (s.Vs 0).norm ext > 1 / 5)
      ∨ st.1 = true then
    (true, problem)
  else
    (st.1, problem.SetParameterBlockConstant (BlockId.para_Ex_Pose i))

/-- The time-offset block of `optimization`. -/
def addTdBlock (ext : Externals) (cfg : Config) (s : Estimator) (problem : Problem) :
    Problem :=
  let problem1 := problem.AddParameterBlock (BlockId.para_Td 0)
  if cfg.ESTIMATE_TD = false ∨ (s.Vs 0).norm ext < 1 / 5 then
    problem1.SetParameterBlockConstant (BlockId.para_Td 0)
  else problem1

/-- The prior residual of `optimization`. -/
def addPriorResidual (s : Estimator) (problem : Problem) : Problem :=
  match s.last_marginalization_info with
  | some info =>
    if info.valid then
      problem.AddResidualBlock (Factor.MarginalizationFactor info) LossFunction.NULL
        s.last_marginalization_parameter_blocks
    else problem
  | none => problem

/-- Body of the IMU loop of `optimization`, iteration `i`; `none` when
`pre_integrations[j]` is a null pointer. -/
def addIMUResidual (s : Estimator) (problem : Option Problem) (i : Nat) : Option Problem :=
  let j := i + 1
  match problem, s.pre_integrations j with
  | some problem, some pre =>
    if pre.sum_dt > 10 then some problem
    else
      some (problem.AddResidualBlock (Factor.IMUFactor pre) LossFunction.NULL
        [BlockId.para_Pose i, BlockId.para_SpeedBias i,
         BlockId.para_Pose j, BlockId.para_SpeedBias j])
  | _, _ => none

/-- The IMU residuals of `optimization`. -/
def addIMUResiduals (cfg : Config) (s : Estimator) (problem : Problem) : Option Problem :=
  if cfg.USE_IMU then (List.range s.frame_count).foldl (addIMUResidual s) (some problem)
  else some problem

/-- Body of the observation loop of `optimization` for one `it_per_frame` of the feature
`it_per_id` with first observation `first` (`feature_per_frame[0]`), on the pair of the
local `imu_j` and the problem. -/
def problemObservation (cfg : Config) (it_per_id : FeaturePerId) (first : FeaturePerFrame)
    (feature_index : Nat) (st : Int × Problem) (it_per_frame : FeaturePerFrame) :
    Int × Problem :=
  let imu_i := it_per_id.start_frame
  let imu_j := st.1 + 1
  let pts_i := first.point
  let problem1 : Problem :=
    if imu_i ≠ imu_j then
      let pts_j := it_per_frame.point
      st.2.AddResidualBlock
        (Factor.ProjectionTwoFrameOneCamFactor pts_i pts_j first.velocity
          it_per_frame.velocity first.cur_td it_per_frame.cur_td)
        LossFunction.HuberLoss
        [BlockId.para_Pose imu_i.toNat, BlockId.para_Pose imu_j.toNat,
         BlockId.para_Ex_Pose it_per_id.main_cam, BlockId.para_Feature feature_index,
         BlockId.para_Td 0]
    else st.2
  if cfg.STEREO && it_per_frame.is_stereo then
    let pts_j_right := it_per_frame.pointRight
    if imu_i ≠ imu_j then
      (imu_j, problem1.AddResidualBlock
        (Factor.ProjectionTwoFrameTwoCamFactor pts_i pts_j_right first.velocity
          it_per_frame.velocityRight first.cur_td it_per_frame.cur_td)
        LossFunction.HuberLoss
        [BlockId.para_Pose imu_i.toNat, BlockId.para_Pose imu_j.toNat,
         BlockId.para_Ex_Pose 0, BlockId.para_Ex_Pose 1,
         BlockId.para_Feature feature_index, BlockId.para_Td 0])
    else
      (imu_j, problem1.AddResidualBlock
        (Factor.ProjectionOneFrameTwoCamFactor pts_i pts_j_right first.velocity
          it_per_frame.velocityRight first.cur_td it_per_frame.cur_td)
        LossFunction.HuberLoss
        [BlockId.para_Ex_Pose 0, BlockId.para_Ex_Pose 1,
         BlockId.para_Feature feature_index, BlockId.para_Td 0])
  else (imu_j, problem1)

/-- The read `param_feature_id_to_index[feature_id]` of a `std::map<int, int>`: the
stored index, or 0 for a key that is missing. -/
def featureIndex (s : Estimator) (feature_id : Int) : Nat :=
  (s.param_feature_id_to_index.lookup feature_id).getD 0

/-- The map `param_feature_id_to_index` after the read of `feature_id`: `operator[]`
inserts a missing key with value 0. -/
def featureIndexMap (s : Estimator) (feature_id : Int) : List (Int × Nat) :=
  match s.param_feature_id_to_index.lookup feature_id with
  | some _ => s.param_feature_id_to_index
  | none => mapSet s.param_feature_id_to_index feature_id 0

/-- Body of the feature loop of `optimization` for one `_id`.  The result is `none` when
`feature_per_frame[0]` does not exist (also for an id missing from the map, for which
`operator[]` creates a feature without observations). -/
def optimizationFeature (cfg : Config) (st : Estimator × Problem) (_id : Int) :
    Option (Estimator × Problem) :=
  let s := st.1
  match s.f_manager.feature.lookup _id with
  | none => none
  | some it_per_id =>
    let updated : FeaturePerId :=
      { it_per_id with used_num := it_per_id.feature_per_frame.length }
    let feature_index := featureIndex s it_per_id.feature_id
    let s1 : Estimator :=
      { s with
        f_manager := { s.f_manager with feature := mapSet s.f_manager.feature _id updated },
        param_feature_id_to_index := featureIndexMap s it_per_id.feature_id }
    match it_per_id.feature_per_frame with
    | [] => none
    | first :: _ =>
      some (s1, (it_per_id.feature_per_frame.foldl
        (problemObservation cfg it_per_id first feature_index)
        (it_per_id.start_frame - 1, st.2)).2)

/-- The parameter blocks of `optimization` up to the camera loop: the window loop, the
gauge fix `SetParameterBlockConstant(para_Pose[0])` without IMU, and the camera loop.
The result is the pair of `openExEstimation` and the problem after the camera loop. -/
def optimizationBlocks (ext : Externals) (cfg : Config) (s : Estimator) : Bool × Problem :=
  let problem1 := (List.range (s.frame_count + 1)).foldl (addWindowBlock cfg) Problem.empty
  let problem2 :=
    if cfg.USE_IMU then problem1 else problem1.SetParameterBlockConstant (BlockId.para_Pose 0)
  (List.range cfg.NUM_OF_CAM).foldl (addExtrinsicBlock ext cfg s)
    (s.openExEstimation, problem2)

/-- The problem `optimization` builds between `vector2double()` and `ceres::Solve`,
with the estimator as the construction leaves it (`openExEstimation`, `used_num` and
`param_feature_id_to_index` are written).  The result is `none` when a null
pre-integration or a missing first observation is read. -/
def optimizationProblem (ext : Externals) (cfg : Config) (s : Estimator) :
    Option (Estimator × Problem) :=
  let st := optimizationBlocks ext cfg s
  let s1 : Estimator := { s with openExEstimation := st.1 }
  let problem3 := addTdBlock ext cfg s1 st.2
  let problem4 := addPriorResidual s1 problem3
  match addIMUResiduals cfg s1 problem4 with
  | none => none
  | some problem5 => s1.param_feature_id.foldlM (optimizationFeature cfg) (s1, problem5)

/-- The condition of the specification under which the extrinsic blocks are estimated:
the calibration flag is active, the window is full and the oldest velocity exceeds
0.2 m/s. -/
def ExtrinsicsEstimated (ext : Externals) (cfg : Config) (s : Estimator) : Prop :=
  s.ESTIMATE_EXTRINSIC ≠ 0 ∧ s.frame_count = cfg.WINDOW_SIZE ∧ (s.Vs 0).norm ext > 1 / 5

instance (ext : Externals) (cfg : Config) (s : Estimator) :
    Decidable (ExtrinsicsEstimated ext cfg s) := by
  unfold ExtrinsicsEstimated; infer_instance

/-- Every listed id names a feature of the map `m` with at least one observation. -/
def ObservedIn (m : List (Int × FeaturePerId)) (ids : List Int) : Prop :=
  ∀ id ∈ ids, ∃ f, m.lookup id = some f ∧ f.feature_per_frame ≠ []

/-- With the IMU in use, the pre-integrations of slots `1 .. frame_count` exist. -/
def PreIntegrationsPresent (cfg : Config) (s : Estimator) : Prop :=
  cfg.USE_IMU = true → ∀ j, 1 ≤ j → j ≤ s.frame_count → s.pre_integrations j ≠ none

/-- Whether a cost function is one of the three reprojection factors. -/
def Factor.isProjection : Factor → Bool
  | Factor.ProjectionTwoFrameOneCamFactor _ _ _ _ _ _ => true
  | Factor.ProjectionTwoFrameTwoCamFactor _ _ _ _ _ _ => true
  | Factor.ProjectionOneFrameTwoCamFactor _ _ _ _ _ _ => true
  | _ => false

/-- Whether a cost function is an IMU factor. -/
def Factor.isIMU : Factor → Bool
  | Factor.IMUFactor _ => true
  | _ => false

/-- The relation between the state `(s, p)` before and `(s1, p1)` after the feature loop
of `optimization`: of the estimator only the feature map and the index map are
rewritten, and the problem gains reprojection residuals only. -/
def FeatureLoopFrame (s : Estimator) (p : Problem) (s1 : Estimator) (p1 : Problem) : Prop :=
  (∃ m idx, s1 = { s with f_manager := { s.f_manager with feature := m },
                          param_feature_id_to_index := idx }) ∧
  p1.parameter_blocks = p.parameter_blocks ∧ p1.constant_blocks = p.constant_blocks ∧
  ∃ extra, p1.residual_blocks = p.residual_blocks ++ extra ∧
    ∀ rb ∈ extra, rb.cost_function.isProjection = true

/-- The IMU residual blocks iteration `i` of the IMU loop of `optimization` adds. -/
def imuResidualAt (s : Estimator) (i : Nat) : List ResidualBlock :=
  match s.pre_integrations (i + 1) with
  | some pre =>
    if pre.sum_dt > 10 then []
    else [⟨Factor.IMUFactor pre, LossFunction.NULL,
      [BlockId.para_Pose i, BlockId.para_SpeedBias i,
       BlockId.para_Pose (i + 1), BlockId.para_SpeedBias (i + 1)]⟩]
  | none => []

/-- The pose and speed-bias blocks the first loop of `optimization` adds. -/
def windowBlocks (cfg : Config) (s : Estimator) : List BlockId :=
  ((List.range (s.frame_count + 1)).foldl (addWindowBlock cfg) Problem.empty).parameter_blocks

/-- The prior residual block `optimization` adds. -/
def priorResidual (s : Estimator) : List ResidualBlock :=
  (addPriorResidual s Problem.empty).residual_blocks

/-- The IMU residual blocks `optimization` adds when the pre-integrations exist. -/
def imuResiduals (cfg : Config) (s : Estimator) : List ResidualBlock :=
  if cfg.USE_IMU then (List.range s.frame_count).flatMap (imuResidualAt s) else []

/-- The value of `openExEstimation` after the camera loop of `optimization`. -/
def openExEstimationAfter (ext : Externals) (cfg : Config) (s : Estimator) : Bool :=
  if (ExtrinsicsEstimated ext cfg s ∨ s.openExEstimation = true) ∧ cfg.NUM_OF_CAM ≠ 0 then true
  else s.openExEstimation

/-- The blocks `optimization` sets constant. -/
def constantBlocks (ext : Externals) (cfg : Config) (s : Estimator) : List BlockId :=
  (if cfg.USE_IMU then [] else [BlockId.para_Pose 0]) ++
  (if ExtrinsicsEstimated ext cfg s ∨ s.openExEstimation = true then []
   else (List.range cfg.NUM_OF_CAM).map BlockId.para_Ex_Pose) ++
  (if cfg.ESTIMATE_TD = false ∨ (s.Vs 0).norm ext < 1 / 5 then [BlockId.para_Td 0] else [])

/-- The problem of `optimization` before its feature loop. -/
def problemBeforeFeatures (ext : Externals) (cfg : Config) (s : Estimator) : Problem :=
  ⟨windowBlocks cfg s ++ (List.range cfg.NUM_OF_CAM).map BlockId.para_Ex_Pose ++
      [BlockId.para_Td 0],
   constantBlocks ext cfg s,
   priorResidual s ++ imuResiduals cfg s⟩

/-! ## `optimization`: marginalization -/

/-- The loop of the MARGIN_OLD branch that collects the drop set of the prior: the
indices of `last_marginalization_parameter_blocks` holding `para_Pose[0]` or
`para_SpeedBias[0]`. -/
def margOldPriorDropSet (blocks : List BlockId) : List Nat :=
  (List.range blocks.length).foldl
    (fun drop_set i =>
      if blocks.getD i BlockId.null = BlockId.para_Pose 0 ∨
          blocks.getD i BlockId.null = BlockId.para_SpeedBias 0 then drop_set ++ [i]
      else drop_set) []

/-- The prior's `ResidualBlockInfo` of the MARGIN_OLD branch. -/
def margOldPrior (s : Estimator) : List ResidualBlockInfo :=
  match s.last_marginalization_info with
  | some info =>
    if info.valid then
      [⟨Factor.MarginalizationFactor info, LossFunction.NULL,
        s.last_marginalization_parameter_blocks,
        margOldPriorDropSet s.last_marginalization_parameter_blocks⟩]
    else []
  | none => []

/-- The IMU factor of the MARGIN_OLD branch; `none` when `pre_integrations[1]` is a null
pointer. -/
def margOldIMU (cfg : Config) (s : Estimator) : Option (List ResidualBlockInfo) :=
  if cfg.USE_IMU then
    match s.pre_integrations 1 with
    | none => none
    | some pre =>
      if pre.sum_dt < 10 then
        some [⟨Factor.IMUFactor pre, LossFunction.NULL,
          [BlockId.para_Pose 0, BlockId.para_SpeedBias 0,
           BlockId.para_Pose 1, BlockId.para_SpeedBias 1], [0, 1]⟩]
      else some []
  else some []

/-- Body of the observation loop of the MARGIN_OLD branch for one `it_per_frame` of the
feature `it_per_id` with first observation `first`, on the pair of the local `imu_j`
and the residual blocks added so far. -/
def margOldObservation (cfg : Config) (it_per_id : FeaturePerId) (first : FeaturePerFrame)
    (feature_index : Nat) (st : Int × List ResidualBlockInfo)
    (it_per_frame : FeaturePerFrame) : Int × List ResidualBlockInfo :=
  let imu_i := it_per_id.start_frame
  let imu_j := st.1 + 1
  let pts_i := first.point
  let infos1 : List ResidualBlockInfo :=
    if imu_i ≠ imu_j then
      let pts_j := it_per_frame.point
      st.2 ++ [⟨Factor.ProjectionTwoFrameOneCamFactor pts_i pts_j first.velocity
          it_per_frame.velocity first.cur_td it_per_frame.cur_td,
        LossFunction.HuberLoss,
        [BlockId.para_Pose imu_i.toNat, BlockId.para_Pose imu_j.toNat,
         BlockId.para_Ex_Pose it_per_id.main_cam, BlockId.para_Feature feature_index,
         BlockId.para_Td 0],
        [0, 3]⟩]
    else st.2
  if cfg.STEREO && it_per_frame.is_stereo then
    let pts_j_right := it_per_frame.pointRight
    if imu_i ≠ imu_j then
      (imu_j, infos1 ++ [⟨Factor.ProjectionTwoFrameTwoCamFactor pts_i pts_j_right
          first.velocity it_per_frame.velocityRight first.cur_td it_per_frame.cur_td,
        LossFunction.HuberLoss,
        [BlockId.para_Pose imu_i.toNat, BlockId.para_Pose imu_j.toNat,
         BlockId.para_Ex_Pose it_per_id.main_cam, BlockId.para_Ex_Pose 1,
         BlockId.para_Feature feature_index, BlockId.para_Td 0],
        [0, 4]⟩])
    else
      (imu_j, infos1 ++ [⟨Factor.ProjectionOneFrameTwoCamFactor pts_i pts_j_right
          first.velocity it_per_frame.velocityRight first.cur_td it_per_frame.cur_td,
        LossFunction.HuberLoss,
        [BlockId.para_Ex_Pose 0, BlockId.para_Ex_Pose 1,
         BlockId.para_Feature feature_index, BlockId.para_Td 0],
        [2]⟩])
  else (imu_j, infos1)

/-- Body of the feature loop of the MARGIN_OLD branch for one `_id`: features not
anchored at slot 0 are skipped.  The result is `none` when `feature_per_frame[0]` of a
feature anchored at slot 0 does not exist, and for an id missing from the map. -/
def margOldFeature (cfg : Config) (st : Estimator × List ResidualBlockInfo) (_id : Int) :
    Option (Estimator × List ResidualBlockInfo) :=
  let s := st.1
  match s.f_manager.feature.lookup _id with
  | none => none
  | some it_per_id =>
    let feature_index := featureIndex s it_per_id.feature_id
    let s1 : Estimator :=
      { s with param_feature_id_to_index := featureIndexMap s it_per_id.feature_id }
    if it_per_id.start_frame ≠ 0 then some (s1, st.2)
    else
      match it_per_id.feature_per_frame with
      | [] => none
      | first :: _ =>
        some (s1, (it_per_id.feature_per_frame.foldl
          (margOldObservation cfg it_per_id first feature_index)
          (it_per_id.start_frame - 1, st.2)).2)

/-- The residual blocks the MARGIN_OLD branch hands to `addResidualBlockInfo`, in call
order: the prior, the IMU factor between slots 0 and 1, and the reprojection factors of
the features anchored at slot 0. -/
def margOldResidualBlocks (cfg : Config) (s : Estimator) :
    Option (Estimator × List ResidualBlockInfo) :=
  match margOldIMU cfg s with
  | none => none
  | some imu => s.param_feature_id.foldlM (margOldFeature cfg) (s, margOldPrior s ++ imu)

/-- The map `addr_shift` (`std::unordered_map<long, double *>`) as the list of the
assignments made to it, newest first. -/
abbrev AddrShift := List (BlockId × BlockId)

/-- The assignment `addr_shift[key] = value`. -/
def AddrShift.assign (addr_shift : AddrShift) (key value : BlockId) : AddrShift :=
  (key, value) :: addr_shift

/-- The entry of `addr_shift` for `key`, if one was assigned: the newest assignment. -/
def AddrShift.find (addr_shift : AddrShift) (key : BlockId) : Option BlockId :=
  List.lookup key addr_shift

/-- Body of the slot loop that fills `addr_shift` in the MARGIN_OLD branch, for `i`. -/
def addrShiftOldSlot (cfg : Config) (addr_shift : AddrShift) (i : Nat) : AddrShift :=
  let addr_shift1 := addr_shift.assign (BlockId.para_Pose i) (BlockId.para_Pose (i - 1))
  if cfg.USE_IMU then
    addr_shift1.assign (BlockId.para_SpeedBias i) (BlockId.para_SpeedBias (i - 1))
  else addr_shift1

/-- Body of the camera loop that fills `addr_shift`, in both branches. -/
def addrShiftCam (addr_shift : AddrShift) (i : Nat) : AddrShift :=
  addr_shift.assign (BlockId.para_Ex_Pose i) (BlockId.para_Ex_Pose i)

/-- The map `addr_shift` of the MARGIN_OLD branch; the slot loop runs
`i = 1 .. WINDOW_SIZE`. -/
def addrShiftOld (cfg : Config) : AddrShift :=
  let m1 := ((List.range cfg.WINDOW_SIZE).map (· + 1)).foldl (addrShiftOldSlot cfg) []
  let m2 := (List.range cfg.NUM_OF_CAM).foldl addrShiftCam m1
  m2.assign (BlockId.para_Td 0) (BlockId.para_Td 0)

/-- Body of the slot loop that fills `addr_shift` in the MARGIN_SECOND_NEW branch. -/
def addrShiftSecondNewSlot (cfg : Config) (addr_shift : AddrShift) (i : Nat) : AddrShift :=
  if i = cfg.WINDOW_SIZE - 1 then addr_shift
  else if i = cfg.WINDOW_SIZE then
    let addr_shift1 := addr_shift.assign (BlockId.para_Pose i) (BlockId.para_Pose (i - 1))
    if cfg.USE_IMU then
      addr_shift1.assign (BlockId.para_SpeedBias i) (BlockId.para_SpeedBias (i - 1))
    else addr_shift1
  else
    let addr_shift1 := addr_shift.assign (BlockId.para_Pose i) (BlockId.para_Pose i)
    if cfg.USE_IMU then
      addr_shift1.assign (BlockId.para_SpeedBias i) (BlockId.para_SpeedBias i)
    else addr_shift1

/-- The map `addr_shift` of the MARGIN_SECOND_NEW branch; the slot loop runs
`i = 0 .. WINDOW_SIZE`. -/
def addrShiftSecondNew (cfg : Config) : AddrShift :=
  let m1 := (List.range (cfg.WINDOW_SIZE + 1)).foldl (addrShiftSecondNewSlot cfg) []
  let m2 := (List.range cfg.NUM_OF_CAM).foldl addrShiftCam m1
  m2.assign (BlockId.para_Td 0) (BlockId.para_Td 0)

/-- Modelled from the spec: the blocks a marginalization eliminates, i.e. the entries of
the residuals' parameter lists selected by their drop sets (`marginalization_factor.cpp`
is not among the sources). -/
def droppedBlocks (infos : List ResidualBlockInfo) : List BlockId :=
  infos.flatMap (fun info => info.drop_set.map (fun i => info.parameter_blocks.getD i BlockId.null))

/-- Modelled from the spec: the blocks a marginalization keeps, i.e. the parameter blocks
of its residuals that are not dropped, each once. -/
def keptBlocks (infos : List ResidualBlockInfo) : List BlockId :=
  ((infos.flatMap (fun info => info.parameter_blocks)).filter
    (fun b => decide (b ∉ droppedBlocks infos))).dedup

/-- Modelled from the spec: `MarginalizationInfo::getParameterBlocks(addr_shift)`: the
kept blocks re-addressed through `addr_shift`; a block without an entry reads the
default value of the map, the null pointer. -/
def getParameterBlocks (infos : List ResidualBlockInfo) (addr_shift : AddrShift) :
    List BlockId :=
  (keptBlocks infos).map (fun b => (addr_shift.find b).getD BlockId.null)

/-- The parameter arrays of the estimator. -/
def Estimator.parameterArrays (s : Estimator) : ParameterArrays :=
  ⟨s.para_Pose, s.para_SpeedBias, s.para_Ex_Pose, s.para_Feature, s.para_Td⟩

/-- The estimator with its parameter arrays overwritten. -/
def Estimator.setParameterArrays (s : Estimator) (a : ParameterArrays) : Estimator :=
  { s with para_Pose := a.para_Pose, para_SpeedBias := a.para_SpeedBias,
           para_Ex_Pose := a.para_Ex_Pose, para_Feature := a.para_Feature,
           para_Td := a.para_Td }

/-- The MARGIN_OLD branch of `optimization`: `vector2double()`, the residual blocks, the
marginalization (external), `addr_shift`, and the replacement of the prior. -/
def marginalizeOld (ext : Externals) (cfg : Config) (s : Estimator) : Option Estimator :=
  let s1 := vector2double ext cfg s
  match margOldResidualBlocks cfg s1 with
  | none => none
  | some (s2, infos) =>
    let marginalization_info := ext.marginalize infos s2.parameterArrays
    let parameter_blocks := getParameterBlocks infos (addrShiftOld cfg)
    some { s2 with last_marginalization_info := some marginalization_info,
                   last_marginalization_parameter_blocks := parameter_blocks }

/-- The loop of the MARGIN_SECOND_NEW branch that collects the drop set of the prior:
the indices holding `para_Pose[WINDOW_SIZE - 1]`.  The result is `none` when the
`ROS_ASSERT` fails, i.e. when an entry is `para_SpeedBias[WINDOW_SIZE - 1]`. -/
def margSecondNewDropSet (cfg : Config) (blocks : List BlockId) : Option (List Nat) :=
  (List.range blocks.length).foldl
    (fun drop_set i =>
      match drop_set with
      | none => none
      | some drop_set =>
        if blocks.getD i BlockId.null = BlockId.para_SpeedBias (cfg.WINDOW_SIZE - 1) then none
        else if blocks.getD i BlockId.null = BlockId.para_Pose (cfg.WINDOW_SIZE - 1) then
          some (drop_set ++ [i])
        else some drop_set) (some [])

/-- The residual blocks the MARGIN_SECOND_NEW branch hands to `addResidualBlockInfo`:
the prior if it is valid; `none` when the `ROS_ASSERT` fails. -/
def margSecondNewResidualBlocks (cfg : Config) (s : Estimator) :
    Option (List ResidualBlockInfo) :=
  match s.last_marginalization_info with
  | some info =>
    if info.valid then
      match margSecondNewDropSet cfg s.last_marginalization_parameter_blocks with
      | none => none
      | some drop_set =>
        some [⟨Factor.MarginalizationFactor info, LossFunction.NULL,
          s.last_marginalization_parameter_blocks, drop_set⟩]
    else some []
  | none => some []

/-- The guard of the MARGIN_SECOND_NEW branch: a prior exists and its block list
contains `para_Pose[WINDOW_SIZE - 1]`. -/
def margSecondNewRuns (cfg : Config) (s : Estimator) : Prop :=
  s.last_marginalization_info ≠ none ∧
    BlockId.para_Pose (cfg.WINDOW_SIZE - 1) ∈ s.last_marginalization_parameter_blocks

instance (cfg : Config) (s : Estimator) : Decidable (margSecondNewRuns cfg s) := by
  unfold margSecondNewRuns; infer_instance

/-- The MARGIN_SECOND_NEW branch of `optimization`. -/
def marginalizeSecondNew (ext : Externals) (cfg : Config) (s : Estimator) :
    Option Estimator :=
  if margSecondNewRuns cfg s then
    let s1 := vector2double ext cfg s
    match margSecondNewResidualBlocks cfg s1 with
    | none => none
    | some infos =>
      let marginalization_info := ext.marginalize infos s1.parameterArrays
      let parameter_blocks := getParameterBlocks infos (addrShiftSecondNew cfg)
      some { s1 with last_marginalization_info := some marginalization_info,
                     last_marginalization_parameter_blocks := parameter_blocks }
  else some s

/-- The options `optimization` passes to the solver. -/
def solverOptions (cfg : Config) (s : Estimator) : SolverOptions :=
  ⟨cfg.NUM_ITERATIONS,
   if s.marginalization_flag = MarginalizationFlag.MARGIN_OLD then cfg.SOLVER_TIME * 4 / 5
   else cfg.SOLVER_TIME⟩

/-- The first part of `optimization`, up to and including `double2vector()`:
`vector2double()`, the construction of the problem, `ceres::Solve` (external) on the
parameter arrays, and `double2vector()`.  The result is the estimator together with
the problem that was solved. -/
def optimizationSolved (ext : Externals) (cfg : Config) (s : Estimator) :
    Option (Estimator × Problem) :=
  let s1 := vector2double ext cfg s
  match optimizationProblem ext cfg s1 with
  | none => none
  | some (s2, problem) =>
    let s3 := s2.setParameterArrays
      (ext.ceresSolve (solverOptions cfg s2) problem s2.parameterArrays)
    some (double2vector ext cfg s3, problem)

/-- Function `Estimator::optimization`.  The result is `none` when the call reads a null
pre-integration or a missing first observation, or stops at the `ROS_ASSERT`. -/
def optimization (ext : Externals) (cfg : Config) (s : Estimator) : Option Estimator :=
  match optimizationSolved ext cfg s with
  | none => none
  | some (s4, _) =>
    if s4.frame_count < cfg.WINDOW_SIZE then some s4
    else if s4.marginalization_flag = MarginalizationFlag.MARGIN_OLD then
      marginalizeOld ext cfg s4
    else marginalizeSecondNew ext cfg s4

/-- The members of the estimator that the conversions between window state and
parameter arrays, the construction of the problem and the solver leave alone. -/
structure WindowControl where
  frame_count : Nat
  solver_flag : SolverFlag
  marginalization_flag : MarginalizationFlag
  last_marginalization_info : Option MarginalizationInfo
  last_marginalization_parameter_blocks : List BlockId
  pre_integrations : Nat → Option IntegrationBase
  ESTIMATE_EXTRINSIC : Int

/-- The control members of an estimator. -/
def Estimator.control (s : Estimator) : WindowControl :=
  ⟨s.frame_count, s.solver_flag, s.marginalization_flag, s.last_marginalization_info,
   s.last_marginalization_parameter_blocks, s.pre_integrations, s.ESTIMATE_EXTRINSIC⟩

/-- The contract of `FeatureManager::getDepthVector` the optimizer relies on: every id
it returns names a feature of the map that has at least one observation. -/
def DepthVectorSound (ext : Externals) : Prop :=
  ∀ fm : FeatureManager, ObservedIn fm.feature ((ext.fmGetDepthVector fm).map Prod.fst)

/-! ## Concrete windows for the optimizer -/

/-- A full window moving at speed 1 along x, with empty pre-integrations in every slot,
no features and no prior; the extrinsic calibration flag is active. -/
def demoCalibrating : Estimator :=
  { demoWindowOld with
    Vs := fun _ => ⟨1, 0, 0⟩,
    pre_integrations := fun _ => some (IntegrationBase.new 0 0 0 0),
    ESTIMATE_EXTRINSIC := 1 }

/-- The window `demoCalibrating` at rest, with `openExEstimation` set by an earlier
step. -/
def demoLatchedAtRest : Estimator :=
  { demoCalibrating with Vs := fun _ => 0, openExEstimation := true }

/-- External routines whose square root is exact on 1/25. -/
def fifthExternals : Externals :=
  { demoExternals with sqrt := fun a => if a = 1 / 25 then 1 / 5 else a }

/-- The window `demoCalibrating` moving at exactly 0.2 m/s along x. -/
def demoBoundarySpeed : Estimator :=
  { demoCalibrating with Vs := fun _ => ⟨1 / 5, 0, 0⟩ }

/-- The shape of a reprojection residual of the MARGIN_OLD branch: one of the three
parameter lists with its drop set, for a feature anchored at slot 0 observed at a slot
`j ≥ 1` (two-frame factors) or at slot 0 (one-frame factor). -/
def IsSlotZeroProjection (rb : ResidualBlockInfo) : Prop :=
  rb.cost_function.isProjection = true ∧
  ∃ j c idx, 1 ≤ j ∧
    ((rb.parameter_blocks =
        [BlockId.para_Pose 0, BlockId.para_Pose j, BlockId.para_Ex_Pose c,
         BlockId.para_Feature idx, BlockId.para_Td 0] ∧ rb.drop_set = [0, 3]) ∨
     (rb.parameter_blocks =
        [BlockId.para_Pose 0, BlockId.para_Pose j, BlockId.para_Ex_Pose c,
         BlockId.para_Ex_Pose 1, BlockId.para_Feature idx, BlockId.para_Td 0] ∧
        rb.drop_set = [0, 4]) ∨
     (rb.parameter_blocks =
        [BlockId.para_Ex_Pose 0, BlockId.para_Ex_Pose 1, BlockId.para_Feature idx,
         BlockId.para_Td 0] ∧ rb.drop_set = [2]))

/-- The relation between the state before and after the feature loop of the MARGIN_OLD
branch: of the estimator only the index map is rewritten, and the residual blocks gain
reprojection residuals of the shape `IsSlotZeroProjection`. -/
def MargOldLoopFrame (a b : Estimator × List ResidualBlockInfo) : Prop :=
  (∃ idx, b.1 = { a.1 with param_feature_id_to_index := idx }) ∧
  ∃ extra, b.2 = a.2 ++ extra ∧ ∀ rb ∈ extra, IsSlotZeroProjection rb

/-- The drop set of a residual block selects exactly the entries of its parameter list
that are slot 0's pose block, slot 0's speed-bias block or, for a reprojection factor,
a feature's inverse-depth block. -/
def ResidualBlockInfo.DropsSlotZero (rb : ResidualBlockInfo) : Prop :=
  ∀ k, k ∈ rb.drop_set ↔ k < rb.parameter_blocks.length ∧
    (rb.parameter_blocks.getD k BlockId.null = BlockId.para_Pose 0 ∨
     rb.parameter_blocks.getD k BlockId.null = BlockId.para_SpeedBias 0 ∨
     (rb.cost_function.isProjection = true ∧
       ∃ i, rb.parameter_blocks.getD k BlockId.null = BlockId.para_Feature i))

/-- The problem contains an IMU residual between slots `i` and `j`. -/
def Problem.HasIMUFactor (p : Problem) (i j : Nat) : Prop :=
  ∃ rb ∈ p.residual_blocks, rb.cost_function.isIMU = true ∧
    rb.parameter_blocks = [BlockId.para_Pose i, BlockId.para_SpeedBias i,
      BlockId.para_Pose j, BlockId.para_SpeedBias j]

/-- The marginalization submodel contains an IMU residual between slots `i` and `j`. -/
def SubmodelHasIMUFactor (infos : List ResidualBlockInfo) (i j : Nat) : Prop :=
  ∃ rb ∈ infos, rb.cost_function.isIMU = true ∧
    rb.parameter_blocks = [BlockId.para_Pose i, BlockId.para_SpeedBias i,
      BlockId.para_Pose j, BlockId.para_SpeedBias j]

/-- The window `demoCalibrating` whose pre-integration of slot 1 covers exactly 10 s:
twenty samples half a second apart. -/
def demoLongGap : Estimator :=
  { demoCalibrating with
    pre_integrations := fun j =>
      if j = 1 then
        some { IntegrationBase.new 0 0 0 0 with
          dt_buf := List.replicate 20 (1 / 2),
          acc_buf := List.replicate 20 0,
          gyr_buf := List.replicate 20 0 }
      else some (IntegrationBase.new 0 0 0 0) }

/-- A full window with a valid prior, present pre-integrations and the two features of
`demoFeatures`, both anchored at slot 0 and observed at slots 0 and 1. -/
def demoMargOld : Estimator :=
  { demoFeatures with
    pre_integrations := fun _ => some (IntegrationBase.new 0 0 0 0),
    last_marginalization_info := some ⟨true⟩,
    last_marginalization_parameter_blocks :=
      [BlockId.para_Pose 0, BlockId.para_SpeedBias 0, BlockId.para_Pose 1,
       BlockId.para_Ex_Pose 0, BlockId.para_Td 0],
    param_feature_id_to_index := [(5, 0), (6, 1)] }

/-- A full window in the non-keyframe case with a valid prior over slot 0's pose and
speed-bias, slot 1's pose, camera 0's extrinsic and the time offset. -/
def demoMargNew : Estimator :=
  { demoCalibrating with
    marginalization_flag := MarginalizationFlag.MARGIN_SECOND_NEW,
    last_marginalization_info := some ⟨true⟩,
    last_marginalization_parameter_blocks :=
      [BlockId.para_Pose 0, BlockId.para_SpeedBias 0, BlockId.para_Pose 1,
       BlockId.para_Ex_Pose 0, BlockId.para_Td 0] }

/-! ## Reachable priors -/

/-- The prior of the estimator: `last_marginalization_info` with
`last_marginalization_parameter_blocks`. -/
def Estimator.prior (s : Estimator) : Option MarginalizationInfo × List BlockId :=
  (s.last_marginalization_info, s.last_marginalization_parameter_blocks)

/-- Every speed-bias block of the list is slot 0's. -/
def OnlySpeedBiasZero (blocks : List BlockId) : Prop :=
  ∀ i, BlockId.para_SpeedBias i ∈ blocks → i = 0

/-- The estimator states reachable from `clearState` by `optimization` calls that
return, `slideWindow` calls, and any other steps that leave the prior alone (the rest
of the estimator may change arbitrarily in such a step). -/
inductive Reachable (ext : Externals) (cfg : Config) : Estimator → Prop
  | init (s : Estimator) : Reachable ext cfg (clearState ext cfg s)
  | optimize {s s1 : Estimator} :
      Reachable ext cfg s → optimization ext cfg s = some s1 → Reachable ext cfg s1
  | slide {s : Estimator} : Reachable ext cfg s → Reachable ext cfg (slideWindow ext cfg s)
  | other {s s1 : Estimator} :
      Reachable ext cfg s → s1.prior = s.prior → Reachable ext cfg s1

/-! ## Initialisation: `initialStructure`, `visualInitialAlign` -/

/-- Modelled from the spec: `IntegrationBase::repropagate(ba, bg)`: the delta is
recomputed from the buffered samples with the new reference biases. -/
def IntegrationBase.repropagate (p : IntegrationBase) (ba bg : Vector3d) : IntegrationBase :=
  { p with linearized_ba := ba, linearized_bg := bg }

/-- The loop `pre_integrations[i]->repropagate(Vector3d::Zero(), Bgs[i])` over the slots
`0 .. WINDOW_SIZE`, iteration `i`; `none` when `pre_integrations[i]` is a null pointer. -/
def repropagateSlot (s : Estimator) (i : Nat) : Option Estimator :=
  match s.pre_integrations i with
  | none => none
  | some pre =>
    some { s with
      pre_integrations := setAt s.pre_integrations i (some (pre.repropagate 0 (s.Bgs i))) }

/-- The entry of the map `all_image_frame` with key `t`. -/
def findFrame (frames : List (ℚ × ImageFrame)) (t : ℚ) : Option ImageFrame :=
  frames.lookup t

/-- The map `all_image_frame` with the entry of key `t` rewritten by `f`. -/
def updateFrame (frames : List (ℚ × ImageFrame)) (t : ℚ) (f : ImageFrame → ImageFrame) :
    List (ℚ × ImageFrame) :=
  frames.map (fun e => if e.1 = t then (e.1, f e.2) else e)

/-- The call `all_image_frame.insert(make_pair(t, frame))` on the map kept sorted by
key: an existing entry with the same key is kept. -/
def insertFrame : List (ℚ × ImageFrame) → ℚ → ImageFrame → List (ℚ × ImageFrame)
  | [], t, frame => [(t, frame)]
  | (t1, frame1) :: rest, t, frame =>
    if t = t1 then (t1, frame1) :: rest
    else if t < t1 then (t, frame) :: (t1, frame1) :: rest
    else (t1, frame1) :: insertFrame rest t frame

/-- The first loop of `visualInitialAlign`, slot `i`: the pose of the frame with key
`Headers[i]` becomes the pose of the slot and the frame is marked as keyframe.  The
result is `none` when the map has no such frame (`operator[]` would create one with
indeterminate members). -/
def visualInitialAlignSlot (s : Estimator) (i : Nat) : Option Estimator :=
  match findFrame s.all_image_frame (s.Headers i) with
  | none => none
  | some frame =>
    let Ri := frame.R
    let Pi := frame.T
    some { s with
      Ps := setAt s.Ps i Pi,
      Rs := setAt s.Rs i Ri,
      all_image_frame := updateFrame s.all_image_frame (s.Headers i)
        (fun fr => { fr with is_key_frame := true }) }

/-- The rescaling loop of `visualInitialAlign`, slot `i` (the loop runs from
`frame_count` down to 0). -/
def visualInitialAlignScale (scale : ℚ) (s : Estimator) (i : Nat) : Estimator :=
  { s with
    Ps := setAt s.Ps i
      (scale * s.Ps i - s.Rs i * s.TIC 0 - (scale * s.Ps 0 - s.Rs 0 * s.TIC 0)) }

/-- The segment `x.segment<3>(k)` of the solution vector. -/
def segment3 (x : List ℚ) (k : Nat) : Vector3d :=
  ⟨x.getD k 0, x.getD (k + 1) 0, x.getD (k + 2) 0⟩

/-- The velocity loop of `visualInitialAlign` over the frames of `all_image_frame`, on
the pair of the counter `kv` and the estimator. -/
def visualInitialAlignVelocity (x : List ℚ) (st : Int × Estimator) (frame_i : ℚ × ImageFrame) :
    Int × Estimator :=
  if frame_i.2.is_key_frame then
    let kv := st.1 + 1
    (kv, { st.2 with Vs := setAt st.2.Vs kv.toNat (frame_i.2.R * segment3 x (kv.toNat * 3)) })
  else st

/-- The final rotation loop of `visualInitialAlign`, slot `i`. -/
def visualInitialAlignRotate (rot_diff : Matrix3d) (s : Estimator) (i : Nat) : Estimator :=
  { s with Ps := setAt s.Ps i (rot_diff * s.Ps i),
           Rs := setAt s.Rs i (rot_diff * s.Rs i),
           Vs := setAt s.Vs i (rot_diff * s.Vs i) }

/-- Function `Estimator::visualInitialAlign`: the return value and the estimator after
the call.  The result is `none` when a keyframe is missing from `all_image_frame` or a
pre-integration is a null pointer. -/
def visualInitialAlign (ext : Externals) (cfg : Config) (s : Estimator) :
    Option (Bool × Estimator) :=
  let a := ext.VisualIMUAlignment s.all_image_frame s.Bgs s.g
  let s1 : Estimator := { s with all_image_frame := a.all_image_frame, Bgs := a.Bgs, g := a.g }
  if a.result = false then some (false, s1)
  else
    match (List.range (s1.frame_count + 1)).foldlM visualInitialAlignSlot s1 with
    | none => none
    | some s2 =>
      let scale := a.x.getLastD 0
      match (List.range (cfg.WINDOW_SIZE + 1)).foldlM repropagateSlot s2 with
      | none => none
      | some s3 =>
        let s4 := (List.range (s3.frame_count + 1)).reverse.foldl
          (visualInitialAlignScale scale) s3
        let s5 := (s4.all_image_frame.foldl (visualInitialAlignVelocity a.x) (-1, s4)).2
        let R0 := ext.g2R s5.g
        let yaw := (ext.R2ypr (R0 * s5.Rs 0)).x
        let R1 := ext.ypr2R ⟨-yaw, 0, 0⟩ * R0
        let s6 : Estimator := { s5 with g := R1 * s5.g }
        let rot_diff := R1
        let s7 := (List.range (s6.frame_count + 1)).foldl (visualInitialAlignRotate rot_diff) s6
        let s8 : Estimator := { s7 with f_manager := ext.fmClearDepth s7.f_manager }
        some (true, { s8 with
          f_manager :=
            ext.fmTriangulate s8.f_manager s8.frame_count s8.Ps s8.Rs s8.tic s8.ric })

/-- The `SFMFeature` that `initialStructure` builds for a feature. -/
def sfmFeatureOf (it_per_id : FeaturePerId) : SFMFeature :=
  ⟨false, it_per_id.feature_id,
    (it_per_id.feature_per_frame.foldl
      (fun (acc : Int × List (Int × ℚ × ℚ)) it_per_frame =>
        (acc.1 + 1, acc.2 ++ [(acc.1 + 1, it_per_frame.point.x, it_per_frame.point.y)]))
      (it_per_id.start_frame - 1, [])).2⟩

/-- The 3-D points and image points `initialStructure` collects for the PnP of one
frame: one pair per observation of a feature that the structure-from-motion tracked. -/
def pnpPoints (sfm_tracked_points : List (Int × Vector3d)) (points : FeatureFrame) :
    List Vector3d × List (ℚ × ℚ) :=
  points.foldl
    (fun acc id_pts =>
      id_pts.2.foldl
        (fun acc i_p =>
          match sfm_tracked_points.lookup id_pts.1 with
          | some world_pts => (acc.1 ++ [world_pts], acc.2 ++ [(i_p.2.getD 0 0, i_p.2.getD 1 0)])
          | none => acc)
        acc)
    ([], [])

/-- The loop of `initialStructure` that places every frame of `all_image_frame`: from the
local counter `i` and the frames not yet visited to whether the loop ran to its end
(`false`: a `return false` was taken) and the frames as the loop leaves them.  OpenCV's
`Rodrigues` and `solvePnP` are one external routine, from the initial rotation and
translation to the solved ones. -/
def initialStructurePnP (ext : Externals) (Headers : Nat → ℚ) (Q : Nat → Quaterniond)
    (T : Nat → Vector3d) (RIC0 : Matrix3d) (sfm_tracked_points : List (Int × Vector3d)) :
    Nat → List (ℚ × ImageFrame) → Bool × List (ℚ × ImageFrame)
  | _, [] => (true, [])
  | i, (t, frame) :: rest =>
    if t = Headers i then
      let frame1 : ImageFrame :=
        { frame with is_key_frame := true,
                     R := ext.toRotationMatrix (Q i) * RIC0.transpose,
                     T := T i }
      let r := initialStructurePnP ext Headers Q T RIC0 sfm_tracked_points (i + 1) rest
      (r.1, (t, frame1) :: r.2)
    else
      let i1 := if t > Headers i then i + 1 else i
      let R_inital := ext.toRotationMatrix (ext.quatInverse (Q i1))
      let P_inital := (-1 : ℚ) * (R_inital * T i1)
      let frame1 : ImageFrame := { frame with is_key_frame := false }
      let pts := pnpPoints sfm_tracked_points frame.points
      if pts.1.length < 6 then (false, (t, frame1) :: rest)
      else
        match ext.solvePnP pts.1 pts.2 R_inital P_inital with
        | none => (false, (t, frame1) :: rest)
        | some (r, tvec) =>
          let R_pnp := r.transpose
          let T_pnp := R_pnp * ((-1 : ℚ) * tvec)
          let frame2 : ImageFrame :=
            { frame1 with R := R_pnp * RIC0.transpose, T := T_pnp }
          let res := initialStructurePnP ext Headers Q T RIC0 sfm_tracked_points i1 rest
          (res.1, (t, frame2) :: res.2)

/-- The way `initialStructure` ends: the `return false` taken, or `return true`. -/
inductive InitialStructureOutcome where
  | relativePoseFailed
  | sfmFailed
  | pnpFailed
  | misaligned
  | success
  deriving DecidableEq

/-- Function `Estimator::initialStructure`: how the call ends (it returns `true` exactly
for `success`) and the estimator after it.  The excitation check at the start only
logs; it reads `pre_integration->sum_dt` of every frame but the first, so the result
is `none` when such a pointer is null or the map is empty, and when
`visualInitialAlign` is undefined.  The locals `relative_R`, `relative_T`, `l` are
uninitialised before `relativePose`. -/
def initialStructure (ext : Externals) (cfg : Config) (s : Estimator) :
    Option (InitialStructureOutcome × Estimator) :=
  match s.all_image_frame with
  | [] => none
  | _ :: later =>
    if later.all (fun f => f.2.pre_integration.isSome) then
      let sfm_f := s.f_manager.feature.map (fun it => sfmFeatureOf it.2)
      let rp := relativePose ext cfg s Matrix3d.identity 0 0
      if rp.ret = false then some (InitialStructureOutcome.relativePoseFailed, s)
      else
        match ext.sfmConstruct (s.frame_count + 1) rp.l rp.relative_R rp.relative_T sfm_f with
        | none =>
          some (InitialStructureOutcome.sfmFailed,
            { s with marginalization_flag := MarginalizationFlag.MARGIN_OLD })
        | some (Q, T, sfm_tracked_points) =>
          let r := initialStructurePnP ext s.Headers Q T (s.RIC 0) sfm_tracked_points 0
            s.all_image_frame
          let s1 : Estimator := { s with all_image_frame := r.2 }
          if r.1 = false then some (InitialStructureOutcome.pnpFailed, s1)
          else
            match visualInitialAlign ext cfg s1 with
            | none => none
            | some (true, s2) => some (InitialStructureOutcome.success, s2)
            | some (false, s2) => some (InitialStructureOutcome.misaligned, s2)
    else none

/-! ## `processImage` -/

/-- Function `Estimator::failureDetection`: its first statement is `return false;`. -/
def failureDetection (_s : Estimator) : Bool := false

/-- Function `Estimator::setParameter`, on the estimator state: the extrinsics, the
time offset and gravity are reloaded from the configuration.  (It also creates the
feature tracker and starts the worker threads.) -/
def setParameter (ext : Externals) (cfg : Config) (s : Estimator) : Estimator :=
  let s1 := (List.range cfg.NUM_OF_CAM).foldl
    (fun (s : Estimator) i =>
      { s with tic := setAt s.tic i (s.TIC i), ric := setAt s.ric i (s.RIC i) }) s
  { s1 with f_manager := ext.fmSetRic s1.f_manager s1.ric, td := cfg.TD, g := cfg.G }

/-- The product of two homogeneous transforms given as rotation block and translation
column (the last row is `0 0 0 1`). -/
def mulTransform (a b : Matrix3d × Vector3d) : Matrix3d × Vector3d :=
  (a.1 * b.1, a.1 * b.2 + a.2)

/-- Body of the feature loop of `predictPtsInNextFrame` for one entry of the feature
map, on the pair of the maps `predictPts`, `predictPts1`. -/
def predictPtsFeature (s : Estimator) (nextT : Matrix3d × Vector3d)
    (acc : List (Int × Vector3d) × List (Int × Vector3d)) (it : Int × FeaturePerId) :
    List (Int × Vector3d) × List (Int × Vector3d) :=
  let it_per_id := it.2
  if it_per_id.estimated_depth > 0 then
    let firstIndex := it_per_id.start_frame
    let lastIndex := it_per_id.start_frame + (it_per_id.feature_per_frame.length : Int) - 1
    if (it_per_id.feature_per_frame.length : Int) ≥ 2 ∧ lastIndex = (s.frame_count : Int) then
      match it_per_id.feature_per_frame with
      | [] => acc
      | first :: _ =>
        let depth := it_per_id.estimated_depth
        let pts_j := s.ric 0 * (depth * first.point) + s.tic 0
        let pts_w := s.Rs firstIndex.toNat * pts_j + s.Ps firstIndex.toNat
        let pts_local := nextT.1.transpose * (pts_w - nextT.2)
        let pts_cam := (s.ric 0).transpose * (pts_local - s.tic 0)
        let pts_cam1 := (s.ric 1).transpose * (pts_local - s.tic 1)
        let ptsIndex := it_per_id.feature_id
        (mapSet acc.1 ptsIndex pts_cam, mapSet acc.2 ptsIndex pts_cam1)
    else acc
  else acc

/-- Function `Estimator::predictPtsInNextFrame`; the maps handed to
`featureTracker->setPrediction` are recorded in `predictPts`, `predictPts1`.  The
inverse of the previous pose is Eigen's 4x4 inverse (external). -/
def predictPtsInNextFrame (ext : Externals) (s : Estimator) : Estimator :=
  if s.frame_count < 2 then s
  else
    let curT := (s.Rs s.frame_count, s.Ps s.frame_count)
    let prevT := (s.Rs (s.frame_count - 1), s.Ps (s.frame_count - 1))
    let nextT := mulTransform curT (mulTransform (ext.inverse prevT) curT)
    let predicted := s.f_manager.feature.foldl (predictPtsFeature s nextT) ([], [])
    { s with predictPts := predicted.1, predictPts1 := predicted.2 }

/-- The loop of `updateLatestStates` over the copies of the two IMU queues; `none` when
the gyroscope queue runs empty first. -/
def updateLatestStatesLoop (ext : Externals) :
    List Stamped → List Stamped → Estimator → Option Estimator
  | [], _, s => some s
  | _ :: _, [], _ => none
  | (t, acc) :: tmp_accBuf, (_, gyr) :: tmp_gyrBuf, s =>
    updateLatestStatesLoop ext tmp_accBuf tmp_gyrBuf (fastPredictIMU ext s t acc gyr)

/-- Function `Estimator::updateLatestStates`; `none` when `accBuf.back()` is read on an
empty queue. -/
def updateLatestStates (ext : Externals) (s : Estimator) : Option Estimator :=
  let s1 : Estimator :=
    { s with latest_time := s.Headers s.frame_count + s.td,
             latest_P := s.Ps s.frame_count,
             latest_Q := ext.quatOfMatrix (s.Rs s.frame_count),
             latest_V := s.Vs s.frame_count,
             latest_Ba := s.Bas s.frame_count,
             latest_Bg := s.Bgs s.frame_count,
             fast_prop_inited := true,
             latest_acc_0 := s.acc_0,
             latest_gyr_0 := s.gyr_0 }
  match s1.accBuf.getLast? with
  | none => none
  | some _ => updateLatestStatesLoop ext s1.accBuf s1.gyrBuf s1

/-- The start of `processImage(image, header)`, up to the extrinsic-rotation
calibration: the keyframe decision, the header, the new entry of `all_image_frame`, the
fresh `tmp_pre_integration`, and with `ESTIMATE_EXTRINSIC == 2` the calibration.  The
members `R`, `T` of the new `ImageFrame` are uninitialised in the source.  The result
is `none` when the calibration reads a null `pre_integrations[frame_count]`. -/
def processImageHead (ext : Externals) (s : Estimator) (image : FeatureFrame) (header : ℚ) :
    Option Estimator :=
  let r := ext.fmAddFeatureCheckParallax s.f_manager s.frame_count image s.td
  let s1 : Estimator :=
    { s with f_manager := r.2,
             marginalization_flag :=
               if r.1 then MarginalizationFlag.MARGIN_OLD
               else MarginalizationFlag.MARGIN_SECOND_NEW }
  let s2 : Estimator := { s1 with Headers := setAt s1.Headers s1.frame_count header }
  let imageframe : ImageFrame :=
    ⟨image, header, Matrix3d.identity, 0, s2.tmp_pre_integration, false⟩
  let s3 : Estimator :=
    { s2 with all_image_frame := insertFrame s2.all_image_frame header imageframe,
              tmp_pre_integration :=
                some (IntegrationBase.new s2.acc_0 s2.gyr_0 (s2.Bas s2.frame_count)
                  (s2.Bgs s2.frame_count)) }
  if s3.ESTIMATE_EXTRINSIC = 2 then
    if s3.frame_count ≠ 0 then
      let corres := ext.fmGetCorresponding s3.f_manager (s3.frame_count - 1) s3.frame_count
      match s3.pre_integrations s3.frame_count with
      | none => none
      | some pre =>
        let s4 : Estimator :=
          { s3 with initial_ex_rotation := s3.initial_ex_rotation ++ [(corres, pre)] }
        match ext.CalibrationExRotation s3.initial_ex_rotation corres pre with
        | some calib_ric =>
          some { s4 with ric := setAt s4.ric 0 calib_ric,
                         RIC := setAt s4.RIC 0 calib_ric,
                         ESTIMATE_EXTRINSIC := 1 }
        | none => some s4
    else some s3
  else some s3

/-- The block "monocular + IMU initialization" of `processImage`. -/
def processImageMonoInit (ext : Externals) (cfg : Config) (s : Estimator) (header : ℚ) :
    Option Estimator :=
  if cfg.STEREO = false ∧ cfg.USE_IMU = true then
    if s.frame_count = cfg.WINDOW_SIZE then
      if s.ESTIMATE_EXTRINSIC ≠ 2 ∧ header - s.initial_timestamp > 1 / 10 then
        match initialStructure ext cfg s with
        | none => none
        | some (outcome, s1) =>
          let s2 : Estimator := { s1 with initial_timestamp := header }
          if outcome = InitialStructureOutcome.success then
            (optimization ext cfg { s2 with solver_flag := SolverFlag.NON_LINEAR }).map
              (slideWindow ext cfg)
          else some (slideWindow ext cfg s2)
      else some (slideWindow ext cfg s)
    else some s
  else some s

/-- The calls `initFramePoseByPnP` and `triangulate` of the feature manager. -/
def initFramePoseByPnP (ext : Externals) (s : Estimator) : Estimator :=
  let r := ext.fmInitFramePoseByPnP s.f_manager s.frame_count s.Ps s.Rs s.tic s.ric
  { s with f_manager := r.1, Ps := r.2.1, Rs := r.2.2 }

/-- The call `f_manager.triangulate(frame_count, Ps, Rs, tic, ric)`. -/
def triangulate (ext : Externals) (s : Estimator) : Estimator :=
  { s with f_manager := ext.fmTriangulate s.f_manager s.frame_count s.Ps s.Rs s.tic s.ric }

/-- The loop of the stereo + IMU initialization that copies the window poses into the
frames of `all_image_frame`, in map order, from the counter `i`. -/
def assignFramePoses (Rs : Nat → Matrix3d) (Ps : Nat → Vector3d) :
    Nat → List (ℚ × ImageFrame) → List (ℚ × ImageFrame)
  | _, [] => []
  | i, (t, frame) :: rest =>
    (t, { frame with R := Rs i, T := Ps i }) :: assignFramePoses Rs Ps (i + 1) rest

/-- The block "stereo + IMU initialization" of `processImage`. -/
def processImageStereoImuInit (ext : Externals) (cfg : Config) (s : Estimator) :
    Option Estimator :=
  if cfg.STEREO = true ∧ cfg.USE_IMU = true then
    let s1 := triangulate ext (initFramePoseByPnP ext s)
    if s1.frame_count = cfg.WINDOW_SIZE then
      let solved := ext.solveGyroscopeBias (assignFramePoses s1.Rs s1.Ps 0 s1.all_image_frame)
        s1.Bgs
      let s2 : Estimator := { s1 with all_image_frame := solved.1, Bgs := solved.2 }
      match (List.range (cfg.WINDOW_SIZE + 1)).foldlM repropagateSlot s2 with
      | none => none
      | some s3 =>
        (optimization ext cfg { s3 with solver_flag := SolverFlag.NON_LINEAR }).map
          (slideWindow ext cfg)
    else some s1
  else some s

/-- The block "stereo only initialization" of `processImage`. -/
def processImageStereoInit (ext : Externals) (cfg : Config) (s : Estimator) :
    Option Estimator :=
  if cfg.STEREO = true ∧ cfg.USE_IMU = false then
    match optimization ext cfg (triangulate ext (initFramePoseByPnP ext s)) with
    | none => none
    | some s1 =>
      if s1.frame_count = cfg.WINDOW_SIZE then
        some (slideWindow ext cfg { s1 with solver_flag := SolverFlag.NON_LINEAR })
      else some s1
  else some s

/-- The end of the `INITIAL` branch of `processImage`: while the window is not full the
next slot is opened with a copy of the newest state. -/
def processImageAdvance (cfg : Config) (s : Estimator) : Estimator :=
  if s.frame_count < cfg.WINDOW_SIZE then
    let frame_count := s.frame_count + 1
    let prev_frame := frame_count - 1
    { s with frame_count := frame_count,
             Ps := setAt s.Ps frame_count (s.Ps prev_frame),
             Vs := setAt s.Vs frame_count (s.Vs prev_frame),
             Rs := setAt s.Rs frame_count (s.Rs prev_frame),
             Bas := setAt s.Bas frame_count (s.Bas prev_frame),
             Bgs := setAt s.Bgs frame_count (s.Bgs prev_frame) }
  else s

/-- The `else` branch of `processImage` (`solver_flag == NON_LINEAR`). -/
def processImageNonLinear (ext : Externals) (cfg : Config) (s : Estimator) (header : ℚ) :
    Option Estimator :=
  let s1 := if cfg.USE_IMU then s else initFramePoseByPnP ext s
  match optimization ext cfg (triangulate ext s1) with
  | none => none
  | some s2 =>
    match outliersRejection ext cfg s2 ∅ with
    | none => none
    | some (s3, removeIndex) =>
      let s4 : Estimator := { s3 with f_manager := ext.fmRemoveOutlier s3.f_manager removeIndex }
      let s5 := predictPtsInNextFrame ext s4
      if failureDetection s5 then
        some (setParameter ext cfg (clearState ext cfg { s5 with failure_occur := 1 }))
      else
        let s6 := slideWindow ext cfg s5
        let s7 : Estimator := { s6 with f_manager := ext.fmRemoveFailures s6.f_manager }
        let s8 : Estimator :=
          { s7 with key_poses := (List.range (cfg.WINDOW_SIZE + 1)).map s7.Ps,
                    last_R := s7.Rs cfg.WINDOW_SIZE,
                    last_P := s7.Ps cfg.WINDOW_SIZE,
                    last_R0 := s7.Rs 0,
                    last_P0 := s7.Ps 0 }
        updateLatestStates ext
          { s8 with odometry_buf := s8.odometry_buf ++ [(header, s8.last_R, s8.last_P)] }

/-- Function `Estimator::processImage(image, header)`.  The three initialization blocks
are consecutive `if` statements, each guarded by its mode. -/
def processImage (ext : Externals) (cfg : Config) (s : Estimator) (image : FeatureFrame)
    (header : ℚ) : Option Estimator :=
  match processImageHead ext s image header with
  | none => none
  | some s1 =>
    if s1.solver_flag = SolverFlag.INITIAL then
      match processImageMonoInit ext cfg s1 header with
      | none => none
      | some s2 =>
        match processImageStereoImuInit ext cfg s2 with
        | none => none
        | some s3 =>
          match processImageStereoInit ext cfg s3 with
          | none => none
          | some s4 => some (processImageAdvance cfg s4)
    else processImageNonLinear ext cfg s1 header

/-- The members that decide which branch of `processImage` and `slideWindow` runs. -/
def Estimator.mode (s : Estimator) : Nat × SolverFlag × MarginalizationFlag :=
  (s.frame_count, s.solver_flag, s.marginalization_flag)

/-- The keyframe decision of `processImage`: `MARGIN_OLD` when `addFeatureCheckParallax`
returns true, else `MARGIN_SECOND_NEW`. -/
def keyframeFlag (ext : Externals) (s : Estimator) (image : FeatureFrame) :
    MarginalizationFlag :=
  if (ext.fmAddFeatureCheckParallax s.f_manager s.frame_count image s.td).1 then
    MarginalizationFlag.MARGIN_OLD
  else MarginalizationFlag.MARGIN_SECOND_NEW

/-- The condition under which the mono + IMU block of `processImage` attempts the
initialization on a full window. -/
def InitializationAttempted (s : Estimator) (header : ℚ) : Prop :=
  s.ESTIMATE_EXTRINSIC ≠ 2 ∧ header - s.initial_timestamp > 1 / 10

instance (s : Estimator) (header : ℚ) : Decidable (InitializationAttempted s header) := by
  unfold InitializationAttempted; infer_instance

/-- External routines of a feature manager that declares every frame a keyframe. -/
def keyframeExternals : Externals :=
  { demoExternals with fmAddFeatureCheckParallax := fun m _ _ _ => (true, m) }

/-- The configuration `demoConfig` with a single camera stream (`STEREO = 0`): the
monocular + IMU mode. -/
def monoConfig : Config := { demoConfig with STEREO := false }

/-- External routines under which an image is never a keyframe, `relativePose` accepts
slot 0 (30 correspondences with the newest slot) and the global structure from motion
fails. -/
def sfmFailingExternals : Externals := correspondingExternals 30

/-- What a test can see of the slide that ran: the solver flag, the marginalization
flag, and the two slide counters `sum_of_back` (keyframe slides) and `sum_of_front`
(non-keyframe slides). -/
def Estimator.slideRecord (s : Estimator) : SolverFlag × MarginalizationFlag × Int × Int :=
  (s.solver_flag, s.marginalization_flag, s.sum_of_back, s.sum_of_front)

/-- The full window `demoWindowOld` as `processImage` finds it when the third image
(header 2) arrives: the frames of headers 0 and 1 are in `all_image_frame`, the
pre-integrations of the slots and the one being accumulated are allocated. -/
def demoMonoWindow : Estimator :=
  { demoWindowOld with
    pre_integrations := fun _ => some (IntegrationBase.new 0 0 0 0),
    tmp_pre_integration := some (IntegrationBase.new 0 0 0 0),
    all_image_frame :=
      [(0, ⟨[], 0, Matrix3d.identity, 0, none, false⟩),
       (1, ⟨[], 1, Matrix3d.identity, 0, some (IntegrationBase.new 0 0 0 0), false⟩)] }

/-! ## `processMeasurements`: the integration steps of one image -/

/-- The value `dt` of iteration `i` of the IMU loop of `processMeasurements`:
`accVector[0].first - prevTime` for the first sample, `curTime - accVector[i - 1].first`
for the last one, and the difference of consecutive timestamps otherwise, each computed
in `double`, that is rounded. -/
def processMeasurementsDt (prevTime curTime : ℚ) (accVector : List Stamped) (i : Nat) : ℚ :=
  if i = 0 then roundDouble ((accVector.getD i (0, 0)).1 - prevTime)
  else if i = accVector.length - 1 then
    roundDouble (curTime - (accVector.getD (i - 1) (0, 0)).1)
  else roundDouble ((accVector.getD i (0, 0)).1 - (accVector.getD (i - 1) (0, 0)).1)

/-- The values `dt` the IMU loop of `processMeasurements` hands to `processIMU`, in call
order (`for (size_t i = 0; i < accVector.size(); i++)`). -/
def processMeasurementsDts (prevTime curTime : ℚ) (accVector : List Stamped) : List ℚ :=
  (List.range accVector.length).map (processMeasurementsDt prevTime curTime accVector)

/-- The difference of which `processMeasurementsDt` is the rounding: the time between
the two instants iteration `i` subtracts, in exact arithmetic. -/
def processMeasurementsGap (prevTime curTime : ℚ) (accVector : List Stamped) (i : Nat) : ℚ :=
  if i = 0 then (accVector.getD i (0, 0)).1 - prevTime
  else if i = accVector.length - 1 then curTime - (accVector.getD (i - 1) (0, 0)).1
  else (accVector.getD i (0, 0)).1 - (accVector.getD (i - 1) (0, 0)).1

/-- The sum of a list of doubles accumulated term by term in a `double` variable
(`sum += dt`), each addition rounded. -/
def sumInDouble (l : List ℚ) : ℚ := l.foldl (fun acc dt => roundDouble (acc + dt)) 0

/-- The slice of the time-alignment scenario: the 102 samples whose stamps are the
doubles nearest to 0.000, 0.005, ..., 0.505. -/
def scenarioSlice : List Stamped :=
  (List.range 102).map (fun k => (roundDouble ((5 * (k : ℚ)) / 1000), 0))

/-- The image time of the time-alignment scenario: the double sum of the doubles nearest
to 0.503 and 0.002, which is the double nearest to 0.505. -/
def scenarioCurTime : ℚ := roundDouble (roundDouble (503 / 1000) + roundDouble (2 / 1000))

/-- A queue of samples stamped with the doubles nearest to 0.005, 0.010 and 0.015 (IMU
at 200 Hz, no sample at time 0). -/
def demoLateQueue : List Stamped :=
  (List.range 3).map (fun k => (roundDouble ((5 * ((k : ℚ) + 1)) / 1000), 0))

/-! ## Feature tracker: `ptsVelocity` -/

/-- Two queues whose newest sample is stamped 1, as the guard `t1 <= accBuf.back().first`
admits them for `t1 = 1`. -/
def demoQueue : List Stamped := [(0, 0), (1, 0)]

/-- Acceleration samples stamped 1, 2, 3. -/
def demoAccQueue : List Stamped := [(1, 0), (2, 0), (3, 0)]

/-- Gyroscope samples stamped half a unit after the acceleration samples of
`demoAccQueue`. -/
def demoGyrQueueShifted : List Stamped := [(3 / 2, 0), (5 / 2, 0), (7 / 2, 0)]

/-- The three IMU sample buffers of slot `i` hold the same number of samples (as
`processIMU` pushes them). -/
def BuffersAligned (s : Estimator) (i : Nat) : Prop :=
  (s.linear_acceleration_buf i).length = (s.dt_buf i).length ∧
  (s.angular_velocity_buf i).length = (s.dt_buf i).length

instance (s : Estimator) (i : Nat) : Decidable (BuffersAligned s i) := by
  unfold BuffersAligned; infer_instance

/-- The pre-integration `p` after the samples of the three lists have been pushed into
it, one `push_back` each, in order. -/
def IntegrationBase.pushed (p : IntegrationBase) (dts : List ℚ) (accs gyrs : List Vector3d) :
    IntegrationBase :=
  { p with dt_buf := p.dt_buf ++ dts, acc_buf := p.acc_buf ++ accs,
           gyr_buf := p.gyr_buf ++ gyrs }

/-- The window `demoWindowNew` with allocated pre-integrations. -/
def demoMergeWindow : Estimator :=
  { demoWindowNew with pre_integrations := fun _ => some (IntegrationBase.new 0 0 0 0) }

/-! ## `visualInitialAlign`: the positions of the new world frame -/

/-- Matrix difference `A - B`. -/
def Matrix3d.sub (a b : Matrix3d) : Matrix3d := ⟨a.r0 - b.r0, a.r1 - b.r1, a.r2 - b.r2⟩

instance : Sub Matrix3d := ⟨Matrix3d.sub⟩

/-- The outcome of the call `VisualIMUAlignment(all_image_frame, Bgs, g, x)` at the head
of `visualInitialAlign`. -/
def Estimator.alignment (ext : Externals) (s : Estimator) : AlignmentResult :=
  ext.VisualIMUAlignment s.all_image_frame s.Bgs s.g

/-- The part of `visualInitialAlign` after the re-propagation loop, on the estimator
`s3` that loop leaves: rescaling, velocities, rotation into the gravity-aligned world
and re-triangulation. -/
def visualInitialAlignTail (ext : Externals) (x : List ℚ) (s3 : Estimator) : Estimator :=
  let scale := x.getLastD 0
  let s4 := (List.range (s3.frame_count + 1)).reverse.foldl
    (visualInitialAlignScale scale) s3
  let s5 := (s4.all_image_frame.foldl (visualInitialAlignVelocity x) (-1, s4)).2
  let R0 := ext.g2R s5.g
  let yaw := (ext.R2ypr (R0 * s5.Rs 0)).x
  let R1 := ext.ypr2R ⟨-yaw, 0, 0⟩ * R0
  let s6 : Estimator := { s5 with g := R1 * s5.g }
  let rot_diff := R1
  let s7 := (List.range (s6.frame_count + 1)).foldl (visualInitialAlignRotate rot_diff) s6
  let s8 : Estimator := { s7 with f_manager := ext.fmClearDepth s7.f_manager }
  { s8 with
    f_manager := ext.fmTriangulate s8.f_manager s8.frame_count s8.Ps s8.Rs s8.tic s8.ric }

/-! ## `optimization`: the reprojection residuals, feature by feature -/

/-- Whether a cost function is a two-frame one-camera reprojection factor. -/
def Factor.isTwoFrameOneCam : Factor → Bool
  | Factor.ProjectionTwoFrameOneCamFactor _ _ _ _ _ _ => true
  | _ => false

/-- Whether a cost function is a two-frame two-camera reprojection factor. -/
def Factor.isTwoFrameTwoCam : Factor → Bool
  | Factor.ProjectionTwoFrameTwoCamFactor _ _ _ _ _ _ => true
  | _ => false

/-- Whether a cost function is a one-frame two-camera reprojection factor. -/
def Factor.isOneFrameTwoCam : Factor → Bool
  | Factor.ProjectionOneFrameTwoCamFactor _ _ _ _ _ _ => true
  | _ => false

/-- The residual blocks the specification lists for the observation `o` of a feature
anchored at slot `imu_i`, `k` slots after the anchor (slot `j = imu_i + k`): a
two-frame one-camera residual when `j ≠ i`, and for a stereo observation with `STEREO`
a two-frame two-camera residual when `j ≠ i`, a one-frame two-camera residual when
`j = i`. -/
def observationResiduals (cfg : Config) (imu_i : Int) (main_cam : Nat)
    (first : FeaturePerFrame) (feature_index : Nat) (k : Nat) (o : FeaturePerFrame) :
    List ResidualBlock :=
  (if k ≠ 0 then
    [⟨Factor.ProjectionTwoFrameOneCamFactor first.point o.point first.velocity o.velocity
        first.cur_td o.cur_td,
      LossFunction.HuberLoss,
      [BlockId.para_Pose imu_i.toNat, BlockId.para_Pose (imu_i + k).toNat,
       BlockId.para_Ex_Pose main_cam, BlockId.para_Feature feature_index,
       BlockId.para_Td 0]⟩]
   else []) ++
  (if cfg.STEREO = true ∧ o.is_stereo = true then
    if k ≠ 0 then
      [⟨Factor.ProjectionTwoFrameTwoCamFactor first.point o.pointRight first.velocity
          o.velocityRight first.cur_td o.cur_td,
        LossFunction.HuberLoss,
        [BlockId.para_Pose imu_i.toNat, BlockId.para_Pose (imu_i + k).toNat,
         BlockId.para_Ex_Pose 0, BlockId.para_Ex_Pose 1,
         BlockId.para_Feature feature_index, BlockId.para_Td 0]⟩]
    else
      [⟨Factor.ProjectionOneFrameTwoCamFactor first.point o.pointRight first.velocity
          o.velocityRight first.cur_td o.cur_td,
        LossFunction.HuberLoss,
        [BlockId.para_Ex_Pose 0, BlockId.para_Ex_Pose 1,
         BlockId.para_Feature feature_index, BlockId.para_Td 0]⟩]
   else [])

/-- The residual blocks of the observations `l`, the first of which is `k` slots after
the anchor, in order. -/
def observationResidualsFrom (cfg : Config) (imu_i : Int) (main_cam : Nat)
    (first : FeaturePerFrame) (feature_index : Nat) :
    Nat → List FeaturePerFrame → List ResidualBlock
  | _, [] => []
  | k, o :: rest =>
    observationResiduals cfg imu_i main_cam first feature_index k o ++
      observationResidualsFrom cfg imu_i main_cam first feature_index (k + 1) rest

/-- The reprojection residual blocks of the feature stored under `id`, in the order of
its observations. -/
def featureResiduals (cfg : Config) (s : Estimator) (id : Int) : List ResidualBlock :=
  match s.f_manager.feature.lookup id with
  | none => []
  | some f =>
    match f.feature_per_frame with
    | [] => []
    | first :: rest =>
      observationResidualsFrom cfg f.start_frame f.main_cam first
        (featureIndex s f.feature_id) 0 (first :: rest)

/-- A feature anchored at slot 0 with three observations, at slots 0 and 1 in both
cameras and at slot 2 in the main camera only, whose main camera is `main_cam`. -/
def stereoFeature (main_cam : Nat) : FeaturePerId :=
  { feature_id := 5, start_frame := 0,
    feature_per_frame := [⟨⟨0, 0, 1⟩, ⟨0, 0, 1⟩, true, 0, 0, 0⟩,
                          ⟨⟨1, 0, 1⟩, ⟨0, 0, 1⟩, true, 0, 0, 0⟩,
                          ⟨⟨2, 0, 1⟩, ⟨0, 0, 1⟩, false, 0, 0, 0⟩],
    used_num := 0, estimated_depth := 1, main_cam := main_cam }

/-- A full window with present pre-integrations and one feature, anchored at slot 0 and
observed at slots 0, 1 (both in stereo) and 2 (main camera only), whose main camera is
`main_cam`. -/
def demoStereoWindow (main_cam : Nat) : Estimator :=
  { demoWindowOld with
    pre_integrations := fun _ => some (IntegrationBase.new 0 0 0 0),
    param_feature_id := [5],
    param_feature_id_to_index := [(5, 0)],
    f_manager := { feature := [(5, stereoFeature main_cam)], last_track_num := 1 } }

/-! ## `optimization`: the MARGIN_OLD submodel against the problem -/

/-- The state of the initialization state machine: `frame_count` and `solver_flag`. -/
def Estimator.phase (s : Estimator) : Nat × SolverFlag := (s.frame_count, s.solver_flag)

/-- One `processImage` call per element `(image, header)` of the list, in order; `none`
as soon as a call does not return. -/
def processImages (ext : Externals) (cfg : Config) (s : Estimator)
    (calls : List (FeatureFrame × ℚ)) : Option Estimator :=
  calls.foldlM (fun (s : Estimator) c => processImage ext cfg s c.1 c.2) s

/-- The window `demoCalibrating` after the initialization (`solver_flag = NON_LINEAR`),
with one IMU sample in the queues. -/
def demoNonLinear : Estimator :=
  { demoCalibrating with
    solver_flag := SolverFlag.NON_LINEAR,
    accBuf := [(3, 0)], gyrBuf := [(3, 0)] }

/-- The latch `openExEstimation` is not cleared on the way from `a` to `b`. -/
def LatchKept (a b : Estimator) : Prop :=
  a.openExEstimation = true → b.openExEstimation = true

/-- The estimator states that follow a state `s`: those reached from it by any sequence
of returning calls of the embedded functions that write the estimator. -/
inductive LaterState (ext : Externals) (cfg : Config) (s : Estimator) : Estimator → Prop
  | start : LaterState ext cfg s s
  | processImage (a b : Estimator) (image : FeatureFrame) (header : ℚ) :
      LaterState ext cfg s a → processImage ext cfg a image header = some b →
      LaterState ext cfg s b
  | optimization (a b : Estimator) :
      LaterState ext cfg s a → optimization ext cfg a = some b → LaterState ext cfg s b
  | solve (a : Estimator) (arrays : ParameterArrays) :
      LaterState ext cfg s a →
      LaterState ext cfg s (double2vector ext cfg (a.setParameterArrays arrays))
  | vector2double (a : Estimator) :
      LaterState ext cfg s a → LaterState ext cfg s (vector2double ext cfg a)
  | marginalizeOld (a b : Estimator) :
      LaterState ext cfg s a → marginalizeOld ext cfg a = some b → LaterState ext cfg s b
  | marginalizeSecondNew (a b : Estimator) :
      LaterState ext cfg s a → marginalizeSecondNew ext cfg a = some b →
      LaterState ext cfg s b
  | slideWindow (a : Estimator) :
      LaterState ext cfg s a → LaterState ext cfg s (slideWindow ext cfg a)
  | clearState (a : Estimator) :
      LaterState ext cfg s a → LaterState ext cfg s (clearState ext cfg a)
  | setParameter (a : Estimator) :
      LaterState ext cfg s a → LaterState ext cfg s (setParameter ext cfg a)
  | inputIMU (a : Estimator) (t : ℚ) (acc gyr : Vector3d) :
      LaterState ext cfg s a → LaterState ext cfg s (inputIMU ext a t acc gyr)
  | inputImage (a : Estimator) (t : ℚ) (img img1 : CvMat) (ff : FeatureFrame) :
      LaterState ext cfg s a → LaterState ext cfg s (inputImage a t img img1 ff)
  | inputFisheyeImage (a : Estimator) (t : ℚ) (up down : CvImages) (ff : FeatureFrame) :
      LaterState ext cfg s a → LaterState ext cfg s (inputFisheyeImage cfg a t up down ff)
  | getIMUInterval (a : Estimator) (t0 t1 : ℚ) (accVector gyrVector : List Stamped)
      (r : IMUIntervalOutcome) :
      LaterState ext cfg s a → getIMUInterval a t0 t1 accVector gyrVector = some r →
      LaterState ext cfg s r.est

/-! # Theorems -/

/-! ## Double-precision rounding -/

theorem pow2_eq (e : ℤ) : pow2 e = (2 : ℚ) ^ e := by
  unfold pow2
  split_ifs with h
  · obtain ⟨n, rfl⟩ := Int.eq_ofNat_of_zero_le h
    simp
  · have h0 : 0 ≤ -e := by omega
    obtain ⟨n, hn⟩ := Int.eq_ofNat_of_zero_le h0
    have he : e = -(n : ℤ) := by omega
    subst he
    simp

/-- With enough fuel the recursion finds the position of the leading bit. -/
theorem log2Fuel_spec : ∀ (fuel n : Nat), n ≠ 0 → n ≤ fuel →
    2 ^ log2Fuel fuel n ≤ n ∧ n < 2 ^ (log2Fuel fuel n + 1) := by
  intro fuel
  induction fuel with
  | zero =>
    intro n h0 hle
    omega
  | succ fuel ih =>
    intro n h0 hle
    by_cases h2 : n < 2
    · have h1 : n = 1 := by omega
      subst h1
      simp [log2Fuel]
    · simp only [log2Fuel, h2, if_false]
      obtain ⟨a, b⟩ := ih (n / 2) (by omega) (by omega)
      rw [pow_succ] at b ⊢
      rw [pow_succ]
      omega

theorem natLog2_spec (n : Nat) (h : n ≠ 0) :
    2 ^ natLog2 n ≤ n ∧ n < 2 ^ (natLog2 n + 1) :=
  log2Fuel_spec n n h le_rfl

/-- The binary exponent `e` of a positive rational `x` satisfies `2 ^ e ≤ x < 2 ^ (e + 1)`. -/
theorem binaryExponent_spec (x : ℚ) (hx : 0 < x) :
    (2 : ℚ) ^ binaryExponent x ≤ x ∧ x < (2 : ℚ) ^ (binaryExponent x + 1) := by
  have hnum : 0 < x.num := Rat.num_pos.mpr hx
  have hn0 : x.num.natAbs ≠ 0 := by omega
  have hd0 : x.den ≠ 0 := x.den_ne_zero
  obtain ⟨a1, a2⟩ := natLog2_spec x.num.natAbs hn0
  obtain ⟨b1, b2⟩ := natLog2_spec x.den hd0
  have hxe : x = (x.num.natAbs : ℚ) / (x.den : ℚ) := by
    have hc : (x.num.natAbs : ℚ) = (x.num : ℚ) := by
      rw [← Int.cast_natCast, Int.natAbs_of_nonneg hnum.le]
    rw [hc]
    exact (Rat.num_div_den x).symm
  have a1q : (2 : ℚ) ^ natLog2 x.num.natAbs ≤ (x.num.natAbs : ℚ) := by exact_mod_cast a1
  have a2q : (x.num.natAbs : ℚ) < (2 : ℚ) ^ (natLog2 x.num.natAbs + 1) := by exact_mod_cast a2
  have b1q : (2 : ℚ) ^ natLog2 x.den ≤ (x.den : ℚ) := by exact_mod_cast b1
  have b2q : (x.den : ℚ) < (2 : ℚ) ^ (natLog2 x.den + 1) := by exact_mod_cast b2
  have hdpos : (0 : ℚ) < (x.den : ℚ) := by exact_mod_cast Nat.pos_of_ne_zero hd0
  have two : (2 : ℚ) ≠ 0 := two_ne_zero
  have lower : (2 : ℚ) ^ ((natLog2 x.num.natAbs : ℤ) - (natLog2 x.den : ℤ) - 1) ≤ x := by
    have he : ((natLog2 x.num.natAbs : ℤ) - (natLog2 x.den : ℤ) - 1) =
        ((natLog2 x.num.natAbs : ℕ) : ℤ) - ((natLog2 x.den + 1 : ℕ) : ℤ) := by
      push_cast
      ring
    rw [he, zpow_sub₀ two, zpow_natCast, zpow_natCast]
    conv_rhs => rw [hxe]
    exact div_le_div₀ (Nat.cast_nonneg _) a1q hdpos b2q.le
  have upper : x < (2 : ℚ) ^ ((natLog2 x.num.natAbs : ℤ) - (natLog2 x.den : ℤ) + 1) := by
    have he : ((natLog2 x.num.natAbs : ℤ) - (natLog2 x.den : ℤ) + 1) =
        ((natLog2 x.num.natAbs + 1 : ℕ) : ℤ) - ((natLog2 x.den : ℕ) : ℤ) := by
      push_cast
      ring
    rw [he, zpow_sub₀ two, zpow_natCast, zpow_natCast]
    conv_lhs => rw [hxe]
    exact div_lt_div₀ a2q b1q (by positivity) (by positivity)
  unfold binaryExponent
  simp only [pow2_eq]
  split_ifs with h
  · refine ⟨lower, ?_⟩
    rw [sub_add_cancel]
    exact h
  · exact ⟨not_lt.mp h, upper⟩

/-- The binary exponent is the only integer `e` with `2 ^ e ≤ x < 2 ^ (e + 1)`. -/
theorem binaryExponent_unique (x : ℚ) (hx : 0 < x) (e : ℤ) (h1 : (2 : ℚ) ^ e ≤ x)
    (h2 : x < (2 : ℚ) ^ (e + 1)) : binaryExponent x = e := by
  obtain ⟨a, b⟩ := binaryExponent_spec x hx
  have one : (1 : ℚ) < 2 := by norm_num
  have c1 : binaryExponent x < e + 1 :=
    (zpow_lt_zpow_iff_right₀ one).mp (lt_of_le_of_lt a h2)
  have c2 : e < binaryExponent x + 1 :=
    (zpow_lt_zpow_iff_right₀ one).mp (lt_of_le_of_lt h1 b)
  omega

/-- Rounding to the nearest integer moves a number by at most one half. -/
theorem roundHalfEven_spec (q : ℚ) : |(roundHalfEven q : ℚ) - q| ≤ 1 / 2 := by
  have h1 := Int.floor_le q
  have h2 := Int.lt_floor_add_one q
  unfold roundHalfEven
  simp only []
  rw [abs_le]
  split_ifs <;> push_cast <;> constructor <;> linarith

theorem roundHalfEven_intCast (m : ℤ) : roundHalfEven (m : ℚ) = m := by
  unfold roundHalfEven
  simp

theorem roundHalfEven_bounds (q : ℚ) : ⌊q⌋ ≤ roundHalfEven q ∧ roundHalfEven q ≤ ⌊q⌋ + 1 := by
  unfold roundHalfEven
  simp only []
  split_ifs <;> omega

theorem roundDouble_zero : roundDouble 0 = 0 := by
  simp [roundDouble]

/-- The rounding of a positive number: the significand `x / 2 ^ (e - 52)` rounded to an
integer, scaled back. -/
theorem roundDouble_of_pos (x : ℚ) (hx : 0 < x) :
    roundDouble x =
      (roundHalfEven (x / (2 : ℚ) ^ (binaryExponent x - 52)) : ℚ) *
        (2 : ℚ) ^ (binaryExponent x - 52) := by
  unfold roundDouble
  rw [if_neg hx.ne', abs_of_pos hx]
  simp only [pow2_eq]
  rw [if_neg (not_lt.mpr hx.le)]

/-- Rounding is symmetric about zero. -/
theorem roundDouble_neg (x : ℚ) : roundDouble (-x) = -roundDouble x := by
  rcases lt_trichotomy x 0 with h | h | h
  · have hn : ¬ (-x < 0) := by linarith
    unfold roundDouble
    rw [if_neg (by linarith : ¬ -x = 0), if_neg (by linarith : ¬ x = 0)]
    simp only [abs_neg]
    rw [if_neg hn, if_pos h]
    simp
  · subst h
    simp [roundDouble]
  · have hn : -x < 0 := by linarith
    unfold roundDouble
    rw [if_neg (by linarith : ¬ -x = 0), if_neg (by linarith : ¬ x = 0)]
    simp only [abs_neg]
    rw [if_pos hn, if_neg (by linarith : ¬ x < 0)]

/-- The significand of a positive number lies in `[2^52, 2^53)`, and so does its
rounding, up to the end point. -/
theorem significand_bounds (x : ℚ) (hx : 0 < x) :
    (2 : ℚ) ^ (52 : ℕ) ≤ x / (2 : ℚ) ^ (binaryExponent x - 52) ∧
    x / (2 : ℚ) ^ (binaryExponent x - 52) < (2 : ℚ) ^ (53 : ℕ) ∧
    (2 : ℤ) ^ (52 : ℕ) ≤ roundHalfEven (x / (2 : ℚ) ^ (binaryExponent x - 52)) ∧
    roundHalfEven (x / (2 : ℚ) ^ (binaryExponent x - 52)) ≤ (2 : ℤ) ^ (53 : ℕ) := by
  obtain ⟨a, b⟩ := binaryExponent_spec x hx
  have two : (2 : ℚ) ≠ 0 := two_ne_zero
  have hu : (0 : ℚ) < (2 : ℚ) ^ (binaryExponent x - 52) := zpow_pos (by norm_num) _
  have e1 : (2 : ℚ) ^ binaryExponent x = (2 : ℚ) ^ (52 : ℕ) * (2 : ℚ) ^ (binaryExponent x - 52) := by
    rw [← zpow_natCast, ← zpow_add₀ two]
    congr 1
    push_cast
    ring
  have e2 : (2 : ℚ) ^ (binaryExponent x + 1) =
      (2 : ℚ) ^ (53 : ℕ) * (2 : ℚ) ^ (binaryExponent x - 52) := by
    rw [← zpow_natCast, ← zpow_add₀ two]
    congr 1
    push_cast
    ring
  have q1 : (2 : ℚ) ^ (52 : ℕ) ≤ x / (2 : ℚ) ^ (binaryExponent x - 52) := by
    rw [le_div_iff₀ hu, ← e1]
    exact a
  have q2 : x / (2 : ℚ) ^ (binaryExponent x - 52) < (2 : ℚ) ^ (53 : ℕ) := by
    rw [div_lt_iff₀ hu, ← e2]
    exact b
  obtain ⟨r1, r2⟩ := roundHalfEven_bounds (x / (2 : ℚ) ^ (binaryExponent x - 52))
  have f1 : (2 : ℤ) ^ (52 : ℕ) ≤ ⌊x / (2 : ℚ) ^ (binaryExponent x - 52)⌋ := by
    rw [Int.le_floor]
    push_cast
    exact q1
  have f2 : ⌊x / (2 : ℚ) ^ (binaryExponent x - 52)⌋ < (2 : ℤ) ^ (53 : ℕ) := by
    rw [Int.floor_lt]
    push_cast
    exact q2
  exact ⟨q1, q2, le_trans f1 r1, by omega⟩

/-- Rounding keeps the sign of a positive number. -/
theorem roundDouble_pos (x : ℚ) (hx : 0 < x) : 0 < roundDouble x := by
  obtain ⟨_, _, m1, _⟩ := significand_bounds x hx
  rw [roundDouble_of_pos x hx]
  apply mul_pos
  · have h : (0 : ℤ) < roundHalfEven (x / (2 : ℚ) ^ (binaryExponent x - 52)) :=
      lt_of_lt_of_le (by norm_num) m1
    exact_mod_cast h
  · exact zpow_pos (by norm_num) _

/-- The relative error of one rounding is at most `2 ^ -53`. -/
theorem roundDouble_error (x : ℚ) : |roundDouble x - x| ≤ |x| / 2 ^ (53 : ℕ) := by
  have key : ∀ y : ℚ, 0 < y → |roundDouble y - y| ≤ |y| / 2 ^ (53 : ℕ) := by
    intro y hy
    obtain ⟨a, _⟩ := binaryExponent_spec y hy
    have two : (2 : ℚ) ≠ 0 := two_ne_zero
    have hu : (0 : ℚ) < (2 : ℚ) ^ (binaryExponent y - 52) := zpow_pos (by norm_num) _
    have e1 : (2 : ℚ) ^ binaryExponent y =
        (2 : ℚ) ^ (52 : ℕ) * (2 : ℚ) ^ (binaryExponent y - 52) := by
      rw [← zpow_natCast, ← zpow_add₀ two]
      congr 1
      push_cast
      ring
    have hr := roundHalfEven_spec (y / (2 : ℚ) ^ (binaryExponent y - 52))
    rw [roundDouble_of_pos y hy, abs_of_pos hy]
    have hd : (roundHalfEven (y / (2 : ℚ) ^ (binaryExponent y - 52)) : ℚ) *
          (2 : ℚ) ^ (binaryExponent y - 52) - y =
        ((roundHalfEven (y / (2 : ℚ) ^ (binaryExponent y - 52)) : ℚ) -
          y / (2 : ℚ) ^ (binaryExponent y - 52)) * (2 : ℚ) ^ (binaryExponent y - 52) := by
      field_simp
    rw [hd, abs_mul, abs_of_pos hu]
    have h1 : |(roundHalfEven (y / (2 : ℚ) ^ (binaryExponent y - 52)) : ℚ) -
          y / (2 : ℚ) ^ (binaryExponent y - 52)| * (2 : ℚ) ^ (binaryExponent y - 52) ≤
        1 / 2 * (2 : ℚ) ^ (binaryExponent y - 52) :=
      mul_le_mul_of_nonneg_right hr hu.le
    have h2 : 1 / 2 * (2 : ℚ) ^ (binaryExponent y - 52) ≤ y / 2 ^ (53 : ℕ) := by
      rw [le_div_iff₀ (by positivity)]
      have h3 : 1 / 2 * (2 : ℚ) ^ (binaryExponent y - 52) * 2 ^ (53 : ℕ) =
          (2 : ℚ) ^ (52 : ℕ) * (2 : ℚ) ^ (binaryExponent y - 52) := by
        norm_num
        ring
      rw [h3, ← e1]
      exact a
    exact le_trans h1 h2
  rcases lt_trichotomy x 0 with h | h | h
  · have hk := key (-x) (by linarith)
    rw [roundDouble_neg, abs_neg] at hk
    have he : -roundDouble x - -x = -(roundDouble x - x) := by ring
    rw [he, abs_neg] at hk
    exact hk
  · subst h
    simp [roundDouble_zero]
  · exact key x h

/-- A number with a significand of 53 bits is a `double`. -/
theorem roundDouble_significand (m k : ℤ) (h1 : (2 : ℤ) ^ (52 : ℕ) ≤ m)
    (h2 : m < (2 : ℤ) ^ (53 : ℕ)) :
    roundDouble ((m : ℚ) * (2 : ℚ) ^ k) = (m : ℚ) * (2 : ℚ) ^ k := by
  have two : (2 : ℚ) ≠ 0 := two_ne_zero
  have hk : (0 : ℚ) < (2 : ℚ) ^ k := zpow_pos (by norm_num) _
  have hm1 : (2 : ℚ) ^ (52 : ℕ) ≤ (m : ℚ) := by exact_mod_cast h1
  have hm2 : (m : ℚ) < (2 : ℚ) ^ (53 : ℕ) := by exact_mod_cast h2
  have hpos : (0 : ℚ) < (m : ℚ) * (2 : ℚ) ^ k :=
    mul_pos (lt_of_lt_of_le (by positivity) hm1) hk
  have e1 : (2 : ℚ) ^ (52 + k) = (2 : ℚ) ^ (52 : ℕ) * (2 : ℚ) ^ k := by
    rw [zpow_add₀ two]
    norm_num
  have e2 : (2 : ℚ) ^ (52 + k + 1) = (2 : ℚ) ^ (53 : ℕ) * (2 : ℚ) ^ k := by
    rw [show 52 + k + 1 = 53 + k by ring, zpow_add₀ two]
    norm_num
  have he : binaryExponent ((m : ℚ) * (2 : ℚ) ^ k) = 52 + k := by
    apply binaryExponent_unique _ hpos
    · rw [e1]
      exact mul_le_mul_of_nonneg_right hm1 hk.le
    · rw [e2]
      exact mul_lt_mul_of_pos_right hm2 hk
  rw [roundDouble_of_pos _ hpos, he]
  have hs : 52 + k - 52 = k := by ring
  rw [hs, mul_div_assoc, div_self hk.ne', mul_one, roundHalfEven_intCast]

/-- Rounding a `double` leaves it as it is: rounding is idempotent. -/
theorem roundDouble_idem (x : ℚ) : roundDouble (roundDouble x) = roundDouble x := by
  have key : ∀ y : ℚ, 0 < y → roundDouble (roundDouble y) = roundDouble y := by
    intro y hy
    obtain ⟨_, _, m1, m2⟩ := significand_bounds y hy
    rw [roundDouble_of_pos y hy]
    rcases lt_or_eq_of_le m2 with h | h
    · exact roundDouble_significand _ _ m1 h
    · rw [h]
      have two : (2 : ℚ) ≠ 0 := two_ne_zero
      have e : (((2 : ℤ) ^ (53 : ℕ) : ℤ) : ℚ) * (2 : ℚ) ^ (binaryExponent y - 52) =
          (((2 : ℤ) ^ (52 : ℕ) : ℤ) : ℚ) * (2 : ℚ) ^ (binaryExponent y - 52 + 1) := by
        rw [zpow_add₀ two]
        push_cast
        ring
      rw [e]
      exact roundDouble_significand _ _ le_rfl (by norm_num)
  rcases lt_trichotomy x 0 with h | h | h
  · have hk := key (-x) (by linarith)
    rw [roundDouble_neg, roundDouble_neg] at hk
    exact neg_injective hk
  · subst h
    simp [roundDouble_zero]
  · exact key x h

theorem isDouble_roundDouble (x : ℚ) : IsDouble (roundDouble x) := roundDouble_idem x

theorem isDouble_zero : IsDouble 0 := roundDouble_zero

theorem shiftedCopy_zero {α : Type} (a : Nat → α) : shiftedCopy a 0 = a := by
  funext j
  simp [shiftedCopy]

theorem rotated_zero {α : Type} (a : Nat → α) : rotated a 0 = a := by
  funext j
  by_cases h : j = 0
  · simp [rotated, h]
  · simp [rotated, h]

theorem shiftedCopy_succ {α : Type} (a : Nat → α) (k : Nat) :
    setAt (shiftedCopy a k) k (shiftedCopy a k (k + 1)) = shiftedCopy a (k + 1) := by
  funext j
  simp only [setAt, shiftedCopy]
  split_ifs <;> first | rfl | (subst_vars; rfl) | (exfalso; omega)

theorem rotated_succ {α : Type} (a : Nat → α) (k : Nat) :
    swapAt (rotated a k) k (k + 1) = rotated a (k + 1) := by
  funext j
  simp only [swapAt, setAt, rotated]
  split_ifs <;> first | rfl | (subst_vars; rfl) | (exfalso; omega)

/-- Loop invariant of the shifting loop: after `k` iterations the header array is a
shifted copy and every swapped array is rotated by `k`. -/
theorem slideWindowShift_loop (cfg : Config) (s : Estimator) (k : Nat) :
    (List.range k).foldl (slideWindowShiftStep cfg) s =
      if cfg.USE_IMU then
        { s with Headers := shiftedCopy s.Headers k,
                 Rs := rotated s.Rs k,
                 Ps := rotated s.Ps k,
                 pre_integrations := rotated s.pre_integrations k,
                 dt_buf := rotated s.dt_buf k,
                 linear_acceleration_buf := rotated s.linear_acceleration_buf k,
                 angular_velocity_buf := rotated s.angular_velocity_buf k,
                 Vs := rotated s.Vs k,
                 Bas := rotated s.Bas k,
                 Bgs := rotated s.Bgs k }
      else
        { s with Headers := shiftedCopy s.Headers k,
                 Rs := rotated s.Rs k,
                 Ps := rotated s.Ps k } := by
  induction k with
  | zero =>
    simp [shiftedCopy_zero, rotated_zero]
  | succ k ih =>
    rw [List.range_succ, List.foldl_append, ih]
    cases hU : cfg.USE_IMU <;>
      simp [slideWindowShiftStep, hU, shiftedCopy_succ, rotated_succ]

/-- C1: with a full window and `marginalization_flag = MARGIN_OLD`, `slideWindow` shifts
the window down by one: header, position and rotation (and, with `USE_IMU`, velocity and
both biases) of every slot `i < WINDOW_SIZE` become the pre-slide values of slot `i + 1`,
and slot `WINDOW_SIZE` keeps its header, position, rotation, velocity and biases. -/
theorem slideWindow_margin_old_shift (ext : Externals) (cfg : Config) (s : Estimator)
    (hfull : s.frame_count = cfg.WINDOW_SIZE)
    (hflag : s.marginalization_flag = MarginalizationFlag.MARGIN_OLD) :
    (∀ i, i < cfg.WINDOW_SIZE →
      (slideWindow ext cfg s).Headers i = s.Headers (i + 1) ∧
      (slideWindow ext cfg s).Ps i = s.Ps (i + 1) ∧
      (slideWindow ext cfg s).Rs i = s.Rs (i + 1) ∧
      (cfg.USE_IMU = true →
        (slideWindow ext cfg s).Vs i = s.Vs (i + 1) ∧
        (slideWindow ext cfg s).Bas i = s.Bas (i + 1) ∧
        (slideWindow ext cfg s).Bgs i = s.Bgs (i + 1))) ∧
    (slideWindow ext cfg s).Headers cfg.WINDOW_SIZE = s.Headers cfg.WINDOW_SIZE ∧
    (slideWindow ext cfg s).Ps cfg.WINDOW_SIZE = s.Ps cfg.WINDOW_SIZE ∧
    (slideWindow ext cfg s).Rs cfg.WINDOW_SIZE = s.Rs cfg.WINDOW_SIZE ∧
    (slideWindow ext cfg s).Vs cfg.WINDOW_SIZE = s.Vs cfg.WINDOW_SIZE ∧
    (slideWindow ext cfg s).Bas cfg.WINDOW_SIZE = s.Bas cfg.WINDOW_SIZE ∧
    (slideWindow ext cfg s).Bgs cfg.WINDOW_SIZE = s.Bgs cfg.WINDOW_SIZE := by
  have hW := cfg.window_pos
  have hpred : cfg.WINDOW_SIZE - 1 < cfg.WINDOW_SIZE := by omega
  have hsucc : cfg.WINDOW_SIZE - 1 + 1 = cfg.WINDOW_SIZE := by omega
  have hne : cfg.WINDOW_SIZE ≠ 0 := by omega
  refine ⟨?_, ?_⟩
  · intro i hi
    have hiW : i ≠ cfg.WINDOW_SIZE := by omega
    cases hU : cfg.USE_IMU <;>
      simp [slideWindow, hflag, hfull, slideWindowShift_loop, hU, slideWindowOld,
        resetNewestSlot, setAt, rotated, shiftedCopy, hi, hiW] <;>
      split_ifs <;> simp [setAt, rotated, shiftedCopy, hi, hiW]
  · cases hU : cfg.USE_IMU <;>
      simp [slideWindow, hflag, hfull, slideWindowShift_loop, hU, slideWindowOld,
        resetNewestSlot, setAt, rotated, shiftedCopy, hpred, hsucc, hne] <;>
      split_ifs <;> simp [setAt, rotated, shiftedCopy, hpred, hsucc, hne]

/-- Witness of C1 on `demoWindowOld`: slot 0 receives header and position of slot 1. -/
theorem slideWindow_margin_old_shift_witness :
    demoWindowOld.frame_count = demoConfig.WINDOW_SIZE ∧
    demoWindowOld.marginalization_flag = MarginalizationFlag.MARGIN_OLD ∧
    (slideWindow demoExternals demoConfig demoWindowOld).Headers 0 = demoWindowOld.Headers 1 ∧
    (slideWindow demoExternals demoConfig demoWindowOld).Ps 0 = demoWindowOld.Ps 1 ∧
    (slideWindow demoExternals demoConfig demoWindowOld).Headers 2 = demoWindowOld.Headers 2 :=
  ⟨rfl, rfl,
    ((slideWindow_margin_old_shift demoExternals demoConfig demoWindowOld rfl rfl).1 0
      (by decide)).1,
    ((slideWindow_margin_old_shift demoExternals demoConfig demoWindowOld rfl rfl).1 0
      (by decide)).2.1,
    (slideWindow_margin_old_shift demoExternals demoConfig demoWindowOld rfl rfl).2.1⟩

/-- The merging loop only touches the IMU sample buffers and the pre-integrations. -/
theorem slideWindowMerge_loop_frame (l : List Nat) (s : Estimator) :
    (l.foldl slideWindowMergeStep s).Headers = s.Headers ∧
    (l.foldl slideWindowMergeStep s).Ps = s.Ps ∧
    (l.foldl slideWindowMergeStep s).Rs = s.Rs ∧
    (l.foldl slideWindowMergeStep s).Vs = s.Vs ∧
    (l.foldl slideWindowMergeStep s).Bas = s.Bas ∧
    (l.foldl slideWindowMergeStep s).Bgs = s.Bgs ∧
    (l.foldl slideWindowMergeStep s).frame_count = s.frame_count := by
  induction l generalizing s with
  | nil => simp
  | cons i l ih =>
    rw [List.foldl_cons]
    obtain ⟨h1, h2, h3, h4, h5, h6, h7⟩ := ih (slideWindowMergeStep s i)
    rw [h1, h2, h3, h4, h5, h6, h7]
    simp [slideWindowMergeStep]

/-- C2: with a full window and `marginalization_flag = MARGIN_SECOND_NEW`, `slideWindow`
overwrites header, position and rotation (and, with `USE_IMU`, velocity and both biases)
of slot `WINDOW_SIZE - 1` with the pre-slide values of slot `WINDOW_SIZE`, and leaves
these fields of every other slot unchanged. -/
theorem slideWindow_margin_second_new_overwrite (ext : Externals) (cfg : Config)
    (s : Estimator)
    (hfull : s.frame_count = cfg.WINDOW_SIZE)
    (hflag : s.marginalization_flag = MarginalizationFlag.MARGIN_SECOND_NEW) :
    (slideWindow ext cfg s).Headers (cfg.WINDOW_SIZE - 1) = s.Headers cfg.WINDOW_SIZE ∧
    (slideWindow ext cfg s).Ps (cfg.WINDOW_SIZE - 1) = s.Ps cfg.WINDOW_SIZE ∧
    (slideWindow ext cfg s).Rs (cfg.WINDOW_SIZE - 1) = s.Rs cfg.WINDOW_SIZE ∧
    (cfg.USE_IMU = true →
      (slideWindow ext cfg s).Vs (cfg.WINDOW_SIZE - 1) = s.Vs cfg.WINDOW_SIZE ∧
      (slideWindow ext cfg s).Bas (cfg.WINDOW_SIZE - 1) = s.Bas cfg.WINDOW_SIZE ∧
      (slideWindow ext cfg s).Bgs (cfg.WINDOW_SIZE - 1) = s.Bgs cfg.WINDOW_SIZE) ∧
    (∀ i, i ≠ cfg.WINDOW_SIZE - 1 →
      (slideWindow ext cfg s).Headers i = s.Headers i ∧
      (slideWindow ext cfg s).Ps i = s.Ps i ∧
      (slideWindow ext cfg s).Rs i = s.Rs i ∧
      (slideWindow ext cfg s).Vs i = s.Vs i ∧
      (slideWindow ext cfg s).Bas i = s.Bas i ∧
      (slideWindow ext cfg s).Bgs i = s.Bgs i) := by
  cases hU : cfg.USE_IMU
  · simp [slideWindow, hflag, hfull, hU, slideWindowNew, setAt]
    intro i hi
    simp [hi]
  · have hW := cfg.window_pos
    have hne : cfg.WINDOW_SIZE ≠ cfg.WINDOW_SIZE - 1 := by omega
    simp [slideWindow, hflag, hfull, hU, slideWindowNew, resetNewestSlot,
      (slideWindowMerge_loop_frame _ _).1, (slideWindowMerge_loop_frame _ _).2.1,
      (slideWindowMerge_loop_frame _ _).2.2.1, (slideWindowMerge_loop_frame _ _).2.2.2.1,
      (slideWindowMerge_loop_frame _ _).2.2.2.2.1,
      (slideWindowMerge_loop_frame _ _).2.2.2.2.2.1, setAt, hne]
    intro i hi
    simp [hi]

/-- Witness of C2 on `demoWindowNew`: slot 1 receives header, position and velocity of
slot 2, slot 0 keeps its header. -/
theorem slideWindow_margin_second_new_overwrite_witness :
    demoWindowNew.frame_count = demoConfig.WINDOW_SIZE ∧
    demoWindowNew.marginalization_flag = MarginalizationFlag.MARGIN_SECOND_NEW ∧
    (slideWindow demoExternals demoConfig demoWindowNew).Headers (demoConfig.WINDOW_SIZE - 1)
      = demoWindowNew.Headers demoConfig.WINDOW_SIZE ∧
    (slideWindow demoExternals demoConfig demoWindowNew).Ps (demoConfig.WINDOW_SIZE - 1)
      = demoWindowNew.Ps demoConfig.WINDOW_SIZE ∧
    (slideWindow demoExternals demoConfig demoWindowNew).Vs (demoConfig.WINDOW_SIZE - 1)
      = demoWindowNew.Vs demoConfig.WINDOW_SIZE ∧
    (slideWindow demoExternals demoConfig demoWindowNew).Headers 0 = demoWindowNew.Headers 0 :=
  ⟨rfl, rfl,
    (slideWindow_margin_second_new_overwrite demoExternals demoConfig demoWindowNew rfl rfl).1,
    (slideWindow_margin_second_new_overwrite demoExternals demoConfig demoWindowNew rfl rfl).2.1,
    ((slideWindow_margin_second_new_overwrite demoExternals demoConfig demoWindowNew rfl
      rfl).2.2.2.1 rfl).1,
    ((slideWindow_margin_second_new_overwrite demoExternals demoConfig demoWindowNew rfl
      rfl).2.2.2.2 0 (by decide)).1⟩

/-! ## `getIMUInterval` -/

/-- The first loop stops before the queue runs empty when the newest sample is newer
than `t0`; it keeps the newest sample and the length relation of the two queues. -/
theorem dropStale_some (t0 : ℚ) (back : Stamped) (hback : t0 < back.1) :
    ∀ (acc gyr : List Stamped), acc.getLast? = some back → acc.length ≤ gyr.length →
      ∃ acc1 gyr1, dropStale t0 acc gyr = some (acc1, gyr1) ∧
        acc1.getLast? = some back ∧ acc1.length ≤ gyr1.length := by
  intro acc
  induction acc with
  | nil => intro gyr h; simp at h
  | cons a acc ih =>
    intro gyr hlast hlen
    by_cases ha : a.1 ≤ t0
    · cases gyr with
      | nil => simp at hlen
      | cons g gyr =>
        cases acc with
        | nil =>
          simp at hlast
          subst hlast
          exact absurd hback (not_lt.mpr ha)
        | cons b acc =>
          have h2 : (b :: acc).getLast? = some back := by
            simpa [List.getLast?_cons_cons] using hlast
          have h3 : (b :: acc).length ≤ gyr.length := by
            simp only [List.length_cons] at hlen ⊢
            omega
          obtain ⟨acc1, gyr1, h4, h5, h6⟩ := ih gyr h2 h3
          exact ⟨acc1, gyr1, by simp only [dropStale, ha, if_true]; exact h4, h5, h6⟩
    · exact ⟨a :: acc, gyr, by simp [dropStale, ha], hlast, hlen⟩

/-- The second loop stops with both queues non-empty when the newest sample is not
older than `t1`. -/
theorem takeBefore_some (t1 : ℚ) (back : Stamped) (hback : t1 ≤ back.1) :
    ∀ (acc gyr accV gyrV : List Stamped), acc.getLast? = some back →
      acc.length ≤ gyr.length →
      ∃ a acc2 g gyr2 accV2 gyrV2,
        takeBefore t1 acc gyr accV gyrV = some (a :: acc2, g :: gyr2, accV2, gyrV2) := by
  intro acc
  induction acc with
  | nil => intro gyr accV gyrV h; simp at h
  | cons a acc ih =>
    intro gyr accV gyrV hlast hlen
    cases gyr with
    | nil => simp at hlen
    | cons g gyr =>
      by_cases ha : a.1 < t1
      · cases acc with
        | nil =>
          simp at hlast
          subst hlast
          exact absurd ha (not_lt.mpr hback)
        | cons b acc =>
          have h2 : (b :: acc).getLast? = some back := by
            simpa [List.getLast?_cons_cons] using hlast
          have h3 : (b :: acc).length ≤ gyr.length := by
            simp only [List.length_cons] at hlen ⊢
            omega
          obtain ⟨a2, acc2, g2, gyr2, accV2, gyrV2, h4⟩ :=
            ih gyr (accV ++ [a]) (gyrV ++ [g]) h2 h3
          exact ⟨a2, acc2, g2, gyr2, accV2, gyrV2, by
            simp only [takeBefore, ha, if_true]; exact h4⟩
      · exact ⟨a, acc, g, gyr, accV, gyrV, by simp [takeBefore, ha]⟩

/-- C4: on queues where `gyrBuf` holds at least as many samples as `accBuf` (`inputIMU`
pushes them in pairs) and for `t0 < t1`, `getIMUInterval(t0, t1)` returns, and it returns
true exactly when `IMUAvailable(t1)` holds; when it returns false the estimator (so
`accBuf` and `gyrBuf`) and both output vectors are as they were. -/
theorem getIMUInterval_true_iff_IMUAvailable (s : Estimator) (t0 t1 : ℚ)
    (accVector gyrVector : List Stamped) (h01 : t0 < t1)
    (hpair : s.accBuf.length ≤ s.gyrBuf.length) :
    ∃ r, getIMUInterval s t0 t1 accVector gyrVector = some r ∧
      (r.ret = true ↔ IMUAvailable s t1 = true) ∧
      (r.ret = false → r.est = s ∧ r.accVector = accVector ∧ r.gyrVector = gyrVector) := by
  cases hlast : s.accBuf.getLast? with
  | none =>
    exact ⟨⟨false, s, accVector, gyrVector⟩,
      by simp [getIMUInterval, getIMUIntervalQueues, hlast],
      by simp [IMUAvailable, hlast], fun _ => ⟨rfl, rfl, rfl⟩⟩
  | some back =>
    by_cases h1 : t1 ≤ back.1
    · obtain ⟨acc1, gyr1, hd, hl1, hlen1⟩ :=
        dropStale_some t0 back (lt_of_lt_of_le h01 h1) s.accBuf s.gyrBuf hlast hpair
      obtain ⟨a, acc2, g, gyr2, accV2, gyrV2, ht⟩ :=
        takeBefore_some t1 back h1 acc1 gyr1 accVector gyrVector hl1 hlen1
      refine ⟨⟨true, { s with accBuf := a :: acc2, gyrBuf := g :: gyr2 },
        accV2 ++ [a], gyrV2 ++ [g]⟩, ?_, ?_, ?_⟩
      · simp [getIMUInterval, getIMUIntervalQueues, hlast, h1, hd, ht]
      · simp [IMUAvailable, hlast, h1]
      · intro h; simp at h
    · exact ⟨⟨false, s, accVector, gyrVector⟩,
        by simp [getIMUInterval, getIMUIntervalQueues, hlast, h1],
        by simp [IMUAvailable, hlast, h1], fun _ => ⟨rfl, rfl, rfl⟩⟩

theorem stampsPaired_cons {a g : Stamped} {acc gyr : List Stamped}
    (h : StampsPaired (a :: acc) (g :: gyr)) : a.1 = g.1 ∧ StampsPaired acc gyr := by
  simpa [StampsPaired] using h

/-- The first loop only drops samples, and keeps paired queues paired. -/
theorem dropStale_result (t0 : ℚ) :
    ∀ (acc gyr acc1 gyr1 : List Stamped), dropStale t0 acc gyr = some (acc1, gyr1) →
      (∀ x ∈ acc1, x ∈ acc) ∧ (∀ x ∈ gyr1, x ∈ gyr) ∧
      (StampsPaired acc gyr → StampsPaired acc1 gyr1) := by
  intro acc
  induction acc with
  | nil => intro gyr acc1 gyr1 h; simp [dropStale] at h
  | cons a acc ih =>
    intro gyr acc1 gyr1 h
    by_cases ha : a.1 ≤ t0
    · cases gyr with
      | nil => simp [dropStale, ha] at h
      | cons g gyr =>
        simp only [dropStale, ha, if_true] at h
        obtain ⟨h2, h3, h1⟩ := ih gyr acc1 gyr1 h
        exact ⟨fun x hx => List.mem_cons_of_mem _ (h2 x hx),
          fun x hx => List.mem_cons_of_mem _ (h3 x hx),
          fun hp => h1 (stampsPaired_cons hp).2⟩
    · simp only [dropStale, ha, if_false, Option.some.injEq, Prod.mk.injEq] at h
      obtain ⟨rfl, rfl⟩ := h
      exact ⟨fun x hx => hx, fun x hx => hx, fun hp => hp⟩

/-- The second loop only removes samples from the queues, keeps paired queues paired,
and stops at a front sample that is not older than `t1`. -/
theorem takeBefore_result (t1 : ℚ) :
    ∀ (acc gyr accV gyrV acc2 gyr2 accV2 gyrV2 : List Stamped),
      takeBefore t1 acc gyr accV gyrV = some (acc2, gyr2, accV2, gyrV2) →
      (∀ x ∈ acc2, x ∈ acc) ∧ (∀ x ∈ gyr2, x ∈ gyr) ∧
        (∀ a, acc2.head? = some a → t1 ≤ a.1) ∧
        (StampsPaired acc gyr → StampsPaired acc2 gyr2) := by
  intro acc
  induction acc with
  | nil => intro gyr accV gyrV acc2 gyr2 accV2 gyrV2 h; simp [takeBefore] at h
  | cons a acc ih =>
    intro gyr accV gyrV acc2 gyr2 accV2 gyrV2 h
    by_cases ha : a.1 < t1
    · cases gyr with
      | nil => simp [takeBefore, ha] at h
      | cons g gyr =>
        simp only [takeBefore, ha, if_true] at h
        obtain ⟨h2, h3, h4, h1⟩ := ih gyr _ _ acc2 gyr2 accV2 gyrV2 h
        exact ⟨fun x hx => List.mem_cons_of_mem _ (h2 x hx),
          fun x hx => List.mem_cons_of_mem _ (h3 x hx), h4,
          fun hp => h1 (stampsPaired_cons hp).2⟩
    · simp only [takeBefore, ha, if_false, Option.some.injEq, Prod.mk.injEq] at h
      obtain ⟨rfl, rfl, -, -⟩ := h
      refine ⟨fun x hx => hx, fun x hx => hx, ?_, fun hp => hp⟩
      intro b hb
      simp only [List.head?_cons, Option.some.injEq] at hb
      subst hb
      exact not_lt.mp ha

/-- The call `inputIMU` keeps the two IMU queues paired. -/
theorem inputIMU_paired (ext : Externals) (s : Estimator) (t : ℚ) (acc gyr : Vector3d)
    (hp : StampsPaired s.accBuf s.gyrBuf) :
    StampsPaired (inputIMU ext s t acc gyr).accBuf (inputIMU ext s t acc gyr).gyrBuf := by
  unfold StampsPaired at hp ⊢
  unfold inputIMU fastPredictIMU
  simp only
  split_ifs <;> simp [hp]

/-- Counterexample to C3 as stated: with samples stamped `0` and `0.01` and the call
`getIMUInterval(-1, 0.005)`, the call succeeds and both slices end with the sample
stamped `0.01`, not `0.005`. -/
theorem getIMUInterval_last_sample_not_exact :
    (getIMUInterval sparseIMU (-1) (1 / 200) [] []).map
        (fun r => (r.ret, r.accVector.getLast?.map Prod.fst,
          r.gyrVector.getLast?.map Prod.fst))
      = some (true, some (1 / 100), some (1 / 100)) ∧
    (1 / 100 : ℚ) ≠ 1 / 200 := by
  constructor
  · have hq : getIMUIntervalQueues sparseIMU.accBuf sparseIMU.gyrBuf (-1) (1 / 200) [] [] =
        some ⟨true, sparseIMU.accBuf.drop 1, sparseIMU.gyrBuf.drop 1,
          sparseIMU.accBuf, sparseIMU.gyrBuf⟩ := by decide!
    rw [getIMUInterval, hq]
    decide!
  · norm_num

/-- Witness of C4 on the scenario queues: `getIMUInterval(0.5, 0.505)` returns true and
`IMUAvailable(0.505)` holds. -/
theorem getIMUInterval_true_iff_IMUAvailable_witness :
    (1 / 2 : ℚ) < 101 / 200 ∧
    scenarioIMU.accBuf.length ≤ scenarioIMU.gyrBuf.length ∧
    ∃ r, getIMUInterval scenarioIMU (1 / 2) (101 / 200) [] [] = some r ∧
      (r.ret = true ↔ IMUAvailable scenarioIMU (101 / 200) = true) ∧
      (r.ret = false → r.est = scenarioIMU ∧ r.accVector = [] ∧ r.gyrVector = []) :=
  ⟨by norm_num, by decide!,
    getIMUInterval_true_iff_IMUAvailable scenarioIMU (1 / 2) (101 / 200) [] []
      (by norm_num) (by decide!)⟩

/-! ## Fast-forward prediction -/

theorem Vector3d.add_def (a b : Vector3d) :
    a + b = ⟨a.x + b.x, a.y + b.y, a.z + b.z⟩ := rfl

theorem Vector3d.sub_def (a b : Vector3d) :
    a - b = ⟨a.x - b.x, a.y - b.y, a.z - b.z⟩ := rfl

theorem Vector3d.scale_def (c : ℚ) (a : Vector3d) :
    c * a = (⟨c * a.x, c * a.y, c * a.z⟩ : Vector3d) := rfl

/-- C5 (as amended): when fast-forward is initialised and `latest_time` is at least 10,
`inputIMU(t, acc, gyr)` advances the fast-forward state by one midpoint step:
`latest_time = t`, `latest_acc_0 = acc`, `latest_gyr_0 = gyr`,
`latest_V = V + dt * a` and `latest_P = P + dt * V + (1/2) * dt^2 * a`, with
`dt = t - latest_time` (before the call) and `a` the mean of the bias-corrected,
gravity-compensated world-frame accelerations of the previous sample (rotated by the
old `latest_Q`) and of the new one (rotated by the updated `latest_Q`). -/
theorem inputIMU_midpoint_step (ext : Externals) (s : Estimator) (t : ℚ)
    (acc gyr : Vector3d) (hinit : s.fast_prop_inited = true) (htime : 10 ≤ s.latest_time) :
    (inputIMU ext s t acc gyr).latest_time = t ∧
    (inputIMU ext s t acc gyr).latest_acc_0 = acc ∧
    (inputIMU ext s t acc gyr).latest_gyr_0 = gyr ∧
    (inputIMU ext s t acc gyr).latest_Q =
      ext.normalized (ext.quatMul s.latest_Q
        (ext.deltaQ (((1 / 2 : ℚ) * (s.latest_gyr_0 + gyr) - s.latest_Bg)
          * (t - s.latest_time)))) ∧
    (inputIMU ext s t acc gyr).latest_V =
      s.latest_V + (t - s.latest_time) *
        ((1 / 2 : ℚ) *
          ((ext.quatRotate s.latest_Q (s.latest_acc_0 - s.latest_Ba) - s.g) +
           (ext.quatRotate (inputIMU ext s t acc gyr).latest_Q (acc - s.latest_Ba) - s.g))) ∧
    (inputIMU ext s t acc gyr).latest_P =
      s.latest_P + (t - s.latest_time) * s.latest_V +
        ((1 / 2 : ℚ) * (t - s.latest_time) ^ 2) *
          ((1 / 2 : ℚ) *
            ((ext.quatRotate s.latest_Q (s.latest_acc_0 - s.latest_Ba) - s.g) +
             (ext.quatRotate (inputIMU ext s t acc gyr).latest_Q (acc - s.latest_Ba)
               - s.g))) := by
  have hnot : ¬ s.latest_time < 10 := not_lt.mpr htime
  have hhalf : (0.5 : ℚ) = 1 / 2 := by norm_num
  simp only [inputIMU, hinit, if_true, fastPredictIMU, hnot, if_false, hhalf]
  refine ⟨trivial, trivial, trivial, trivial, trivial, ?_⟩
  simp only [Vector3d.add_def, Vector3d.sub_def, Vector3d.scale_def, Vector3d.mk.injEq]
  refine ⟨?_, ?_, ?_⟩ <;> ring

/-- Witness of C5 on `demoFastForward` (initialised, `latest_time = 20`). -/
theorem inputIMU_midpoint_step_witness :
    demoFastForward.fast_prop_inited = true ∧ (10 : ℚ) ≤ demoFastForward.latest_time ∧
    (inputIMU demoExternals demoFastForward (2005 / 100) ⟨0, 0, 9.81⟩ 0).latest_time
      = 2005 / 100 ∧
    (inputIMU demoExternals demoFastForward (2005 / 100) ⟨0, 0, 9.81⟩ 0).latest_acc_0
      = ⟨0, 0, 9.81⟩ :=
  ⟨rfl, by decide!,
    (inputIMU_midpoint_step demoExternals demoFastForward (2005 / 100) ⟨0, 0, 9.81⟩ 0 rfl
      (by decide!)).1,
    (inputIMU_midpoint_step demoExternals demoFastForward (2005 / 100) ⟨0, 0, 9.81⟩ 0 rfl
      (by decide!)).2.1⟩

/-- Counterexample to C5 as stated: fast-forward is initialised with `latest_time = 0.5`;
`inputIMU(0.505, ...)` only enqueues the sample, `latest_time` stays `0.5` and
`latest_P` stays `(0, 0, 0)` although the midpoint step would give `(0.005, 0, 0)`. -/
theorem inputIMU_no_step_before_time_ten :
    earlyFastForward.fast_prop_inited = true ∧
    (inputIMU demoExternals earlyFastForward (101 / 200) ⟨0, 0, 9.81⟩ 0).latest_time = 1 / 2 ∧
    (inputIMU demoExternals earlyFastForward (101 / 200) ⟨0, 0, 9.81⟩ 0).latest_time
      ≠ 101 / 200 ∧
    (inputIMU demoExternals earlyFastForward (101 / 200) ⟨0, 0, 9.81⟩ 0).latest_P = 0 ∧
    earlyFastForward.latest_P
      + ((101 / 200 : ℚ) - earlyFastForward.latest_time) * earlyFastForward.latest_V
      ≠ 0 := by
  refine ⟨rfl, by decide!, by decide!, by decide!, by decide!⟩

/-- While fast-forward is not initialised, a run of `inputIMU` calls only appends the
samples to the two queues. -/
theorem inputIMUs_not_inited (ext : Externals) :
    ∀ (samples : List (ℚ × Vector3d × Vector3d)) (s : Estimator),
      s.fast_prop_inited = false →
      inputIMUs ext s samples =
        { s with accBuf := s.accBuf ++ samples.map (fun x => (x.1, x.2.1)),
                 gyrBuf := s.gyrBuf ++ samples.map (fun x => (x.1, x.2.2)) } := by
  intro samples
  induction samples with
  | nil => intro s _; simp [inputIMUs]
  | cons x rest ih =>
    intro s hs
    have hstep : inputIMU ext s x.1 x.2.1 x.2.2 =
        { s with accBuf := s.accBuf ++ [(x.1, x.2.1)],
                 gyrBuf := s.gyrBuf ++ [(x.1, x.2.2)] } := by
      simp [inputIMU, hs]
    have hrest := ih (inputIMU ext s x.1 x.2.1 x.2.2) (by rw [hstep]; exact hs)
    simp only [inputIMUs, List.foldl_cons] at hrest ⊢
    rw [hrest, hstep]
    simp

/-- C6: from a cleared estimator, any finite sequence of `inputIMU` calls (no image or
feature input in between) leaves fast-forward disabled, `latest_P = (0,0,0)`, `latest_V`
and `latest_Q` at their cleared values, and changes nothing but `accBuf` and `gyrBuf`,
to which the samples are appended in call order. -/
theorem inputIMUs_from_clearState (ext : Externals) (cfg : Config) (s0 : Estimator)
    (samples : List (ℚ × Vector3d × Vector3d)) :
    inputIMUs ext (clearState ext cfg s0) samples =
      { clearState ext cfg s0 with
        accBuf := (clearState ext cfg s0).accBuf ++ samples.map (fun x => (x.1, x.2.1)),
        gyrBuf := (clearState ext cfg s0).gyrBuf ++ samples.map (fun x => (x.1, x.2.2)) } ∧
    (inputIMUs ext (clearState ext cfg s0) samples).fast_prop_inited = false ∧
    (inputIMUs ext (clearState ext cfg s0) samples).latest_P = ⟨0, 0, 0⟩ ∧
    (inputIMUs ext (clearState ext cfg s0) samples).latest_V = ⟨0, 0, 0⟩ ∧
    (inputIMUs ext (clearState ext cfg s0) samples).latest_Q = Quaterniond.identity := by
  have hc : (clearState ext cfg s0).fast_prop_inited = false := rfl
  rw [inputIMUs_not_inited ext samples _ hc]
  exact ⟨rfl, rfl, rfl, rfl, rfl⟩

/-! ## Image input -/

theorem wrapInt32_parity (n : Int) : 2 ∣ wrapInt32 n ↔ 2 ∣ n := by
  unfold wrapInt32
  omega

theorem everySecond_eq_enqueuedFrom {α : Type} :
    ∀ (l : List α), everySecond l = enqueuedFrom false l
  | [] => rfl
  | [_] => rfl
  | _ :: b :: rest => by
    simp only [everySecond, enqueuedFrom]
    rw [everySecond_eq_enqueuedFrom rest]

theorem everySecond_length {α : Type} : ∀ (l : List α), (everySecond l).length = l.length / 2
  | [] => by simp [everySecond]
  | [_] => by simp [everySecond]
  | _ :: b :: rest => by
    simp only [everySecond, List.length_cons]
    rw [everySecond_length rest]
    omega

/-- One image-input call: the counter flips parity, and the call is enqueued exactly
when the counter was odd before it. -/
theorem imageCall_run_featureBuf (cfg : Config) (s : Estimator) (c : ImageCall) :
    (2 ∣ (c.run cfg s).inputImageCnt ↔ ¬ 2 ∣ s.inputImageCnt) ∧
    (c.run cfg s).featureBuf =
      if 2 ∣ s.inputImageCnt then s.featureBuf else s.featureBuf ++ [c.entry] := by
  have hpar : 2 ∣ wrapInt32 (s.inputImageCnt + 1) ↔ ¬ 2 ∣ s.inputImageCnt := by
    rw [wrapInt32_parity]
    omega
  have htmod : (wrapInt32 (s.inputImageCnt + 1)).tmod 2 = 0 ↔ ¬ 2 ∣ s.inputImageCnt := by
    rw [← Int.dvd_iff_tmod_eq_zero]
    exact hpar
  cases c with
  | image t img img1 ff =>
    by_cases hd : 2 ∣ s.inputImageCnt
    · have h1 : ¬ (wrapInt32 (s.inputImageCnt + 1)).tmod 2 = 0 := fun h => htmod.mp h hd
      simp [ImageCall.run, inputImage, h1, hd, hpar]
    · have h1 : (wrapInt32 (s.inputImageCnt + 1)).tmod 2 = 0 := htmod.mpr hd
      simp [ImageCall.run, inputImage, h1, hd, hpar, ImageCall.entry]
  | fisheye t up down ff =>
    by_cases hd : 2 ∣ s.inputImageCnt
    · have h1 : ¬ (wrapInt32 (s.inputImageCnt + 1)).tmod 2 = 0 := fun h => htmod.mp h hd
      simp [ImageCall.run, inputFisheyeImage, h1, hd, hpar]
    · have h1 : (wrapInt32 (s.inputImageCnt + 1)).tmod 2 = 0 := htmod.mpr hd
      cases hF : (cfg.FISHEYE && cfg.ENABLE_DEPTH) <;>
        simp [ImageCall.run, inputFisheyeImage, h1, hd, hpar, ImageCall.entry, hF]

/-- Invariant of a run of image-input calls, for either parity of the counter. -/
theorem imageCalls_featureBuf (cfg : Config) :
    ∀ (calls : List ImageCall) (s : Estimator),
      (calls.foldl (ImageCall.run cfg) s).featureBuf =
        s.featureBuf ++
          enqueuedFrom (decide (¬ 2 ∣ s.inputImageCnt)) (calls.map ImageCall.entry) := by
  intro calls
  induction calls with
  | nil => intro s; simp [enqueuedFrom]
  | cons c rest ih =>
    intro s
    obtain ⟨hpar, hbuf⟩ := imageCall_run_featureBuf cfg s c
    rw [List.foldl_cons, ih (c.run cfg s), hbuf]
    by_cases hd : 2 ∣ s.inputImageCnt
    · have h2 : ¬ 2 ∣ (c.run cfg s).inputImageCnt := fun h => hpar.mp h hd
      simp [hd, h2, enqueuedFrom]
    · have h2 : 2 ∣ (c.run cfg s).inputImageCnt := hpar.mpr hd
      simp [hd, h2, enqueuedFrom]

/-- C7: starting from `inputImageCnt = 0`, after any sequence of `n` calls of
`inputImage` / `inputFisheyeImage` the feature queue has received exactly `n / 2`
entries: the `(timestamp, feature frame)` pairs of the 2nd, 4th, 6th, ... calls, in call
order, and none of the odd-numbered calls. -/
theorem inputImage_half_rate (cfg : Config) (s : Estimator) (calls : List ImageCall)
    (hcnt : s.inputImageCnt = 0) :
    (calls.foldl (ImageCall.run cfg) s).featureBuf =
      s.featureBuf ++ everySecond (calls.map ImageCall.entry) ∧
    (everySecond (calls.map ImageCall.entry)).length = calls.length / 2 := by
  refine ⟨?_, by rw [everySecond_length, List.length_map]⟩
  rw [imageCalls_featureBuf cfg calls s, hcnt, everySecond_eq_enqueuedFrom]
  simp

/-- Witness of C7: of four calls with stamps 1, 2, 3, 4 the second and the fourth are
enqueued. -/
theorem inputImage_half_rate_witness :
    blankEstimator.inputImageCnt = 0 ∧
    (demoCalls.foldl (ImageCall.run demoConfig) blankEstimator).featureBuf =
      blankEstimator.featureBuf ++ everySecond (demoCalls.map ImageCall.entry) ∧
    (everySecond (demoCalls.map ImageCall.entry)).length = demoCalls.length / 2 ∧
    everySecond (demoCalls.map ImageCall.entry) = [(2, [(8, [])]), (4, [(10, [])])] :=
  ⟨rfl, (inputImage_half_rate demoConfig blankEstimator demoCalls rfl).1,
    (inputImage_half_rate demoConfig blankEstimator demoCalls rfl).2, rfl⟩

/-! ## `vector2double` and `double2vector` -/

theorem setAt_tabulate {α : Type} (a f : Nat → α) (n : Nat) :
    setAt (fun i => if i < n then f i else a i) n (f n) =
      fun i => if i < n + 1 then f i else a i := by
  funext j
  simp only [setAt]
  split_ifs <;> first | rfl | (subst_vars; rfl) | (exfalso; omega)

theorem tabulate_zero {α : Type} (a f : Nat → α) :
    (fun i => if i < 0 then f i else a i) = a := by
  funext j
  simp

/-- Closed form of the slot loop of `double2vector` (`USE_IMU`) after `n` iterations. -/
theorem double2vectorSlot_loop (ext : Externals) (rot_diff : Matrix3d)
    (origin_P0 : Vector3d) (s : Estimator) (n : Nat) :
    (List.range n).foldl (double2vectorSlot ext rot_diff origin_P0) s =
      { s with
        Rs := fun i => if i < n then
            rot_diff * ext.toRotationMatrix (ext.normalized (quatOfPara (s.para_Pose i)))
          else s.Rs i,
        Ps := fun i => if i < n then
            rot_diff * (⟨s.para_Pose i 0 - s.para_Pose 0 0,
                          s.para_Pose i 1 - s.para_Pose 0 1,
                          s.para_Pose i 2 - s.para_Pose 0 2⟩ : Vector3d) + origin_P0
          else s.Ps i,
        Vs := fun i => if i < n then rot_diff * vecOfPara (s.para_SpeedBias i) 0 else s.Vs i,
        Bas := fun i => if i < n then vecOfPara (s.para_SpeedBias i) 3 else s.Bas i,
        Bgs := fun i => if i < n then vecOfPara (s.para_SpeedBias i) 6 else s.Bgs i } := by
  induction n with
  | zero => simp [tabulate_zero]
  | succ n ih =>
    rw [List.range_succ, List.foldl_append, ih]
    simp only [List.foldl_cons, List.foldl_nil, double2vectorSlot]
    simp only [setAt_tabulate _ (fun i => rot_diff *
        ext.toRotationMatrix (ext.normalized (quatOfPara (s.para_Pose i)))),
      setAt_tabulate _ (fun i => rot_diff * (⟨s.para_Pose i 0 - s.para_Pose 0 0,
        s.para_Pose i 1 - s.para_Pose 0 1,
        s.para_Pose i 2 - s.para_Pose 0 2⟩ : Vector3d) + origin_P0),
      setAt_tabulate _ (fun i => rot_diff * vecOfPara (s.para_SpeedBias i) 0),
      setAt_tabulate _ (fun i => vecOfPara (s.para_SpeedBias i) 3),
      setAt_tabulate _ (fun i => vecOfPara (s.para_SpeedBias i) 6)]

/-- Closed form of the extrinsic loop of `double2vector` after `n` iterations. -/
theorem double2vectorCam_loop (ext : Externals) (s : Estimator) (n : Nat) :
    (List.range n).foldl (double2vectorCam ext) s =
      { s with
        tic := fun i => if i < n then vecOfPara (s.para_Ex_Pose i) 0 else s.tic i,
        ric := fun i => if i < n then
            ext.toRotationMatrix (ext.normalized (quatOfPara (s.para_Ex_Pose i)))
          else s.ric i } := by
  induction n with
  | zero => simp [tabulate_zero]
  | succ n ih =>
    rw [List.range_succ, List.foldl_append, ih]
    simp only [List.foldl_cons, List.foldl_nil, double2vectorCam]
    simp only [setAt_tabulate _ (fun i => vecOfPara (s.para_Ex_Pose i) 0),
      setAt_tabulate _ (fun i =>
        ext.toRotationMatrix (ext.normalized (quatOfPara (s.para_Ex_Pose i))))]

theorem Matrix3d.mulVec_def (m : Matrix3d) (v : Vector3d) :
    m * v = (⟨m.r0.dot v, m.r1.dot v, m.r2.dot v⟩ : Vector3d) := rfl

/-- C8: with `USE_IMU` and `failure_occur = 0`, `double2vector` preserves the position of
slot 0 whatever the parameter arrays contain, in the yaw-correction branch as well as in
the gimbal-lock fallback branch (the rotation `rot_diff` is applied to a zero offset). -/
theorem double2vector_preserves_P0 (ext : Externals) (cfg : Config) (s : Estimator)
    (hU : cfg.USE_IMU = true) (hf : s.failure_occur = 0) :
    (double2vector ext cfg s).Ps 0 = s.Ps 0 := by
  simp only [double2vector, hU, hf, ne_eq, not_true_eq_false, if_false, if_true,
    double2vectorSlot_loop, double2vectorCam_loop]
  simp [Matrix3d.mulVec_def, Vector3d.add_def, Vector3d.dot]

/-- Witness of C8 on `demoSolved`. -/
theorem double2vector_preserves_P0_witness :
    demoConfig.USE_IMU = true ∧ demoSolved.failure_occur = 0 ∧
    (double2vector demoExternals demoConfig demoSolved).Ps 0 = demoSolved.Ps 0 :=
  ⟨rfl, rfl, double2vector_preserves_P0 demoExternals demoConfig demoSolved rfl rfl⟩

/-- Closed form of the slot loop of `vector2double` after `n` iterations. -/
theorem vector2doubleSlot_loop (ext : Externals) (cfg : Config) (s : Estimator) (n : Nat) :
    (List.range n).foldl (vector2doubleSlot ext cfg) s =
      { s with
        para_Pose := fun i => if i < n then
            writePose ext (s.para_Pose i) (s.Ps i) (s.Rs i)
          else s.para_Pose i,
        para_SpeedBias := fun i => if i < n then
            (if cfg.USE_IMU then
              writeSpeedBias (s.para_SpeedBias i) (s.Vs i) (s.Bas i) (s.Bgs i)
            else s.para_SpeedBias i)
          else s.para_SpeedBias i } := by
  induction n with
  | zero => simp [tabulate_zero]
  | succ n ih =>
    rw [List.range_succ, List.foldl_append, ih]
    cases hU : cfg.USE_IMU
    · simp only [List.foldl_cons, List.foldl_nil, vector2doubleSlot, hU, lt_irrefl,
        if_false, Bool.false_eq_true]
      simp only [setAt_tabulate _ (fun i => writePose ext (s.para_Pose i) (s.Ps i) (s.Rs i))]
      congr 1
      funext i
      split_ifs <;> rfl
    · simp only [List.foldl_cons, List.foldl_nil, vector2doubleSlot, hU, lt_irrefl,
        if_false, if_true]
      simp only [setAt_tabulate _ (fun i => writePose ext (s.para_Pose i) (s.Ps i) (s.Rs i)),
        setAt_tabulate _
          (fun i => writeSpeedBias (s.para_SpeedBias i) (s.Vs i) (s.Bas i) (s.Bgs i))]

/-- Closed form of the extrinsic loop of `vector2double` after `n` iterations. -/
theorem vector2doubleCam_loop (ext : Externals) (s : Estimator) (n : Nat) :
    (List.range n).foldl (vector2doubleCam ext) s =
      { s with
        para_Ex_Pose := fun i => if i < n then
            writePose ext (s.para_Ex_Pose i) (s.tic i) (s.ric i)
          else s.para_Ex_Pose i } := by
  induction n with
  | zero => simp [tabulate_zero]
  | succ n ih =>
    rw [List.range_succ, List.foldl_append, ih]
    simp only [List.foldl_cons, List.foldl_nil, vector2doubleCam, lt_irrefl, if_false]
    simp only [setAt_tabulate _ (fun i => writePose ext (s.para_Ex_Pose i) (s.tic i) (s.ric i))]

/-- The feature loop of `vector2double` writes only `para_Feature`, `param_feature_id`
and `param_feature_id_to_index`. -/
theorem vector2doubleFeature_loop (deps : List (Int × ℚ)) :
    ∀ (s : Estimator), deps.foldl vector2doubleFeature s =
      { s with
        para_Feature := (deps.foldl vector2doubleFeature s).para_Feature,
        param_feature_id_to_index :=
          (deps.foldl vector2doubleFeature s).param_feature_id_to_index,
        param_feature_id := (deps.foldl vector2doubleFeature s).param_feature_id } := by
  induction deps with
  | nil => intro s; rfl
  | cons it rest ih =>
    intro s
    rw [List.foldl_cons]
    conv_lhs => rw [ih (vector2doubleFeature s it)]
    rfl

/-- What `vector2double` writes: every pose, speed-bias and extrinsic block and `para_Td`
from the window state, and the three feature containers from the depth vector. -/
theorem vector2double_eq (ext : Externals) (cfg : Config) (s : Estimator) :
    ∃ pf idx ids, vector2double ext cfg s =
      { s with
        para_Pose := fun i => if i < cfg.WINDOW_SIZE + 1 then
            writePose ext (s.para_Pose i) (s.Ps i) (s.Rs i)
          else s.para_Pose i,
        para_SpeedBias := fun i => if i < cfg.WINDOW_SIZE + 1 then
            (if cfg.USE_IMU then
              writeSpeedBias (s.para_SpeedBias i) (s.Vs i) (s.Bas i) (s.Bgs i)
            else s.para_SpeedBias i)
          else s.para_SpeedBias i,
        para_Ex_Pose := fun i => if i < cfg.NUM_OF_CAM then
            writePose ext (s.para_Ex_Pose i) (s.tic i) (s.ric i)
          else s.para_Ex_Pose i,
        para_Feature := pf,
        param_feature_id_to_index := idx,
        param_feature_id := ids,
        para_Td := setAt s.para_Td 0 (setAt (s.para_Td 0) 0 s.td) } := by
  refine ⟨(vector2double ext cfg s).para_Feature,
    (vector2double ext cfg s).param_feature_id_to_index,
    (vector2double ext cfg s).param_feature_id, ?_⟩
  simp only [vector2double, vector2doubleSlot_loop, vector2doubleCam_loop]
  rw [vector2doubleFeature_loop]

theorem Matrix3d.identity_mulVec (v : Vector3d) : Matrix3d.identity * v = v := by
  simp [Matrix3d.mulVec_def, Matrix3d.identity, Vector3d.dot]

theorem Matrix3d.mul_def (a b : Matrix3d) : a * b = Matrix3d.mul a b := rfl

theorem Matrix3d.identity_mul (m : Matrix3d) : Matrix3d.identity * m = m := by
  simp [Matrix3d.mul_def, Matrix3d.mul, Matrix3d.identity, Matrix3d.transpose, Vector3d.dot]

theorem writePose_read (ext : Externals) (p : Nat → ℚ) (t : Vector3d) (R : Matrix3d) :
    writePose ext p t R 0 = t.x ∧ writePose ext p t R 1 = t.y ∧
    writePose ext p t R 2 = t.z ∧ writePose ext p t R 3 = (ext.quatOfMatrix R).x ∧
    writePose ext p t R 4 = (ext.quatOfMatrix R).y ∧
    writePose ext p t R 5 = (ext.quatOfMatrix R).z ∧
    writePose ext p t R 6 = (ext.quatOfMatrix R).w := by
  simp [writePose, setAt]

theorem writePose_translation (ext : Externals) (p : Nat → ℚ) (t : Vector3d) (R : Matrix3d) :
    vecOfPara (writePose ext p t R) 0 = t := by
  simp [vecOfPara, writePose, setAt]

theorem writePose_rotation (ext : Externals) (p : Nat → ℚ) (t : Vector3d) (R : Matrix3d) :
    quatOfPara (writePose ext p t R) = ext.quatOfMatrix R := by
  simp [quatOfPara, writePose, setAt]

theorem writeSpeedBias_read (p : Nat → ℚ) (v ba bg : Vector3d) :
    vecOfPara (writeSpeedBias p v ba bg) 0 = v ∧
    vecOfPara (writeSpeedBias p v ba bg) 3 = ba ∧
    vecOfPara (writeSpeedBias p v ba bg) 6 = bg := by
  simp [vecOfPara, writeSpeedBias, setAt]

/-- What `double2vector` writes with `USE_IMU` and no pending failure flag. -/
theorem double2vector_eq (ext : Externals) (cfg : Config) (v : Estimator)
    (hU : cfg.USE_IMU = true) (hf : v.failure_occur = 0) :
    ∃ fm, double2vector ext cfg v =
      { v with
        Rs := fun i => if i < cfg.WINDOW_SIZE + 1 then
            double2vectorRotDiff ext v (ext.R2ypr (v.Rs 0)) *
              ext.toRotationMatrix (ext.normalized (quatOfPara (v.para_Pose i)))
          else v.Rs i,
        Ps := fun i => if i < cfg.WINDOW_SIZE + 1 then
            double2vectorRotDiff ext v (ext.R2ypr (v.Rs 0)) *
              (⟨v.para_Pose i 0 - v.para_Pose 0 0,
                v.para_Pose i 1 - v.para_Pose 0 1,
                v.para_Pose i 2 - v.para_Pose 0 2⟩ : Vector3d) + v.Ps 0
          else v.Ps i,
        Vs := fun i => if i < cfg.WINDOW_SIZE + 1 then
            double2vectorRotDiff ext v (ext.R2ypr (v.Rs 0)) * vecOfPara (v.para_SpeedBias i) 0
          else v.Vs i,
        Bas := fun i => if i < cfg.WINDOW_SIZE + 1 then vecOfPara (v.para_SpeedBias i) 3
          else v.Bas i,
        Bgs := fun i => if i < cfg.WINDOW_SIZE + 1 then vecOfPara (v.para_SpeedBias i) 6
          else v.Bgs i,
        tic := fun i => if i < cfg.NUM_OF_CAM then vecOfPara (v.para_Ex_Pose i) 0
          else v.tic i,
        ric := fun i => if i < cfg.NUM_OF_CAM then
            ext.toRotationMatrix (ext.normalized (quatOfPara (v.para_Ex_Pose i)))
          else v.ric i,
        f_manager := fm,
        td := v.para_Td 0 0 } := by
  refine ⟨(double2vector ext cfg v).f_manager, ?_⟩
  simp only [double2vector, hU, hf, ne_eq, not_true_eq_false, if_false, if_true,
    double2vectorSlot_loop, double2vectorCam_loop]

/-- With exact arithmetic (`fl = id`) the rounded function is `double2vector`. -/
theorem double2vectorWith_id (ext : Externals) (cfg : Config) (s : Estimator) :
    double2vectorWith id ext cfg s = double2vector ext cfg s := rfl

/-- Closed form of the slot loop of `double2vectorWith` after `n` iterations. -/
theorem double2vectorSlotWith_loop (fl : ℚ → ℚ) (ext : Externals) (rot_diff : Matrix3d)
    (origin_P0 : Vector3d) (s : Estimator) (n : Nat) :
    (List.range n).foldl (double2vectorSlotWith fl ext rot_diff origin_P0) s =
      { s with
        Rs := fun i => if i < n then
            Matrix3d.mulWith fl rot_diff
              (ext.toRotationMatrix (ext.normalized (quatOfPara (s.para_Pose i))))
          else s.Rs i,
        Ps := fun i => if i < n then
            Vector3d.addWith fl
              (Matrix3d.mulVecWith fl rot_diff
                (⟨fl (s.para_Pose i 0 - s.para_Pose 0 0),
                  fl (s.para_Pose i 1 - s.para_Pose 0 1),
                  fl (s.para_Pose i 2 - s.para_Pose 0 2)⟩ : Vector3d))
              origin_P0
          else s.Ps i,
        Vs := fun i => if i < n then
            Matrix3d.mulVecWith fl rot_diff (vecOfPara (s.para_SpeedBias i) 0)
          else s.Vs i,
        Bas := fun i => if i < n then vecOfPara (s.para_SpeedBias i) 3 else s.Bas i,
        Bgs := fun i => if i < n then vecOfPara (s.para_SpeedBias i) 6 else s.Bgs i } := by
  induction n with
  | zero => simp [tabulate_zero]
  | succ n ih =>
    rw [List.range_succ, List.foldl_append, ih]
    simp only [List.foldl_cons, List.foldl_nil, double2vectorSlotWith]
    simp only [setAt_tabulate _ (fun i => Matrix3d.mulWith fl rot_diff
        (ext.toRotationMatrix (ext.normalized (quatOfPara (s.para_Pose i))))),
      setAt_tabulate _ (fun i => Vector3d.addWith fl
        (Matrix3d.mulVecWith fl rot_diff
          (⟨fl (s.para_Pose i 0 - s.para_Pose 0 0),
            fl (s.para_Pose i 1 - s.para_Pose 0 1),
            fl (s.para_Pose i 2 - s.para_Pose 0 2)⟩ : Vector3d))
        origin_P0),
      setAt_tabulate _ (fun i =>
        Matrix3d.mulVecWith fl rot_diff (vecOfPara (s.para_SpeedBias i) 0)),
      setAt_tabulate _ (fun i => vecOfPara (s.para_SpeedBias i) 3),
      setAt_tabulate _ (fun i => vecOfPara (s.para_SpeedBias i) 6)]

/-- What `double2vectorWith` writes with `USE_IMU` and no pending failure flag. -/
theorem double2vectorWith_eq (fl : ℚ → ℚ) (ext : Externals) (cfg : Config) (v : Estimator)
    (hU : cfg.USE_IMU = true) (hf : v.failure_occur = 0) :
    ∃ fm, double2vectorWith fl ext cfg v =
      { v with
        Rs := fun i => if i < cfg.WINDOW_SIZE + 1 then
            Matrix3d.mulWith fl (double2vectorRotDiffWith fl ext v (ext.R2ypr (v.Rs 0)))
              (ext.toRotationMatrix (ext.normalized (quatOfPara (v.para_Pose i))))
          else v.Rs i,
        Ps := fun i => if i < cfg.WINDOW_SIZE + 1 then
            Vector3d.addWith fl
              (Matrix3d.mulVecWith fl (double2vectorRotDiffWith fl ext v (ext.R2ypr (v.Rs 0)))
                (⟨fl (v.para_Pose i 0 - v.para_Pose 0 0),
                  fl (v.para_Pose i 1 - v.para_Pose 0 1),
                  fl (v.para_Pose i 2 - v.para_Pose 0 2)⟩ : Vector3d))
              (v.Ps 0)
          else v.Ps i,
        Vs := fun i => if i < cfg.WINDOW_SIZE + 1 then
            Matrix3d.mulVecWith fl (double2vectorRotDiffWith fl ext v (ext.R2ypr (v.Rs 0)))
              (vecOfPara (v.para_SpeedBias i) 0)
          else v.Vs i,
        Bas := fun i => if i < cfg.WINDOW_SIZE + 1 then vecOfPara (v.para_SpeedBias i) 3
          else v.Bas i,
        Bgs := fun i => if i < cfg.WINDOW_SIZE + 1 then vecOfPara (v.para_SpeedBias i) 6
          else v.Bgs i,
        tic := fun i => if i < cfg.NUM_OF_CAM then vecOfPara (v.para_Ex_Pose i) 0
          else v.tic i,
        ric := fun i => if i < cfg.NUM_OF_CAM then
            ext.toRotationMatrix (ext.normalized (quatOfPara (v.para_Ex_Pose i)))
          else v.ric i,
        f_manager := fm,
        td := v.para_Td 0 0 } := by
  refine ⟨(double2vectorWith fl ext cfg v).f_manager, ?_⟩
  simp only [double2vectorWith, hU, hf, ne_eq, not_true_eq_false, if_false, if_true,
    double2vectorSlotWith_loop, double2vectorCam_loop]

/-- In `double` arithmetic the identity matrix maps a vector to its rounding. -/
theorem mulVecWith_identity (v : Vector3d) :
    Matrix3d.mulVecWith roundDouble Matrix3d.identity v =
      ⟨roundDouble v.x, roundDouble v.y, roundDouble v.z⟩ := by
  simp [Matrix3d.mulVecWith, Matrix3d.identity, Vector3d.dotWith, roundDouble_zero,
    roundDouble_idem]

/-- In `double` arithmetic the identity matrix maps a vector of doubles to itself. -/
theorem mulVecWith_identity_isDouble (v : Vector3d) (h : v.IsDouble) :
    Matrix3d.mulVecWith roundDouble Matrix3d.identity v = v := by
  obtain ⟨h1, h2, h3⟩ := h
  unfold IsDouble at h1 h2 h3
  rw [mulVecWith_identity, h1, h2, h3]

/-- In `double` arithmetic the product of the identity with a matrix of doubles is that
matrix. -/
theorem mulWith_identity_isDouble (m : Matrix3d) (h : m.IsDouble) :
    Matrix3d.mulWith roundDouble Matrix3d.identity m = m := by
  obtain ⟨⟨a1, a2, a3⟩, ⟨b1, b2, b3⟩, ⟨c1, c2, c3⟩⟩ := h
  unfold IsDouble at a1 a2 a3 b1 b2 b3 c1 c2 c3
  simp [Matrix3d.mulWith, Matrix3d.identity, Matrix3d.transpose, Vector3d.dotWith,
    roundDouble_zero, roundDouble_idem, a1, a2, a3, b1, b2, b3, c1, c2, c3]

/-- The error of subtracting `p0` from `p` and adding it back in `double` arithmetic. -/
theorem roundDouble_sub_add_error (p p0 : ℚ) :
    |roundDouble (roundDouble (p - p0) + p0) - p| ≤ (|p| + |p - p0|) / 2 ^ (52 : ℕ) := by
  have h1 := roundDouble_error (p - p0)
  have h2 := roundDouble_error (roundDouble (p - p0) + p0)
  have h3 : |roundDouble (p - p0) + p0| ≤ |p| + |p - p0| / 2 ^ (53 : ℕ) := by
    have e : roundDouble (p - p0) + p0 = p + (roundDouble (p - p0) - (p - p0)) := by ring
    rw [e]
    exact le_trans (abs_add _ _) (add_le_add le_rfl h1)
  have h4 : |roundDouble (roundDouble (p - p0) + p0) - p| ≤
      |roundDouble (roundDouble (p - p0) + p0) - (roundDouble (p - p0) + p0)| +
        |roundDouble (p - p0) - (p - p0)| := by
    have e : roundDouble (roundDouble (p - p0) + p0) - p =
        (roundDouble (roundDouble (p - p0) + p0) - (roundDouble (p - p0) + p0)) +
          (roundDouble (p - p0) - (p - p0)) := by ring
    rw [e]
    exact abs_add _ _
  have hp : 0 ≤ |p| := abs_nonneg p
  have hd : 0 ≤ |p - p0| := abs_nonneg (p - p0)
  have h5 : |roundDouble (p - p0) + p0| / 2 ^ (53 : ℕ) ≤
      (|p| + |p - p0| / 2 ^ (53 : ℕ)) / 2 ^ (53 : ℕ) :=
    div_le_div_of_nonneg_right h3 (by positivity)
  have h6 : (|p| + |p - p0| / 2 ^ (53 : ℕ)) / 2 ^ (53 : ℕ) + |p - p0| / 2 ^ (53 : ℕ) ≤
      (|p| + |p - p0|) / 2 ^ (52 : ℕ) := by
    rw [div_add_div_same, div_le_div_iff₀ (by positivity) (by positivity)]
    have e53 : (2 : ℚ) ^ (53 : ℕ) = 2 * 2 ^ (52 : ℕ) := by norm_num
    have hq : |p - p0| / 2 ^ (53 : ℕ) ≤ |p - p0| :=
      div_le_self hd (by norm_num)
    rw [e53]
    have h52 : (0 : ℚ) < 2 ^ (52 : ℕ) := by positivity
    nlinarith [mul_nonneg hp h52.le, mul_nonneg hd h52.le,
      mul_le_mul_of_nonneg_right hq h52.le]
  linarith

/-- C9 (as amended): with `USE_IMU`, `failure_occur = 0` and `rot_diff` equal to the
identity, `vector2double` followed by `double2vector` in `double` arithmetic returns
every `Bas[i]`, `Bgs[i]` (slots `0..WINDOW_SIZE`), every `tic[c]` and `td` unchanged,
returns `Vs[i]` unchanged when its components are doubles, and returns `Rs[i]`, `ric[c]`
unchanged whenever the conversion matrix → quaternion → normalised quaternion → matrix
is the identity on that rotation (and the entries of `Rs[i]` are doubles).  Each
component of `Ps[i]` comes back as `(Ps[i] - Ps[0]) + Ps[0]` with the difference and
the sum rounded: this is `Ps[i]` itself when `Ps[i]` and the difference `Ps[i] - Ps[0]`
are doubles, in particular for slot 0 and for every slot when `Ps[0] = 0`; in general
it differs from the component `p` of `Ps[i]` by at most `(|p| + |p - p0|) / 2^52`,
where `p0` is the component of `Ps[0]`. -/
theorem vector2double_double2vector_roundtrip (ext : Externals) (cfg : Config)
    (s : Estimator) (hU : cfg.USE_IMU = true) (hf : s.failure_occur = 0)
    (hrot : double2vectorRotDiffWith roundDouble ext (vector2double ext cfg s)
      (ext.R2ypr ((vector2double ext cfg s).Rs 0)) = Matrix3d.identity) :
    (∀ i, i ≤ cfg.WINDOW_SIZE →
      (double2vectorWith roundDouble ext cfg (vector2double ext cfg s)).Ps i =
        ⟨roundDouble (roundDouble ((s.Ps i).x - (s.Ps 0).x) + (s.Ps 0).x),
         roundDouble (roundDouble ((s.Ps i).y - (s.Ps 0).y) + (s.Ps 0).y),
         roundDouble (roundDouble ((s.Ps i).z - (s.Ps 0).z) + (s.Ps 0).z)⟩ ∧
      ((s.Ps i - s.Ps 0).IsDouble → (s.Ps i).IsDouble →
        (double2vectorWith roundDouble ext cfg (vector2double ext cfg s)).Ps i = s.Ps i) ∧
      (s.Ps 0 = 0 → (s.Ps i).IsDouble →
        (double2vectorWith roundDouble ext cfg (vector2double ext cfg s)).Ps i = s.Ps i) ∧
      (|((double2vectorWith roundDouble ext cfg (vector2double ext cfg s)).Ps i).x -
          (s.Ps i).x| ≤ (|(s.Ps i).x| + |(s.Ps i).x - (s.Ps 0).x|) / 2 ^ (52 : ℕ) ∧
        |((double2vectorWith roundDouble ext cfg (vector2double ext cfg s)).Ps i).y -
          (s.Ps i).y| ≤ (|(s.Ps i).y| + |(s.Ps i).y - (s.Ps 0).y|) / 2 ^ (52 : ℕ) ∧
        |((double2vectorWith roundDouble ext cfg (vector2double ext cfg s)).Ps i).z -
          (s.Ps i).z| ≤ (|(s.Ps i).z| + |(s.Ps i).z - (s.Ps 0).z|) / 2 ^ (52 : ℕ)) ∧
      ((s.Vs i).IsDouble →
        (double2vectorWith roundDouble ext cfg (vector2double ext cfg s)).Vs i = s.Vs i) ∧
      (double2vectorWith roundDouble ext cfg (vector2double ext cfg s)).Bas i = s.Bas i ∧
      (double2vectorWith roundDouble ext cfg (vector2double ext cfg s)).Bgs i = s.Bgs i ∧
      (ext.toRotationMatrix (ext.normalized (ext.quatOfMatrix (s.Rs i))) = s.Rs i →
        (s.Rs i).IsDouble →
        (double2vectorWith roundDouble ext cfg (vector2double ext cfg s)).Rs i = s.Rs i)) ∧
    ((s.Ps 0).IsDouble →
      (double2vectorWith roundDouble ext cfg (vector2double ext cfg s)).Ps 0 = s.Ps 0) ∧
    (∀ c, c < cfg.NUM_OF_CAM →
      (double2vectorWith roundDouble ext cfg (vector2double ext cfg s)).tic c = s.tic c ∧
      (ext.toRotationMatrix (ext.normalized (ext.quatOfMatrix (s.ric c))) = s.ric c →
        (double2vectorWith roundDouble ext cfg (vector2double ext cfg s)).ric c = s.ric c)) ∧
    (double2vectorWith roundDouble ext cfg (vector2double ext cfg s)).td = s.td := by
  obtain ⟨pf, idx, ids, hv⟩ := vector2double_eq ext cfg s
  have hfv : (vector2double ext cfg s).failure_occur = 0 := by rw [hv]; exact hf
  have hPs : (vector2double ext cfg s).Ps = s.Ps := by rw [hv]
  have hPose : (vector2double ext cfg s).para_Pose = fun i =>
      if i < cfg.WINDOW_SIZE + 1 then writePose ext (s.para_Pose i) (s.Ps i) (s.Rs i)
      else s.para_Pose i := by rw [hv]
  have hSB : (vector2double ext cfg s).para_SpeedBias = fun i =>
      if i < cfg.WINDOW_SIZE + 1 then
        writeSpeedBias (s.para_SpeedBias i) (s.Vs i) (s.Bas i) (s.Bgs i)
      else s.para_SpeedBias i := by rw [hv]; simp only [hU, if_true]
  have hEx : (vector2double ext cfg s).para_Ex_Pose = fun i =>
      if i < cfg.NUM_OF_CAM then writePose ext (s.para_Ex_Pose i) (s.tic i) (s.ric i)
      else s.para_Ex_Pose i := by rw [hv]
  have hTd : (vector2double ext cfg s).para_Td 0 0 = s.td := by rw [hv]; simp [setAt]
  obtain ⟨fm, hd⟩ := double2vectorWith_eq roundDouble ext cfg (vector2double ext cfg s) hU hfv
  have h0 : 0 < cfg.WINDOW_SIZE + 1 := by omega
  -- the position of slot `i` after the round trip
  have hpos : ∀ i, i ≤ cfg.WINDOW_SIZE →
      (double2vectorWith roundDouble ext cfg (vector2double ext cfg s)).Ps i =
        ⟨roundDouble (roundDouble ((s.Ps i).x - (s.Ps 0).x) + (s.Ps 0).x),
         roundDouble (roundDouble ((s.Ps i).y - (s.Ps 0).y) + (s.Ps 0).y),
         roundDouble (roundDouble ((s.Ps i).z - (s.Ps 0).z) + (s.Ps 0).z)⟩ := by
    intro i hi
    have hi1 : i < cfg.WINDOW_SIZE + 1 := by omega
    obtain ⟨a0, a1, a2, -⟩ := writePose_read ext (s.para_Pose i) (s.Ps i) (s.Rs i)
    obtain ⟨b0, b1, b2, -⟩ := writePose_read ext (s.para_Pose 0) (s.Ps 0) (s.Rs 0)
    rw [hd, hrot]
    simp only [hPs, hPose, hi1, h0, if_true, a0, a1, a2, b0, b1, b2, mulVecWith_identity,
      roundDouble_idem, Vector3d.addWith]
  have hfix : ∀ p p0 : ℚ, IsDouble (p - p0) → IsDouble p →
      roundDouble (roundDouble (p - p0) + p0) = p := by
    intro p p0 h1 h2
    unfold IsDouble at h1 h2
    rw [h1, sub_add_cancel, h2]
  have hexact : ∀ i, i ≤ cfg.WINDOW_SIZE → (s.Ps i - s.Ps 0).IsDouble → (s.Ps i).IsDouble →
      (double2vectorWith roundDouble ext cfg (vector2double ext cfg s)).Ps i = s.Ps i := by
    intro i hi hdiff hp
    obtain ⟨d1, d2, d3⟩ := hdiff
    obtain ⟨p1, p2, p3⟩ := hp
    rw [hpos i hi, hfix _ _ d1 p1, hfix _ _ d2 p2, hfix _ _ d3 p3]
  refine ⟨?_, ?_, ?_, ?_⟩
  · intro i hi
    have hi1 : i < cfg.WINDOW_SIZE + 1 := by omega
    refine ⟨hpos i hi, hexact i hi, ?_, ?_, ?_, ?_, ?_, ?_⟩
    · intro hz hp
      apply hexact i hi _ hp
      rw [hz]
      obtain ⟨p1, p2, p3⟩ := hp
      refine ⟨?_, ?_, ?_⟩
      · show IsDouble ((s.Ps i).x - 0)
        rw [sub_zero]
        exact p1
      · show IsDouble ((s.Ps i).y - 0)
        rw [sub_zero]
        exact p2
      · show IsDouble ((s.Ps i).z - 0)
        rw [sub_zero]
        exact p3
    · rw [hpos i hi]
      exact ⟨roundDouble_sub_add_error _ _, roundDouble_sub_add_error _ _,
        roundDouble_sub_add_error _ _⟩
    · intro hvd
      obtain ⟨hv1, -, -⟩ :=
        writeSpeedBias_read (s.para_SpeedBias i) (s.Vs i) (s.Bas i) (s.Bgs i)
      rw [hd, hrot]
      simp only [hSB, hi1, if_true, hv1]
      exact mulVecWith_identity_isDouble _ hvd
    · obtain ⟨-, hv2, -⟩ :=
        writeSpeedBias_read (s.para_SpeedBias i) (s.Vs i) (s.Bas i) (s.Bgs i)
      rw [hd]
      simp only [hSB, hi1, if_true, hv2]
    · obtain ⟨-, -, hv3⟩ :=
        writeSpeedBias_read (s.para_SpeedBias i) (s.Vs i) (s.Bas i) (s.Bgs i)
      rw [hd]
      simp only [hSB, hi1, if_true, hv3]
    · intro hconv hRd
      rw [hd, hrot]
      simp only [hPose, hi1, if_true, writePose_rotation, hconv]
      exact mulWith_identity_isDouble _ hRd
  · intro hp0
    apply hexact 0 (Nat.zero_le _) _ hp0
    refine ⟨?_, ?_, ?_⟩
    · show IsDouble ((s.Ps 0).x - (s.Ps 0).x)
      rw [sub_self]
      exact isDouble_zero
    · show IsDouble ((s.Ps 0).y - (s.Ps 0).y)
      rw [sub_self]
      exact isDouble_zero
    · show IsDouble ((s.Ps 0).z - (s.Ps 0).z)
      rw [sub_self]
      exact isDouble_zero
  · intro c hc
    rw [hd]
    simp only [hEx, hc, if_true, writePose_translation, writePose_rotation]
    exact ⟨trivial, fun h => h⟩
  · rw [hd]
    exact hTd

/-- Witness of C9 (as amended) on `demoWindowOld` (identity rotations, integer positions
with `Ps[0] = 0`; the stand-in conversions map every rotation to the identity, so
`rot_diff` is the identity): position, velocity and rotation of slot 1 and `td` come
back unchanged. -/
theorem vector2double_double2vector_roundtrip_witness :
    demoConfig.USE_IMU = true ∧ demoWindowOld.failure_occur = 0 ∧
    double2vectorRotDiffWith roundDouble demoExternals
      (vector2double demoExternals demoConfig demoWindowOld)
      (demoExternals.R2ypr ((vector2double demoExternals demoConfig demoWindowOld).Rs 0))
      = Matrix3d.identity ∧
    demoWindowOld.Ps 0 = 0 ∧ (demoWindowOld.Ps 1).IsDouble ∧ (demoWindowOld.Vs 1).IsDouble ∧
    (demoWindowOld.Rs 1).IsDouble ∧
    (double2vectorWith roundDouble demoExternals demoConfig
      (vector2double demoExternals demoConfig demoWindowOld)).Ps 1 = demoWindowOld.Ps 1 ∧
    (double2vectorWith roundDouble demoExternals demoConfig
      (vector2double demoExternals demoConfig demoWindowOld)).Vs 1 = demoWindowOld.Vs 1 ∧
    (double2vectorWith roundDouble demoExternals demoConfig
      (vector2double demoExternals demoConfig demoWindowOld)).Rs 1 = demoWindowOld.Rs 1 ∧
    (double2vectorWith roundDouble demoExternals demoConfig
      (vector2double demoExternals demoConfig demoWindowOld)).td = demoWindowOld.td :=
  ⟨rfl, rfl, by decide!, by decide!, by decide!, by decide!, by decide!,
    ((vector2double_double2vector_roundtrip demoExternals demoConfig demoWindowOld rfl rfl
      (by decide!)).1 1 (by decide)).2.2.1 (by decide!) (by decide!),
    ((vector2double_double2vector_roundtrip demoExternals demoConfig demoWindowOld rfl rfl
      (by decide!)).1 1 (by decide)).2.2.2.2.1 (by decide!),
    ((vector2double_double2vector_roundtrip demoExternals demoConfig demoWindowOld rfl rfl
      (by decide!)).1 1 (by decide)).2.2.2.2.2.2.2 rfl (by decide!),
    (vector2double_double2vector_roundtrip demoExternals demoConfig demoWindowOld rfl rfl
      (by decide!)).2.2.2⟩

/-- Counterexample to C9 as stated, on `demoOffsetWindow`: `USE_IMU`, no pending failure,
every rotation the identity (on which the stand-in conversions agree with Eigen's, so the
conversion round trip is the identity and `rot_diff` is the identity) and every position
a vector of doubles, with `Ps[0] = (1, 0, 0)` and `Ps[1] = (0.1, 0, 0)`.  In `double`
arithmetic `(0.1 - 1.0) + 1.0` is 0.09999999999999998, so `Ps[1]` does not come back
unchanged. -/
theorem vector2double_double2vector_position_rounded :
    demoConfig.USE_IMU = true ∧ demoOffsetWindow.failure_occur = 0 ∧
    double2vectorRotDiffWith roundDouble demoExternals
      (vector2double demoExternals demoConfig demoOffsetWindow)
      (demoExternals.R2ypr ((vector2double demoExternals demoConfig demoOffsetWindow).Rs 0))
      = Matrix3d.identity ∧
    (demoOffsetWindow.Ps 0).IsDouble ∧ (demoOffsetWindow.Ps 1).IsDouble ∧
    demoOffsetWindow.Rs 0 = Matrix3d.identity ∧ demoOffsetWindow.Rs 1 = Matrix3d.identity ∧
    demoOffsetWindow.Ps 0 = ⟨1, 0, 0⟩ ∧
    demoOffsetWindow.Ps 1 = ⟨3602879701896397 / 36028797018963968, 0, 0⟩ ∧
    (double2vectorWith roundDouble demoExternals demoConfig
      (vector2double demoExternals demoConfig demoOffsetWindow)).Ps 1 =
        ⟨900719925474099 / 9007199254740992, 0, 0⟩ ∧
    (double2vectorWith roundDouble demoExternals demoConfig
      (vector2double demoExternals demoConfig demoOffsetWindow)).Ps 1 ≠
        demoOffsetWindow.Ps 1 := by
  refine ⟨rfl, rfl, by decide!, by decide!, by decide!, by decide!, by decide!, by decide!,
    by decide!, by decide!, by decide!⟩

/-! ## `outliersRejection` -/

theorem lookup_mapSet_self {β : Type} (k : Int) (v : β) :
    ∀ (m : List (Int × β)), (mapSet m k v).lookup k = some v := by
  intro m
  induction m with
  | nil => simp [mapSet, List.lookup]
  | cons e rest ih =>
    obtain ⟨k1, v1⟩ := e
    by_cases h1 : k = k1
    · simp [mapSet, h1, List.lookup]
    · by_cases h2 : k < k1
      · simp [mapSet, h1, h2, List.lookup]
      · have hb : (k == k1) = false := by simpa using h1
        simp [mapSet, h1, h2, List.lookup, hb, ih]

theorem lookup_mapSet_ne {β : Type} (k k2 : Int) (v : β) (hne : k2 ≠ k) :
    ∀ (m : List (Int × β)), (mapSet m k v).lookup k2 = m.lookup k2 := by
  intro m
  have hb : (k2 == k) = false := by simpa using hne
  induction m with
  | nil => simp [mapSet, List.lookup, hb]
  | cons e rest ih =>
    obtain ⟨k1, v1⟩ := e
    by_cases h1 : k = k1
    · subst h1
      simp [mapSet, List.lookup, hb]
    · by_cases h2 : k < k1
      · simp [mapSet, h1, h2, List.lookup, hb]
      · simp only [mapSet, h1, h2, if_false, List.lookup, ih]

/-- The accumulators of the observation loop are the sum and the number of the error
terms of the specification. -/
theorem outlierObservation_foldl (ext : Externals) (cfg : Config) (s : Estimator)
    (f : FeaturePerId) (first : FeaturePerFrame) :
    ∀ (obs : List FeaturePerFrame) (k : Nat) (a : OutlierAcc),
      a.imu_j = f.start_frame - 1 + k →
      (obs.foldl (outlierObservation ext cfg s f.start_frame f.main_cam first.point
          f.estimated_depth) a).err
        = a.err + (errorTermsFrom ext cfg s f first k obs).sum ∧
      (obs.foldl (outlierObservation ext cfg s f.start_frame f.main_cam first.point
          f.estimated_depth) a).errCnt
        = a.errCnt + ((errorTermsFrom ext cfg s f first k obs).length : Int) := by
  intro obs
  induction obs with
  | nil => intro k a _; simp [errorTermsFrom]
  | cons o rest ih =>
    intro k a ha
    have hj : a.imu_j + 1 = f.start_frame + k := by rw [ha]; ring
    have hcond : f.start_frame ≠ f.start_frame + (k : Int) ↔ k ≠ 0 := by
      constructor
      · intro h hk; apply h; simp [hk]
      · intro h h2; apply h; omega
    rw [List.foldl_cons]
    by_cases hk : k = 0
    · have hc : ¬ f.start_frame ≠ f.start_frame + (k : Int) := fun h => hcond.mp h hk
      by_cases hs : (cfg.STEREO && o.is_stereo) = true
      · have hs2 : cfg.STEREO = true ∧ o.is_stereo = true := by simpa using hs
        have hstep := ih (k + 1)
          (outlierObservation ext cfg s f.start_frame f.main_cam first.point
            f.estimated_depth a o)
          (by simp [outlierObservation, hj, hc, hs])
        rw [hstep.1, hstep.2]
        simp [outlierObservation, hj, hc, hs, errorTermsFrom, hk, hs2, stereoError]
        constructor <;> ring
      · have hs2 : ¬ (cfg.STEREO = true ∧ o.is_stereo = true) := by simpa using hs
        have hstep := ih (k + 1)
          (outlierObservation ext cfg s f.start_frame f.main_cam first.point
            f.estimated_depth a o)
          (by simp [outlierObservation, hj, hc, hs])
        rw [hstep.1, hstep.2]
        simp [outlierObservation, hj, hc, hs, errorTermsFrom, hk, hs2]
    · have hc : f.start_frame ≠ f.start_frame + (k : Int) := hcond.mpr hk
      by_cases hs : (cfg.STEREO && o.is_stereo) = true
      · have hs2 : cfg.STEREO = true ∧ o.is_stereo = true := by simpa using hs
        have hstep := ih (k + 1)
          (outlierObservation ext cfg s f.start_frame f.main_cam first.point
            f.estimated_depth a o)
          (by simp [outlierObservation, hj, hc, hs])
        rw [hstep.1, hstep.2]
        simp [outlierObservation, hj, hc, hs, errorTermsFrom, hk, hs2, stereoError,
          mainCamError]
        constructor <;> ring
      · have hs2 : ¬ (cfg.STEREO = true ∧ o.is_stereo = true) := by simpa using hs
        have hstep := ih (k + 1)
          (outlierObservation ext cfg s f.start_frame f.main_cam first.point
            f.estimated_depth a o)
          (by simp [outlierObservation, hj, hc, hs])
        rw [hstep.1, hstep.2]
        simp [outlierObservation, hj, hc, hs, errorTermsFrom, hk, hs2, mainCamError]
        constructor <;> ring

/-- The verdict of the loop body is the criterion of the specification: at least one
error term, and mean error times focal length above the threshold. -/
theorem outlierVerdict_iff (ext : Externals) (cfg : Config) (s : Estimator)
    (f : FeaturePerId) :
    outlierVerdict ext cfg s f = true ↔
      errorTerms ext cfg s f ≠ [] ∧
      meanError ext cfg s f * cfg.FOCAL_LENGTH > cfg.THRES_OUTLIER := by
  unfold outlierVerdict meanError errorTerms
  cases hfp : f.feature_per_frame with
  | nil => simp
  | cons first rest =>
    simp only
    obtain ⟨h1, h2⟩ := outlierObservation_foldl ext cfg s f first (first :: rest) 0
      ⟨0, 0, f.start_frame - 1⟩ (by simp)
    simp only [zero_add] at h1 h2
    unfold outlierExceeds outlierAccumulate
    rw [h1, h2]
    by_cases hnil : errorTermsFrom ext cfg s f first 0 (first :: rest) = []
    · simp [hnil]
    · have hlen : ((errorTermsFrom ext cfg s f first 0 (first :: rest)).length : Int) ≠ 0 := by
        simpa using hnil
      simp [hlen, hnil]

theorem outlierAccumulate_frame (ext : Externals) (cfg : Config) (s : Estimator)
    (fm : FeatureManager) :
    outlierAccumulate ext cfg { s with f_manager := fm } = outlierAccumulate ext cfg s := rfl

theorem eraseUsedNum_fields {f g : FeaturePerId} (h : eraseUsedNum f = eraseUsedNum g) :
    f.feature_id = g.feature_id ∧ f.start_frame = g.start_frame ∧
    f.feature_per_frame = g.feature_per_frame ∧ f.estimated_depth = g.estimated_depth ∧
    f.main_cam = g.main_cam := by
  cases f
  cases g
  simp only [eraseUsedNum, FeaturePerId.mk.injEq] at h
  simp [h]

/-- One pass of the feature loop on a valid id: it succeeds, inserts the feature's id
exactly on a positive verdict, and changes the estimator only in `used_num`. -/
theorem outliersRejectionFeature_step (ext : Externals) (cfg : Config) (s st : Estimator)
    (rI : Finset Int) (id : Int) (f : FeaturePerId) (hJ : SameUpToUsedNum s st)
    (hl : s.f_manager.feature.lookup id = some f) (hne : f.feature_per_frame ≠ []) :
    ∃ st1, outliersRejectionFeature ext cfg (st, rI) id =
        some (st1, if outlierVerdict ext cfg s f = true then insert f.feature_id rI else rI) ∧
      SameUpToUsedNum s st1 := by
  obtain ⟨m, rfl, hm⟩ := hJ
  have hmid := hm id
  rw [hl] at hmid
  cases hl2 : m.lookup id with
  | none => rw [hl2] at hmid; simp at hmid
  | some g =>
    rw [hl2] at hmid
    simp only [Option.map_some', Option.some.injEq] at hmid
    obtain ⟨e1, e2, e3, e4, e5⟩ := eraseUsedNum_fields hmid
    cases hfp : f.feature_per_frame with
    | nil => exact absurd hfp hne
    | cons first rest =>
      have hgp : g.feature_per_frame = first :: rest := by rw [e3, hfp]
      refine ⟨{ s with
        f_manager := { s.f_manager with
          feature := mapSet m id { g with used_num := g.feature_per_frame.length } } },
        ?_, ?_⟩
      · simp only [outliersRejectionFeature, hl2, hgp, outlierAccumulate_frame,
          outlierVerdict, hfp, e1, e2, e4, e5]
        split_ifs <;> rfl
      · refine ⟨_, rfl, ?_⟩
        intro id2
        by_cases h2 : id2 = id
        · subst h2
          rw [lookup_mapSet_self, hl]
          simp only [Option.map_some', Option.some.injEq]
          rw [← hmid]
          rfl
        · rw [lookup_mapSet_ne _ _ _ h2]
          exact hm id2

/-- The feature loop over a list of valid ids succeeds; afterwards the set holds its
former members and the listed ids with a positive verdict. -/
theorem outliersRejection_fold (ext : Externals) (cfg : Config) (s : Estimator) :
    ∀ (ids : List Int) (st : Estimator) (rI : Finset Int), SameUpToUsedNum s st →
      (∀ id ∈ ids, ∃ f, s.f_manager.feature.lookup id = some f ∧
        f.feature_id = id ∧ f.feature_per_frame ≠ []) →
      ∃ st1 rI1, ids.foldlM (outliersRejectionFeature ext cfg) (st, rI) = some (st1, rI1) ∧
        ∀ x, x ∈ rI1 ↔ x ∈ rI ∨ (x ∈ ids ∧ ∃ f, s.f_manager.feature.lookup x = some f ∧
          outlierVerdict ext cfg s f = true) := by
  intro ids
  induction ids with
  | nil => intro st rI _ _; exact ⟨st, rI, rfl, by simp⟩
  | cons id rest ih =>
    intro st rI hJ hvalid
    obtain ⟨f, hl, hid, hne⟩ := hvalid id (List.mem_cons_self _ _)
    obtain ⟨st1, hstep, hJ1⟩ := outliersRejectionFeature_step ext cfg s st rI id f hJ hl hne
    obtain ⟨st2, rI2, hfold, hmem⟩ := ih st1
      (if outlierVerdict ext cfg s f = true then insert f.feature_id rI else rI) hJ1
      (fun x hx => hvalid x (List.mem_cons_of_mem _ hx))
    refine ⟨st2, rI2, ?_, ?_⟩
    · rw [List.foldlM_cons, hstep]
      exact hfold
    · intro x
      rw [hmem x]
      by_cases hv : outlierVerdict ext cfg s f = true
      · simp only [hv, if_true, Finset.mem_insert, hid, List.mem_cons]
        constructor
        · rintro ((rfl | h) | h)
          · exact Or.inr ⟨Or.inl rfl, f, hl, hv⟩
          · exact Or.inl h
          · exact Or.inr ⟨Or.inr h.1, h.2⟩
        · rintro (h | ⟨rfl | h, h2⟩)
          · exact Or.inl (Or.inr h)
          · exact Or.inl (Or.inl rfl)
          · exact Or.inr ⟨h, h2⟩
      · simp only [hv, List.mem_cons]
        constructor
        · rintro (h | h)
          · exact Or.inl h
          · exact Or.inr ⟨Or.inr h.1, h.2⟩
        · rintro (h | ⟨rfl | h, g, hg, hgv⟩)
          · exact Or.inl h
          · rw [hl] at hg
            simp only [Option.some.injEq] at hg
            subst hg
            exact absurd hgv hv
          · exact Or.inr ⟨h, g, hg, hgv⟩

/-- C10: on valid feature ids `outliersRejection` returns, and tags by mean error: an id of
`param_feature_id` whose feature has at least one error term is in `removeIndex`
afterwards if and only if it was there before or
(sum of its error terms / number of error terms) * `FOCAL_LENGTH` > `THRES_OUTLIER`,
with one error term per non-anchor observation on the main camera plus, with `STEREO`,
one per stereo observation; ids outside `param_feature_id` are never inserted and no
id is removed. -/
theorem outliersRejection_mean_error (ext : Externals) (cfg : Config) (s : Estimator)
    (removeIndex : Finset Int) (hvalid : FeatureIdsValid s) :
    ∃ r, outliersRejection ext cfg s removeIndex = some r ∧
      (∀ id ∈ s.param_feature_id, ∀ f, s.f_manager.feature.lookup id = some f →
        errorTerms ext cfg s f ≠ [] →
        (id ∈ r.2 ↔ id ∈ removeIndex ∨
          (errorTerms ext cfg s f).sum / ((errorTerms ext cfg s f).length : ℚ)
            * cfg.FOCAL_LENGTH > cfg.THRES_OUTLIER)) ∧
      (∀ id, id ∉ s.param_feature_id → (id ∈ r.2 ↔ id ∈ removeIndex)) ∧
      removeIndex ⊆ r.2 := by
  obtain ⟨st1, rI1, hfold, hmem⟩ := outliersRejection_fold ext cfg s s.param_feature_id s
    removeIndex ⟨s.f_manager.feature, rfl, fun _ => rfl⟩ hvalid
  refine ⟨(st1, rI1), hfold, ?_, ?_, ?_⟩
  · intro id hid f hl hterms
    rw [hmem id]
    constructor
    · rintro (h | ⟨-, g, hg, hgv⟩)
      · exact Or.inl h
      · rw [hl] at hg
        simp only [Option.some.injEq] at hg
        subst hg
        exact Or.inr ((outlierVerdict_iff ext cfg s f).mp hgv).2
    · rintro (h | h)
      · exact Or.inl h
      · exact Or.inr ⟨hid, f, hl, (outlierVerdict_iff ext cfg s f).mpr ⟨hterms, h⟩⟩
  · intro id hid
    rw [hmem id]
    constructor
    · rintro (h | ⟨h, -⟩)
      · exact h
      · exact absurd h hid
    · intro h
      exact Or.inl h
  · intro x hx
    exact (hmem x).mpr (Or.inl hx)

theorem demoFeatures_valid : FeatureIdsValid demoFeatures := by
  intro id hid
  have h : id = 5 ∨ id = 6 := by simpa [demoFeatures] using hid
  rcases h with rfl | rfl
  · exact ⟨_, rfl, rfl, by simp⟩
  · exact ⟨_, rfl, rfl, by simp⟩

/-- Witness of C10 on `demoFeatures`: the call returns, and of the two features only
the displaced one (id 5) is tagged. -/
theorem outliersRejection_mean_error_witness :
    FeatureIdsValid demoFeatures ∧
    (outliersRejection demoExternals demoConfig demoFeatures ∅).map Prod.snd = some {5} ∧
    ∃ r, outliersRejection demoExternals demoConfig demoFeatures ∅ = some r ∧
      (∀ id ∈ demoFeatures.param_feature_id, ∀ f,
        demoFeatures.f_manager.feature.lookup id = some f →
        errorTerms demoExternals demoConfig demoFeatures f ≠ [] →
        (id ∈ r.2 ↔ id ∈ (∅ : Finset Int) ∨
          (errorTerms demoExternals demoConfig demoFeatures f).sum /
            ((errorTerms demoExternals demoConfig demoFeatures f).length : ℚ)
            * demoConfig.FOCAL_LENGTH > demoConfig.THRES_OUTLIER)) ∧
      (∀ id, id ∉ demoFeatures.param_feature_id → (id ∈ r.2 ↔ id ∈ (∅ : Finset Int))) ∧
      (∅ : Finset Int) ⊆ r.2 :=
  ⟨demoFeatures_valid, by decide!,
    outliersRejection_mean_error demoExternals demoConfig demoFeatures ∅ demoFeatures_valid⟩

/-! ## Depth thread -/

/-- The stale-odometry loop splits the queue and pops only entries older than
`t - 0.001`. -/
theorem dropOldOdometry_spec (t : ℚ) :
    ∀ (buf : List OdometryEntry),
      buf = (dropOldOdometry t buf).1 ++ (dropOldOdometry t buf).2 ∧
      (∀ d ∈ (dropOldOdometry t buf).1, d.1 < t - 1 / 1000) ∧
      (∀ e, (dropOldOdometry t buf).2.head? = some e → t - 1 / 1000 ≤ e.1) := by
  have hmilli : (1e-3 : ℚ) = 1 / 1000 := by norm_num
  intro buf
  induction buf with
  | nil => simp [dropOldOdometry]
  | cons e rest ih =>
    by_cases h : e.1 < t - 1 / 1000
    · obtain ⟨h1, h2, h3⟩ := ih
      simp only [dropOldOdometry, hmilli, h, if_true]
      refine ⟨?_, ?_, h3⟩
      · simp only [List.cons_append]
        rw [← h1]
      · intro d hd
        rcases List.mem_cons.mp hd with rfl | hd
        · exact h
        · exact h2 d hd
    · simp only [dropOldOdometry, hmilli, h, if_false]
      refine ⟨by simp, by simp, ?_⟩
      intro e2 he2
      simp only [List.head?_cons, Option.some.injEq] at he2
      subst he2
      exact not_lt.mp h

theorem fabs_le_iff (a b : ℚ) : fabs a ≤ b ↔ -b ≤ a ∧ a ≤ b := by
  unfold fabs
  split_ifs with h
  · constructor
    · intro h1; constructor <;> linarith
    · intro h1; linarith [h1.1]
  · constructor
    · intro h1; constructor <;> linarith
    · intro h1; exact h1.2

/-- C11: for a depth frame stamped `t` and a non-empty odometry queue, the pass returns;
an odometry selected for publishing is stamped within 1 ms of `t` and is preceded in the
queue only by the discarded entries, every discarded entry is stamped before
`t - 0.001`, and when no queued entry lies within 1 ms the frame is skipped, consuming
nothing but discarded entries (so no entry stamped after `t + 0.001`). -/
theorem syncDepthOdometry_pairing (s : Estimator) (t : ℚ) (hne : s.odometry_buf ≠ []) :
    ∃ r, syncDepthOdometry s t = some r ∧
      (∀ d ∈ r.discarded, d.1 < t - 1 / 1000) ∧
      (∀ e, r.selected = some e →
        fabs (e.1 - t) ≤ 1 / 1000 ∧ t - 1 / 1000 ≤ e.1 ∧ e.1 ≤ t + 1 / 1000 ∧
        s.odometry_buf = r.discarded ++ e :: r.est.odometry_buf) ∧
      (r.selected = none →
        s.odometry_buf = r.discarded ++ r.est.odometry_buf ∧
        ∀ d ∈ r.discarded, ¬ t + 1 / 1000 < d.1) ∧
      ((∀ e ∈ s.odometry_buf, ¬ fabs (e.1 - t) ≤ 1 / 1000) → r.selected = none) := by
  have hmilli : (1e-3 : ℚ) = 1 / 1000 := by norm_num
  obtain ⟨hsplit, hold, hfront⟩ := dropOldOdometry_spec t s.odometry_buf
  have hskip : ∀ d ∈ (dropOldOdometry t s.odometry_buf).1, ¬ t + 1 / 1000 < d.1 := by
    intro d hd h
    have := hold d hd
    linarith
  cases hbuf : s.odometry_buf with
  | nil => exact absurd hbuf hne
  | cons first others =>
    rw [hbuf] at hsplit hold hfront hskip
    cases hrest : (dropOldOdometry t (first :: others)).2 with
    | nil =>
      rw [hrest] at hsplit
      refine ⟨⟨{ s with odometry_buf := [] }, (dropOldOdometry t (first :: others)).1, none⟩,
        by simp [syncDepthOdometry, hbuf, hrest], hold, by simp, ?_, by simp⟩
      intro _
      exact ⟨hsplit, hskip⟩
    | cons e rest =>
      rw [hrest] at hsplit hfront
      have he := hfront e (by simp)
      by_cases hfar : fabs (e.1 - t) > 1 / 1000
      · refine ⟨⟨{ s with odometry_buf := e :: rest },
          (dropOldOdometry t (first :: others)).1, none⟩,
          by simp only [syncDepthOdometry, hbuf, hrest, hmilli]; rw [if_pos hfar],
          hold, by simp, ?_, by simp⟩
        intro _
        exact ⟨hsplit, hskip⟩
      · have hnear : fabs (e.1 - t) ≤ 1 / 1000 := not_lt.mp hfar
        refine ⟨⟨{ s with odometry_buf := rest },
          (dropOldOdometry t (first :: others)).1, some e⟩,
          by simp only [syncDepthOdometry, hbuf, hrest, hmilli]; rw [if_neg hfar],
          hold, ?_, by simp, ?_⟩
        · intro e2 he2
          simp only [Option.some.injEq] at he2
          subst he2
          have h2 := (fabs_le_iff _ _).mp hnear
          exact ⟨hnear, he, by linarith [h2.2], hsplit⟩
        · intro hnone
          have hmem : e ∈ first :: others := by
            rw [hsplit]
            simp
          exact absurd hnear (hnone e hmem)

/-- Witness of C11 on `demoOdometry` with a depth frame stamped `1`: the entry stamped
`0.9` is discarded and the one stamped `1.0004` is selected. -/
theorem syncDepthOdometry_pairing_witness :
    demoOdometry.odometry_buf ≠ [] ∧
    (syncDepthOdometry demoOdometry 1).map (fun r => (r.discarded.map Prod.fst,
      r.selected.map Prod.fst, r.est.odometry_buf.map Prod.fst))
      = some ([9 / 10], some (10004 / 10000), [105 / 100]) ∧
    ∃ r, syncDepthOdometry demoOdometry 1 = some r ∧
      (∀ d ∈ r.discarded, d.1 < 1 - 1 / 1000) ∧
      (∀ e, r.selected = some e →
        fabs (e.1 - 1) ≤ 1 / 1000 ∧ 1 - 1 / 1000 ≤ e.1 ∧ e.1 ≤ 1 + 1 / 1000 ∧
        demoOdometry.odometry_buf = r.discarded ++ e :: r.est.odometry_buf) ∧
      (r.selected = none →
        demoOdometry.odometry_buf = r.discarded ++ r.est.odometry_buf ∧
        ∀ d ∈ r.discarded, ¬ (1 : ℚ) + 1 / 1000 < d.1) ∧
      ((∀ e ∈ demoOdometry.odometry_buf, ¬ fabs (e.1 - 1) ≤ 1 / 1000) → r.selected = none) :=
  ⟨by simp [demoOdometry], by decide!,
    syncDepthOdometry_pairing demoOdometry 1 (by simp [demoOdometry])⟩

/-! ## `relativePose` -/

/-- The loop of `relativePose` stops at the first accepted slot of its list. -/
theorem relativePoseFrom_first (ext : Externals) (cfg : Config) (s : Estimator) :
    ∀ (slots : List Nat) (relative_R : Matrix3d) (relative_T : Vector3d) (l : Int) (i : Nat),
      i ∈ slots → SlotAccepted ext cfg s i →
      ∃ k pre post, slots = pre ++ k :: post ∧ (∀ j ∈ pre, ¬ SlotAccepted ext cfg s j) ∧
        SlotAccepted ext cfg s k ∧
        (relativePoseFrom ext cfg s slots relative_R relative_T l).ret = true ∧
        (relativePoseFrom ext cfg s slots relative_R relative_T l).l = (k : Int) ∧
        some ((relativePoseFrom ext cfg s slots relative_R relative_T l).relative_R,
          (relativePoseFrom ext cfg s slots relative_R relative_T l).relative_T) =
          ext.solveRelativeRT (ext.fmGetCorresponding s.f_manager k cfg.WINDOW_SIZE) := by
  intro slots
  induction slots with
  | nil => intro _ _ _ i hi; simp at hi
  | cons a rest ih =>
    intro relative_R relative_T l i hi hacc
    by_cases ha : SlotAccepted ext cfg s a
    · obtain ⟨h1, h2, h3⟩ := ha
      cases hsolve : ext.solveRelativeRT (ext.fmGetCorresponding s.f_manager a cfg.WINDOW_SIZE) with
      | none => rw [hsolve] at h3; simp at h3
      | some RT =>
        obtain ⟨R, T⟩ := RT
        refine ⟨a, [], rest, rfl, by simp, ⟨h1, h2, h3⟩, ?_, ?_, ?_⟩ <;>
          simp [relativePoseFrom, h1, h2, hsolve]
    · have hi2 : i ∈ rest := by
        rcases List.mem_cons.mp hi with rfl | h
        · exact absurd hacc ha
        · exact h
      have hstep : relativePoseFrom ext cfg s (a :: rest) relative_R relative_T l =
          relativePoseFrom ext cfg s rest relative_R relative_T l := by
        by_cases h1 : (ext.fmGetCorresponding s.f_manager a cfg.WINDOW_SIZE).length > 20
        · by_cases h2 : averageParallax ext
              (ext.fmGetCorresponding s.f_manager a cfg.WINDOW_SIZE) * 460 > 30
          · cases hsolve : ext.solveRelativeRT
                (ext.fmGetCorresponding s.f_manager a cfg.WINDOW_SIZE) with
            | none => simp [relativePoseFrom, h1, h2, hsolve]
            | some RT =>
              exact absurd ⟨h1, h2, by rw [hsolve]; rfl⟩ ha
          · simp [relativePoseFrom, h1, h2]
        · simp [relativePoseFrom, h1]
      obtain ⟨k, pre, post, hsplit, hpre, hk, hr1, hr2, hr3⟩ :=
        ih relative_R relative_T l i hi2 hacc
      refine ⟨k, a :: pre, post, by rw [hsplit]; rfl, ?_, hk, ?_, ?_, ?_⟩
      · intro j hj
        rcases List.mem_cons.mp hj with rfl | h
        · exact ha
        · exact hpre j h
      · rw [hstep]; exact hr1
      · rw [hstep]; exact hr2
      · rw [hstep]; exact hr3

theorem range_split_prefix (n k : Nat) (pre post : List Nat)
    (h : List.range n = pre ++ k :: post) : k < n ∧ ∀ j, j < k → j ∈ pre := by
  have hk : (List.range n)[pre.length]? = some k := by
    rw [h, List.getElem?_append_right (Nat.le_refl _)]
    simp
  have hkn : pre.length = k ∧ k < n := by
    by_cases hlt : pre.length < n
    · rw [List.getElem?_range hlt] at hk
      simp at hk
      omega
    · rw [List.getElem?_eq_none (by simpa using hlt)] at hk
      simp at hk
  refine ⟨hkn.2, ?_⟩
  intro j hj
  have hjn : j < n := by omega
  have h1 : (List.range n)[j]? = some j := List.getElem?_range hjn
  rw [h, List.getElem?_append_left (by omega)] at h1
  exact List.getElem?_mem h1

/-- C17 (as amended): if some slot `i < WINDOW_SIZE` has more than 20 correspondences with
slot `WINDOW_SIZE`, a mean correspondence displacement whose pixel value (mean normalised
displacement times the fixed focal 460) exceeds 30, and `solveRelativeRT` succeeds on
those correspondences, then `relativePose` returns true with `l` the smallest such slot
index, `l < WINDOW_SIZE`, and with the pose `solveRelativeRT` found for that slot. -/
theorem relativePose_accepts (ext : Externals) (cfg : Config) (s : Estimator)
    (relative_R : Matrix3d) (relative_T : Vector3d) (l : Int)
    (h : ∃ i, i < cfg.WINDOW_SIZE ∧ SlotAccepted ext cfg s i) :
    ∃ k, k < cfg.WINDOW_SIZE ∧ SlotAccepted ext cfg s k ∧
      (∀ j, j < k → ¬ SlotAccepted ext cfg s j) ∧
      (relativePose ext cfg s relative_R relative_T l).ret = true ∧
      (relativePose ext cfg s relative_R relative_T l).l = (k : Int) ∧
      some ((relativePose ext cfg s relative_R relative_T l).relative_R,
        (relativePose ext cfg s relative_R relative_T l).relative_T) =
        ext.solveRelativeRT (ext.fmGetCorresponding s.f_manager k cfg.WINDOW_SIZE) := by
  obtain ⟨i, hi, hacc⟩ := h
  obtain ⟨k, pre, post, hsplit, hpre, hk, hr1, hr2, hr3⟩ :=
    relativePoseFrom_first ext cfg s (List.range cfg.WINDOW_SIZE) relative_R relative_T l i
      (List.mem_range.mpr hi) hacc
  obtain ⟨hkW, hsmall⟩ := range_split_prefix _ _ _ _ hsplit
  exact ⟨k, hkW, hk, fun j hj => hpre j (hsmall j hj), hr1, hr2, hr3⟩

/-- Witness of C17 (as amended): with 21 correspondences on slot 0, `relativePose`
returns true with `l = 0`. -/
theorem relativePose_accepts_witness :
    (∃ i, i < demoConfig.WINDOW_SIZE ∧
      SlotAccepted (correspondingExternals 21) demoConfig blankEstimator i) ∧
    (relativePose (correspondingExternals 21) demoConfig blankEstimator
      Matrix3d.identity 0 (-1)).l = 0 ∧
    ∃ k, k < demoConfig.WINDOW_SIZE ∧
      SlotAccepted (correspondingExternals 21) demoConfig blankEstimator k ∧
      (∀ j, j < k → ¬ SlotAccepted (correspondingExternals 21) demoConfig blankEstimator j) ∧
      (relativePose (correspondingExternals 21) demoConfig blankEstimator
        Matrix3d.identity 0 (-1)).ret = true ∧
      (relativePose (correspondingExternals 21) demoConfig blankEstimator
        Matrix3d.identity 0 (-1)).l = (k : Int) ∧
      some ((relativePose (correspondingExternals 21) demoConfig blankEstimator
          Matrix3d.identity 0 (-1)).relative_R,
        (relativePose (correspondingExternals 21) demoConfig blankEstimator
          Matrix3d.identity 0 (-1)).relative_T) =
        (correspondingExternals 21).solveRelativeRT
          ((correspondingExternals 21).fmGetCorresponding
            blankEstimator.f_manager k demoConfig.WINDOW_SIZE) :=
  ⟨⟨0, by decide, by decide!⟩, by decide!,
    relativePose_accepts (correspondingExternals 21) demoConfig blankEstimator
      Matrix3d.identity 0 (-1) ⟨0, by decide, by decide!⟩⟩

/-- Counterexample to C17 as stated: slot 0 has exactly 20 correspondences with the
newest slot, mean pixel displacement 460 > 30 and a successful `solveRelativeRT`, yet
`relativePose` returns false, since it asks for more than 20 correspondences. -/
theorem relativePose_rejects_twenty :
    (0 < demoConfig.WINDOW_SIZE ∧
      SlotAcceptedAtLeast20 (correspondingExternals 20) demoConfig blankEstimator 0) ∧
    (relativePose (correspondingExternals 20) demoConfig blankEstimator
      Matrix3d.identity 0 (-1)).ret = false := by
  refine ⟨⟨by decide, by decide!⟩, by decide!⟩

/-! ## `optimization`: parameter blocks -/

/-- The first loop of `optimization` sets no block constant and adds no residual. -/
theorem addWindowBlock_loop_frame (cfg : Config) (l : List Nat) (p : Problem) :
    (l.foldl (addWindowBlock cfg) p).constant_blocks = p.constant_blocks ∧
    (l.foldl (addWindowBlock cfg) p).residual_blocks = p.residual_blocks := by
  induction l generalizing p with
  | nil => exact ⟨rfl, rfl⟩
  | cons i rest ih =>
    rw [List.foldl_cons]
    obtain ⟨h1, h2⟩ := ih (addWindowBlock cfg p i)
    rw [h1, h2]
    unfold addWindowBlock
    split_ifs <;> exact ⟨rfl, rfl⟩

/-- The first loop of `optimization` adds pose and speed-bias blocks only. -/
theorem addWindowBlock_loop_blocks (cfg : Config) (l : List Nat) (p : Problem)
    (b : BlockId) (hb : b ∈ (l.foldl (addWindowBlock cfg) p).parameter_blocks) :
    b ∈ p.parameter_blocks ∨ (∃ i ∈ l, b = BlockId.para_Pose i) ∨
      (cfg.USE_IMU = true ∧ ∃ i ∈ l, b = BlockId.para_SpeedBias i) := by
  induction l generalizing p with
  | nil => exact Or.inl hb
  | cons i rest ih =>
    rw [List.foldl_cons] at hb
    rcases ih _ hb with h | ⟨j, hj, rfl⟩ | ⟨hu, j, hj, rfl⟩
    · by_cases hu : cfg.USE_IMU = true
      · have h2 : b ∈ p.parameter_blocks ∨ b = BlockId.para_Pose i ∨
            b = BlockId.para_SpeedBias i := by
          simpa [addWindowBlock, hu, Problem.AddParameterBlock] using h
        rcases h2 with h2 | rfl | rfl
        · exact Or.inl h2
        · exact Or.inr (Or.inl ⟨i, List.mem_cons_self _ _, rfl⟩)
        · exact Or.inr (Or.inr ⟨hu, i, List.mem_cons_self _ _, rfl⟩)
      · have h2 : b ∈ p.parameter_blocks ∨ b = BlockId.para_Pose i := by
          simpa [addWindowBlock, hu, Problem.AddParameterBlock] using h
        rcases h2 with h2 | rfl
        · exact Or.inl h2
        · exact Or.inr (Or.inl ⟨i, List.mem_cons_self _ _, rfl⟩)
    · exact Or.inr (Or.inl ⟨j, List.mem_cons_of_mem _ hj, rfl⟩)
    · exact Or.inr (Or.inr ⟨hu, j, List.mem_cons_of_mem _ hj, rfl⟩)

/-- Closed form of the camera loop of `optimization`: with the latch `openExEstimation`
set or the calibration condition holding, every camera's block is added and left free
and the latch is set; otherwise every block is added and set constant. -/
theorem addExtrinsicBlock_loop (ext : Externals) (cfg : Config) (s : Estimator)
    (n : Nat) (b : Bool) (p : Problem) :
    (List.range n).foldl (addExtrinsicBlock ext cfg s) (b, p) =
      if ExtrinsicsEstimated ext cfg s ∨ b = true then
        (if n = 0 then b else true,
          { p with parameter_blocks :=
              p.parameter_blocks ++ (List.range n).map BlockId.para_Ex_Pose })
      else
        (b, { p with
              parameter_blocks :=
                p.parameter_blocks ++ (List.range n).map BlockId.para_Ex_Pose,
              constant_blocks :=
                p.constant_blocks ++ (List.range n).map BlockId.para_Ex_Pose }) := by
  induction n with
  | zero => simp
  | succ k ih =>
    rw [List.range_succ, List.foldl_append, ih]
    by_cases h : ExtrinsicsEstimated ext cfg s ∨ b = true
    · have h2 : ExtrinsicsEstimated ext cfg s ∨ (if k = 0 then b else true) = true := by
        rcases h with h | h
        · exact Or.inl h
        · right; split_ifs <;> simp [h]
      have h3 : (s.ESTIMATE_EXTRINSIC ≠ 0 ∧ s.frame_count = cfg.WINDOW_SIZE ∧
          (s.Vs 0).norm ext > 1 / 5) ∨ (if k = 0 then b else true) = true := h2
      simp only [h, if_true, List.foldl_cons, List.foldl_nil, addExtrinsicBlock, h3,
        Problem.AddParameterBlock, List.map_append, List.map_cons, List.map_nil,
        List.append_assoc, Nat.succ_ne_zero, if_false]
    · have h3 : ¬ ((s.ESTIMATE_EXTRINSIC ≠ 0 ∧ s.frame_count = cfg.WINDOW_SIZE ∧
          (s.Vs 0).norm ext > 1 / 5) ∨ b = true) := h
      simp only [h, if_false, List.foldl_cons, List.foldl_nil, addExtrinsicBlock, h3,
        Problem.AddParameterBlock, Problem.SetParameterBlockConstant, List.map_append,
        List.map_cons, List.map_nil, List.append_assoc]

/-- An observation adds residual blocks only. -/
theorem problemObservation_frame (cfg : Config) (it_per_id : FeaturePerId)
    (first : FeaturePerFrame) (feature_index : Nat) (st : Int × Problem)
    (it_per_frame : FeaturePerFrame) :
    (problemObservation cfg it_per_id first feature_index st it_per_frame).2.parameter_blocks
        = st.2.parameter_blocks ∧
    (problemObservation cfg it_per_id first feature_index st it_per_frame).2.constant_blocks
        = st.2.constant_blocks := by
  unfold problemObservation
  simp only [Problem.AddResidualBlock]
  split_ifs <;> exact ⟨rfl, rfl⟩

/-- The observation loop adds residual blocks only. -/
theorem problemObservation_loop_frame (cfg : Config) (it_per_id : FeaturePerId)
    (first : FeaturePerFrame) (feature_index : Nat) (l : List FeaturePerFrame)
    (st : Int × Problem) :
    (l.foldl (problemObservation cfg it_per_id first feature_index) st).2.parameter_blocks
        = st.2.parameter_blocks ∧
    (l.foldl (problemObservation cfg it_per_id first feature_index) st).2.constant_blocks
        = st.2.constant_blocks := by
  induction l generalizing st with
  | nil => exact ⟨rfl, rfl⟩
  | cons o rest ih =>
    rw [List.foldl_cons]
    obtain ⟨h1, h2⟩ := ih (problemObservation cfg it_per_id first feature_index st o)
    obtain ⟨h3, h4⟩ := problemObservation_frame cfg it_per_id first feature_index st o
    exact ⟨h1.trans h3, h2.trans h4⟩

/-- The observation loop appends reprojection residuals. -/
theorem problemObservation_loop_residuals (cfg : Config) (it_per_id : FeaturePerId)
    (first : FeaturePerFrame) (feature_index : Nat) (l : List FeaturePerFrame)
    (st : Int × Problem) :
    ∃ extra,
      (l.foldl (problemObservation cfg it_per_id first feature_index) st).2.residual_blocks
        = st.2.residual_blocks ++ extra ∧
      ∀ rb ∈ extra, rb.cost_function.isProjection = true := by
  induction l generalizing st with
  | nil => exact ⟨[], by simp, by simp⟩
  | cons o rest ih =>
    rw [List.foldl_cons]
    obtain ⟨extra, h1, h2⟩ := ih (problemObservation cfg it_per_id first feature_index st o)
    have hstep : ∃ e1,
        (problemObservation cfg it_per_id first feature_index st o).2.residual_blocks
          = st.2.residual_blocks ++ e1 ∧ ∀ rb ∈ e1, rb.cost_function.isProjection = true := by
      unfold problemObservation
      simp only [Problem.AddResidualBlock]
      split_ifs <;>
        first
        | exact ⟨_, List.append_assoc _ _ _, by simp [Factor.isProjection]⟩
        | exact ⟨_, rfl, by simp [Factor.isProjection]⟩
        | exact ⟨[], (List.append_nil _).symm, by simp⟩
    obtain ⟨e1, h3, h4⟩ := hstep
    refine ⟨e1 ++ extra, ?_, ?_⟩
    · rw [h1, h3, List.append_assoc]
    · intro rb hrb
      rcases List.mem_append.mp hrb with h | h
      · exact h4 rb h
      · exact h2 rb h

/-- The frame relation of the feature loop is reflexive. -/
theorem featureLoopFrame_refl (s : Estimator) (p : Problem) : FeatureLoopFrame s p s p :=
  ⟨⟨s.f_manager.feature, s.param_feature_id_to_index, rfl⟩, rfl, rfl, [], by simp, by simp⟩

/-- The frame relation of the feature loop is transitive. -/
theorem featureLoopFrame_trans {s s1 s2 : Estimator} {p p1 p2 : Problem}
    (h1 : FeatureLoopFrame s p s1 p1) (h2 : FeatureLoopFrame s1 p1 s2 p2) :
    FeatureLoopFrame s p s2 p2 := by
  obtain ⟨⟨m, idx, rfl⟩, ha, hb, e1, hc, hd⟩ := h1
  obtain ⟨⟨m2, idx2, rfl⟩, ha2, hb2, e2, hc2, hd2⟩ := h2
  refine ⟨⟨m2, idx2, rfl⟩, ha2.trans ha, hb2.trans hb, e1 ++ e2, ?_, ?_⟩
  · rw [hc2, hc, List.append_assoc]
  · intro rb hrb
    rcases List.mem_append.mp hrb with h | h
    · exact hd rb h
    · exact hd2 rb h

/-- One iteration of the feature loop of `optimization` on an id that names an
observed feature returns, keeps the remaining ids observed, and satisfies the frame
relation. -/
theorem optimizationFeature_step (cfg : Config) (s : Estimator) (p : Problem) (id : Int)
    (rest : List Int) (h : ObservedIn s.f_manager.feature (id :: rest)) :
    ∃ s1 p1, optimizationFeature cfg (s, p) id = some (s1, p1) ∧
      ObservedIn s1.f_manager.feature rest ∧ FeatureLoopFrame s p s1 p1 := by
  obtain ⟨f, hl, hne⟩ := h id (List.mem_cons_self _ _)
  cases hfp : f.feature_per_frame with
  | nil => exact absurd hfp hne
  | cons first more =>
    refine ⟨{ s with
        f_manager := { s.f_manager with
          feature := mapSet s.f_manager.feature id
            { f with used_num := f.feature_per_frame.length } },
        param_feature_id_to_index := featureIndexMap s f.feature_id },
      ((first :: more).foldl (problemObservation cfg f first (featureIndex s f.feature_id))
        (f.start_frame - 1, p)).2, ?_, ?_, ?_⟩
    · simp only [optimizationFeature, hl, hfp]
    · intro id2 hid2
      obtain ⟨f2, hl2, hne2⟩ := h id2 (List.mem_cons_of_mem _ hid2)
      by_cases h2 : id2 = id
      · subst h2
        refine ⟨_, lookup_mapSet_self _ _ _, ?_⟩
        simp [hfp]
      · exact ⟨f2, by simp only [lookup_mapSet_ne _ _ _ h2]; exact hl2, hne2⟩
    · obtain ⟨h1, h2⟩ := problemObservation_loop_frame cfg f first
        (featureIndex s f.feature_id) (first :: more) (f.start_frame - 1, p)
      obtain ⟨extra, h3, h4⟩ := problemObservation_loop_residuals cfg f first
        (featureIndex s f.feature_id) (first :: more) (f.start_frame - 1, p)
      exact ⟨⟨_, _, rfl⟩, h1, h2, extra, h3, h4⟩

/-- The feature loop of `optimization` over ids that name observed features returns and
satisfies the frame relation. -/
theorem optimizationFeature_loop (cfg : Config) :
    ∀ (ids : List Int) (s : Estimator) (p : Problem), ObservedIn s.f_manager.feature ids →
      ∃ s1 p1, ids.foldlM (optimizationFeature cfg) (s, p) = some (s1, p1) ∧
        FeatureLoopFrame s p s1 p1 := by
  intro ids
  induction ids with
  | nil => intro s p _; exact ⟨s, p, rfl, featureLoopFrame_refl s p⟩
  | cons id rest ih =>
    intro s p h
    obtain ⟨s1, p1, hstep, hobs, hframe⟩ := optimizationFeature_step cfg s p id rest h
    obtain ⟨s2, p2, hfold, hframe2⟩ := ih s1 p1 hobs
    refine ⟨s2, p2, ?_, featureLoopFrame_trans hframe hframe2⟩
    rw [List.foldlM_cons, hstep]
    exact hfold

/-- Closed form of the IMU loop of `optimization` when the pre-integrations it reads
exist. -/
theorem addIMUResidual_loop (s : Estimator) (p : Problem) (n : Nat)
    (h : ∀ j, 1 ≤ j → j ≤ n → s.pre_integrations j ≠ none) :
    (List.range n).foldl (addIMUResidual s) (some p) =
      some { p with residual_blocks :=
        p.residual_blocks ++ (List.range n).flatMap (imuResidualAt s) } := by
  induction n with
  | zero => simp
  | succ k ih =>
    rw [List.range_succ, List.foldl_append, ih (fun j h1 h2 => h j h1 (by omega))]
    have hk := h (k + 1) (by omega) (by omega)
    cases hp : s.pre_integrations (k + 1) with
    | none => exact absurd hp hk
    | some pre =>
      simp only [List.foldl_cons, List.foldl_nil, addIMUResidual, hp, imuResidualAt,
        List.flatMap_append, List.flatMap_cons, List.flatMap_nil, List.append_nil,
        Problem.AddResidualBlock]
      split_ifs
      · simp
      · simp

/-- The prior residual is appended to the residual blocks. -/
theorem addPriorResidual_eq (s : Estimator) (p : Problem) :
    addPriorResidual s p =
      { p with residual_blocks := p.residual_blocks ++ priorResidual s } := by
  unfold priorResidual addPriorResidual
  cases s.last_marginalization_info with
  | none => simp [Problem.empty]
  | some info =>
    by_cases hv : info.valid = true
    · simp [hv, Problem.AddResidualBlock, Problem.empty]
    · simp [hv, Problem.empty]

/-- The IMU loop returns when the pre-integrations exist, and appends the IMU
residuals. -/
theorem addIMUResiduals_eq (cfg : Config) (s : Estimator) (p : Problem)
    (h : PreIntegrationsPresent cfg s) :
    addIMUResiduals cfg s p =
      some { p with residual_blocks := p.residual_blocks ++ imuResiduals cfg s } := by
  unfold addIMUResiduals imuResiduals
  by_cases hu : cfg.USE_IMU = true
  · simp only [hu, if_true]
    exact addIMUResidual_loop s p s.frame_count (h hu)
  · simp [hu]

/-- The time-offset block is added, and set constant when `ESTIMATE_TD` is off or the
oldest velocity is below 0.2. -/
theorem addTdBlock_blocks (ext : Externals) (cfg : Config) (s : Estimator) (p : Problem) :
    (addTdBlock ext cfg s p).parameter_blocks = p.parameter_blocks ++ [BlockId.para_Td 0] ∧
    (addTdBlock ext cfg s p).constant_blocks = p.constant_blocks ++
      (if cfg.ESTIMATE_TD = false ∨ (s.Vs 0).norm ext < 1 / 5 then [BlockId.para_Td 0]
       else []) ∧
    (addTdBlock ext cfg s p).residual_blocks = p.residual_blocks := by
  unfold addTdBlock
  simp only [Problem.AddParameterBlock, Problem.SetParameterBlockConstant]
  split_ifs <;> simp

/-- Closed form of the parameter-block part of `optimization`. -/
theorem optimizationBlocks_eq (ext : Externals) (cfg : Config) (s : Estimator) :
    optimizationBlocks ext cfg s =
      (openExEstimationAfter ext cfg s,
        ⟨windowBlocks cfg s ++ (List.range cfg.NUM_OF_CAM).map BlockId.para_Ex_Pose,
         (if cfg.USE_IMU then [] else [BlockId.para_Pose 0]) ++
           (if ExtrinsicsEstimated ext cfg s ∨ s.openExEstimation = true then []
            else (List.range cfg.NUM_OF_CAM).map BlockId.para_Ex_Pose),
         []⟩) := by
  obtain ⟨hw1, hw2⟩ := addWindowBlock_loop_frame cfg (List.range (s.frame_count + 1))
    Problem.empty
  simp only [Problem.empty] at hw1 hw2
  unfold optimizationBlocks
  simp only []
  rw [addExtrinsicBlock_loop]
  unfold openExEstimationAfter windowBlocks
  by_cases hc : ExtrinsicsEstimated ext cfg s ∨ s.openExEstimation = true
  · by_cases hn : cfg.NUM_OF_CAM = 0
    · by_cases hu : cfg.USE_IMU = true
      · simp [hc, hn, hu, hw1, hw2, Problem.empty]
      · simp [hc, hn, hu, hw1, hw2, Problem.empty, Problem.SetParameterBlockConstant]
    · by_cases hu : cfg.USE_IMU = true
      · simp [hc, hn, hu, hw1, hw2, Problem.empty]
      · simp [hc, hn, hu, hw1, hw2, Problem.empty, Problem.SetParameterBlockConstant]
  · by_cases hu : cfg.USE_IMU = true
    · simp [hc, hu, hw1, hw2, Problem.empty]
    · simp [hc, hu, hw1, hw2, Problem.empty, Problem.SetParameterBlockConstant]

/-- With the pre-integrations present, `optimization` reaches its feature loop with
`openExEstimation` updated and the problem `problemBeforeFeatures`. -/
theorem optimizationProblem_eq (ext : Externals) (cfg : Config) (s : Estimator)
    (hpre : PreIntegrationsPresent cfg s) :
    optimizationProblem ext cfg s =
      s.param_feature_id.foldlM (optimizationFeature cfg)
        ({ s with openExEstimation := openExEstimationAfter ext cfg s },
          problemBeforeFeatures ext cfg s) := by
  unfold optimizationProblem
  rw [optimizationBlocks_eq]
  simp only [addPriorResidual_eq]
  rw [addIMUResiduals_eq cfg { s with openExEstimation := openExEstimationAfter ext cfg s }
    _ hpre]
  simp only []
  congr 2
  obtain ⟨h1, h2, h3⟩ := addTdBlock_blocks ext cfg
    { s with openExEstimation := openExEstimationAfter ext cfg s }
    ⟨windowBlocks cfg s ++ (List.range cfg.NUM_OF_CAM).map BlockId.para_Ex_Pose,
     (if cfg.USE_IMU then [] else [BlockId.para_Pose 0]) ++
       (if ExtrinsicsEstimated ext cfg s ∨ s.openExEstimation = true then []
        else (List.range cfg.NUM_OF_CAM).map BlockId.para_Ex_Pose),
     []⟩
  simp only [problemBeforeFeatures, Problem.mk.injEq]
  refine ⟨h1, ?_, ?_⟩
  · rw [h2]; unfold constantBlocks; rfl
  · rw [h3]; rfl

/-- The problem `optimization` builds: on a window whose pre-integrations exist and
whose feature ids name observed features the construction returns; the parameter
blocks are the window blocks, one extrinsic block per camera and the time-offset
block; the constant blocks and the new value of `openExEstimation` are as stated; the
residual blocks are the prior, the IMU residuals and reprojection residuals. -/
theorem optimizationProblem_spec (ext : Externals) (cfg : Config) (s : Estimator)
    (hpre : PreIntegrationsPresent cfg s)
    (hobs : ObservedIn s.f_manager.feature s.param_feature_id) :
    ∃ s1 p, optimizationProblem ext cfg s = some (s1, p) ∧
      (∃ m idx, s1 = { s with openExEstimation := openExEstimationAfter ext cfg s,
                              f_manager := { s.f_manager with feature := m },
                              param_feature_id_to_index := idx }) ∧
      p.parameter_blocks = windowBlocks cfg s ++
        (List.range cfg.NUM_OF_CAM).map BlockId.para_Ex_Pose ++ [BlockId.para_Td 0] ∧
      p.constant_blocks = constantBlocks ext cfg s ∧
      ∃ extra, p.residual_blocks = priorResidual s ++ imuResiduals cfg s ++ extra ∧
        ∀ rb ∈ extra, rb.cost_function.isProjection = true := by
  rw [optimizationProblem_eq ext cfg s hpre]
  obtain ⟨s2, p2, hfold, ⟨m, idx, hs2⟩, hpb, hcb, extra, hrb, hproj⟩ :=
    optimizationFeature_loop cfg s.param_feature_id
      { s with openExEstimation := openExEstimationAfter ext cfg s }
      (problemBeforeFeatures ext cfg s) hobs
  exact ⟨s2, p2, hfold, ⟨m, idx, hs2⟩, hpb, hcb, extra, hrb, hproj⟩

/-! ## `optimization`: which blocks are free -/

/-- Membership of an extrinsic block in the blocks `optimization` sets constant. -/
theorem mem_constantBlocks_ex (ext : Externals) (cfg : Config) (s : Estimator) (i : Nat) :
    BlockId.para_Ex_Pose i ∈ constantBlocks ext cfg s ↔
      i < cfg.NUM_OF_CAM ∧ ¬ (ExtrinsicsEstimated ext cfg s ∨ s.openExEstimation = true) := by
  unfold constantBlocks
  by_cases hc : ExtrinsicsEstimated ext cfg s ∨ s.openExEstimation = true
  · simp only [hc, if_true, List.append_nil, not_true_eq_false, and_false, iff_false]
    split_ifs <;> simp
  · simp only [hc, if_false, not_false_eq_true, and_true]
    split_ifs <;> simp

/-- Membership of the time-offset block in the blocks `optimization` sets constant. -/
theorem mem_constantBlocks_td (ext : Externals) (cfg : Config) (s : Estimator) :
    BlockId.para_Td 0 ∈ constantBlocks ext cfg s ↔
      (cfg.ESTIMATE_TD = false ∨ (s.Vs 0).norm ext < 1 / 5) := by
  unfold constantBlocks
  by_cases hc : cfg.ESTIMATE_TD = false ∨ (s.Vs 0).norm ext < 1 / 5
  · simp only [hc, if_true, iff_true]
    simp
  · simp only [hc, if_false, iff_false, List.append_nil]
    split_ifs <;> simp

/-- Counterexample to C18 as stated: the window `demoLatchedAtRest` is at rest
(`Vs[0] = 0`, so the norm does not exceed 0.2) but `openExEstimation` is set, as the
step on `demoCalibrating` leaves it; the problem built in this step has camera 0's
extrinsic block free and not constant. -/
theorem optimization_extrinsic_blocks_latched :
    (∃ s1 p, optimizationProblem demoExternals demoConfig demoCalibrating = some (s1, p) ∧
      demoCalibrating.openExEstimation = false ∧ s1.openExEstimation = true) ∧
    ¬ (demoLatchedAtRest.ESTIMATE_EXTRINSIC ≠ 0 ∧
        demoLatchedAtRest.frame_count = demoConfig.WINDOW_SIZE ∧
        (demoLatchedAtRest.Vs 0).norm demoExternals > 1 / 5) ∧
    ∃ s2 p2, optimizationProblem demoExternals demoConfig demoLatchedAtRest = some (s2, p2) ∧
      p2.IsFree (BlockId.para_Ex_Pose 0) ∧
      BlockId.para_Ex_Pose 0 ∉ p2.constant_blocks := by
  have hpre : PreIntegrationsPresent demoConfig demoCalibrating := by
    intro _ j _ _
    simp [demoCalibrating]
  have hobs : ObservedIn demoCalibrating.f_manager.feature
      demoCalibrating.param_feature_id := by
    intro id hid
    simp [demoCalibrating, demoWindowOld, blankEstimator] at hid
  have hpre2 : PreIntegrationsPresent demoConfig demoLatchedAtRest := by
    intro _ j _ _
    simp [demoLatchedAtRest, demoCalibrating]
  have hobs2 : ObservedIn demoLatchedAtRest.f_manager.feature
      demoLatchedAtRest.param_feature_id := by
    intro id hid
    simp [demoLatchedAtRest, demoCalibrating, demoWindowOld, blankEstimator] at hid
  have hcond : ExtrinsicsEstimated demoExternals demoConfig demoCalibrating := by
    decide!
  obtain ⟨s1, p, hres, ⟨m, idx, hs1⟩, _⟩ :=
    optimizationProblem_spec demoExternals demoConfig demoCalibrating hpre hobs
  obtain ⟨s2, p2, hres2, ⟨m2, idx2, hs2⟩, hpb2, hcb2, _⟩ :=
    optimizationProblem_spec demoExternals demoConfig demoLatchedAtRest hpre2 hobs2
  refine ⟨⟨s1, p, hres, rfl, ?_⟩, by decide!, s2, p2, hres2, ?_, ?_⟩
  · rw [hs1]
    show openExEstimationAfter demoExternals demoConfig demoCalibrating = true
    decide!
  · unfold Problem.IsFree
    rw [hpb2, hcb2, mem_constantBlocks_ex]
    refine ⟨?_, fun h => h.2 (Or.inr rfl)⟩
    simp only [List.mem_append, List.mem_map, List.mem_range]
    exact Or.inl (Or.inr ⟨0, by decide, rfl⟩)
  · rw [hcb2, mem_constantBlocks_ex]
    exact fun h => h.2 (Or.inr rfl)

/-- C19 (as amended): in every optimization step on a window whose pre-integrations
exist and whose feature ids name observed features, the problem is built, and the
time-offset block `para_Td[0]` is free if and only if `ESTIMATE_TD` is active and the
norm of `Vs[0]` is at least 0.2; it is set constant if and only if `ESTIMATE_TD` is off
or the norm is strictly below 0.2.  In particular it is free when the norm equals 0.2
and `ESTIMATE_TD` is active. -/
theorem optimization_td_block (ext : Externals) (cfg : Config) (s : Estimator)
    (hpre : PreIntegrationsPresent cfg s)
    (hobs : ObservedIn s.f_manager.feature s.param_feature_id) :
    ∃ s1 p, optimizationProblem ext cfg s = some (s1, p) ∧
      (p.IsFree (BlockId.para_Td 0) ↔
        (cfg.ESTIMATE_TD = true ∧ (s.Vs 0).norm ext ≥ 1 / 5)) ∧
      (BlockId.para_Td 0 ∈ p.constant_blocks ↔
        (cfg.ESTIMATE_TD = false ∨ (s.Vs 0).norm ext < 1 / 5)) ∧
      (cfg.ESTIMATE_TD = true → (s.Vs 0).norm ext = 1 / 5 →
        p.IsFree (BlockId.para_Td 0)) := by
  obtain ⟨s1, p, hres, _, hpb, hcb, _⟩ := optimizationProblem_spec ext cfg s hpre hobs
  have hmem : BlockId.para_Td 0 ∈ p.parameter_blocks := by
    rw [hpb]
    simp
  have hfree : p.IsFree (BlockId.para_Td 0) ↔
      (cfg.ESTIMATE_TD = true ∧ (s.Vs 0).norm ext ≥ 1 / 5) := by
    unfold Problem.IsFree
    rw [hcb, mem_constantBlocks_td]
    constructor
    · rintro ⟨_, h⟩
      push_neg at h
      exact ⟨by simpa using h.1, h.2⟩
    · rintro ⟨h1, h2⟩
      refine ⟨hmem, ?_⟩
      rintro (h | h)
      · rw [h1] at h; exact Bool.noConfusion h
      · exact absurd h (not_lt.mpr h2)
  refine ⟨s1, p, hres, hfree, ?_, ?_⟩
  · rw [hcb, mem_constantBlocks_td]
  · intro h1 h2
    exact hfree.2 ⟨h1, le_of_eq h2.symm⟩

/-- Witness of C19 (as amended) on `demoCalibrating`, where the norm of `Vs[0]` is 1:
the time-offset block is free. -/
theorem optimization_td_block_witness :
    PreIntegrationsPresent demoConfig demoCalibrating ∧
    ObservedIn demoCalibrating.f_manager.feature demoCalibrating.param_feature_id ∧
    ∃ s1 p, optimizationProblem demoExternals demoConfig demoCalibrating = some (s1, p) ∧
      p.IsFree (BlockId.para_Td 0) := by
  have hpre : PreIntegrationsPresent demoConfig demoCalibrating := by
    intro _ j _ _
    simp [demoCalibrating]
  have hobs : ObservedIn demoCalibrating.f_manager.feature
      demoCalibrating.param_feature_id := by
    intro id hid
    simp [demoCalibrating, demoWindowOld, blankEstimator] at hid
  obtain ⟨s1, p, hres, hfree, _, _⟩ :=
    optimization_td_block demoExternals demoConfig demoCalibrating hpre hobs
  exact ⟨hpre, hobs, s1, p, hres, hfree.2 ⟨rfl, by decide!⟩⟩

/-- Counterexample to C19 as stated: on `demoBoundarySpeed` the norm of `Vs[0]` is
exactly 0.2 (not strictly greater) and `ESTIMATE_TD` is active, yet the problem built
has the time-offset block free and not constant. -/
theorem optimization_td_block_free_at_boundary :
    demoConfig.ESTIMATE_TD = true ∧
    (demoBoundarySpeed.Vs 0).norm fifthExternals = 1 / 5 ∧
    ¬ ((demoBoundarySpeed.Vs 0).norm fifthExternals > 1 / 5) ∧
    ∃ s1 p, optimizationProblem fifthExternals demoConfig demoBoundarySpeed = some (s1, p) ∧
      p.IsFree (BlockId.para_Td 0) ∧ BlockId.para_Td 0 ∉ p.constant_blocks := by
  have hpre : PreIntegrationsPresent demoConfig demoBoundarySpeed := by
    intro _ j _ _
    simp [demoBoundarySpeed, demoCalibrating]
  have hobs : ObservedIn demoBoundarySpeed.f_manager.feature
      demoBoundarySpeed.param_feature_id := by
    intro id hid
    simp [demoBoundarySpeed, demoCalibrating, demoWindowOld, blankEstimator] at hid
  have hnorm : (demoBoundarySpeed.Vs 0).norm fifthExternals = 1 / 5 := by decide!
  obtain ⟨s1, p, hres, _, hpb, hcb, _⟩ :=
    optimizationProblem_spec fifthExternals demoConfig demoBoundarySpeed hpre hobs
  have hnc : BlockId.para_Td 0 ∉ p.constant_blocks := by
    rw [hcb, mem_constantBlocks_td, hnorm]
    rintro (h | h)
    · exact Bool.noConfusion h
    · exact absurd h (lt_irrefl _)
  refine ⟨rfl, hnorm, by rw [hnorm]; exact lt_irrefl _, s1, p, hres, ⟨?_, hnc⟩, hnc⟩
  rw [hpb]
  simp

/-! ## `optimization`: members left alone -/

/-- A projection that every step of a loop preserves is preserved by the loop. -/
theorem foldl_preserves {α β γ : Type} (proj : β → γ) (f : β → α → β)
    (h : ∀ b a, proj (f b a) = proj b) (l : List α) (b : β) :
    proj (l.foldl f b) = proj b := by
  induction l generalizing b with
  | nil => rfl
  | cons a rest ih => rw [List.foldl_cons, ih, h]

/-- A relation to the start that every returning step of a fallible loop extends is
established by the returning loop. -/
theorem foldlM_preserves {α β : Type} (R : β → β → Prop) (f : β → α → Option β)
    (hrefl : ∀ b, R b b) (htrans : ∀ a b c, R a b → R b c → R a c)
    (h : ∀ b a b1, f b a = some b1 → R b b1) :
    ∀ (l : List α) (b b1 : β), l.foldlM f b = some b1 → R b b1 := by
  intro l
  induction l with
  | nil =>
    intro b b1 hb
    simp only [List.foldlM_nil, Option.pure_def, Option.some.injEq] at hb
    rw [← hb]
    exact hrefl b
  | cons a rest ih =>
    intro b b1 hb
    rw [List.foldlM_cons] at hb
    cases hfa : f b a with
    | none => rw [hfa] at hb; simp at hb
    | some b2 =>
      rw [hfa] at hb
      exact htrans _ _ _ (h b a b2 hfa) (ih b2 b1 hb)

/-- The conversion `vector2double` leaves the control members alone. -/
theorem vector2double_control (ext : Externals) (cfg : Config) (s : Estimator) :
    (vector2double ext cfg s).control = s.control := by
  obtain ⟨pf, idx, ids, h⟩ := vector2double_eq ext cfg s
  rw [h]
  rfl

/-- The feature loop of `vector2double` appends the ids of the depth vector. -/
theorem vector2doubleFeature_ids (deps : List (Int × ℚ)) :
    ∀ (s : Estimator), (deps.foldl vector2doubleFeature s).param_feature_id =
      s.param_feature_id ++ deps.map Prod.fst := by
  induction deps with
  | nil => intro s; simp
  | cons it rest ih =>
    intro s
    rw [List.foldl_cons, ih]
    simp [vector2doubleFeature]

/-- The conversion `vector2double` leaves the feature manager alone and lists the ids
of the depth vector. -/
theorem vector2double_features (ext : Externals) (cfg : Config) (s : Estimator) :
    (vector2double ext cfg s).f_manager = s.f_manager ∧
    (vector2double ext cfg s).param_feature_id =
      (ext.fmGetDepthVector s.f_manager).map Prod.fst := by
  constructor
  · obtain ⟨pf, idx, ids, h⟩ := vector2double_eq ext cfg s
    rw [h]
  · simp only [vector2double, vector2doubleSlot_loop, vector2doubleCam_loop,
      vector2doubleFeature_ids, List.nil_append]

/-- The conversion `double2vector` leaves the control members alone. -/
theorem double2vector_control (ext : Externals) (cfg : Config) (s : Estimator) :
    (double2vector ext cfg s).control = s.control := by
  unfold double2vector
  simp only []
  split_ifs <;>
    first
    | exact (foldl_preserves Estimator.control (double2vectorCam ext)
        (fun _ _ => rfl) _ _).trans
        ((foldl_preserves Estimator.control (double2vectorSlot ext _ _) (fun _ _ => rfl)
          _ _).trans rfl)
    | exact (foldl_preserves Estimator.control (double2vectorSlotVisual ext)
        (fun _ _ => rfl) _ _).trans rfl

/-- A returning iteration of the feature loop of `optimization` leaves the control
members alone. -/
theorem optimizationFeature_control (cfg : Config) (st st1 : Estimator × Problem) (id : Int)
    (h : optimizationFeature cfg st id = some st1) : st1.1.control = st.1.control := by
  unfold optimizationFeature at h
  cases hl : st.1.f_manager.feature.lookup id with
  | none => simp [hl] at h
  | some f =>
    cases hfp : f.feature_per_frame with
    | nil => simp [hl, hfp] at h
    | cons first more =>
      simp only [hl, hfp, Option.some.injEq] at h
      rw [← h]
      rfl

/-- A returning construction of the problem leaves the control members alone. -/
theorem optimizationProblem_control (ext : Externals) (cfg : Config) (s s1 : Estimator)
    (p : Problem) (h : optimizationProblem ext cfg s = some (s1, p)) :
    s1.control = s.control := by
  unfold optimizationProblem at h
  simp only [] at h
  split at h
  · exact Option.noConfusion h
  · have key := foldlM_preserves
      (fun (a b : Estimator × Problem) => b.1.control = a.1.control)
      (optimizationFeature cfg) (fun _ => rfl)
      (fun a b c (h1 : b.1.control = a.1.control) (h2 : c.1.control = b.1.control) =>
        h2.trans h1)
      (fun b a b1 hb => optimizationFeature_control cfg b b1 a hb)
    exact key _ _ _ h

/-- A returning first part of `optimization` leaves the control members alone. -/
theorem optimizationSolved_control (ext : Externals) (cfg : Config) (s s4 : Estimator)
    (p : Problem) (h : optimizationSolved ext cfg s = some (s4, p)) :
    s4.control = s.control := by
  unfold optimizationSolved at h
  simp only [] at h
  split at h
  · exact Option.noConfusion h
  · rename_i s2 problem hp
    simp only [Option.some.injEq, Prod.mk.injEq] at h
    rw [← h.1, double2vector_control]
    exact (optimizationProblem_control ext cfg _ s2 problem hp).trans
      (vector2double_control ext cfg s)

/-- With a sound depth vector and the pre-integrations present, the first part of
`optimization` returns, and the problem it solved is the one built on the state
`vector2double()` leaves. -/
theorem optimizationSolved_defined (ext : Externals) (cfg : Config) (s : Estimator)
    (hdv : DepthVectorSound ext) (hpre : PreIntegrationsPresent cfg s) :
    ∃ s2 s4 p, optimizationProblem ext cfg (vector2double ext cfg s) = some (s2, p) ∧
      optimizationSolved ext cfg s = some (s4, p) ∧ s4.control = s.control := by
  have hc := vector2double_control ext cfg s
  have hpre1 : PreIntegrationsPresent cfg (vector2double ext cfg s) := by
    intro hu j h1 h2
    have h3 : (vector2double ext cfg s).frame_count = s.frame_count :=
      congrArg WindowControl.frame_count hc
    have h4 : (vector2double ext cfg s).pre_integrations = s.pre_integrations :=
      congrArg WindowControl.pre_integrations hc
    rw [h4]
    exact hpre hu j h1 (h3 ▸ h2)
  have hobs1 : ObservedIn (vector2double ext cfg s).f_manager.feature
      (vector2double ext cfg s).param_feature_id := by
    obtain ⟨h1, h2⟩ := vector2double_features ext cfg s
    rw [h1, h2]
    exact hdv s.f_manager
  obtain ⟨s2, p, hres, _⟩ :=
    optimizationProblem_spec ext cfg (vector2double ext cfg s) hpre1 hobs1
  have hsolved : optimizationSolved ext cfg s =
      some (double2vector ext cfg (s2.setParameterArrays
        (ext.ceresSolve (solverOptions cfg s2) p s2.parameterArrays)), p) := by
    unfold optimizationSolved
    simp only [hres]
  exact ⟨s2, _, p, hres, hsolved, optimizationSolved_control ext cfg s _ p hsolved⟩

/-! ## `optimization`: the MARGIN_OLD submodel -/

/-- A loop that appends the indices satisfying a test collects the filtered range. -/
theorem foldl_collect_indices (P : Nat → Prop) [DecidablePred P] (n : Nat) :
    (List.range n).foldl (fun acc i => if P i then acc ++ [i] else acc) [] =
      (List.range n).filter (fun i => decide (P i)) := by
  induction n with
  | zero => rfl
  | succ k ih =>
    rw [List.range_succ, List.foldl_append, ih, List.filter_append]
    by_cases hk : P k
    · simp [hk]
    · simp [hk]

/-- The drop set of the prior in the MARGIN_OLD branch: the indices holding
`para_Pose[0]` or `para_SpeedBias[0]`. -/
theorem mem_margOldPriorDropSet (blocks : List BlockId) (k : Nat) :
    k ∈ margOldPriorDropSet blocks ↔ k < blocks.length ∧
      (blocks.getD k BlockId.null = BlockId.para_Pose 0 ∨
       blocks.getD k BlockId.null = BlockId.para_SpeedBias 0) := by
  unfold margOldPriorDropSet
  rw [foldl_collect_indices (fun i => blocks.getD i BlockId.null = BlockId.para_Pose 0 ∨
    blocks.getD i BlockId.null = BlockId.para_SpeedBias 0)]
  simp [List.mem_filter]

/-- One observation of a feature anchored at slot 0 appends residuals of the shape
`IsSlotZeroProjection` and keeps the slot counter at least -1. -/
theorem margOldObservation_step (cfg : Config) (it_per_id : FeaturePerId)
    (first : FeaturePerFrame) (feature_index : Nat) (st : Int × List ResidualBlockInfo)
    (o : FeaturePerFrame) (h0 : it_per_id.start_frame = 0) (hst : -1 ≤ st.1) :
    -1 ≤ (margOldObservation cfg it_per_id first feature_index st o).1 ∧
    ∃ extra, (margOldObservation cfg it_per_id first feature_index st o).2 = st.2 ++ extra ∧
      ∀ rb ∈ extra, IsSlotZeroProjection rb := by
  unfold margOldObservation
  simp only [h0]
  by_cases hj : (0 : Int) ≠ st.1 + 1
  · have hpos : 1 ≤ (st.1 + 1).toNat := by omega
    by_cases hs : (cfg.STEREO && o.is_stereo) = true
    · simp only [hj, hs, if_true, ne_eq, not_false_eq_true]
      refine ⟨by omega, _, List.append_assoc _ _ _, ?_⟩
      intro rb hrb
      simp only [List.mem_append, List.mem_singleton, List.mem_cons, List.not_mem_nil,
        or_false] at hrb
      rcases hrb with rfl | rfl
      · exact ⟨rfl, _, _, _, hpos, Or.inl ⟨rfl, rfl⟩⟩
      · exact ⟨rfl, _, _, _, hpos, Or.inr (Or.inl ⟨rfl, rfl⟩)⟩
    · simp only [hj, hs, if_true, ne_eq, not_false_eq_true, Bool.false_eq_true, if_false]
      refine ⟨by omega, _, rfl, ?_⟩
      intro rb hrb
      simp only [List.mem_singleton] at hrb
      subst hrb
      exact ⟨rfl, _, _, _, hpos, Or.inl ⟨rfl, rfl⟩⟩
  · by_cases hs : (cfg.STEREO && o.is_stereo) = true
    · simp only [hj, hs, if_true, if_false]
      refine ⟨by omega, _, rfl, ?_⟩
      intro rb hrb
      simp only [List.mem_singleton] at hrb
      subst hrb
      exact ⟨rfl, 1, 0, _, le_refl _, Or.inr (Or.inr ⟨rfl, rfl⟩)⟩
    · simp only [hj, hs, if_false, Bool.false_eq_true]
      exact ⟨by omega, [], (List.append_nil _).symm, by simp⟩

/-- The observation loop of a feature anchored at slot 0 appends residuals of the shape
`IsSlotZeroProjection`. -/
theorem margOldObservation_loop (cfg : Config) (it_per_id : FeaturePerId)
    (first : FeaturePerFrame) (feature_index : Nat) (h0 : it_per_id.start_frame = 0)
    (l : List FeaturePerFrame) (st : Int × List ResidualBlockInfo) (hst : -1 ≤ st.1) :
    ∃ extra,
      (l.foldl (margOldObservation cfg it_per_id first feature_index) st).2 = st.2 ++ extra ∧
      ∀ rb ∈ extra, IsSlotZeroProjection rb := by
  induction l generalizing st with
  | nil => exact ⟨[], (List.append_nil _).symm, by simp⟩
  | cons o rest ih =>
    rw [List.foldl_cons]
    obtain ⟨h1, e1, h2, h3⟩ :=
      margOldObservation_step cfg it_per_id first feature_index st o h0 hst
    obtain ⟨e2, h4, h5⟩ := ih _ h1
    refine ⟨e1 ++ e2, ?_, ?_⟩
    · rw [h4, h2, List.append_assoc]
    · intro rb hrb
      rcases List.mem_append.mp hrb with h | h
      · exact h3 rb h
      · exact h5 rb h

/-- A returning iteration of the feature loop of the MARGIN_OLD branch satisfies the
frame relation. -/
theorem margOldFeature_frame (cfg : Config) (st st1 : Estimator × List ResidualBlockInfo)
    (id : Int) (h : margOldFeature cfg st id = some st1) : MargOldLoopFrame st st1 := by
  unfold margOldFeature at h
  cases hl : st.1.f_manager.feature.lookup id with
  | none => simp [hl] at h
  | some f =>
    by_cases h0 : f.start_frame = 0
    · cases hfp : f.feature_per_frame with
      | nil => simp [hl, hfp, h0] at h
      | cons first more =>
        simp only [hl, hfp, h0, ne_eq, not_true_eq_false, if_false, Option.some.injEq] at h
        rw [← h]
        obtain ⟨extra, h1, h2⟩ := margOldObservation_loop cfg f first
          (featureIndex st.1 f.feature_id) h0 (first :: more) (0 - 1, st.2) (by omega)
        exact ⟨⟨_, rfl⟩, extra, h1, h2⟩
    · simp only [hl, h0, ne_eq, not_false_eq_true, if_true, Option.some.injEq] at h
      rw [← h]
      exact ⟨⟨_, rfl⟩, [], (List.append_nil _).symm, by simp⟩

/-- The frame relation of the MARGIN_OLD feature loop is transitive. -/
theorem margOldLoopFrame_trans {a b c : Estimator × List ResidualBlockInfo}
    (h1 : MargOldLoopFrame a b) (h2 : MargOldLoopFrame b c) : MargOldLoopFrame a c := by
  obtain ⟨⟨idx, hb⟩, e1, hc, hd⟩ := h1
  obtain ⟨⟨idx2, hb2⟩, e2, hc2, hd2⟩ := h2
  refine ⟨⟨idx2, ?_⟩, e1 ++ e2, ?_, ?_⟩
  · rw [hb2, hb]
  · rw [hc2, hc, List.append_assoc]
  · intro rb hrb
    rcases List.mem_append.mp hrb with h | h
    · exact hd rb h
    · exact hd2 rb h

/-- The residual blocks of a returning MARGIN_OLD branch: the prior, the IMU factor and
reprojection residuals of the shape `IsSlotZeroProjection`; of the estimator only the
index map is rewritten. -/
theorem margOldResidualBlocks_frame (cfg : Config) (s s1 : Estimator)
    (infos : List ResidualBlockInfo) (h : margOldResidualBlocks cfg s = some (s1, infos)) :
    (∃ idx, s1 = { s with param_feature_id_to_index := idx }) ∧
    ∃ imu extra, margOldIMU cfg s = some imu ∧ infos = margOldPrior s ++ imu ++ extra ∧
      ∀ rb ∈ extra, IsSlotZeroProjection rb := by
  unfold margOldResidualBlocks at h
  cases himu : margOldIMU cfg s with
  | none => simp [himu] at h
  | some imu =>
    simp only [himu] at h
    have key := foldlM_preserves MargOldLoopFrame (margOldFeature cfg)
      (fun b => ⟨⟨b.1.param_feature_id_to_index, rfl⟩, [], (List.append_nil _).symm,
        by simp⟩)
      (fun _ _ _ h1 h2 => margOldLoopFrame_trans h1 h2)
      (fun b a b1 hb => margOldFeature_frame cfg b b1 a hb)
    obtain ⟨hs1, extra, he, hp⟩ := key _ _ _ h
    exact ⟨hs1, imu, extra, rfl, he, hp⟩

/-- The feature loop of the MARGIN_OLD branch over ids that name observed features
returns. -/
theorem margOldFeature_loop_defined (cfg : Config) :
    ∀ (ids : List Int) (s : Estimator) (infos : List ResidualBlockInfo),
      ObservedIn s.f_manager.feature ids →
      ∃ r, ids.foldlM (margOldFeature cfg) (s, infos) = some r := by
  intro ids
  induction ids with
  | nil => intro s infos _; exact ⟨(s, infos), rfl⟩
  | cons id rest ih =>
    intro s infos h
    obtain ⟨f, hl, hne⟩ := h id (List.mem_cons_self _ _)
    have hrest : ObservedIn s.f_manager.feature rest :=
      fun x hx => h x (List.mem_cons_of_mem _ hx)
    cases hfp : f.feature_per_frame with
    | nil => exact absurd hfp hne
    | cons first more =>
      rw [List.foldlM_cons]
      by_cases h0 : f.start_frame = 0
      · have hstep : margOldFeature cfg (s, infos) id =
            some ({ s with param_feature_id_to_index := featureIndexMap s f.feature_id },
              ((first :: more).foldl
                (margOldObservation cfg f first (featureIndex s f.feature_id))
                (f.start_frame - 1, infos)).2) := by
          simp only [margOldFeature, hl, hfp, h0, ne_eq, not_true_eq_false, if_false]
        rw [hstep]
        exact ih _ _ hrest
      · have hstep : margOldFeature cfg (s, infos) id =
            some ({ s with param_feature_id_to_index := featureIndexMap s f.feature_id },
              infos) := by
          simp only [margOldFeature, hl, h0, ne_eq, not_false_eq_true, if_true]
        rw [hstep]
        exact ih _ _ hrest

/-- A reprojection factor is not an IMU factor. -/
theorem Factor.isIMU_of_isProjection (f : Factor) (h : f.isProjection = true) :
    f.isIMU = false := by
  cases f <;> simp [Factor.isProjection, Factor.isIMU] at h ⊢

/-- The prior residual of the problem is a marginalization factor. -/
theorem priorResidual_not_imu (s : Estimator) :
    ∀ rb ∈ priorResidual s, rb.cost_function.isIMU = false := by
  intro rb hrb
  unfold priorResidual addPriorResidual at hrb
  cases hi : s.last_marginalization_info with
  | none => simp [hi, Problem.empty] at hrb
  | some info =>
    by_cases hv : info.valid = true
    · simp [hi, hv, Problem.empty, Problem.AddResidualBlock] at hrb
      rw [hrb]
      rfl
    · simp [hi, hv, Problem.empty] at hrb

/-- The prior of the MARGIN_OLD submodel is a marginalization factor whose drop set
selects slot 0's pose and speed-bias blocks. -/
theorem margOldPrior_spec (s : Estimator) :
    ∀ rb ∈ margOldPrior s, rb.cost_function.isIMU = false ∧
      rb.cost_function.isProjection = false ∧
      rb.parameter_blocks = s.last_marginalization_parameter_blocks ∧
      rb.drop_set = margOldPriorDropSet s.last_marginalization_parameter_blocks := by
  intro rb hrb
  unfold margOldPrior at hrb
  cases hi : s.last_marginalization_info with
  | none => simp [hi] at hrb
  | some info =>
    by_cases hv : info.valid = true
    · simp [hi, hv] at hrb
      rw [hrb]
      exact ⟨rfl, rfl, rfl, rfl⟩
    · simp [hi, hv] at hrb

/-- The IMU residuals of the problem contain the factor between slots 0 and 1 exactly
when the window has a slot 1 and the pre-integration of slot 1 covers at most 10 s. -/
theorem imuResiduals_factor01 (cfg : Config) (s : Estimator) (pre : IntegrationBase)
    (hu : cfg.USE_IMU = true) (hfc : 1 ≤ s.frame_count)
    (hp : s.pre_integrations 1 = some pre) :
    (∃ rb ∈ imuResiduals cfg s, rb.cost_function.isIMU = true ∧
      rb.parameter_blocks = [BlockId.para_Pose 0, BlockId.para_SpeedBias 0,
        BlockId.para_Pose 1, BlockId.para_SpeedBias 1]) ↔ pre.sum_dt ≤ 10 := by
  unfold imuResiduals
  simp only [hu, if_true, List.mem_flatMap, List.mem_range]
  constructor
  · rintro ⟨rb, ⟨i, hi, hrb⟩, _, hblocks⟩
    unfold imuResidualAt at hrb
    cases hpi : s.pre_integrations (i + 1) with
    | none => simp [hpi] at hrb
    | some q =>
      by_cases hq : q.sum_dt > 10
      · simp [hpi, hq] at hrb
      · simp only [hpi, hq, if_false, List.mem_singleton] at hrb
        rw [hrb] at hblocks
        have hi0 : i = 0 := by
          have := (List.cons.injEq _ _ _ _ ▸ hblocks).1
          exact BlockId.para_Pose.inj this
        subst hi0
        rw [hp] at hpi
        have hq2 : pre = q := Option.some.inj hpi
        rw [hq2]
        exact not_lt.mp hq
  · intro hle
    refine ⟨⟨Factor.IMUFactor pre, LossFunction.NULL,
      [BlockId.para_Pose 0, BlockId.para_SpeedBias 0,
       BlockId.para_Pose 1, BlockId.para_SpeedBias 1]⟩, ⟨0, by omega, ?_⟩, rfl, rfl⟩
    unfold imuResidualAt
    have hq : ¬ pre.sum_dt > 10 := not_lt.mpr hle
    simp only [hp, hq, if_false, List.mem_singleton]

/-- The IMU part of the MARGIN_OLD submodel contains the factor between slots 0 and 1
exactly when the pre-integration of slot 1 covers strictly less than 10 s. -/
theorem margOldIMU_factor01 (cfg : Config) (s : Estimator) (pre : IntegrationBase)
    (hu : cfg.USE_IMU = true) (hp : s.pre_integrations 1 = some pre) :
    ∃ imu, margOldIMU cfg s = some imu ∧
      ((∃ rb ∈ imu, rb.cost_function.isIMU = true ∧
        rb.parameter_blocks = [BlockId.para_Pose 0, BlockId.para_SpeedBias 0,
          BlockId.para_Pose 1, BlockId.para_SpeedBias 1]) ↔ pre.sum_dt < 10) := by
  unfold margOldIMU
  by_cases hq : pre.sum_dt < 10
  · simp only [hu, hp, hq, if_true]
    exact ⟨_, rfl, fun _ => trivial, fun _ =>
      ⟨⟨Factor.IMUFactor pre, LossFunction.NULL,
        [BlockId.para_Pose 0, BlockId.para_SpeedBias 0,
         BlockId.para_Pose 1, BlockId.para_SpeedBias 1], [0, 1]⟩,
        List.mem_singleton.mpr rfl, rfl, rfl⟩⟩
  · simp only [hu, hp, hq, if_true, if_false]
    exact ⟨_, rfl, fun h => by simp at h, fun h => absurd h (by simp)⟩

/-- A reprojection residual of the MARGIN_OLD branch drops exactly slot 0's pose block
and the feature's inverse-depth block. -/
theorem IsSlotZeroProjection.dropsSlotZero {rb : ResidualBlockInfo}
    (h : IsSlotZeroProjection rb) : rb.DropsSlotZero := by
  obtain ⟨hproj, j, c, idx, hj, h1 | h1 | h1⟩ := h
  · obtain ⟨hb, hd⟩ := h1
    intro k
    rw [hb, hd, hproj]
    have hj0 : j ≠ 0 := by omega
    rcases k with _ | _ | _ | _ | _ | k <;> simp [hj0]
  · obtain ⟨hb, hd⟩ := h1
    intro k
    rw [hb, hd, hproj]
    have hj0 : j ≠ 0 := by omega
    rcases k with _ | _ | _ | _ | _ | _ | k <;> simp [hj0]
  · obtain ⟨hb, hd⟩ := h1
    intro k
    rw [hb, hd, hproj]
    rcases k with _ | _ | _ | _ | k <;> simp

/-- The IMU factor of the MARGIN_OLD branch drops exactly slot 0's pose and speed-bias
blocks. -/
theorem margOldIMU_dropsSlotZero (cfg : Config) (s : Estimator)
    (imu : List ResidualBlockInfo) (h : margOldIMU cfg s = some imu) :
    ∀ rb ∈ imu, rb.DropsSlotZero ∧ rb.cost_function.isIMU = true := by
  intro rb hrb
  unfold margOldIMU at h
  by_cases hu : cfg.USE_IMU = true
  · cases hp : s.pre_integrations 1 with
    | none => simp [hu, hp] at h
    | some pre =>
      by_cases hq : pre.sum_dt < 10
      · simp only [hu, hp, hq, if_true, Option.some.injEq] at h
        rw [← h, List.mem_singleton] at hrb
        subst hrb
        refine ⟨?_, rfl⟩
        intro k
        rcases k with _ | _ | _ | _ | k <;> simp [Factor.isProjection]
      · simp only [hu, hp, hq, if_true, if_false, Option.some.injEq] at h
        rw [← h] at hrb
        simp at hrb
  · simp only [hu, Bool.false_eq_true, if_false, Option.some.injEq] at h
    rw [← h] at hrb
    simp at hrb

/-- The MARGIN_OLD submodel is built on a window whose pre-integration of slot 1 exists
(with the IMU in use) and whose feature ids name observed features; it consists of the
prior, the IMU factor and reprojection residuals of the shape `IsSlotZeroProjection`. -/
theorem margOld_residuals_defined (cfg : Config) (s : Estimator)
    (hpre : cfg.USE_IMU = true → s.pre_integrations 1 ≠ none)
    (hobs : ObservedIn s.f_manager.feature s.param_feature_id) :
    ∃ s1 infos imu extra, margOldResidualBlocks cfg s = some (s1, infos) ∧
      margOldIMU cfg s = some imu ∧ infos = margOldPrior s ++ imu ++ extra ∧
      ∀ rb ∈ extra, IsSlotZeroProjection rb := by
  have himu : ∃ imu, margOldIMU cfg s = some imu := by
    unfold margOldIMU
    by_cases hu : cfg.USE_IMU = true
    · cases hp : s.pre_integrations 1 with
      | none => exact absurd hp (hpre hu)
      | some pre =>
        simp only [hu, if_true]
        split_ifs <;> exact ⟨_, rfl⟩
    · simp only [hu, Bool.false_eq_true, if_false]
      exact ⟨_, rfl⟩
  obtain ⟨imu, himu⟩ := himu
  obtain ⟨r, hr⟩ := margOldFeature_loop_defined cfg s.param_feature_id s
    (margOldPrior s ++ imu) hobs
  have hres : margOldResidualBlocks cfg s = some (r.1, r.2) := by
    unfold margOldResidualBlocks
    simp only [himu]
    exact hr
  obtain ⟨_, imu2, extra, himu2, hinfos, hshape⟩ :=
    margOldResidualBlocks_frame cfg s r.1 r.2 hres
  rw [himu] at himu2
  have himu3 : imu = imu2 := Option.some.inj himu2
  subst himu3
  exact ⟨r.1, r.2, imu, extra, hres, himu, hinfos, hshape⟩

/-- C12: in the MARGIN_OLD marginalization submodel, built on a window whose
pre-integration of slot 1 exists (with the IMU in use) and whose feature ids name
observed features, the residual blocks are the previous prior, the IMU factor between
slots 0 and 1 and reprojection residuals of features anchored at slot 0; for each of
them an index is in the drop set if and only if it is an index of the block's
parameter list whose entry is slot 0's pose block, slot 0's speed-bias block or, for a
reprojection residual, a feature's inverse-depth block.  In particular no extrinsic
block, no time-offset block and no pose or speed-bias block of a slot `j ≥ 1` is at a
dropped index. -/
theorem margOld_drop_sets (cfg : Config) (s : Estimator)
    (hpre : cfg.USE_IMU = true → s.pre_integrations 1 ≠ none)
    (hobs : ObservedIn s.f_manager.feature s.param_feature_id) :
    ∃ s1 infos imu extra, margOldResidualBlocks cfg s = some (s1, infos) ∧
      margOldIMU cfg s = some imu ∧ infos = margOldPrior s ++ imu ++ extra ∧
      (∀ rb ∈ extra, IsSlotZeroProjection rb) ∧
      ∀ rb ∈ infos, rb.DropsSlotZero ∧
        ∀ k ∈ rb.drop_set, ∀ j,
          rb.parameter_blocks.getD k BlockId.null ≠ BlockId.para_Ex_Pose j ∧
          rb.parameter_blocks.getD k BlockId.null ≠ BlockId.para_Td j ∧
          (1 ≤ j → rb.parameter_blocks.getD k BlockId.null ≠ BlockId.para_Pose j ∧
            rb.parameter_blocks.getD k BlockId.null ≠ BlockId.para_SpeedBias j) := by
  have himu : ∃ imu, margOldIMU cfg s = some imu := by
    unfold margOldIMU
    by_cases hu : cfg.USE_IMU = true
    · cases hp : s.pre_integrations 1 with
      | none => exact absurd hp (hpre hu)
      | some pre =>
        simp only [hu, if_true]
        split_ifs <;> exact ⟨_, rfl⟩
    · simp only [hu, Bool.false_eq_true, if_false]
      exact ⟨_, rfl⟩
  obtain ⟨imu, himu⟩ := himu
  obtain ⟨r, hr⟩ := margOldFeature_loop_defined cfg s.param_feature_id s
    (margOldPrior s ++ imu) hobs
  have hres : margOldResidualBlocks cfg s = some (r.1, r.2) := by
    unfold margOldResidualBlocks
    simp only [himu]
    exact hr
  obtain ⟨_, imu2, extra, himu2, hinfos, hshape⟩ :=
    margOldResidualBlocks_frame cfg s r.1 r.2 hres
  rw [himu] at himu2
  have himu3 : imu = imu2 := Option.some.inj himu2
  subst himu3
  have hdrops : ∀ rb ∈ r.2, rb.DropsSlotZero := by
    intro rb hrb
    rw [hinfos] at hrb
    rcases List.mem_append.mp hrb with h | h
    · rcases List.mem_append.mp h with h | h
      · obtain ⟨_, hp, hb, hd⟩ := margOldPrior_spec s rb h
        intro k
        rw [hd, hb, hp, mem_margOldPriorDropSet]
        simp
      · exact (margOldIMU_dropsSlotZero cfg s imu himu rb h).1
    · exact (hshape rb h).dropsSlotZero
  refine ⟨r.1, r.2, imu, extra, hres, himu, hinfos, hshape, ?_⟩
  intro rb hrb
  refine ⟨hdrops rb hrb, ?_⟩
  intro k hk j
  obtain ⟨_, h | h | ⟨_, i, h⟩⟩ := (hdrops rb hrb k).mp hk
  · rw [h]
    refine ⟨by simp, by simp, fun hj => ⟨?_, by simp⟩⟩
    intro he
    have := BlockId.para_Pose.inj he
    omega
  · rw [h]
    refine ⟨by simp, by simp, fun hj => ⟨by simp, ?_⟩⟩
    intro he
    have := BlockId.para_SpeedBias.inj he
    omega
  · rw [h]
    exact ⟨by simp, by simp, fun _ => ⟨by simp, by simp⟩⟩

/-- Witness of C12 on `demoMargOld`: the submodel is built, and consists of the prior
with drop set {0, 1}, the IMU factor with drop set {0, 1} and one two-frame
reprojection residual with drop set {0, 3} for each of the two features. -/
theorem margOld_drop_sets_witness :
    (demoConfig.USE_IMU = true → demoMargOld.pre_integrations 1 ≠ none) ∧
    ObservedIn demoMargOld.f_manager.feature demoMargOld.param_feature_id ∧
    (margOldResidualBlocks demoConfig demoMargOld).map
        (fun r => r.2.map (fun rb => (rb.parameter_blocks, rb.drop_set))) =
      some [([BlockId.para_Pose 0, BlockId.para_SpeedBias 0, BlockId.para_Pose 1,
              BlockId.para_Ex_Pose 0, BlockId.para_Td 0], [0, 1]),
            ([BlockId.para_Pose 0, BlockId.para_SpeedBias 0, BlockId.para_Pose 1,
              BlockId.para_SpeedBias 1], [0, 1]),
            ([BlockId.para_Pose 0, BlockId.para_Pose 1, BlockId.para_Ex_Pose 0,
              BlockId.para_Feature 0, BlockId.para_Td 0], [0, 3]),
            ([BlockId.para_Pose 0, BlockId.para_Pose 1, BlockId.para_Ex_Pose 0,
              BlockId.para_Feature 1, BlockId.para_Td 0], [0, 3])] ∧
    ∃ s1 infos, margOldResidualBlocks demoConfig demoMargOld = some (s1, infos) ∧
      ∀ rb ∈ infos, rb.DropsSlotZero := by
  have hpre : demoConfig.USE_IMU = true → demoMargOld.pre_integrations 1 ≠ none := by
    intro _
    simp [demoMargOld]
  have hobs : ObservedIn demoMargOld.f_manager.feature demoMargOld.param_feature_id := by
    intro id hid
    have h : id = 5 ∨ id = 6 := by simpa [demoMargOld, demoFeatures] using hid
    rcases h with rfl | rfl
    · exact ⟨_, rfl, by simp⟩
    · exact ⟨_, rfl, by simp⟩
  obtain ⟨s1, infos, _, _, hres, _, _, _, hall⟩ :=
    margOld_drop_sets demoConfig demoMargOld hpre hobs
  exact ⟨hpre, hobs, by decide!, s1, infos, hres, fun rb hrb => (hall rb hrb).1⟩

/-- The depth vector of the stand-in feature manager is empty, hence sound. -/
theorem demoExternals_depthVectorSound : DepthVectorSound demoExternals := by
  intro fm id hid
  simp [demoExternals] at hid

/-- C20: the two places of one `optimization` call that decide on the IMU factor
between slots 0 and 1 use different thresholds.  With `USE_IMU`, a full window, a
sound depth vector and the pre-integrations present, the first part of `optimization`
returns, and the problem it solved contains the IMU factor between slots 0 and 1 if and
only if `pre_integrations[1].sum_dt ≤ 10`; the MARGIN_OLD submodel built on the state
it leaves is built, and contains that factor if and only if
`pre_integrations[1].sum_dt < 10`.  So at `sum_dt = 10` the factor is in the problem
but not in the submodel.  The first part leaves `frame_count`, `marginalization_flag`
and the pre-integrations as they were, so with `MARGIN_OLD` this submodel is the one
the call marginalizes. -/
theorem optimization_imu_factor_inclusion (ext : Externals) (cfg : Config) (s : Estimator)
    (hdv : DepthVectorSound ext) (hpre : PreIntegrationsPresent cfg s)
    (hu : cfg.USE_IMU = true) (hfull : s.frame_count = cfg.WINDOW_SIZE) :
    ∃ pre s4 p s5 infos, s.pre_integrations 1 = some pre ∧
      optimizationSolved ext cfg s = some (s4, p) ∧ s4.control = s.control ∧
      margOldResidualBlocks cfg (vector2double ext cfg s4) = some (s5, infos) ∧
      (p.HasIMUFactor 0 1 ↔ pre.sum_dt ≤ 10) ∧
      (SubmodelHasIMUFactor infos 0 1 ↔ pre.sum_dt < 10) ∧
      (pre.sum_dt = 10 → p.HasIMUFactor 0 1 ∧ ¬ SubmodelHasIMUFactor infos 0 1) := by
  have hW := cfg.window_pos
  have hp1 : s.pre_integrations 1 ≠ none := hpre hu 1 (le_refl _) (by omega)
  cases hp : s.pre_integrations 1 with
  | none => exact absurd hp hp1
  | some pre =>
    obtain ⟨s2, s4, p, hprob, hsolved, hc4⟩ := optimizationSolved_defined ext cfg s hdv hpre
    -- the problem
    have hc1 := vector2double_control ext cfg s
    have hfc1 : (vector2double ext cfg s).frame_count = s.frame_count :=
      congrArg WindowControl.frame_count hc1
    have hpi1 : (vector2double ext cfg s).pre_integrations = s.pre_integrations :=
      congrArg WindowControl.pre_integrations hc1
    have hpre1 : PreIntegrationsPresent cfg (vector2double ext cfg s) := by
      intro hu2 j h1 h2
      rw [hpi1]
      exact hpre hu2 j h1 (hfc1 ▸ h2)
    have hobs1 : ObservedIn (vector2double ext cfg s).f_manager.feature
        (vector2double ext cfg s).param_feature_id := by
      obtain ⟨h1, h2⟩ := vector2double_features ext cfg s
      rw [h1, h2]
      exact hdv s.f_manager
    obtain ⟨s2b, pb, hprob2, _, _, _, extra, hrb, hproj⟩ :=
      optimizationProblem_spec ext cfg (vector2double ext cfg s) hpre1 hobs1
    rw [hprob] at hprob2
    have hpe : p = pb := (Prod.mk.inj (Option.some.inj hprob2)).2
    subst hpe
    have hproblem : p.HasIMUFactor 0 1 ↔ pre.sum_dt ≤ 10 := by
      rw [← imuResiduals_factor01 cfg (vector2double ext cfg s) pre hu (by omega)
        (by rw [hpi1]; exact hp)]
      unfold Problem.HasIMUFactor
      rw [hrb]
      constructor
      · rintro ⟨rb, hmem, hi, hb⟩
        rcases List.mem_append.mp hmem with h | h
        · rcases List.mem_append.mp h with h | h
          · rw [priorResidual_not_imu _ rb h] at hi
            exact Bool.noConfusion hi
          · exact ⟨rb, h, hi, hb⟩
        · rw [Factor.isIMU_of_isProjection _ (hproj rb h)] at hi
          exact Bool.noConfusion hi
      · rintro ⟨rb, hmem, hi, hb⟩
        exact ⟨rb, List.mem_append_left _ (List.mem_append_right _ hmem), hi, hb⟩
    -- the submodel
    have hc5 := vector2double_control ext cfg s4
    have hpi5 : (vector2double ext cfg s4).pre_integrations = s.pre_integrations :=
      (congrArg WindowControl.pre_integrations hc5).trans
        (congrArg WindowControl.pre_integrations hc4)
    have hp5 : (vector2double ext cfg s4).pre_integrations 1 = some pre := by
      rw [hpi5]
      exact hp
    have hobs5 : ObservedIn (vector2double ext cfg s4).f_manager.feature
        (vector2double ext cfg s4).param_feature_id := by
      obtain ⟨h1, h2⟩ := vector2double_features ext cfg s4
      rw [h1, h2]
      exact hdv s4.f_manager
    obtain ⟨imu, himu, himu01⟩ := margOldIMU_factor01 cfg (vector2double ext cfg s4) pre hu hp5
    obtain ⟨r, hr⟩ := margOldFeature_loop_defined cfg (vector2double ext cfg s4).param_feature_id
      (vector2double ext cfg s4) (margOldPrior (vector2double ext cfg s4) ++ imu) hobs5
    have hres : margOldResidualBlocks cfg (vector2double ext cfg s4) = some (r.1, r.2) := by
      unfold margOldResidualBlocks
      simp only [himu]
      exact hr
    obtain ⟨_, imu2, extra5, himu2, hinfos, hshape⟩ :=
      margOldResidualBlocks_frame cfg _ r.1 r.2 hres
    rw [himu] at himu2
    have himu3 : imu = imu2 := Option.some.inj himu2
    subst himu3
    have hsub : SubmodelHasIMUFactor r.2 0 1 ↔ pre.sum_dt < 10 := by
      rw [← himu01]
      unfold SubmodelHasIMUFactor
      rw [hinfos]
      constructor
      · rintro ⟨rb, hmem, hi, hb⟩
        rcases List.mem_append.mp hmem with h | h
        · rcases List.mem_append.mp h with h | h
          · rw [(margOldPrior_spec _ rb h).1] at hi
            exact Bool.noConfusion hi
          · exact ⟨rb, h, hi, hb⟩
        · rw [Factor.isIMU_of_isProjection _ (hshape rb h).1] at hi
          exact Bool.noConfusion hi
      · rintro ⟨rb, hmem, hi, hb⟩
        exact ⟨rb, List.mem_append_left _ (List.mem_append_right _ hmem), hi, hb⟩
    refine ⟨pre, s4, p, r.1, r.2, rfl, hsolved, hc4, hres, hproblem, hsub, ?_⟩
    intro h10
    exact ⟨hproblem.mpr (le_of_eq h10), fun h => absurd (hsub.mp h) (by rw [h10]; exact lt_irrefl _)⟩

/-- Witness of C20 on `demoLongGap`, whose pre-integration of slot 1 covers exactly
10 s: the problem contains the IMU factor between slots 0 and 1, the MARGIN_OLD
submodel of the same call does not. -/
theorem optimization_imu_factor_inclusion_witness :
    DepthVectorSound demoExternals ∧ PreIntegrationsPresent demoConfig demoLongGap ∧
    demoConfig.USE_IMU = true ∧ demoLongGap.frame_count = demoConfig.WINDOW_SIZE ∧
    (demoLongGap.pre_integrations 1).map IntegrationBase.sum_dt = some 10 ∧
    ∃ s4 p s5 infos, optimizationSolved demoExternals demoConfig demoLongGap = some (s4, p) ∧
      s4.frame_count = demoConfig.WINDOW_SIZE ∧
      s4.marginalization_flag = MarginalizationFlag.MARGIN_OLD ∧
      margOldResidualBlocks demoConfig (vector2double demoExternals demoConfig s4) =
        some (s5, infos) ∧
      p.HasIMUFactor 0 1 ∧ ¬ SubmodelHasIMUFactor infos 0 1 := by
  have hpre : PreIntegrationsPresent demoConfig demoLongGap := by
    intro _ j _ _
    simp only [demoLongGap]
    split_ifs <;> simp
  have hsum : (demoLongGap.pre_integrations 1).map IntegrationBase.sum_dt = some 10 := by
    decide!
  obtain ⟨pre, s4, p, s5, infos, hp, hsolved, hc, hres, _, _, hdiv⟩ :=
    optimization_imu_factor_inclusion demoExternals demoConfig demoLongGap
      demoExternals_depthVectorSound hpre rfl rfl
  rw [hp] at hsum
  have h10 : pre.sum_dt = 10 := Option.some.inj hsum
  exact ⟨demoExternals_depthVectorSound, hpre, rfl, rfl, by decide!, s4, p, s5, infos,
    hsolved, congrArg WindowControl.frame_count hc,
    congrArg WindowControl.marginalization_flag hc, hres, hdiv h10⟩

/-! ## `optimization`: the address maps -/

/-- The entry for `b` after the assignment `addr_shift[k] = v`. -/
theorem AddrShift.find_assign (m : AddrShift) (k v b : BlockId) :
    (m.assign k v).find b = if b = k then some v else m.find b := by
  unfold AddrShift.assign AddrShift.find
  by_cases h : b = k
  · subst h
    simp [List.lookup]
  · have hb : (b == k) = false := by simpa using h
    simp [List.lookup, hb, h]

/-- Entries of `addr_shift` after the slot loop of the MARGIN_OLD branch over the
slots `l`. -/
theorem addrShiftOldSlot_loop_find (cfg : Config) (l : List Nat) (m : AddrShift)
    (b : BlockId) :
    (l.foldl (addrShiftOldSlot cfg) m).find b =
      match b with
      | BlockId.para_Pose i => if i ∈ l then some (BlockId.para_Pose (i - 1)) else m.find b
      | BlockId.para_SpeedBias i =>
        if cfg.USE_IMU = true ∧ i ∈ l then some (BlockId.para_SpeedBias (i - 1))
        else m.find b
      | _ => m.find b := by
  induction l generalizing m with
  | nil => cases b <;> simp
  | cons a rest ih =>
    rw [List.foldl_cons, ih]
    by_cases hu : cfg.USE_IMU = true
    · cases b with
      | para_Pose i =>
        by_cases hi : i ∈ rest
        · simp [hi]
        · by_cases hia : i = a
          · subst hia
            simp [hi, addrShiftOldSlot, hu, AddrShift.find_assign]
          · simp [hi, hia, addrShiftOldSlot, hu, AddrShift.find_assign]
      | para_SpeedBias i =>
        by_cases hi : i ∈ rest
        · simp [hi, hu]
        · by_cases hia : i = a
          · subst hia
            simp [hi, addrShiftOldSlot, hu, AddrShift.find_assign]
          · simp [hi, hia, addrShiftOldSlot, hu, AddrShift.find_assign]
      | para_Ex_Pose i => simp [addrShiftOldSlot, hu, AddrShift.find_assign]
      | para_Feature i => simp [addrShiftOldSlot, hu, AddrShift.find_assign]
      | para_Td i => simp [addrShiftOldSlot, hu, AddrShift.find_assign]
      | null => simp [addrShiftOldSlot, hu, AddrShift.find_assign]
    · cases b with
      | para_Pose i =>
        by_cases hi : i ∈ rest
        · simp [hi]
        · by_cases hia : i = a
          · subst hia
            simp [hi, addrShiftOldSlot, hu, AddrShift.find_assign]
          · simp [hi, hia, addrShiftOldSlot, hu, AddrShift.find_assign]
      | para_SpeedBias i => simp [addrShiftOldSlot, hu, AddrShift.find_assign]
      | para_Ex_Pose i => simp [addrShiftOldSlot, hu, AddrShift.find_assign]
      | para_Feature i => simp [addrShiftOldSlot, hu, AddrShift.find_assign]
      | para_Td i => simp [addrShiftOldSlot, hu, AddrShift.find_assign]
      | null => simp [addrShiftOldSlot, hu, AddrShift.find_assign]

/-- Entries of `addr_shift` after the camera loop over the cameras `l`. -/
theorem addrShiftCam_loop_find (l : List Nat) (m : AddrShift) (b : BlockId) :
    (l.foldl addrShiftCam m).find b =
      match b with
      | BlockId.para_Ex_Pose i => if i ∈ l then some (BlockId.para_Ex_Pose i) else m.find b
      | _ => m.find b := by
  induction l generalizing m with
  | nil => cases b <;> simp
  | cons a rest ih =>
    rw [List.foldl_cons, ih]
    cases b with
    | para_Ex_Pose i =>
      by_cases hi : i ∈ rest
      · simp [hi]
      · by_cases hia : i = a
        · subst hia
          simp [hi, addrShiftCam, AddrShift.find_assign]
        · simp [hi, hia, addrShiftCam, AddrShift.find_assign]
    | para_Pose i => simp [addrShiftCam, AddrShift.find_assign]
    | para_SpeedBias i => simp [addrShiftCam, AddrShift.find_assign]
    | para_Feature i => simp [addrShiftCam, AddrShift.find_assign]
    | para_Td i => simp [addrShiftCam, AddrShift.find_assign]
    | null => simp [addrShiftCam, AddrShift.find_assign]

/-- Entries of `addr_shift` after one iteration of the slot loop of the
MARGIN_SECOND_NEW branch. -/
theorem addrShiftSecondNewSlot_find (cfg : Config) (m : AddrShift) (a : Nat) (b : BlockId) :
    (addrShiftSecondNewSlot cfg m a).find b =
      match b with
      | BlockId.para_Pose i =>
        if i = a ∧ i ≠ cfg.WINDOW_SIZE - 1 then
          some (BlockId.para_Pose (if i = cfg.WINDOW_SIZE then i - 1 else i))
        else m.find b
      | BlockId.para_SpeedBias i =>
        if cfg.USE_IMU = true ∧ i = a ∧ i ≠ cfg.WINDOW_SIZE - 1 then
          some (BlockId.para_SpeedBias (if i = cfg.WINDOW_SIZE then i - 1 else i))
        else m.find b
      | _ => m.find b := by
  unfold addrShiftSecondNewSlot
  by_cases ha1 : a = cfg.WINDOW_SIZE - 1
  · cases b with
    | para_Pose i =>
      by_cases hia : i = a
      · subst hia; simp [ha1]
      · simp [ha1, hia]
    | para_SpeedBias i =>
      by_cases hia : i = a
      · subst hia; simp [ha1]
      · simp [ha1, hia]
    | para_Ex_Pose i => simp [ha1]
    | para_Feature i => simp [ha1]
    | para_Td i => simp [ha1]
    | null => simp [ha1]
  · have hWne : ¬ cfg.WINDOW_SIZE = cfg.WINDOW_SIZE - 1 := by
      have := cfg.window_pos
      omega
    by_cases haW : a = cfg.WINDOW_SIZE
    · subst haW
      by_cases hu : cfg.USE_IMU = true
      · cases b with
        | para_Pose i =>
          by_cases hi : i = cfg.WINDOW_SIZE
          · simp [hWne, hu, hi, AddrShift.find_assign]
          · simp [hWne, hu, hi, AddrShift.find_assign]
        | para_SpeedBias i =>
          by_cases hi : i = cfg.WINDOW_SIZE
          · simp [hWne, hu, hi, AddrShift.find_assign]
          · simp [hWne, hu, hi, AddrShift.find_assign]
        | para_Ex_Pose i => simp [hWne, hu, AddrShift.find_assign]
        | para_Feature i => simp [hWne, hu, AddrShift.find_assign]
        | para_Td i => simp [hWne, hu, AddrShift.find_assign]
        | null => simp [hWne, hu, AddrShift.find_assign]
      · cases b with
        | para_Pose i =>
          by_cases hi : i = cfg.WINDOW_SIZE
          · simp [hWne, hu, hi, AddrShift.find_assign]
          · simp [hWne, hu, hi, AddrShift.find_assign]
        | para_SpeedBias i => simp [hWne, hu, AddrShift.find_assign]
        | para_Ex_Pose i => simp [hWne, hu, AddrShift.find_assign]
        | para_Feature i => simp [hWne, hu, AddrShift.find_assign]
        | para_Td i => simp [hWne, hu, AddrShift.find_assign]
        | null => simp [hWne, hu, AddrShift.find_assign]
    · by_cases hu : cfg.USE_IMU = true
      · cases b with
        | para_Pose i =>
          by_cases hi : i = a
          · subst hi; simp [ha1, haW, hu, AddrShift.find_assign]
          · simp [ha1, haW, hu, hi, AddrShift.find_assign]
        | para_SpeedBias i =>
          by_cases hi : i = a
          · subst hi; simp [ha1, haW, hu, AddrShift.find_assign]
          · simp [ha1, haW, hu, hi, AddrShift.find_assign]
        | para_Ex_Pose i => simp [ha1, haW, hu, AddrShift.find_assign]
        | para_Feature i => simp [ha1, haW, hu, AddrShift.find_assign]
        | para_Td i => simp [ha1, haW, hu, AddrShift.find_assign]
        | null => simp [ha1, haW, hu, AddrShift.find_assign]
      · cases b with
        | para_Pose i =>
          by_cases hi : i = a
          · subst hi; simp [ha1, haW, hu, AddrShift.find_assign]
          · simp [ha1, haW, hu, hi, AddrShift.find_assign]
        | para_SpeedBias i => simp [ha1, haW, hu, AddrShift.find_assign]
        | para_Ex_Pose i => simp [ha1, haW, hu, AddrShift.find_assign]
        | para_Feature i => simp [ha1, haW, hu, AddrShift.find_assign]
        | para_Td i => simp [ha1, haW, hu, AddrShift.find_assign]
        | null => simp [ha1, haW, hu, AddrShift.find_assign]

/-- Entries of `addr_shift` after the slot loop of the MARGIN_SECOND_NEW branch over the
slots `l`. -/
theorem addrShiftSecondNewSlot_loop_find (cfg : Config) (l : List Nat) (m : AddrShift)
    (b : BlockId) :
    (l.foldl (addrShiftSecondNewSlot cfg) m).find b =
      match b with
      | BlockId.para_Pose i =>
        if i ∈ l ∧ i ≠ cfg.WINDOW_SIZE - 1 then
          some (BlockId.para_Pose (if i = cfg.WINDOW_SIZE then i - 1 else i))
        else m.find b
      | BlockId.para_SpeedBias i =>
        if cfg.USE_IMU = true ∧ i ∈ l ∧ i ≠ cfg.WINDOW_SIZE - 1 then
          some (BlockId.para_SpeedBias (if i = cfg.WINDOW_SIZE then i - 1 else i))
        else m.find b
      | _ => m.find b := by
  induction l generalizing m with
  | nil => cases b <;> simp
  | cons a rest ih =>
    rw [List.foldl_cons, ih, addrShiftSecondNewSlot_find]
    cases b with
    | para_Pose i =>
      by_cases h1 : i = cfg.WINDOW_SIZE - 1
      · simp [h1]
      · by_cases h2 : i ∈ rest
        · simp [h1, h2]
        · by_cases h3 : i = a
          · subst h3
            simp [h1, h2]
          · simp [h1, h2, h3]
    | para_SpeedBias i =>
      by_cases hu : cfg.USE_IMU = true
      · by_cases h1 : i = cfg.WINDOW_SIZE - 1
        · simp [h1]
        · by_cases h2 : i ∈ rest
          · simp [h1, h2, hu]
          · by_cases h3 : i = a
            · subst h3
              simp [h1, h2, hu]
            · simp [h1, h2, h3, hu]
      · simp [hu]
    | para_Ex_Pose i => rfl
    | para_Feature i => rfl
    | para_Td i => rfl
    | null => rfl

/-- Closed form of the map `addr_shift` of the MARGIN_OLD branch. -/
theorem addrShiftOld_find (cfg : Config) (b : BlockId) :
    (addrShiftOld cfg).find b =
      match b with
      | BlockId.para_Pose i =>
        if 1 ≤ i ∧ i ≤ cfg.WINDOW_SIZE then some (BlockId.para_Pose (i - 1)) else none
      | BlockId.para_SpeedBias i =>
        if cfg.USE_IMU = true ∧ 1 ≤ i ∧ i ≤ cfg.WINDOW_SIZE then
          some (BlockId.para_SpeedBias (i - 1))
        else none
      | BlockId.para_Ex_Pose i =>
        if i < cfg.NUM_OF_CAM then some (BlockId.para_Ex_Pose i) else none
      | BlockId.para_Td i => if i = 0 then some (BlockId.para_Td 0) else none
      | _ => none := by
  have hmem : ∀ i, i ∈ (List.range cfg.WINDOW_SIZE).map (· + 1) ↔
      1 ≤ i ∧ i ≤ cfg.WINDOW_SIZE := by
    intro i
    simp only [List.mem_map, List.mem_range]
    constructor
    · rintro ⟨a, ha, rfl⟩; omega
    · rintro ⟨h1, h2⟩; exact ⟨i - 1, by omega, by omega⟩
  unfold addrShiftOld
  simp only []
  rw [AddrShift.find_assign, addrShiftCam_loop_find, addrShiftOldSlot_loop_find]
  cases b with
  | para_Pose i => simp [hmem, AddrShift.find, List.lookup]
  | para_SpeedBias i => simp [hmem, AddrShift.find, List.lookup]
  | para_Ex_Pose i => simp [AddrShift.find, List.lookup]
  | para_Feature i => simp [AddrShift.find, List.lookup]
  | para_Td i =>
    by_cases hi : i = 0
    · simp [hi]
    · simp [hi, AddrShift.find, List.lookup]
  | null => simp [AddrShift.find, List.lookup]

/-- Closed form of the map `addr_shift` of the MARGIN_SECOND_NEW branch. -/
theorem addrShiftSecondNew_find (cfg : Config) (b : BlockId) :
    (addrShiftSecondNew cfg).find b =
      match b with
      | BlockId.para_Pose i =>
        if i ≤ cfg.WINDOW_SIZE ∧ i ≠ cfg.WINDOW_SIZE - 1 then
          some (BlockId.para_Pose (if i = cfg.WINDOW_SIZE then i - 1 else i))
        else none
      | BlockId.para_SpeedBias i =>
        if cfg.USE_IMU = true ∧ i ≤ cfg.WINDOW_SIZE ∧ i ≠ cfg.WINDOW_SIZE - 1 then
          some (BlockId.para_SpeedBias (if i = cfg.WINDOW_SIZE then i - 1 else i))
        else none
      | BlockId.para_Ex_Pose i =>
        if i < cfg.NUM_OF_CAM then some (BlockId.para_Ex_Pose i) else none
      | BlockId.para_Td i => if i = 0 then some (BlockId.para_Td 0) else none
      | _ => none := by
  unfold addrShiftSecondNew
  simp only []
  rw [AddrShift.find_assign, addrShiftCam_loop_find, addrShiftSecondNewSlot_loop_find]
  cases b with
  | para_Pose i => simp [Nat.lt_succ_iff, AddrShift.find, List.lookup]
  | para_SpeedBias i => simp [Nat.lt_succ_iff, AddrShift.find, List.lookup]
  | para_Ex_Pose i => simp [AddrShift.find, List.lookup]
  | para_Feature i => simp [AddrShift.find, List.lookup]
  | para_Td i =>
    by_cases hi : i = 0
    · simp [hi]
    · simp [hi, AddrShift.find, List.lookup]
  | null => simp [AddrShift.find, List.lookup]

/-- The map `addr_shift` of the MARGIN_OLD branch is injective and has no block of slot
`WINDOW_SIZE` in its range. -/
theorem addrShiftOld_injective (cfg : Config) :
    (∀ b1 b2 c, (addrShiftOld cfg).find b1 = some c → (addrShiftOld cfg).find b2 = some c →
      b1 = b2) ∧
    ∀ b, (addrShiftOld cfg).find b ≠ some (BlockId.para_Pose cfg.WINDOW_SIZE) ∧
      (addrShiftOld cfg).find b ≠ some (BlockId.para_SpeedBias cfg.WINDOW_SIZE) := by
  constructor
  · intro b1 b2 c h1 h2
    rw [addrShiftOld_find] at h1 h2
    cases b1 <;> cases b2 <;> simp only [] at h1 h2 <;> (try split_ifs at h1 h2) <;>
      (try simp only [Option.some.injEq] at h1 h2) <;>
      first
      | exact Option.noConfusion h1
      | exact Option.noConfusion h2
      | (subst h1; first
          | exact BlockId.noConfusion h2
          | (have h3 := BlockId.para_Pose.inj h2; congr 1; omega)
          | (have h3 := BlockId.para_SpeedBias.inj h2; congr 1; omega)
          | (have h3 := BlockId.para_Ex_Pose.inj h2; congr 1; omega)
          | (congr 1; omega))
  · intro b
    rw [addrShiftOld_find]
    cases b <;> simp only [] <;> constructor <;> (try split_ifs) <;>
      first
      | exact fun h => Option.noConfusion h
      | (intro h
         first
          | exact BlockId.noConfusion (Option.some.inj h)
          | (have h3 := BlockId.para_Pose.inj (Option.some.inj h); omega)
          | (have h3 := BlockId.para_SpeedBias.inj (Option.some.inj h); omega))

/-- The map `addr_shift` of the MARGIN_SECOND_NEW branch is injective and has no block
of slot `WINDOW_SIZE` in its range. -/
theorem addrShiftSecondNew_injective (cfg : Config) :
    (∀ b1 b2 c, (addrShiftSecondNew cfg).find b1 = some c →
      (addrShiftSecondNew cfg).find b2 = some c → b1 = b2) ∧
    ∀ b, (addrShiftSecondNew cfg).find b ≠ some (BlockId.para_Pose cfg.WINDOW_SIZE) ∧
      (addrShiftSecondNew cfg).find b ≠ some (BlockId.para_SpeedBias cfg.WINDOW_SIZE) := by
  have hW := cfg.window_pos
  constructor
  · intro b1 b2 c h1 h2
    rw [addrShiftSecondNew_find] at h1 h2
    cases b1 <;> cases b2 <;> simp only [] at h1 h2 <;> (try split_ifs at h1 h2) <;>
      (try simp only [Option.some.injEq] at h1 h2) <;>
      first
      | exact Option.noConfusion h1
      | exact Option.noConfusion h2
      | (subst h1; first
          | exact BlockId.noConfusion h2
          | (have h3 := BlockId.para_Pose.inj h2; congr 1; omega)
          | (have h3 := BlockId.para_SpeedBias.inj h2; congr 1; omega)
          | (have h3 := BlockId.para_Ex_Pose.inj h2; congr 1; omega)
          | (congr 1; omega))
  · intro b
    rw [addrShiftSecondNew_find]
    cases b <;> simp only [] <;> constructor <;> (try split_ifs) <;>
      first
      | exact fun h => Option.noConfusion h
      | (intro h
         first
          | exact BlockId.noConfusion (Option.some.inj h)
          | (have h3 := BlockId.para_Pose.inj (Option.some.inj h); omega)
          | (have h3 := BlockId.para_SpeedBias.inj (Option.some.inj h); omega))

/-- The keyframe slide of a full window moves position and rotation (with `USE_IMU`
also velocity and biases) of slot `i + 1` to slot `i`. -/
theorem slideWindow_old_moves (ext : Externals) (cfg : Config) (s : Estimator)
    (hfull : s.frame_count = cfg.WINDOW_SIZE)
    (hflag : s.marginalization_flag = MarginalizationFlag.MARGIN_OLD)
    (i : Nat) (hi : i < cfg.WINDOW_SIZE) :
    (slideWindow ext cfg s).Ps i = s.Ps (i + 1) ∧
    (slideWindow ext cfg s).Rs i = s.Rs (i + 1) ∧
    (cfg.USE_IMU = true →
      (slideWindow ext cfg s).Vs i = s.Vs (i + 1) ∧
      (slideWindow ext cfg s).Bas i = s.Bas (i + 1) ∧
      (slideWindow ext cfg s).Bgs i = s.Bgs (i + 1)) := by
  have hiW : i ≠ cfg.WINDOW_SIZE := by omega
  cases hU : cfg.USE_IMU <;>
    simp [slideWindow, hflag, hfull, slideWindowShift_loop, hU, slideWindowOld,
      resetNewestSlot, setAt, rotated, shiftedCopy, hi, hiW] <;>
    split_ifs <;> simp [setAt, rotated, shiftedCopy, hi, hiW]

/-- The non-keyframe slide of a full window moves position and rotation (with `USE_IMU`
also velocity and biases) of slot `WINDOW_SIZE` to slot `WINDOW_SIZE - 1` and leaves
those of the other slots alone. -/
theorem slideWindow_new_moves (ext : Externals) (cfg : Config) (s : Estimator)
    (hfull : s.frame_count = cfg.WINDOW_SIZE)
    (hflag : s.marginalization_flag = MarginalizationFlag.MARGIN_SECOND_NEW) :
    (slideWindow ext cfg s).Ps (cfg.WINDOW_SIZE - 1) = s.Ps cfg.WINDOW_SIZE ∧
    (slideWindow ext cfg s).Rs (cfg.WINDOW_SIZE - 1) = s.Rs cfg.WINDOW_SIZE ∧
    (cfg.USE_IMU = true →
      (slideWindow ext cfg s).Vs (cfg.WINDOW_SIZE - 1) = s.Vs cfg.WINDOW_SIZE ∧
      (slideWindow ext cfg s).Bas (cfg.WINDOW_SIZE - 1) = s.Bas cfg.WINDOW_SIZE ∧
      (slideWindow ext cfg s).Bgs (cfg.WINDOW_SIZE - 1) = s.Bgs cfg.WINDOW_SIZE) ∧
    (∀ i, i ≠ cfg.WINDOW_SIZE - 1 →
      (slideWindow ext cfg s).Ps i = s.Ps i ∧
      (slideWindow ext cfg s).Rs i = s.Rs i ∧
      (slideWindow ext cfg s).Vs i = s.Vs i ∧
      (slideWindow ext cfg s).Bas i = s.Bas i ∧
      (slideWindow ext cfg s).Bgs i = s.Bgs i) := by
  cases hU : cfg.USE_IMU
  · simp [slideWindow, hflag, hfull, hU, slideWindowNew, setAt]
    intro i hi
    simp [hi]
  · have hW := cfg.window_pos
    have hne : cfg.WINDOW_SIZE ≠ cfg.WINDOW_SIZE - 1 := by omega
    simp [slideWindow, hflag, hfull, hU, slideWindowNew, resetNewestSlot,
      (slideWindowMerge_loop_frame _ _).1, (slideWindowMerge_loop_frame _ _).2.1,
      (slideWindowMerge_loop_frame _ _).2.2.1, (slideWindowMerge_loop_frame _ _).2.2.2.1,
      (slideWindowMerge_loop_frame _ _).2.2.2.2.1,
      (slideWindowMerge_loop_frame _ _).2.2.2.2.2.1, setAt, hne]
    intro i hi
    simp [hi]

/-- C13: the address maps `addr_shift` agree with the move `slideWindow` performs.
Under MARGIN_OLD the pose block (and, with `USE_IMU`, the speed-bias block) of slot `i`
maps to that of slot `i - 1` for every `1 ≤ i ≤ WINDOW_SIZE`; under MARGIN_SECOND_NEW
slot `WINDOW_SIZE` maps to slot `WINDOW_SIZE - 1` and every slot `i` with
`i + 2 ≤ WINDOW_SIZE` to itself; in both maps every camera's extrinsic block and the
time-offset block map to themselves, the dropped slot's blocks (slot 0, resp. slot
`WINDOW_SIZE - 1`) have no entry, the map is injective and no block of slot
`WINDOW_SIZE` is in its range.  On a full window, whenever a pose block of slot `i`
maps to that of slot `j`, the slide with the matching flag leaves in slot `j` the
position and rotation slot `i` had, and likewise velocity and biases for the
speed-bias blocks. -/
theorem addr_shift_agrees_with_slide (cfg : Config) :
    (∀ i, 1 ≤ i → i ≤ cfg.WINDOW_SIZE →
      (addrShiftOld cfg).find (BlockId.para_Pose i) = some (BlockId.para_Pose (i - 1)) ∧
      (cfg.USE_IMU = true → (addrShiftOld cfg).find (BlockId.para_SpeedBias i) =
        some (BlockId.para_SpeedBias (i - 1)))) ∧
    ((addrShiftSecondNew cfg).find (BlockId.para_Pose cfg.WINDOW_SIZE) =
        some (BlockId.para_Pose (cfg.WINDOW_SIZE - 1)) ∧
      (cfg.USE_IMU = true →
        (addrShiftSecondNew cfg).find (BlockId.para_SpeedBias cfg.WINDOW_SIZE) =
          some (BlockId.para_SpeedBias (cfg.WINDOW_SIZE - 1))) ∧
      ∀ i, i + 2 ≤ cfg.WINDOW_SIZE →
        (addrShiftSecondNew cfg).find (BlockId.para_Pose i) = some (BlockId.para_Pose i) ∧
        (cfg.USE_IMU = true → (addrShiftSecondNew cfg).find (BlockId.para_SpeedBias i) =
          some (BlockId.para_SpeedBias i))) ∧
    (∀ i, i < cfg.NUM_OF_CAM →
      (addrShiftOld cfg).find (BlockId.para_Ex_Pose i) = some (BlockId.para_Ex_Pose i) ∧
      (addrShiftSecondNew cfg).find (BlockId.para_Ex_Pose i) =
        some (BlockId.para_Ex_Pose i)) ∧
    ((addrShiftOld cfg).find (BlockId.para_Td 0) = some (BlockId.para_Td 0) ∧
      (addrShiftSecondNew cfg).find (BlockId.para_Td 0) = some (BlockId.para_Td 0)) ∧
    ((addrShiftOld cfg).find (BlockId.para_Pose 0) = none ∧
      (addrShiftOld cfg).find (BlockId.para_SpeedBias 0) = none ∧
      (addrShiftSecondNew cfg).find (BlockId.para_Pose (cfg.WINDOW_SIZE - 1)) = none ∧
      (addrShiftSecondNew cfg).find (BlockId.para_SpeedBias (cfg.WINDOW_SIZE - 1)) = none) ∧
    ((∀ b1 b2 c, (addrShiftOld cfg).find b1 = some c → (addrShiftOld cfg).find b2 = some c →
        b1 = b2) ∧
      (∀ b1 b2 c, (addrShiftSecondNew cfg).find b1 = some c →
        (addrShiftSecondNew cfg).find b2 = some c → b1 = b2)) ∧
    (∀ b, (addrShiftOld cfg).find b ≠ some (BlockId.para_Pose cfg.WINDOW_SIZE) ∧
      (addrShiftOld cfg).find b ≠ some (BlockId.para_SpeedBias cfg.WINDOW_SIZE) ∧
      (addrShiftSecondNew cfg).find b ≠ some (BlockId.para_Pose cfg.WINDOW_SIZE) ∧
      (addrShiftSecondNew cfg).find b ≠ some (BlockId.para_SpeedBias cfg.WINDOW_SIZE)) ∧
    (∀ (ext : Externals) (s : Estimator), s.frame_count = cfg.WINDOW_SIZE →
      (s.marginalization_flag = MarginalizationFlag.MARGIN_OLD → ∀ i j,
        ((addrShiftOld cfg).find (BlockId.para_Pose i) = some (BlockId.para_Pose j) →
          (slideWindow ext cfg s).Ps j = s.Ps i ∧ (slideWindow ext cfg s).Rs j = s.Rs i) ∧
        ((addrShiftOld cfg).find (BlockId.para_SpeedBias i) =
            some (BlockId.para_SpeedBias j) →
          (slideWindow ext cfg s).Vs j = s.Vs i ∧ (slideWindow ext cfg s).Bas j = s.Bas i ∧
          (slideWindow ext cfg s).Bgs j = s.Bgs i)) ∧
      (s.marginalization_flag = MarginalizationFlag.MARGIN_SECOND_NEW → ∀ i j,
        ((addrShiftSecondNew cfg).find (BlockId.para_Pose i) = some (BlockId.para_Pose j) →
          (slideWindow ext cfg s).Ps j = s.Ps i ∧ (slideWindow ext cfg s).Rs j = s.Rs i) ∧
        ((addrShiftSecondNew cfg).find (BlockId.para_SpeedBias i) =
            some (BlockId.para_SpeedBias j) →
          (slideWindow ext cfg s).Vs j = s.Vs i ∧ (slideWindow ext cfg s).Bas j = s.Bas i ∧
          (slideWindow ext cfg s).Bgs j = s.Bgs i))) := by
  have hW := cfg.window_pos
  have hWne : ¬ cfg.WINDOW_SIZE = cfg.WINDOW_SIZE - 1 := by omega
  refine ⟨?_, ⟨?_, ?_, ?_⟩, ?_, ⟨?_, ?_⟩, ⟨?_, ?_, ?_, ?_⟩,
    ⟨(addrShiftOld_injective cfg).1, (addrShiftSecondNew_injective cfg).1⟩, ?_, ?_⟩
  · intro i h1 h2
    refine ⟨?_, fun hu => ?_⟩
    · rw [addrShiftOld_find]; simp [h1, h2]
    · rw [addrShiftOld_find]; simp [h1, h2, hu]
  · rw [addrShiftSecondNew_find]; simp [hWne]
  · intro hu
    rw [addrShiftSecondNew_find]; simp [hWne, hu]
  · intro i hi
    have h1 : i ≤ cfg.WINDOW_SIZE := by omega
    have h2 : ¬ i = cfg.WINDOW_SIZE - 1 := by omega
    have h3 : ¬ i = cfg.WINDOW_SIZE := by omega
    refine ⟨?_, fun hu => ?_⟩
    · rw [addrShiftSecondNew_find]; simp [h1, h2, h3]
    · rw [addrShiftSecondNew_find]; simp [h1, h2, h3, hu]
  · intro i hi
    constructor
    · rw [addrShiftOld_find]; simp [hi]
    · rw [addrShiftSecondNew_find]; simp [hi]
  · rw [addrShiftOld_find]; simp
  · rw [addrShiftSecondNew_find]; simp
  · rw [addrShiftOld_find]; simp
  · rw [addrShiftOld_find]; simp
  · rw [addrShiftSecondNew_find]; simp
  · rw [addrShiftSecondNew_find]; simp
  · intro b
    exact ⟨((addrShiftOld_injective cfg).2 b).1, ((addrShiftOld_injective cfg).2 b).2,
      ((addrShiftSecondNew_injective cfg).2 b).1, ((addrShiftSecondNew_injective cfg).2 b).2⟩
  · intro ext s hfull
    refine ⟨fun hflag i j => ⟨?_, ?_⟩, fun hflag i j => ⟨?_, ?_⟩⟩
    · intro h
      rw [addrShiftOld_find] at h
      simp only [] at h
      split_ifs at h with hc
      have hj : i - 1 = j := BlockId.para_Pose.inj (Option.some.inj h)
      obtain ⟨h1, h2, _⟩ := slideWindow_old_moves ext cfg s hfull hflag j (by omega)
      have hji : j + 1 = i := by omega
      rw [hji] at h1 h2
      exact ⟨h1, h2⟩
    · intro h
      rw [addrShiftOld_find] at h
      simp only [] at h
      split_ifs at h with hc
      have hj : i - 1 = j := BlockId.para_SpeedBias.inj (Option.some.inj h)
      obtain ⟨_, _, h3⟩ := slideWindow_old_moves ext cfg s hfull hflag j (by omega)
      have hji : j + 1 = i := by omega
      rw [hji] at h3
      exact h3 hc.1
    · intro h
      rw [addrShiftSecondNew_find] at h
      simp only [] at h
      split_ifs at h with hc hiW
      · have hj : i - 1 = j := BlockId.para_Pose.inj (Option.some.inj h)
        obtain ⟨h1, h2, _⟩ := slideWindow_new_moves ext cfg s hfull hflag
        rw [← hj, hiW]
        exact ⟨h1, h2⟩
      · have hj : i = j := BlockId.para_Pose.inj (Option.some.inj h)
        obtain ⟨_, _, _, h4⟩ := slideWindow_new_moves ext cfg s hfull hflag
        rw [← hj]
        exact ⟨(h4 i hc.2).1, (h4 i hc.2).2.1⟩
    · intro h
      rw [addrShiftSecondNew_find] at h
      simp only [] at h
      split_ifs at h with hc hiW
      · have hj : i - 1 = j := BlockId.para_SpeedBias.inj (Option.some.inj h)
        obtain ⟨_, _, h3, _⟩ := slideWindow_new_moves ext cfg s hfull hflag
        rw [← hj, hiW]
        exact h3 hc.1
      · have hj : i = j := BlockId.para_SpeedBias.inj (Option.some.inj h)
        obtain ⟨_, _, _, h4⟩ := slideWindow_new_moves ext cfg s hfull hflag
        rw [← hj]
        exact ⟨(h4 i hc.2.2).2.2.1, (h4 i hc.2.2).2.2.2.1, (h4 i hc.2.2).2.2.2.2⟩

/-- Instance of C13 on `demoConfig` (three slots, two cameras): under MARGIN_OLD slot 2
maps to slot 1 and slot 1 to slot 0; under MARGIN_SECOND_NEW slot 2 maps to slot 1 and
slot 0 to itself, and slot 1 has no entry. -/
theorem addr_shift_agrees_with_slide_witness :
    (addrShiftOld demoConfig).find (BlockId.para_Pose 2) = some (BlockId.para_Pose 1) ∧
    (addrShiftOld demoConfig).find (BlockId.para_SpeedBias 1) =
      some (BlockId.para_SpeedBias 0) ∧
    (addrShiftSecondNew demoConfig).find (BlockId.para_Pose 2) = some (BlockId.para_Pose 1) ∧
    (addrShiftSecondNew demoConfig).find (BlockId.para_Pose 0) = some (BlockId.para_Pose 0) ∧
    (addrShiftSecondNew demoConfig).find (BlockId.para_Pose 1) = none :=
  ⟨((addr_shift_agrees_with_slide demoConfig).1 2 (by decide) (by decide)).1,
    ((addr_shift_agrees_with_slide demoConfig).1 1 (by decide) (by decide)).2 rfl,
    (addr_shift_agrees_with_slide demoConfig).2.1.1,
    ((addr_shift_agrees_with_slide demoConfig).2.1.2.2 0 (by decide)).1,
    (addr_shift_agrees_with_slide demoConfig).2.2.2.2.1.2.2.1⟩

/-! ## `optimization`: the MARGIN_SECOND_NEW branch -/

/-- An entry read inside the list is a member, and every member is read at an index
inside the list. -/
theorem mem_iff_getD_index (blocks : List BlockId) (b : BlockId) :
    b ∈ blocks ↔ ∃ i, i < blocks.length ∧ blocks.getD i BlockId.null = b := by
  constructor
  · intro h
    obtain ⟨i, hi, he⟩ := List.mem_iff_getElem.mp h
    exact ⟨i, hi, by rw [List.getD_eq_getElem _ _ hi, he]⟩
  · rintro ⟨i, hi, he⟩
    rw [List.getD_eq_getElem _ _ hi] at he
    rw [← he]
    exact List.getElem_mem hi

/-- Closed form of the drop-set loop of the MARGIN_SECOND_NEW branch after `n`
iterations. -/
theorem margSecondNewDropSet_loop (cfg : Config) (blocks : List BlockId) (n : Nat) :
    (List.range n).foldl
      (fun drop_set i =>
        match drop_set with
        | none => none
        | some drop_set =>
          if blocks.getD i BlockId.null = BlockId.para_SpeedBias (cfg.WINDOW_SIZE - 1) then none
          else if blocks.getD i BlockId.null = BlockId.para_Pose (cfg.WINDOW_SIZE - 1) then
            some (drop_set ++ [i])
          else some drop_set) (some []) =
      if ∃ i, i < n ∧ blocks.getD i BlockId.null =
          BlockId.para_SpeedBias (cfg.WINDOW_SIZE - 1) then none
      else some ((List.range n).filter (fun i =>
        decide (blocks.getD i BlockId.null = BlockId.para_Pose (cfg.WINDOW_SIZE - 1)))) := by
  induction n with
  | zero => simp
  | succ k ih =>
    rw [List.range_succ, List.foldl_append, ih]
    by_cases hprev : ∃ i, i < k ∧ blocks.getD i BlockId.null =
        BlockId.para_SpeedBias (cfg.WINDOW_SIZE - 1)
    · have hnext : ∃ i, i < k + 1 ∧ blocks.getD i BlockId.null =
          BlockId.para_SpeedBias (cfg.WINDOW_SIZE - 1) := by
        obtain ⟨i, hi, he⟩ := hprev
        exact ⟨i, by omega, he⟩
      simp only [hprev, hnext, if_true, List.foldl_cons, List.foldl_nil]
    · by_cases hk : blocks.getD k BlockId.null = BlockId.para_SpeedBias (cfg.WINDOW_SIZE - 1)
      · have hnext : ∃ i, i < k + 1 ∧ blocks.getD i BlockId.null =
            BlockId.para_SpeedBias (cfg.WINDOW_SIZE - 1) := ⟨k, by omega, hk⟩
        simp only [hprev, hnext, if_true, if_false, List.foldl_cons, List.foldl_nil, hk]
      · have hnext : ¬ ∃ i, i < k + 1 ∧ blocks.getD i BlockId.null =
            BlockId.para_SpeedBias (cfg.WINDOW_SIZE - 1) := by
          rintro ⟨i, hi, he⟩
          by_cases hik : i = k
          · subst hik; exact hk he
          · exact hprev ⟨i, by omega, he⟩
        simp only [hprev, hnext, if_false, List.foldl_cons, List.foldl_nil, hk,
          List.filter_append]
        by_cases hp : blocks.getD k BlockId.null = BlockId.para_Pose (cfg.WINDOW_SIZE - 1)
        · rw [if_pos hp, List.filter_cons_of_pos (by rw [decide_eq_true_iff]; exact hp)]
          rfl
        · rw [if_neg hp, List.filter_cons_of_neg (by rw [decide_eq_true_iff]; exact hp)]
          simp

/-- The drop-set loop of the MARGIN_SECOND_NEW branch stops at the `ROS_ASSERT` exactly
when the list holds `para_SpeedBias[WINDOW_SIZE - 1]`; otherwise it returns the indices
holding `para_Pose[WINDOW_SIZE - 1]`. -/
theorem margSecondNewDropSet_spec (cfg : Config) (blocks : List BlockId) :
    (margSecondNewDropSet cfg blocks = none ↔
      BlockId.para_SpeedBias (cfg.WINDOW_SIZE - 1) ∈ blocks) ∧
    ∀ drop_set, margSecondNewDropSet cfg blocks = some drop_set →
      ∀ k, k ∈ drop_set ↔ k < blocks.length ∧
        blocks.getD k BlockId.null = BlockId.para_Pose (cfg.WINDOW_SIZE - 1) := by
  unfold margSecondNewDropSet
  rw [margSecondNewDropSet_loop, mem_iff_getD_index]
  by_cases h : ∃ i, i < blocks.length ∧ blocks.getD i BlockId.null =
      BlockId.para_SpeedBias (cfg.WINDOW_SIZE - 1)
  · simp only [h, if_true, true_iff]
    exact ⟨trivial, fun _ hd => Option.noConfusion hd⟩
  · simp only [h, if_false, iff_false]
    refine ⟨fun hd => Option.noConfusion hd, ?_⟩
    intro drop_set hd k
    rw [← Option.some.inj hd]
    simp [List.mem_filter]

/-- The residual blocks of the MARGIN_SECOND_NEW branch: the branch stops at the
`ROS_ASSERT` exactly when the prior is valid and its list holds
`para_SpeedBias[WINDOW_SIZE - 1]`; otherwise the only residual block is the valid prior,
on its own block list, with the indices of `para_Pose[WINDOW_SIZE - 1]` as drop set. -/
theorem margSecondNewResidualBlocks_spec (cfg : Config) (s : Estimator) :
    (margSecondNewResidualBlocks cfg s = none ↔
      (∃ info, s.last_marginalization_info = some info ∧ info.valid = true) ∧
        BlockId.para_SpeedBias (cfg.WINDOW_SIZE - 1) ∈
          s.last_marginalization_parameter_blocks) ∧
    ∀ infos, margSecondNewResidualBlocks cfg s = some infos →
      ∀ rb ∈ infos,
        rb.parameter_blocks = s.last_marginalization_parameter_blocks ∧
        (∃ info, s.last_marginalization_info = some info ∧ info.valid = true ∧
          rb.cost_function = Factor.MarginalizationFactor info) ∧
        (∀ k, k ∈ rb.drop_set ↔ k < s.last_marginalization_parameter_blocks.length ∧
          s.last_marginalization_parameter_blocks.getD k BlockId.null =
            BlockId.para_Pose (cfg.WINDOW_SIZE - 1)) := by
  obtain ⟨hnone, hsome⟩ := margSecondNewDropSet_spec cfg s.last_marginalization_parameter_blocks
  unfold margSecondNewResidualBlocks
  cases hi : s.last_marginalization_info with
  | none => simp
  | some info =>
    by_cases hv : info.valid = true
    · cases hd : margSecondNewDropSet cfg s.last_marginalization_parameter_blocks with
      | none =>
        simp only [hv, if_true, true_iff]
        exact ⟨⟨⟨info, rfl, hv⟩, hnone.mp hd⟩, fun _ h => Option.noConfusion h⟩
      | some drop_set =>
        simp only [hv, if_true]
        refine ⟨⟨fun h => Option.noConfusion h, fun h => ?_⟩, ?_⟩
        · rw [hnone.mpr h.2] at hd
          exact Option.noConfusion hd
        · intro infos hinfos rb hrb
          rw [← Option.some.inj hinfos, List.mem_singleton] at hrb
          subst hrb
          exact ⟨rfl, ⟨info, rfl, hv, rfl⟩, hsome drop_set hd⟩
    · simp only [hv, Bool.false_eq_true, if_false]
      refine ⟨⟨fun h => Option.noConfusion h, fun h => ?_⟩, ?_⟩
      · obtain ⟨⟨info2, he, hv2⟩, _⟩ := h
        rw [← Option.some.inj he] at hv2
        exact absurd hv2 hv
      · intro infos hinfos rb hrb
        rw [← Option.some.inj hinfos] at hrb
        simp at hrb

/-- C14: in an `optimization` call on a full window with
`marginalization_flag = MARGIN_SECOND_NEW` (a sound depth vector and the
pre-integrations present), the first part returns an estimator `s4` whose prior is the
one the call started with, and the call continues with the MARGIN_SECOND_NEW branch.
If no previous prior exists or its block list does not contain
`para_Pose[WINDOW_SIZE - 1]`, the call returns `s4`: `last_marginalization_info` and
`last_marginalization_parameter_blocks` are unchanged.  Otherwise the marginalization
runs: it stops at the `ROS_ASSERT` exactly when the prior is valid and its list holds
`para_SpeedBias[WINDOW_SIZE - 1]`; else the residual blocks handed to the marginalizer
are the valid prior alone, whose drop set consists of exactly the indices at which
`para_Pose[WINDOW_SIZE - 1]` occurs in the list (none of them holds a speed-bias
block), and the call installs the new prior computed from them. -/
theorem optimization_second_new (ext : Externals) (cfg : Config) (s : Estimator)
    (hdv : DepthVectorSound ext) (hpre : PreIntegrationsPresent cfg s)
    (hfull : s.frame_count = cfg.WINDOW_SIZE)
    (hflag : s.marginalization_flag = MarginalizationFlag.MARGIN_SECOND_NEW) :
    ∃ s4 p, optimizationSolved ext cfg s = some (s4, p) ∧
      s4.last_marginalization_info = s.last_marginalization_info ∧
      s4.last_marginalization_parameter_blocks = s.last_marginalization_parameter_blocks ∧
      optimization ext cfg s = marginalizeSecondNew ext cfg s4 ∧
      (¬ margSecondNewRuns cfg s → optimization ext cfg s = some s4) ∧
      (margSecondNewRuns cfg s →
        (optimization ext cfg s = none ↔
          (∃ info, s.last_marginalization_info = some info ∧ info.valid = true) ∧
            BlockId.para_SpeedBias (cfg.WINDOW_SIZE - 1) ∈
              s.last_marginalization_parameter_blocks) ∧
        ∀ infos, margSecondNewResidualBlocks cfg (vector2double ext cfg s4) = some infos →
          optimization ext cfg s =
            some { vector2double ext cfg s4 with
              last_marginalization_info :=
                some (ext.marginalize infos (vector2double ext cfg s4).parameterArrays),
              last_marginalization_parameter_blocks :=
                getParameterBlocks infos (addrShiftSecondNew cfg) } ∧
          ∀ rb ∈ infos,
            rb.parameter_blocks = s.last_marginalization_parameter_blocks ∧
            (∀ k, k ∈ rb.drop_set ↔ k < s.last_marginalization_parameter_blocks.length ∧
              s.last_marginalization_parameter_blocks.getD k BlockId.null =
                BlockId.para_Pose (cfg.WINDOW_SIZE - 1)) ∧
            ∀ k ∈ rb.drop_set, ∀ i,
              rb.parameter_blocks.getD k BlockId.null ≠ BlockId.para_SpeedBias i) := by
  obtain ⟨s2, s4, p, _, hsolved, hc4⟩ := optimizationSolved_defined ext cfg s hdv hpre
  have hfc4 : s4.frame_count = s.frame_count := congrArg WindowControl.frame_count hc4
  have hfl4 : s4.marginalization_flag = s.marginalization_flag :=
    congrArg WindowControl.marginalization_flag hc4
  have hi4 : s4.last_marginalization_info = s.last_marginalization_info :=
    congrArg WindowControl.last_marginalization_info hc4
  have hb4 : s4.last_marginalization_parameter_blocks =
      s.last_marginalization_parameter_blocks :=
    congrArg WindowControl.last_marginalization_parameter_blocks hc4
  have hc5 := vector2double_control ext cfg s4
  have hi5 : (vector2double ext cfg s4).last_marginalization_info =
      s.last_marginalization_info :=
    (congrArg WindowControl.last_marginalization_info hc5).trans hi4
  have hb5 : (vector2double ext cfg s4).last_marginalization_parameter_blocks =
      s.last_marginalization_parameter_blocks :=
    (congrArg WindowControl.last_marginalization_parameter_blocks hc5).trans hb4
  have hopt : optimization ext cfg s = marginalizeSecondNew ext cfg s4 := by
    unfold optimization
    simp only [hsolved, hfc4, hfull, lt_irrefl, if_false, hfl4, hflag]
    rfl
  have hruns : margSecondNewRuns cfg s4 ↔ margSecondNewRuns cfg s := by
    unfold margSecondNewRuns
    rw [hi4, hb4]
  obtain ⟨hnone, hsome⟩ := margSecondNewResidualBlocks_spec cfg (vector2double ext cfg s4)
  rw [hi5, hb5] at hnone
  refine ⟨s4, p, hsolved, hi4, hb4, hopt, ?_, ?_⟩
  · intro hn
    rw [hopt]
    unfold marginalizeSecondNew
    rw [if_neg (fun h => hn (hruns.mp h))]
  · intro hr
    have hr4 := hruns.mpr hr
    refine ⟨?_, ?_⟩
    · rw [hopt, ← hnone]
      unfold marginalizeSecondNew
      rw [if_pos hr4]
      cases hm : margSecondNewResidualBlocks cfg (vector2double ext cfg s4) with
      | none => simp [hm]
      | some infos => simp [hm]
    · intro infos hinfos
      refine ⟨?_, ?_⟩
      · rw [hopt]
        unfold marginalizeSecondNew
        rw [if_pos hr4]
        simp only [hinfos]
      · intro rb hrb
        obtain ⟨h1, _, h3⟩ := hsome infos hinfos rb hrb
        rw [hb5] at h1 h3
        refine ⟨h1, h3, ?_⟩
        intro k hk i
        rw [h1, ((h3 k).mp hk).2]
        exact fun h => BlockId.noConfusion h

/-- Witness of C14 on `demoMargNew`: the prior lists `para_Pose[1]` at index 2, the
branch runs with drop set {2}, and the call returns with the prior's blocks
`para_Pose[0]`, `para_SpeedBias[0]`, `para_Ex_Pose[0]`, `para_Td[0]`. -/
theorem optimization_second_new_witness :
    DepthVectorSound demoExternals ∧ PreIntegrationsPresent demoConfig demoMargNew ∧
    demoMargNew.frame_count = demoConfig.WINDOW_SIZE ∧
    demoMargNew.marginalization_flag = MarginalizationFlag.MARGIN_SECOND_NEW ∧
    margSecondNewRuns demoConfig demoMargNew ∧
    (margSecondNewResidualBlocks demoConfig demoMargNew).map
      (fun infos => infos.map (fun rb => rb.drop_set)) = some [[2]] ∧
    ∃ s5, optimization demoExternals demoConfig demoMargNew = some s5 ∧
      s5.last_marginalization_parameter_blocks =
        [BlockId.para_Pose 0, BlockId.para_SpeedBias 0, BlockId.para_Ex_Pose 0,
         BlockId.para_Td 0] := by
  have hpre : PreIntegrationsPresent demoConfig demoMargNew := by
    intro _ j _ _
    simp [demoMargNew, demoCalibrating]
  obtain ⟨s4, p, _, hi4, hb4, _, _, hrun⟩ :=
    optimization_second_new demoExternals demoConfig demoMargNew
      demoExternals_depthVectorSound hpre rfl rfl
  have hr : margSecondNewRuns demoConfig demoMargNew := by decide
  obtain ⟨_, hsome⟩ := hrun hr
  have hc5 := vector2double_control demoExternals demoConfig s4
  have hi5 : (vector2double demoExternals demoConfig s4).last_marginalization_info =
      demoMargNew.last_marginalization_info :=
    (congrArg WindowControl.last_marginalization_info hc5).trans hi4
  have hb5 : (vector2double demoExternals demoConfig s4).last_marginalization_parameter_blocks =
      demoMargNew.last_marginalization_parameter_blocks :=
    (congrArg WindowControl.last_marginalization_parameter_blocks hc5).trans hb4
  have hinfos : margSecondNewResidualBlocks demoConfig
      (vector2double demoExternals demoConfig s4) =
      some [⟨Factor.MarginalizationFactor ⟨true⟩, LossFunction.NULL,
        [BlockId.para_Pose 0, BlockId.para_SpeedBias 0, BlockId.para_Pose 1,
         BlockId.para_Ex_Pose 0, BlockId.para_Td 0], [2]⟩] := by
    unfold margSecondNewResidualBlocks
    rw [hi5, hb5]
    decide
  obtain ⟨hopt, _⟩ := hsome _ hinfos
  refine ⟨demoExternals_depthVectorSound, hpre, rfl, rfl, hr, by decide, _, hopt, ?_⟩
  show getParameterBlocks [⟨Factor.MarginalizationFactor ⟨true⟩, LossFunction.NULL,
        [BlockId.para_Pose 0, BlockId.para_SpeedBias 0, BlockId.para_Pose 1,
         BlockId.para_Ex_Pose 0, BlockId.para_Td 0], [2]⟩] (addrShiftSecondNew demoConfig) = _
  decide

/-! ## Reachable priors -/

/-- The window slide leaves the prior alone. -/
theorem slideWindow_prior (ext : Externals) (cfg : Config) (s : Estimator) :
    (slideWindow ext cfg s).prior = s.prior := by
  unfold slideWindow
  cases hflag : s.marginalization_flag
  · simp only []
    by_cases hfull : s.frame_count = cfg.WINDOW_SIZE
    · rw [if_pos hfull]
      unfold slideWindowOld
      simp only []
      have hstep : ∀ (b : Estimator) (a : Nat),
          (slideWindowShiftStep cfg b a).prior = b.prior := by
        intro b a
        unfold slideWindowShiftStep
        split_ifs
        all_goals rfl
      by_cases hu : cfg.USE_IMU = true <;> split_ifs <;>
        exact (foldl_preserves Estimator.prior (slideWindowShiftStep cfg) hstep _ _).trans rfl
    · rw [if_neg hfull]
      rfl
  · simp only []
    by_cases hfull : s.frame_count = cfg.WINDOW_SIZE
    · rw [if_pos hfull]
      by_cases hu : cfg.USE_IMU = true
      · simp only [hu, if_true]
        exact (foldl_preserves Estimator.prior slideWindowMergeStep (fun _ _ => rfl)
          _ _).trans rfl
      · simp only [hu, Bool.false_eq_true, if_false]
        rfl
    · rw [if_neg hfull]

/-- A non-null block of the list `getParameterBlocks` returns is the image under
`addr_shift` of a parameter block of one of the residuals. -/
theorem mem_getParameterBlocks (infos : List ResidualBlockInfo) (addr_shift : AddrShift)
    (c : BlockId) (hc : c ≠ BlockId.null) (h : c ∈ getParameterBlocks infos addr_shift) :
    ∃ rb ∈ infos, ∃ b ∈ rb.parameter_blocks, addr_shift.find b = some c := by
  unfold getParameterBlocks keptBlocks at h
  simp only [List.mem_map, List.mem_dedup, List.mem_filter, List.mem_flatMap] at h
  obtain ⟨b, ⟨⟨rb, hrb, hb⟩, _⟩, hfind⟩ := h
  refine ⟨rb, hrb, b, hb, ?_⟩
  cases hf : addr_shift.find b with
  | none =>
    rw [hf] at hfind
    exact absurd hfind.symm hc
  | some d =>
    rw [hf] at hfind
    exact congrArg some hfind

/-- The MARGIN_OLD branch keeps the invariant that every speed-bias block of the
prior's list is slot 0's. -/
theorem marginalizeOld_onlySpeedBiasZero (ext : Externals) (cfg : Config) (s s1 : Estimator)
    (h : marginalizeOld ext cfg s = some s1)
    (hJ : OnlySpeedBiasZero s.last_marginalization_parameter_blocks) :
    OnlySpeedBiasZero s1.last_marginalization_parameter_blocks := by
  unfold marginalizeOld at h
  simp only [] at h
  cases hm : margOldResidualBlocks cfg (vector2double ext cfg s) with
  | none => simp [hm] at h
  | some r =>
    obtain ⟨s2, infos⟩ := r
    simp only [hm, Option.some.injEq] at h
    obtain ⟨_, imu, extra, himu, hinfos, hshape⟩ :=
      margOldResidualBlocks_frame cfg _ s2 infos hm
    have hb5 : (vector2double ext cfg s).last_marginalization_parameter_blocks =
        s.last_marginalization_parameter_blocks :=
      congrArg WindowControl.last_marginalization_parameter_blocks
        (vector2double_control ext cfg s)
    intro i hi
    rw [← h] at hi
    obtain ⟨rb, hrb, b, hb, hfind⟩ :=
      mem_getParameterBlocks infos (addrShiftOld cfg) _ (fun hn => BlockId.noConfusion hn) hi
    rw [addrShiftOld_find] at hfind
    cases b with
    | para_SpeedBias j =>
      simp only [] at hfind
      split_ifs at hfind with hc
      have hji : j - 1 = i := BlockId.para_SpeedBias.inj (Option.some.inj hfind)
      rw [hinfos] at hrb
      rcases List.mem_append.mp hrb with hrb | hrb
      · rcases List.mem_append.mp hrb with hrb | hrb
        · obtain ⟨_, _, hpb, _⟩ := margOldPrior_spec _ rb hrb
          rw [hpb, hb5] at hb
          have := hJ j hb
          omega
        · unfold margOldIMU at himu
          by_cases hu : cfg.USE_IMU = true
          · cases hp : (vector2double ext cfg s).pre_integrations 1 with
            | none => simp [hu, hp] at himu
            | some pre =>
              by_cases hq : pre.sum_dt < 10
              · simp only [hu, hp, hq, if_true, Option.some.injEq] at himu
                rw [← himu, List.mem_singleton] at hrb
                rw [hrb] at hb
                simp only [List.mem_cons, List.not_mem_nil, or_false] at hb
                rcases hb with hb | hb | hb | hb
                · exact BlockId.noConfusion hb
                · have := BlockId.para_SpeedBias.inj hb; omega
                · exact BlockId.noConfusion hb
                · have := BlockId.para_SpeedBias.inj hb; omega
              · simp only [hu, hp, hq, if_true, if_false, Option.some.injEq] at himu
                rw [← himu] at hrb
                simp at hrb
          · simp only [hu, Bool.false_eq_true, if_false, Option.some.injEq] at himu
            rw [← himu] at hrb
            simp at hrb
      · obtain ⟨_, j2, c, idx, _, hs | hs | hs⟩ := hshape rb hrb <;>
          (rw [hs.1] at hb; simp at hb)
    | para_Pose j =>
      simp only [] at hfind
      split_ifs at hfind
      exact BlockId.noConfusion (Option.some.inj hfind)
    | para_Ex_Pose j =>
      simp only [] at hfind
      split_ifs at hfind
      exact BlockId.noConfusion (Option.some.inj hfind)
    | para_Td j =>
      simp only [] at hfind
      split_ifs at hfind
      exact BlockId.noConfusion (Option.some.inj hfind)
    | para_Feature j => exact Option.noConfusion hfind
    | null => exact Option.noConfusion hfind

/-- The MARGIN_SECOND_NEW branch keeps the invariant that every speed-bias block of the
prior's list is slot 0's. -/
theorem marginalizeSecondNew_onlySpeedBiasZero (ext : Externals) (cfg : Config)
    (s s1 : Estimator) (h : marginalizeSecondNew ext cfg s = some s1)
    (hJ : OnlySpeedBiasZero s.last_marginalization_parameter_blocks) :
    OnlySpeedBiasZero s1.last_marginalization_parameter_blocks := by
  have hW := cfg.window_pos
  unfold marginalizeSecondNew at h
  by_cases hr : margSecondNewRuns cfg s
  · rw [if_pos hr] at h
    simp only [] at h
    cases hm : margSecondNewResidualBlocks cfg (vector2double ext cfg s) with
    | none => simp [hm] at h
    | some infos =>
      simp only [hm, Option.some.injEq] at h
      obtain ⟨_, hsome⟩ := margSecondNewResidualBlocks_spec cfg (vector2double ext cfg s)
      have hb5 : (vector2double ext cfg s).last_marginalization_parameter_blocks =
          s.last_marginalization_parameter_blocks :=
        congrArg WindowControl.last_marginalization_parameter_blocks
          (vector2double_control ext cfg s)
      intro i hi
      rw [← h] at hi
      obtain ⟨rb, hrb, b, hb, hfind⟩ :=
        mem_getParameterBlocks infos (addrShiftSecondNew cfg) _
          (fun hn => BlockId.noConfusion hn) hi
      rw [(hsome infos hm rb hrb).1, hb5] at hb
      rw [addrShiftSecondNew_find] at hfind
      cases b with
      | para_SpeedBias j =>
        have hj0 := hJ j hb
        simp only [] at hfind
        split_ifs at hfind with hc hjW
        · omega
        · have := BlockId.para_SpeedBias.inj (Option.some.inj hfind)
          omega
      | para_Pose j =>
        simp only [] at hfind
        split_ifs at hfind <;> exact BlockId.noConfusion (Option.some.inj hfind)
      | para_Ex_Pose j =>
        simp only [] at hfind
        split_ifs at hfind
        exact BlockId.noConfusion (Option.some.inj hfind)
      | para_Td j =>
        simp only [] at hfind
        split_ifs at hfind
        exact BlockId.noConfusion (Option.some.inj hfind)
      | para_Feature j => exact Option.noConfusion hfind
      | null => exact Option.noConfusion hfind
  · rw [if_neg hr] at h
    rw [← Option.some.inj h]
    exact hJ

/-- A returning `optimization` call keeps the invariant that every speed-bias block of
the prior's list is slot 0's. -/
theorem optimization_onlySpeedBiasZero (ext : Externals) (cfg : Config) (s s1 : Estimator)
    (h : optimization ext cfg s = some s1)
    (hJ : OnlySpeedBiasZero s.last_marginalization_parameter_blocks) :
    OnlySpeedBiasZero s1.last_marginalization_parameter_blocks := by
  unfold optimization at h
  cases hsolved : optimizationSolved ext cfg s with
  | none => simp [hsolved] at h
  | some r =>
    obtain ⟨s4, p⟩ := r
    simp only [hsolved] at h
    have hb4 : s4.last_marginalization_parameter_blocks =
        s.last_marginalization_parameter_blocks :=
      congrArg WindowControl.last_marginalization_parameter_blocks
        (optimizationSolved_control ext cfg s s4 p hsolved)
    have hJ4 : OnlySpeedBiasZero s4.last_marginalization_parameter_blocks := by
      rw [hb4]; exact hJ
    split_ifs at h
    · rw [← Option.some.inj h]
      exact hJ4
    · exact marginalizeOld_onlySpeedBiasZero ext cfg s4 s1 h hJ4
    · exact marginalizeSecondNew_onlySpeedBiasZero ext cfg s4 s1 h hJ4

/-- In every reachable state every speed-bias block of the prior's list is slot 0's. -/
theorem reachable_onlySpeedBiasZero (ext : Externals) (cfg : Config) (s : Estimator)
    (hr : Reachable ext cfg s) : OnlySpeedBiasZero s.last_marginalization_parameter_blocks := by
  induction hr with
  | init s0 =>
    intro i hi
    simp [clearState] at hi
  | optimize _ hopt ih => exact optimization_onlySpeedBiasZero ext cfg _ _ hopt ih
  | @slide s0 _ ih =>
    have h : (slideWindow ext cfg s0).last_marginalization_parameter_blocks =
        s0.last_marginalization_parameter_blocks :=
      congrArg Prod.snd (slideWindow_prior ext cfg s0)
    rw [h]
    exact ih
  | @other s0 s1 _ hp ih =>
    have h : s1.last_marginalization_parameter_blocks =
        s0.last_marginalization_parameter_blocks := congrArg Prod.snd hp
    rw [h]
    exact ih

/-- C15: the fatal assertion of the MARGIN_SECOND_NEW branch never fires.  With
`WINDOW_SIZE ≥ 2`, in every state reachable from `clearState` by returning
`optimization` calls, `slideWindow` calls and steps that leave the prior alone, the
prior's parameter-block list does not contain `para_SpeedBias[WINDOW_SIZE - 1]`: every
speed-bias block in it is slot 0's; hence the drop-set loop passes the `ROS_ASSERT` on
it.  The marginalizer is modelled as keeping exactly the non-dropped parameter blocks
of its residuals, re-addressed through `addr_shift`. -/
theorem speedBias_assert_never_fires (ext : Externals) (cfg : Config) (s : Estimator)
    (hW : 2 ≤ cfg.WINDOW_SIZE) (hr : Reachable ext cfg s) :
    BlockId.para_SpeedBias (cfg.WINDOW_SIZE - 1) ∉ s.last_marginalization_parameter_blocks ∧
    (∀ i, BlockId.para_SpeedBias i ∈ s.last_marginalization_parameter_blocks → i = 0) ∧
    margSecondNewDropSet cfg s.last_marginalization_parameter_blocks ≠ none ∧
    margSecondNewResidualBlocks cfg s ≠ none := by
  have hJ := reachable_onlySpeedBiasZero ext cfg s hr
  have hnot : BlockId.para_SpeedBias (cfg.WINDOW_SIZE - 1) ∉
      s.last_marginalization_parameter_blocks := by
    intro h
    have := hJ _ h
    omega
  refine ⟨hnot, hJ, ?_, ?_⟩
  · intro h
    exact hnot ((margSecondNewDropSet_spec cfg _).1.mp h)
  · intro h
    exact hnot ((margSecondNewResidualBlocks_spec cfg s).1.mp h).2

/-- An `optimization` call on a full window with `marginalization_flag = MARGIN_OLD`
(a sound depth vector and the pre-integrations present) returns: the first part
returns, the MARGIN_OLD submodel is built, and the call installs the prior computed
from it. -/
theorem optimization_margin_old (ext : Externals) (cfg : Config) (s : Estimator)
    (hdv : DepthVectorSound ext) (hpre : PreIntegrationsPresent cfg s)
    (hfull : s.frame_count = cfg.WINDOW_SIZE)
    (hflag : s.marginalization_flag = MarginalizationFlag.MARGIN_OLD) :
    ∃ s4 p s5 infos, optimizationSolved ext cfg s = some (s4, p) ∧
      s4.control = s.control ∧
      margOldResidualBlocks cfg (vector2double ext cfg s4) = some (s5, infos) ∧
      optimization ext cfg s =
        some { s5 with
          last_marginalization_info := some (ext.marginalize infos s5.parameterArrays),
          last_marginalization_parameter_blocks :=
            getParameterBlocks infos (addrShiftOld cfg) } := by
  have hW := cfg.window_pos
  obtain ⟨s2, s4, p, _, hsolved, hc4⟩ := optimizationSolved_defined ext cfg s hdv hpre
  have hfc4 : s4.frame_count = s.frame_count := congrArg WindowControl.frame_count hc4
  have hfl4 : s4.marginalization_flag = s.marginalization_flag :=
    congrArg WindowControl.marginalization_flag hc4
  have hc5 := vector2double_control ext cfg s4
  have hpi5 : (vector2double ext cfg s4).pre_integrations = s.pre_integrations :=
    (congrArg WindowControl.pre_integrations hc5).trans
      (congrArg WindowControl.pre_integrations hc4)
  have hobs5 : ObservedIn (vector2double ext cfg s4).f_manager.feature
      (vector2double ext cfg s4).param_feature_id := by
    obtain ⟨h1, h2⟩ := vector2double_features ext cfg s4
    rw [h1, h2]
    exact hdv s4.f_manager
  obtain ⟨s5, infos, _, _, hres, _⟩ := margOld_residuals_defined cfg (vector2double ext cfg s4)
    (fun hu => by rw [hpi5]; exact hpre hu 1 (le_refl _) (by omega)) hobs5
  refine ⟨s4, p, s5, infos, hsolved, hc4, hres, ?_⟩
  unfold optimization
  simp only [hsolved, hfc4, hfull, lt_irrefl, if_false, hfl4, hflag, if_true]
  unfold marginalizeOld
  simp only [hres]

/-- Witness of C15: the MARGIN_OLD step on the full window `demoCalibrating`, reached
from `clearState` by steps that leave the prior alone, installs the prior over
`para_Pose[0]` and `para_SpeedBias[0]` (the kept blocks of the IMU factor, shifted by
one slot); `para_SpeedBias[1]` is not in it. -/
theorem speedBias_assert_never_fires_witness :
    2 ≤ demoConfig.WINDOW_SIZE ∧
    ∃ s1, optimization demoExternals demoConfig demoCalibrating = some s1 ∧
      Reachable demoExternals demoConfig s1 ∧
      s1.last_marginalization_parameter_blocks =
        [BlockId.para_Pose 0, BlockId.para_SpeedBias 0] ∧
      BlockId.para_SpeedBias (demoConfig.WINDOW_SIZE - 1) ∉
        s1.last_marginalization_parameter_blocks := by
  have hpre : PreIntegrationsPresent demoConfig demoCalibrating := by
    intro _ j _ _
    simp [demoCalibrating]
  obtain ⟨s4, p, s5, infos, hsolved, hc4, hres, hopt⟩ :=
    optimization_margin_old demoExternals demoConfig demoCalibrating
      demoExternals_depthVectorSound hpre rfl rfl
  have hstart : Reachable demoExternals demoConfig demoCalibrating :=
    Reachable.other (Reachable.init blankEstimator) rfl
  have hreach := Reachable.optimize hstart hopt
  have hc5 := vector2double_control demoExternals demoConfig s4
  have hi5 : (vector2double demoExternals demoConfig s4).last_marginalization_info = none :=
    (congrArg WindowControl.last_marginalization_info hc5).trans
      (congrArg WindowControl.last_marginalization_info hc4)
  have hp5 : (vector2double demoExternals demoConfig s4).pre_integrations 1 =
      some (IntegrationBase.new 0 0 0 0) :=
    congrFun ((congrArg WindowControl.pre_integrations hc5).trans
      (congrArg WindowControl.pre_integrations hc4)) 1
  have hids : (vector2double demoExternals demoConfig s4).param_feature_id = [] :=
    (vector2double_features demoExternals demoConfig s4).2
  have hinfos : infos = [⟨Factor.IMUFactor (IntegrationBase.new 0 0 0 0), LossFunction.NULL,
      [BlockId.para_Pose 0, BlockId.para_SpeedBias 0,
       BlockId.para_Pose 1, BlockId.para_SpeedBias 1], [0, 1]⟩] := by
    have hq : (IntegrationBase.new 0 0 0 0).sum_dt < 10 := by decide!
    unfold margOldResidualBlocks margOldIMU margOldPrior at hres
    rw [hi5, hp5, hids] at hres
    simp only [demoConfig, if_true, hq] at hres
    exact ((Prod.mk.inj (Option.some.inj hres)).2).symm
  refine ⟨by decide, _, hopt, hreach, ?_,
    (speedBias_assert_never_fires demoExternals demoConfig _ (by decide) hreach).1⟩
  show getParameterBlocks infos (addrShiftOld demoConfig) = _
  rw [hinfos]
  decide

/-! ## `processImage`: failed initialization -/

/-- The window slide leaves `frame_count`, `solver_flag` and `marginalization_flag`
alone. -/
theorem slideWindow_mode (ext : Externals) (cfg : Config) (s : Estimator) :
    (slideWindow ext cfg s).mode = s.mode := by
  unfold slideWindow
  show _ = (s.frame_count, s.solver_flag, s.marginalization_flag)
  cases hflag : s.marginalization_flag
  · simp only []
    by_cases hfull : s.frame_count = cfg.WINDOW_SIZE
    · rw [if_pos hfull]
      unfold slideWindowOld
      simp only []
      have hstep : ∀ (b : Estimator) (a : Nat),
          (slideWindowShiftStep cfg b a).mode = b.mode := by
        intro b a
        unfold slideWindowShiftStep
        split_ifs
        all_goals rfl
      by_cases hu : cfg.USE_IMU = true <;> split_ifs <;>
        exact (foldl_preserves Estimator.mode (slideWindowShiftStep cfg) hstep _ _).trans rfl
    · rw [if_neg hfull]
      rfl
  · simp only []
    by_cases hfull : s.frame_count = cfg.WINDOW_SIZE
    · rw [if_pos hfull]
      by_cases hu : cfg.USE_IMU = true
      · simp only [hu, if_true]
        exact (foldl_preserves Estimator.mode slideWindowMergeStep (fun _ _ => rfl)
          _ _).trans rfl
      · simp only [hu, Bool.false_eq_true, if_false]
        rfl
    · rw [if_neg hfull]
      unfold Estimator.mode
      rw [hflag]

/-- A failing `visualInitialAlign` writes only what `VisualIMUAlignment` left in its
reference arguments. -/
theorem visualInitialAlign_false (ext : Externals) (cfg : Config) (s s2 : Estimator)
    (h : visualInitialAlign ext cfg s = some (false, s2)) : s2.mode = s.mode := by
  unfold visualInitialAlign at h
  simp only [] at h
  by_cases hres : (ext.VisualIMUAlignment s.all_image_frame s.Bgs s.g).result = false
  · rw [if_pos hres] at h
    rw [← (Prod.mk.inj (Option.some.inj h)).2]
    rfl
  · rw [if_neg hres] at h
    split at h
    · exact Option.noConfusion h
    · split at h
      · exact Option.noConfusion h
      · exact absurd (Prod.mk.inj (Option.some.inj h)).1 (by simp)

/-- A failing `initialStructure` leaves `frame_count` and `solver_flag` alone, and
leaves `marginalization_flag` alone unless the global structure-from-motion failed, in
which case it is `MARGIN_OLD`. -/
theorem initialStructure_failed (ext : Externals) (cfg : Config) (s s2 : Estimator)
    (outcome : InitialStructureOutcome)
    (h : initialStructure ext cfg s = some (outcome, s2))
    (hfail : outcome ≠ InitialStructureOutcome.success) :
    s2.frame_count = s.frame_count ∧ s2.solver_flag = s.solver_flag ∧
    s2.marginalization_flag =
      (if outcome = InitialStructureOutcome.sfmFailed then MarginalizationFlag.MARGIN_OLD
       else s.marginalization_flag) := by
  unfold initialStructure at h
  split at h
  · exact Option.noConfusion h
  · split at h
    · simp only [] at h
      split at h
      · obtain ⟨h1, h2⟩ := Prod.mk.inj (Option.some.inj h)
        rw [← h1, ← h2]
        exact ⟨rfl, rfl, rfl⟩
      · split at h
        · obtain ⟨h1, h2⟩ := Prod.mk.inj (Option.some.inj h)
          rw [← h1, ← h2]
          exact ⟨rfl, rfl, rfl⟩
        · split at h
          · obtain ⟨h1, h2⟩ := Prod.mk.inj (Option.some.inj h)
            rw [← h1, ← h2]
            exact ⟨rfl, rfl, rfl⟩
          · split at h
            · exact Option.noConfusion h
            · exact absurd (Prod.mk.inj (Option.some.inj h)).1.symm hfail
            · rename_i s3 hvia
              obtain ⟨h1, h2⟩ := Prod.mk.inj (Option.some.inj h)
              have hm := visualInitialAlign_false ext cfg _ s3 hvia
              rw [← h1, ← h2]
              have hfc : s3.frame_count = s.frame_count := congrArg Prod.fst hm
              have hsf : s3.solver_flag = s.solver_flag :=
                congrArg (fun m => m.2.1) hm
              have hmf : s3.marginalization_flag = s.marginalization_flag :=
                congrArg (fun m => m.2.2) hm
              exact ⟨hfc, hsf, hmf⟩
    · exact Option.noConfusion h

/-- The head of `processImage` leaves `frame_count` and `solver_flag` alone and sets
`marginalization_flag` to the keyframe decision. -/
theorem processImageHead_mode (ext : Externals) (s s1 : Estimator) (image : FeatureFrame)
    (header : ℚ) (h : processImageHead ext s image header = some s1) :
    s1.mode = (s.frame_count, s.solver_flag, keyframeFlag ext s image) := by
  unfold processImageHead at h
  simp only [] at h
  have key : ∀ t : Estimator,
      t.mode = (s.frame_count, s.solver_flag, keyframeFlag ext s image) →
      some t = some s1 →
      s1.mode = (s.frame_count, s.solver_flag, keyframeFlag ext s image) :=
    fun t ht he => (Option.some.inj he) ▸ ht
  by_cases h2 : s.ESTIMATE_EXTRINSIC = 2
  · rw [if_pos h2] at h
    by_cases h0 : s.frame_count ≠ 0
    · rw [if_pos h0] at h
      split at h
      · exact Option.noConfusion h
      · split at h
        · exact key _ (by rfl) h
        · exact key _ (by rfl) h
    · rw [if_neg h0] at h
      exact key _ (by rfl) h
  · rw [if_neg h2] at h
    exact key _ (by rfl) h

/-- The head of `processImage` returns unless the calibration reads a null
pre-integration. -/
theorem processImageHead_defined (ext : Externals) (s : Estimator) (image : FeatureFrame)
    (header : ℚ)
    (hcal : s.ESTIMATE_EXTRINSIC = 2 → s.pre_integrations s.frame_count ≠ none) :
    ∃ s1, processImageHead ext s image header = some s1 := by
  unfold processImageHead
  simp only []
  by_cases h2 : s.ESTIMATE_EXTRINSIC = 2
  · rw [if_pos h2]
    by_cases h0 : s.frame_count ≠ 0
    · rw [if_pos h0]
      cases hp : s.pre_integrations s.frame_count with
      | none => exact absurd hp (hcal h2)
      | some pre =>
        simp only []
        split
        · exact ⟨_, rfl⟩
        · exact ⟨_, rfl⟩
    · rw [if_neg h0]
      exact ⟨_, rfl⟩
  · rw [if_neg h2]
    exact ⟨_, rfl⟩

/-- In the monocular + IMU mode, with `solver_flag == INITIAL`, `processImage` is its
head, the monocular initialization block and the advance of `frame_count`; the two
stereo blocks are skipped. -/
theorem processImage_mono_initial (ext : Externals) (cfg : Config) (s s1 : Estimator)
    (image : FeatureFrame) (header : ℚ)
    (hmono : cfg.STEREO = false) (hflag : s.solver_flag = SolverFlag.INITIAL)
    (hhead : processImageHead ext s image header = some s1) :
    processImage ext cfg s image header =
      (processImageMonoInit ext cfg s1 header).map (processImageAdvance cfg) := by
  have hm := processImageHead_mode ext s s1 image header hhead
  have hs1 : s1.solver_flag = SolverFlag.INITIAL :=
    (congrArg (fun m => m.2.1) hm).trans hflag
  unfold processImage
  rw [hhead]
  simp only [hs1, if_true]
  cases hmi : processImageMonoInit ext cfg s1 header with
  | none => rfl
  | some s2 =>
    simp [processImageStereoImuInit, processImageStereoInit, hmono]

/-- On a full window `processImageAdvance` after a slide does nothing. -/
theorem processImageAdvance_slideWindow (ext : Externals) (cfg : Config) (t : Estimator)
    (hfull : t.frame_count = cfg.WINDOW_SIZE) :
    processImageAdvance cfg (slideWindow ext cfg t) = slideWindow ext cfg t := by
  have hfc : (slideWindow ext cfg t).frame_count = t.frame_count :=
    congrArg Prod.fst (slideWindow_mode ext cfg t)
  unfold processImageAdvance
  rw [if_neg (by rw [hfc, hfull]; exact lt_irrefl _)]

/-- C16 (amended): in the monocular + IMU mode with `solver_flag == INITIAL` and a full
window, `processImage` returns whenever the extrinsic calibration does not read a null
pre-integration and the initialization, if attempted, ends with a failure.  The slide
that follows is the one of the flag the state carries at that point: the keyframe
decision of `addFeatureCheckParallax` (`MARGIN_OLD` for a keyframe, `MARGIN_SECOND_NEW`
otherwise), except after a failure of the global structure from motion, which sets the
flag to `MARGIN_OLD`.  In every case `solver_flag` stays `INITIAL`. -/
theorem processImage_failed_initialization (ext : Externals) (cfg : Config) (s : Estimator)
    (image : FeatureFrame) (header : ℚ)
    (hmono : cfg.STEREO = false) (himu : cfg.USE_IMU = true)
    (hflag : s.solver_flag = SolverFlag.INITIAL)
    (hfull : s.frame_count = cfg.WINDOW_SIZE)
    (hcal : s.ESTIMATE_EXTRINSIC = 2 → s.pre_integrations s.frame_count ≠ none) :
    ∃ s1, processImageHead ext s image header = some s1 ∧
      s1.marginalization_flag = keyframeFlag ext s image ∧
      (¬ InitializationAttempted s1 header →
        processImage ext cfg s image header = some (slideWindow ext cfg s1) ∧
        (slideWindow ext cfg s1).solver_flag = SolverFlag.INITIAL ∧
        (slideWindow ext cfg s1).marginalization_flag = keyframeFlag ext s image) ∧
      (InitializationAttempted s1 header →
        ∀ outcome s2, initialStructure ext cfg s1 = some (outcome, s2) →
          outcome ≠ InitialStructureOutcome.success →
          processImage ext cfg s image header =
            some (slideWindow ext cfg { s2 with initial_timestamp := header }) ∧
          (slideWindow ext cfg { s2 with initial_timestamp := header }).solver_flag =
            SolverFlag.INITIAL ∧
          s2.marginalization_flag =
            (if outcome = InitialStructureOutcome.sfmFailed then
              MarginalizationFlag.MARGIN_OLD
             else keyframeFlag ext s image) ∧
          (slideWindow ext cfg { s2 with initial_timestamp := header }).marginalization_flag =
            s2.marginalization_flag) := by
  obtain ⟨s1, hhead⟩ := processImageHead_defined ext s image header hcal
  have hm := processImageHead_mode ext s s1 image header hhead
  have hfc1 : s1.frame_count = cfg.WINDOW_SIZE := (congrArg Prod.fst hm).trans hfull
  have hsf1 : s1.solver_flag = SolverFlag.INITIAL :=
    (congrArg (fun m => m.2.1) hm).trans hflag
  have hmf1 : s1.marginalization_flag = keyframeFlag ext s image :=
    congrArg (fun m => m.2.2) hm
  have hpi := processImage_mono_initial ext cfg s s1 image header hmono hflag hhead
  refine ⟨s1, hhead, hmf1, ?_, ?_⟩
  · intro hna
    have hna2 : ¬ (s1.ESTIMATE_EXTRINSIC ≠ 2 ∧ header - s1.initial_timestamp > 1 / 10) := hna
    have hmi : processImageMonoInit ext cfg s1 header = some (slideWindow ext cfg s1) := by
      unfold processImageMonoInit
      rw [if_pos ⟨hmono, himu⟩, if_pos hfc1, if_neg hna2]
    have hmode := slideWindow_mode ext cfg s1
    refine ⟨?_, (congrArg (fun m => m.2.1) hmode).trans hsf1,
      (congrArg (fun m => m.2.2) hmode).trans hmf1⟩
    rw [hpi, hmi, Option.map_some', processImageAdvance_slideWindow ext cfg s1 hfc1]
  · intro ha outcome s2 hinit hfail
    have ha2 : s1.ESTIMATE_EXTRINSIC ≠ 2 ∧ header - s1.initial_timestamp > 1 / 10 := ha
    obtain ⟨hfc2, hsf2, hmf2⟩ := initialStructure_failed ext cfg s1 s2 outcome hinit hfail
    have hmi : processImageMonoInit ext cfg s1 header =
        some (slideWindow ext cfg { s2 with initial_timestamp := header }) := by
      unfold processImageMonoInit
      rw [if_pos ⟨hmono, himu⟩, if_pos hfc1, if_pos ha2, hinit]
      simp only [if_neg hfail]
    have hmode := slideWindow_mode ext cfg { s2 with initial_timestamp := header }
    refine ⟨?_, (congrArg (fun m => m.2.1) hmode).trans (hsf2.trans hsf1), ?_,
      congrArg (fun m => m.2.2) hmode⟩
    · have hadv := processImageAdvance_slideWindow ext cfg
        ({ s2 with initial_timestamp := header } : Estimator) (hfc2.trans hfc1)
      rw [hpi, hmi, Option.map_some', hadv]
    · rw [hmf2, hmf1]

/-- Witness of C16 (amended) on the full window `demoMonoWindow` in the monocular
configuration, at the image of header 2, with external routines under which the image is not a keyframe and the
global structure from motion fails. -/
theorem processImage_failed_initialization_witness :
    monoConfig.STEREO = false ∧ monoConfig.USE_IMU = true ∧
    demoMonoWindow.solver_flag = SolverFlag.INITIAL ∧
    demoMonoWindow.frame_count = monoConfig.WINDOW_SIZE ∧
    ∃ s1, processImageHead sfmFailingExternals demoMonoWindow [] 2 = some s1 ∧
      s1.marginalization_flag = keyframeFlag sfmFailingExternals demoMonoWindow [] ∧
      (¬ InitializationAttempted s1 2 →
        processImage sfmFailingExternals monoConfig demoMonoWindow [] 2 =
          some (slideWindow sfmFailingExternals monoConfig s1) ∧
        (slideWindow sfmFailingExternals monoConfig s1).solver_flag = SolverFlag.INITIAL ∧
        (slideWindow sfmFailingExternals monoConfig s1).marginalization_flag =
          keyframeFlag sfmFailingExternals demoMonoWindow []) ∧
      (InitializationAttempted s1 2 →
        ∀ outcome s2, initialStructure sfmFailingExternals monoConfig s1 = some (outcome, s2) →
          outcome ≠ InitialStructureOutcome.success →
          processImage sfmFailingExternals monoConfig demoMonoWindow [] 2 =
            some (slideWindow sfmFailingExternals monoConfig
              { s2 with initial_timestamp := 2 }) ∧
          (slideWindow sfmFailingExternals monoConfig
            { s2 with initial_timestamp := 2 }).solver_flag = SolverFlag.INITIAL ∧
          s2.marginalization_flag =
            (if outcome = InitialStructureOutcome.sfmFailed then
              MarginalizationFlag.MARGIN_OLD
             else keyframeFlag sfmFailingExternals demoMonoWindow []) ∧
          (slideWindow sfmFailingExternals monoConfig
            { s2 with initial_timestamp := 2 }).marginalization_flag =
            s2.marginalization_flag) :=
  ⟨rfl, rfl, rfl, rfl,
    processImage_failed_initialization sfmFailingExternals monoConfig demoMonoWindow [] 2
      rfl rfl rfl rfl (fun h => absurd h (by decide))⟩

/-- C16 as stated fails: in the monocular + IMU mode, on the full window `demoMonoWindow`
with `solver_flag == INITIAL`, at the image of header 2, the initialization is attempted and fails, and the slide
that follows is the keyframe slide (`marginalization_flag == MARGIN_OLD`, `sum_of_back`
goes from 0 to 1, `sum_of_front` stays 0).  First case: the image is a keyframe and
`relativePose` fails.  Second case: the image is not a keyframe, `relativePose`
succeeds and the global structure from motion fails, which sets the flag to
`MARGIN_OLD`. -/
theorem processImage_failed_initialization_keyframe_slide :
    monoConfig.STEREO = false ∧ monoConfig.USE_IMU = true ∧
    demoMonoWindow.slideRecord =
      (SolverFlag.INITIAL, MarginalizationFlag.MARGIN_OLD, 0, 0) ∧
    demoMonoWindow.frame_count = monoConfig.WINDOW_SIZE ∧
    keyframeFlag keyframeExternals demoMonoWindow [] = MarginalizationFlag.MARGIN_OLD ∧
    ((processImageHead keyframeExternals demoMonoWindow [] 2).bind
      (fun s1 => (initialStructure keyframeExternals monoConfig s1).map Prod.fst)) =
      some InitialStructureOutcome.relativePoseFailed ∧
    (processImage keyframeExternals monoConfig demoMonoWindow [] 2).map
      Estimator.slideRecord =
      some (SolverFlag.INITIAL, MarginalizationFlag.MARGIN_OLD, 1, 0) ∧
    keyframeFlag sfmFailingExternals demoMonoWindow [] =
      MarginalizationFlag.MARGIN_SECOND_NEW ∧
    ((processImageHead sfmFailingExternals demoMonoWindow [] 2).bind
      (fun s1 => (initialStructure sfmFailingExternals monoConfig s1).map Prod.fst)) =
      some InitialStructureOutcome.sfmFailed ∧
    (processImage sfmFailingExternals monoConfig demoMonoWindow [] 2).map
      Estimator.slideRecord =
      some (SolverFlag.INITIAL, MarginalizationFlag.MARGIN_OLD, 1, 0) := by
  refine ⟨rfl, rfl, rfl, rfl, rfl, ?_, ?_, rfl, ?_, ?_⟩
  · decide!
  · decide!
  · decide!
  · decide!

/-! ## `processMeasurements`: the integration steps of one image -/

/-- The sum of a list tabulated over `List.range n` as a finite sum. -/
theorem sum_map_range (f : ℕ → ℚ) (n : ℕ) :
    ((List.range n).map f).sum = Finset.sum (Finset.range n) f := by
  induction n with
  | zero => simp
  | succ n ih => simp [List.range_succ, Finset.sum_range_succ, ih]

/-- Each step is the rounding of its exact difference. -/
theorem processMeasurementsDt_eq (prevTime curTime : ℚ) (accVector : List Stamped) (i : Nat) :
    processMeasurementsDt prevTime curTime accVector i =
      roundDouble (processMeasurementsGap prevTime curTime accVector i) := by
  unfold processMeasurementsDt processMeasurementsGap
  split_ifs <;> rfl

/-- The steps of a slice depend on the samples before its last one only. -/
theorem processMeasurementsDts_front (prevTime curTime : ℚ) (front : List Stamped)
    (a b : Stamped) (hfront : front ≠ []) :
    processMeasurementsDts prevTime curTime (front ++ [a]) =
      processMeasurementsDts prevTime curTime (front ++ [b]) := by
  have hpos : 0 < front.length := List.length_pos.mpr hfront
  unfold processMeasurementsDts
  simp only [List.length_append, List.length_singleton]
  apply List.map_congr_left
  intro i hi
  have hi2 : i < front.length + 1 := List.mem_range.mp hi
  unfold processMeasurementsDt
  simp only [List.length_append, List.length_singleton, Nat.add_sub_cancel]
  by_cases h0 : i = 0
  · subst h0
    simp only [if_true]
    rw [List.getD_append _ _ _ 0 hpos, List.getD_append _ _ _ 0 hpos]
  · rw [if_neg h0, if_neg h0]
    have hprev : i - 1 < front.length := by omega
    by_cases hl : i = front.length
    · rw [if_pos hl, if_pos hl, List.getD_append _ _ _ _ hprev, List.getD_append _ _ _ _ hprev]
    · have hcur : i < front.length := by omega
      rw [if_neg hl, if_neg hl, List.getD_append _ _ _ _ hprev,
        List.getD_append _ _ _ _ hprev, List.getD_append _ _ _ _ hcur,
        List.getD_append _ _ _ _ hcur]

/-- In exact arithmetic the differences of a slice of at least two samples telescope to
`curTime - prevTime`. -/
theorem processMeasurementsGap_sum (prevTime curTime : ℚ) (accVector : List Stamped)
    (hn : 2 ≤ accVector.length) :
    Finset.sum (Finset.range accVector.length)
      (processMeasurementsGap prevTime curTime accVector) = curTime - prevTime := by
  obtain ⟨m, hm⟩ : ∃ m, accVector.length = m + 2 := ⟨accVector.length - 2, by omega⟩
  rw [hm, Finset.sum_range_succ, Finset.sum_range_succ']
  have hmid : Finset.sum (Finset.range m)
      (fun k => processMeasurementsGap prevTime curTime accVector (k + 1)) =
      (accVector.getD m (0, 0)).1 - (accVector.getD 0 (0, 0)).1 := by
    rw [← Finset.sum_range_sub (fun j => (accVector.getD j (0, 0)).1) m]
    apply Finset.sum_congr rfl
    intro k hk
    have hk2 : k < m := Finset.mem_range.mp hk
    unfold processMeasurementsGap
    rw [if_neg (Nat.succ_ne_zero k), if_neg (by omega)]
    simp
  rw [hmid]
  unfold processMeasurementsGap
  rw [if_pos rfl, if_neg (Nat.succ_ne_zero m), if_pos (by omega)]
  simp only [Nat.add_sub_cancel]
  ring

/-- For increasing timestamps between the two image times every exact difference is
positive. -/
theorem processMeasurementsGap_pos (prevTime curTime : ℚ) (accVector : List Stamped)
    (hinc : ∀ i, i + 1 < accVector.length →
      (accVector.getD i (0, 0)).1 < (accVector.getD (i + 1) (0, 0)).1)
    (hprev : prevTime < (accVector.getD 0 (0, 0)).1)
    (hcur : ∀ i, i + 1 < accVector.length → (accVector.getD i (0, 0)).1 < curTime)
    (i : Nat) (hi : i < accVector.length) :
    0 < processMeasurementsGap prevTime curTime accVector i := by
  unfold processMeasurementsGap
  by_cases h0 : i = 0
  · subst h0
    rw [if_pos rfl]
    exact sub_pos.mpr hprev
  · rw [if_neg h0]
    by_cases hl : i = accVector.length - 1
    · rw [if_pos hl]
      exact sub_pos.mpr (hcur (i - 1) (by omega))
    · rw [if_neg hl]
      have h := hinc (i - 1) (by omega)
      rw [show i - 1 + 1 = i by omega] at h
      exact sub_pos.mpr h

/-- C26 (as amended): for a slice `accVector` of at least two samples, the steps `dt` the
IMU loop of `processMeasurements` hands to `processIMU` are the differences computed in
`double`: the first is the rounded `accVector[0].first - prevTime`, the last the rounded
`curTime - accVector[n - 2].first`, the others the rounded differences of consecutive
timestamps; they do not depend on the last sample of the slice.  Their sum is
`curTime - prevTime` when every one of these differences is a `double` (no step is
rounded).  When consecutive timestamps increase, the first timestamp lies after
`prevTime` and every timestamp but the last lies before `curTime`, each step is
positive and the sum of the steps differs from `curTime - prevTime` by at most
`(curTime - prevTime) / 2^53`. -/
theorem processMeasurements_dt_sum (prevTime curTime : ℚ) (accVector : List Stamped)
    (hn : 2 ≤ accVector.length) :
    (processMeasurementsDts prevTime curTime accVector).length = accVector.length ∧
    (processMeasurementsDts prevTime curTime accVector).head? =
      some (roundDouble ((accVector.getD 0 (0, 0)).1 - prevTime)) ∧
    (processMeasurementsDts prevTime curTime accVector).getLast? =
      some (roundDouble (curTime - (accVector.getD (accVector.length - 2) (0, 0)).1)) ∧
    (∀ i, 0 < i → i + 1 < accVector.length →
      (processMeasurementsDts prevTime curTime accVector).getD i 0 =
        roundDouble ((accVector.getD i (0, 0)).1 - (accVector.getD (i - 1) (0, 0)).1)) ∧
    (∀ b : Stamped, processMeasurementsDts prevTime curTime (accVector.dropLast ++ [b]) =
      processMeasurementsDts prevTime curTime accVector) ∧
    ((∀ i, i < accVector.length →
        IsDouble (processMeasurementsGap prevTime curTime accVector i)) →
      (processMeasurementsDts prevTime curTime accVector).sum = curTime - prevTime) ∧
    ((∀ i, i + 1 < accVector.length →
        (accVector.getD i (0, 0)).1 < (accVector.getD (i + 1) (0, 0)).1) →
      prevTime < (accVector.getD 0 (0, 0)).1 →
      (∀ i, i + 1 < accVector.length → (accVector.getD i (0, 0)).1 < curTime) →
      (∀ dt ∈ processMeasurementsDts prevTime curTime accVector, 0 < dt) ∧
      |(processMeasurementsDts prevTime curTime accVector).sum - (curTime - prevTime)| ≤
        (curTime - prevTime) / 2 ^ (53 : ℕ)) := by
  obtain ⟨m, hm⟩ : ∃ m, accVector.length = m + 2 := ⟨accVector.length - 2, by omega⟩
  have hne : accVector ≠ [] := by
    intro h
    rw [h] at hm
    simp at hm
  have hsum : (processMeasurementsDts prevTime curTime accVector).sum =
      Finset.sum (Finset.range accVector.length)
        (fun i => roundDouble (processMeasurementsGap prevTime curTime accVector i)) := by
    unfold processMeasurementsDts
    rw [sum_map_range]
    exact Finset.sum_congr rfl (fun i _ => processMeasurementsDt_eq _ _ _ i)
  refine ⟨by simp [processMeasurementsDts], ?_, ?_, ?_, ?_, ?_, ?_⟩
  · unfold processMeasurementsDts
    rw [hm]
    simp [List.range_succ_eq_map, processMeasurementsDt]
  · unfold processMeasurementsDts
    rw [hm, List.range_succ, List.map_append]
    simp only [List.map_cons, List.map_nil, List.getLast?_concat]
    unfold processMeasurementsDt
    rw [if_neg (Nat.succ_ne_zero m), if_pos (by omega)]
    simp
  · intro i hi0 hi
    unfold processMeasurementsDts
    rw [List.getD_eq_getElem _ _ (by simp; omega)]
    simp only [List.getElem_map, List.getElem_range]
    unfold processMeasurementsDt
    rw [if_neg (by omega), if_neg (by omega)]
  · intro b
    have h1 := processMeasurementsDts_front prevTime curTime accVector.dropLast b
      (accVector.getLast hne) (by
        intro h
        have hl := congrArg List.length h
        rw [List.length_dropLast, hm] at hl
        simp at hl)
    rw [h1, List.dropLast_append_getLast hne]
  · intro hexact
    rw [hsum, ← processMeasurementsGap_sum prevTime curTime accVector hn]
    apply Finset.sum_congr rfl
    intro i hi
    exact hexact i (Finset.mem_range.mp hi)
  · intro hinc hprev hcur
    have hpos := processMeasurementsGap_pos prevTime curTime accVector hinc hprev hcur
    constructor
    · intro dt hdt
      unfold processMeasurementsDts at hdt
      obtain ⟨i, hi, rfl⟩ := List.mem_map.mp hdt
      rw [processMeasurementsDt_eq]
      exact roundDouble_pos _ (hpos i (List.mem_range.mp hi))
    · rw [hsum]
      conv_lhs => rw [← processMeasurementsGap_sum prevTime curTime accVector hn]
      conv_rhs => rw [← processMeasurementsGap_sum prevTime curTime accVector hn]
      rw [← Finset.sum_sub_distrib, Finset.sum_div]
      refine le_trans (Finset.abs_sum_le_sum_abs _ _) (Finset.sum_le_sum ?_)
      intro i hi
      have h := roundDouble_error (processMeasurementsGap prevTime curTime accVector i)
      rw [abs_of_pos (hpos i (Finset.mem_range.mp hi))] at h
      exact h

/-- Witness of C26 (as amended) on the time-alignment scenario (stamps the doubles
nearest to 0.000, 0.005, ..., 0.505, `prevTime = -1`, image time the double nearest to
0.505): every difference is a `double`, so no step is rounded and the steps sum to
`curTime - prevTime`. -/
theorem processMeasurements_dt_sum_witness :
    2 ≤ scenarioSlice.length ∧
    (∀ i, i < scenarioSlice.length →
      IsDouble (processMeasurementsGap (-1) scenarioCurTime scenarioSlice i)) ∧
    scenarioCurTime = roundDouble (505 / 1000) ∧
    (processMeasurementsDts (-1) scenarioCurTime scenarioSlice).length = 102 ∧
    (processMeasurementsDts (-1) scenarioCurTime scenarioSlice).sum =
      scenarioCurTime - (-1) :=
  ⟨by decide, by decide!, by decide!, by decide!,
    (processMeasurements_dt_sum (-1) scenarioCurTime scenarioSlice (by decide)).2.2.2.2.2.1
      (by decide!)⟩

/-- Counterexample to C26 as stated.  First image after a reset (`prevTime = -1`), the
queues hold samples stamped with the doubles nearest to 0.005, 0.010, 0.015 and the
image time is the double 0.0125: `getIMUInterval` returns the three samples, the first
step is the rounding of `0.005 + 1`, and the three steps sum to
`curTime - prevTime - 123 / 2^60`, not to `curTime - prevTime`.  On the time-alignment
scenario no step is rounded, but accumulated in a `double` (as a sum of doubles is in
the program) the 102 steps give 1.5049999999999892 where `curTime - prevTime` is 1.505
in `double`. -/
theorem processMeasurements_dt_sum_rounded :
    (getIMUIntervalQueues demoLateQueue demoLateQueue (-1) (roundDouble (125 / 10000)) [] []
        = some ⟨true, demoLateQueue.drop 2, demoLateQueue.drop 2, demoLateQueue,
            demoLateQueue⟩ ∧
      2 ≤ demoLateQueue.length ∧
      (processMeasurementsDts (-1) (roundDouble (125 / 10000)) demoLateQueue).sum -
          (roundDouble (125 / 10000) - (-1)) = -123 / 2 ^ (60 : ℕ) ∧
      (processMeasurementsDts (-1) (roundDouble (125 / 10000)) demoLateQueue).sum ≠
        roundDouble (125 / 10000) - (-1) ∧
      (processMeasurementsDts (-1) (roundDouble (125 / 10000)) demoLateQueue).sum ≠
        roundDouble (roundDouble (125 / 10000) - (-1))) ∧
    (sumInDouble (processMeasurementsDts (-1) scenarioCurTime scenarioSlice) =
        1694479359798137 / 1125899906842624 ∧
      roundDouble (scenarioCurTime - (-1)) = 1694479359798149 / 1125899906842624 ∧
      sumInDouble (processMeasurementsDts (-1) scenarioCurTime scenarioSlice) ≠
        roundDouble (scenarioCurTime - (-1))) := by
  refine ⟨⟨by decide!, by decide, by decide!, by decide!, by decide!⟩,
    by decide!, by decide!, by decide!⟩

/-! ## Feature tracker: `ptsVelocity` -/

/-- The first loop pops a common prefix of the two queues: the popped acceleration
samples are stamped `t0` or earlier, the sample left at the front is stamped later. -/
theorem dropStale_split (t0 : ℚ) :
    ∀ (acc gyr acc1 gyr1 : List Stamped), dropStale t0 acc gyr = some (acc1, gyr1) →
      ∃ dA dG, acc = dA ++ acc1 ∧ gyr = dG ++ gyr1 ∧ dA.length = dG.length ∧
        (∀ x ∈ dA, x.1 ≤ t0) ∧ (∀ a, acc1.head? = some a → t0 < a.1) := by
  intro acc
  induction acc with
  | nil => intro gyr acc1 gyr1 h; simp [dropStale] at h
  | cons a acc ih =>
    intro gyr acc1 gyr1 h
    by_cases ha : a.1 ≤ t0
    · cases gyr with
      | nil => simp [dropStale, ha] at h
      | cons g gyr =>
        simp only [dropStale, ha, if_true] at h
        obtain ⟨dA, dG, h1, h2, h3, h4, h5⟩ := ih gyr acc1 gyr1 h
        refine ⟨a :: dA, g :: dG, by rw [h1]; rfl, by rw [h2]; rfl, by simp [h3], ?_, h5⟩
        intro x hx
        rcases List.mem_cons.mp hx with rfl | hx
        · exact ha
        · exact h4 x hx
    · simp only [dropStale, ha, if_false, Option.some.injEq, Prod.mk.injEq] at h
      obtain ⟨rfl, rfl⟩ := h
      refine ⟨[], [], rfl, rfl, rfl, by simp, ?_⟩
      intro b hb
      simp only [List.head?_cons, Option.some.injEq] at hb
      subst hb
      exact not_le.mp ha

/-- The second loop moves a common prefix of the two queues to the output vectors: the
moved acceleration samples are stamped before `t1`, the sample left at the front is
not. -/
theorem takeBefore_split (t1 : ℚ) :
    ∀ (acc gyr accV gyrV acc2 gyr2 accV2 gyrV2 : List Stamped),
      takeBefore t1 acc gyr accV gyrV = some (acc2, gyr2, accV2, gyrV2) →
      ∃ sA sG, acc = sA ++ acc2 ∧ gyr = sG ++ gyr2 ∧ sA.length = sG.length ∧
        accV2 = accV ++ sA ∧ gyrV2 = gyrV ++ sG ∧
        (∀ x ∈ sA, x.1 < t1) ∧ (∀ a, acc2.head? = some a → t1 ≤ a.1) := by
  intro acc
  induction acc with
  | nil => intro gyr accV gyrV acc2 gyr2 accV2 gyrV2 h; simp [takeBefore] at h
  | cons a acc ih =>
    intro gyr accV gyrV acc2 gyr2 accV2 gyrV2 h
    by_cases ha : a.1 < t1
    · cases gyr with
      | nil => simp [takeBefore, ha] at h
      | cons g gyr =>
        simp only [takeBefore, ha, if_true] at h
        obtain ⟨sA, sG, h1, h2, h3, h4, h5, h6, h7⟩ := ih gyr _ _ acc2 gyr2 accV2 gyrV2 h
        refine ⟨a :: sA, g :: sG, by rw [h1]; rfl, by rw [h2]; rfl, by simp [h3],
          by rw [h4]; simp, by rw [h5]; simp, ?_, h7⟩
        intro x hx
        rcases List.mem_cons.mp hx with rfl | hx
        · exact ha
        · exact h6 x hx
    · simp only [takeBefore, ha, if_false, Option.some.injEq, Prod.mk.injEq] at h
      obtain ⟨rfl, rfl, rfl, rfl⟩ := h
      refine ⟨[], [], rfl, rfl, rfl, by simp, by simp, by simp, ?_⟩
      intro b hb
      simp only [List.head?_cons, Option.some.injEq] at hb
      subst hb
      exact not_lt.mp ha

/-- Under the guard of `getIMUInterval` and for `t0 < t1`, the call returns true; it
pops a prefix `dropped` of the queues, moves the next run `slice` to the output vectors
and copies the sample after it, which stays at the front of the queues. -/
theorem getIMUIntervalQueues_split (accBuf gyrBuf : List Stamped) (t0 t1 : ℚ)
    (accVector gyrVector : List Stamped) (back : Stamped)
    (hlen : accBuf.length = gyrBuf.length) (hback : accBuf.getLast? = some back)
    (h01 : t0 < t1) (h1 : t1 ≤ back.1) :
    ∃ dA dG sA sG a g restA restG,
      accBuf = dA ++ (sA ++ a :: restA) ∧ gyrBuf = dG ++ (sG ++ g :: restG) ∧
      dA.length = dG.length ∧ sA.length = sG.length ∧ restA.length = restG.length ∧
      getIMUIntervalQueues accBuf gyrBuf t0 t1 accVector gyrVector =
        some ⟨true, a :: restA, g :: restG, accVector ++ sA ++ [a], gyrVector ++ sG ++ [g]⟩ ∧
      (∀ x ∈ dA, x.1 ≤ t0) ∧ (∀ b, (sA ++ [a]).head? = some b → t0 < b.1) ∧
      (∀ x ∈ sA, x.1 < t1) ∧ t1 ≤ a.1 := by
  obtain ⟨acc1, gyr1, hd, hl1, hlen1⟩ :=
    dropStale_some t0 back (lt_of_lt_of_le h01 h1) accBuf gyrBuf hback (le_of_eq hlen)
  obtain ⟨a, acc2, g, gyr2, accV2, gyrV2, ht⟩ :=
    takeBefore_some t1 back h1 acc1 gyr1 accVector gyrVector hl1 hlen1
  obtain ⟨dA, dG, e1, e2, e3, e4, e5⟩ := dropStale_split t0 _ _ _ _ hd
  obtain ⟨sA, sG, f1, f2, f3, f4, f5, f6, f7⟩ := takeBefore_split t1 _ _ _ _ _ _ _ _ ht
  refine ⟨dA, dG, sA, sG, a, g, acc2, gyr2, by rw [e1, f1], by rw [e2, f2], e3, f3, ?_, ?_,
    e4, ?_, f6, f7 a rfl⟩
  · have h := hlen
    rw [e1, e2, f1, f2] at h
    simp only [List.length_append, List.length_cons] at h
    omega
  · unfold getIMUIntervalQueues
    simp only [hback, h1, if_true, hd, ht, List.head?_cons, f4, f5]
  · intro b hb
    apply e5 b
    rw [f1]
    cases sA with
    | nil => simpa using hb
    | cons x sA => simpa using hb

/-- The first element of a list that satisfies `p` comes after a prefix of elements that
do not. -/
theorem find_append_cons {α : Type} (p : α → Bool) (pre : List α) (a : α) (rest : List α)
    (hpre : ∀ x ∈ pre, p x = false) (ha : p a = true) :
    (pre ++ a :: rest).find? p = some a := by
  induction pre with
  | nil => simp [List.find?, ha]
  | cons b pre ih =>
    have hb : p b = false := hpre b (List.mem_cons_self _ _)
    simp only [List.cons_append, List.find?, hb]
    exact ih (fun x hx => hpre x (List.mem_cons_of_mem _ hx))

/-- C3 (as amended): for every successful call `getIMUInterval(t0, t1)` the queues split
into the popped prefix `dA`, the run `sA` moved to the output and the sample `a` that is
copied last (with the gyroscope queue split at the same positions).  The acceleration
slice ends with `a` and the gyroscope slice with `g`, both taken unchanged from the
queues, where `a` is the first sample of `accBuf` that is stamped after `t0` and not
before `t1` (every sample queued before it is stamped `t0` or earlier, or before `t1`),
and `g` is the sample at the same position of `gyrBuf`.  No sample stamped `t1` is
interpolated: the final timestamp is `a`'s, which is at least `t1`; on paired queues
the final gyroscope sample carries the same timestamp. -/
theorem getIMUInterval_last_sample (s : Estimator) (t0 t1 : ℚ)
    (accVector gyrVector : List Stamped) (r : IMUIntervalOutcome)
    (hcall : getIMUInterval s t0 t1 accVector gyrVector = some r)
    (hret : r.ret = true) :
    ∃ dA dG sA sG a g restA restG,
      s.accBuf = dA ++ (sA ++ a :: restA) ∧ s.gyrBuf = dG ++ (sG ++ g :: restG) ∧
      dA.length = dG.length ∧ sA.length = sG.length ∧
      r.accVector = accVector ++ sA ++ [a] ∧ r.gyrVector = gyrVector ++ sG ++ [g] ∧
      r.accVector.getLast? = some a ∧ r.gyrVector.getLast? = some g ∧
      r.est.accBuf = a :: restA ∧ r.est.gyrBuf = g :: restG ∧
      (∀ x ∈ dA, x.1 ≤ t0) ∧ (∀ x ∈ sA, x.1 < t1) ∧ t0 < a.1 ∧ t1 ≤ a.1 ∧
      s.accBuf.find? (fun x => decide (t0 < x.1 ∧ t1 ≤ x.1)) = some a ∧
      s.accBuf[dA.length + sA.length]? = some a ∧
      s.gyrBuf[dA.length + sA.length]? = some g ∧
      (StampsPaired s.accBuf s.gyrBuf → g.1 = a.1) := by
  simp only [getIMUInterval, Option.map_eq_some'] at hcall
  obtain ⟨q, hq, rfl⟩ := hcall
  simp only at hret
  unfold getIMUIntervalQueues at hq
  cases hlast : s.accBuf.getLast? with
  | none =>
    simp only [hlast, Option.some.injEq] at hq
    subst hq
    simp at hret
  | some back =>
    simp only [hlast] at hq
    by_cases h1 : t1 ≤ back.1
    · simp only [h1, if_true] at hq
      cases hd : dropStale t0 s.accBuf s.gyrBuf with
      | none => simp [hd] at hq
      | some p =>
        obtain ⟨acc1, gyr1⟩ := p
        simp only [hd] at hq
        cases ht : takeBefore t1 acc1 gyr1 accVector gyrVector with
        | none => simp [ht] at hq
        | some p2 =>
          obtain ⟨acc2, gyr2, accV2, gyrV2⟩ := p2
          simp only [ht] at hq
          obtain ⟨dA, dG, e1, e2, e3, e4, e5⟩ := dropStale_split t0 _ _ _ _ hd
          obtain ⟨sA, sG, f1, f2, f3, f4, f5, f6, f7⟩ :=
            takeBefore_split t1 _ _ _ _ _ _ _ _ ht
          cases acc2 with
          | nil => simp at hq
          | cons a acc2 =>
            cases gyr2 with
            | nil => simp at hq
            | cons g gyr2 =>
              simp only [List.head?_cons, Option.some.injEq] at hq
              subst hq
              have hge : t1 ≤ a.1 := f7 a rfl
              have hgt : t0 < a.1 := by
                cases sA with
                | nil =>
                  apply e5 a
                  rw [f1]
                  rfl
                | cons b sB =>
                  have hb : t0 < b.1 := by
                    apply e5 b
                    rw [f1]
                    rfl
                  have hb1 : b.1 < t1 := f6 b (List.mem_cons_self _ _)
                  exact lt_of_lt_of_le (lt_trans hb hb1) hge
              have hA : s.accBuf = dA ++ (sA ++ a :: acc2) := by rw [e1, f1]
              have hG : s.gyrBuf = dG ++ (sG ++ g :: gyr2) := by rw [e2, f2]
              have hfind :
                  s.accBuf.find? (fun x => decide (t0 < x.1 ∧ t1 ≤ x.1)) = some a := by
                rw [hA, ← List.append_assoc]
                apply find_append_cons
                · intro x hx
                  simp only [decide_eq_false_iff_not, not_and, not_le]
                  rcases List.mem_append.mp hx with h | h
                  · intro hc
                    exact absurd hc (not_lt.mpr (e4 x h))
                  · intro _
                    exact f6 x h
                · simp only [decide_eq_true_eq]
                  exact ⟨hgt, hge⟩
              have hgetA : s.accBuf[dA.length + sA.length]? = some a := by
                rw [hA, ← List.append_assoc]
                rw [List.getElem?_append_right (by simp)]
                simp
              have hgetG : s.gyrBuf[dA.length + sA.length]? = some g := by
                rw [hG, ← List.append_assoc, e3, f3]
                rw [List.getElem?_append_right (by simp)]
                simp
              refine ⟨dA, dG, sA, sG, a, g, acc2, gyr2, hA, hG, e3, f3, ?_, ?_, ?_, ?_,
                rfl, rfl, e4, f6, hgt, hge, hfind, hgetA, hgetG, ?_⟩
              · show accV2 ++ [a] = accVector ++ sA ++ [a]
                rw [f4]
              · show gyrV2 ++ [g] = gyrVector ++ sG ++ [g]
                rw [f5]
              · show (accV2 ++ [a]).getLast? = some a
                simp
              · show (gyrV2 ++ [g]).getLast? = some g
                simp
              · intro hp
                unfold StampsPaired at hp
                rw [hA, hG] at hp
                simp only [List.map_append, List.map_cons] at hp
                have h2 := (List.append_inj hp (by simp [e3])).2
                have h3 := List.append_inj h2 (by simp [f3])
                exact ((List.cons.inj h3.2).1).symm
    · simp only [h1, if_false, Option.some.injEq] at hq
      subst hq
      simp at hret

/-- Witness of C3 (the time-alignment scenario): with IMU samples stamped
0.000, 0.005, ..., 1.000, `prevTime = -1`, image stamp 0.503 and `td = 0.002`, the call
succeeds; the final sample of both slices is stamped 0.505, and it is the first queued
acceleration sample stamped after -1 and not before 0.505. -/
theorem getIMUInterval_last_sample_witness :
    StampsPaired scenarioIMU.accBuf scenarioIMU.gyrBuf ∧
    getIMUInterval scenarioIMU (-1) (0.503 + 0.002) [] [] = some scenarioOutcome ∧
    scenarioOutcome.ret = true ∧
    scenarioOutcome.accVector.getLast?.map Prod.fst = some 0.505 ∧
    scenarioOutcome.gyrVector.getLast?.map Prod.fst = some 0.505 ∧
    ∃ a g, scenarioOutcome.accVector.getLast? = some a ∧
      scenarioOutcome.gyrVector.getLast? = some g ∧
      scenarioIMU.accBuf.find? (fun x => decide (-1 < x.1 ∧ (0.503 + 0.002 : ℚ) ≤ x.1)) =
        some a ∧
      (-1 : ℚ) < a.1 ∧ (0.503 + 0.002 : ℚ) ≤ a.1 ∧ g.1 = a.1 := by
  have hp : StampsPaired scenarioIMU.accBuf scenarioIMU.gyrBuf := by decide!
  have hq : getIMUIntervalQueues scenarioIMU.accBuf scenarioIMU.gyrBuf (-1)
      (0.503 + 0.002) [] [] =
      some ⟨true, scenarioIMU.accBuf.drop 101, scenarioIMU.gyrBuf.drop 101,
        scenarioIMU.accBuf.take 102, scenarioIMU.gyrBuf.take 102⟩ := by decide!
  have hc : getIMUInterval scenarioIMU (-1) (0.503 + 0.002) [] [] = some scenarioOutcome := by
    rw [getIMUInterval, hq]
    rfl
  obtain ⟨_, _, _, _, a, g, _, _, _, _, _, _, _, _, ha, hg, _, _, _, _, hgt, hge, hfind, _, _,
      hpair⟩ :=
    getIMUInterval_last_sample scenarioIMU (-1) (0.503 + 0.002) [] [] scenarioOutcome hc rfl
  exact ⟨hp, hc, rfl, by decide!, by decide!, a, g, ha, hg, hfind, hgt, hge, hpair hp⟩

/-- C28: `getIMUInterval` is safe under its guard.  If `accBuf` and `gyrBuf` have equal
length, `accBuf` is non-empty and `t0 < t1 <= accBuf.back().first`, the call returns
(neither loop reads the front of, or pops, an empty queue) with the value true, and the
queues it leaves are non-empty and of equal length.  Without `t0 < t1` the first loop
can run the queue empty: on `demoQueue` with `t0 = t1 = 1` the guard holds and the call
reads the front of an empty queue. -/
theorem getIMUInterval_safe :
    (∀ (accBuf gyrBuf : List Stamped) (t0 t1 : ℚ) (accVector gyrVector : List Stamped)
        (back : Stamped),
      accBuf.length = gyrBuf.length → accBuf.getLast? = some back → t0 < t1 →
      t1 ≤ back.1 →
      ∃ q, getIMUIntervalQueues accBuf gyrBuf t0 t1 accVector gyrVector = some q ∧
        q.ret = true ∧ q.accBuf ≠ [] ∧ q.gyrBuf ≠ [] ∧
        q.accBuf.length = q.gyrBuf.length) ∧
    (demoQueue.length = demoQueue.length ∧ demoQueue.getLast? = some (1, 0) ∧
      getIMUIntervalQueues demoQueue demoQueue 1 1 [] [] = none) := by
  refine ⟨?_, rfl, rfl, by decide!⟩
  intro accBuf gyrBuf t0 t1 accVector gyrVector back hlen hback h01 h1
  obtain ⟨dA, dG, sA, sG, a, g, restA, restG, _, _, _, _, hr, hq, _⟩ :=
    getIMUIntervalQueues_split accBuf gyrBuf t0 t1 accVector gyrVector back hlen hback h01 h1
  exact ⟨_, hq, rfl, by simp, by simp, by simp [hr]⟩

/-- Witness of C28 on `demoQueue` with `t0 = 0`, `t1 = 1`: the sample stamped 0 is
popped and the sample stamped 1 is returned and stays in the queues. -/
theorem getIMUInterval_safe_witness :
    demoQueue.length = demoQueue.length ∧ demoQueue.getLast? = some (1, 0) ∧
    (0 : ℚ) < 1 ∧ (1 : ℚ) ≤ ((1, 0) : Stamped).1 ∧
    getIMUIntervalQueues demoQueue demoQueue 0 1 [] [] =
      some ⟨true, [(1, 0)], [(1, 0)], [(1, 0)], [(1, 0)]⟩ ∧
    ∃ q, getIMUIntervalQueues demoQueue demoQueue 0 1 [] [] = some q ∧
      q.ret = true ∧ q.accBuf ≠ [] ∧ q.gyrBuf ≠ [] ∧
      q.accBuf.length = q.gyrBuf.length :=
  ⟨rfl, rfl, by norm_num, le_refl _, by decide!,
    getIMUInterval_safe.1 demoQueue demoQueue 0 1 [] [] (1, 0) rfl rfl (by norm_num)
      (le_refl _)⟩

/-- C27 (amended): for `accBuf` and `gyrBuf` that carry the same timestamps position by
position (as `inputIMU` pushes them), non-decreasing, and for
`t0 < t1 <= accBuf.back().first`, `getIMUInterval(t0, t1)` returns true.  The queues
split into a popped prefix, the run `slice ++ [a]` that is appended to the output
vectors in queue order, and the rest; the two runs have equal length and equal
timestamps position by position; every returned sample is stamped after `t0`, every
one but the last before `t1`, the last one not before `t1`; the popped samples are
stamped `t0` or earlier and no sample left in the queue is, and the last returned
sample stays at the front of the queues. -/
theorem getIMUInterval_slice (accBuf gyrBuf : List Stamped) (t0 t1 : ℚ)
    (accVector gyrVector : List Stamped) (back : Stamped)
    (hpair : StampsPaired accBuf gyrBuf)
    (hsorted : accBuf.Pairwise (fun x y => x.1 ≤ y.1))
    (hback : accBuf.getLast? = some back) (h01 : t0 < t1) (h1 : t1 ≤ back.1) :
    ∃ dA dG sA sG a g restA restG,
      accBuf = dA ++ (sA ++ a :: restA) ∧ gyrBuf = dG ++ (sG ++ g :: restG) ∧
      dA.length = dG.length ∧
      getIMUIntervalQueues accBuf gyrBuf t0 t1 accVector gyrVector =
        some ⟨true, a :: restA, g :: restG, accVector ++ sA ++ [a], gyrVector ++ sG ++ [g]⟩ ∧
      (sA ++ [a]).length = (sG ++ [g]).length ∧
      StampsPaired (sA ++ [a]) (sG ++ [g]) ∧
      (∀ x ∈ sA ++ [a], t0 < x.1) ∧ (∀ x ∈ sA, x.1 < t1) ∧ t1 ≤ a.1 ∧
      (∀ x ∈ dA, x.1 ≤ t0) ∧ (∀ x ∈ a :: restA, t0 < x.1) := by
  have hlen : accBuf.length = gyrBuf.length := by
    have h := congrArg List.length hpair
    simpa using h
  obtain ⟨dA, dG, sA, sG, a, g, restA, restG, hA, hG, hd, hs, hr, hq, hdrop, hhead, hlt, hge⟩ :=
    getIMUIntervalQueues_split accBuf gyrBuf t0 t1 accVector gyrVector back hlen hback h01 h1
  -- every sample from the front of the slice on is stamped after `t0`
  have hafter : ∀ x ∈ sA ++ a :: restA, t0 < x.1 := by
    have hs2 : (sA ++ a :: restA).Pairwise (fun x y => x.1 ≤ y.1) := by
      rw [hA] at hsorted
      exact (List.pairwise_append.mp hsorted).2.1
    cases hsA : sA with
    | nil =>
      rw [hsA] at hs2 hhead
      intro x hx
      have h0 : t0 < a.1 := hhead a rfl
      rcases List.mem_cons.mp hx with rfl | hx
      · exact h0
      · exact lt_of_lt_of_le h0 (List.rel_of_pairwise_cons hs2 hx)
    | cons b sB =>
      rw [hsA] at hs2 hhead
      intro x hx
      have h0 : t0 < b.1 := hhead b rfl
      rcases List.mem_cons.mp hx with rfl | hx
      · exact h0
      · exact lt_of_lt_of_le h0 (List.rel_of_pairwise_cons hs2 hx)
  -- the timestamps of the two runs
  have hp2 : StampsPaired (sA ++ [a]) (sG ++ [g]) := by
    unfold StampsPaired at hpair ⊢
    rw [hA, hG] at hpair
    simp only [List.map_append, List.map_cons] at hpair
    have h2 := (List.append_inj hpair (by simp [hd])).2
    have h3 := List.append_inj h2 (by simp [hs])
    have h4 : a.1 = g.1 := (List.cons.inj h3.2).1
    rw [List.map_append, List.map_append, h3.1]
    simp [h4]
  refine ⟨dA, dG, sA, sG, a, g, restA, restG, hA, hG, hd, hq, by simp [hs], hp2, ?_, hlt, hge,
    hdrop, ?_⟩
  · intro x hx
    apply hafter x
    rcases List.mem_append.mp hx with h | h
    · exact List.mem_append_left _ h
    · exact List.mem_append_right _ (by
        rw [List.mem_singleton.mp h]
        exact List.mem_cons_self _ _)
  · intro x hx
    exact hafter x (List.mem_append_right _ hx)

/-- Witness of C27 (amended) on three paired samples stamped 1, 2, 3, for `t0 = 1` and
`t1 = 2`: the sample stamped 1 is popped, the sample stamped 2 is returned and stays at
the front. -/
theorem getIMUInterval_slice_witness :
    StampsPaired demoAccQueue demoAccQueue ∧
    demoAccQueue.Pairwise (fun x y => x.1 ≤ y.1) ∧
    demoAccQueue.getLast? = some (3, 0) ∧ (1 : ℚ) < 2 ∧ (2 : ℚ) ≤ ((3, 0) : Stamped).1 ∧
    getIMUIntervalQueues demoAccQueue demoAccQueue 1 2 [] [] =
      some ⟨true, [(2, 0), (3, 0)], [(2, 0), (3, 0)], [(2, 0)], [(2, 0)]⟩ ∧
    ∃ dA dG sA sG a g restA restG,
      demoAccQueue = dA ++ (sA ++ a :: restA) ∧ demoAccQueue = dG ++ (sG ++ g :: restG) ∧
      dA.length = dG.length ∧
      getIMUIntervalQueues demoAccQueue demoAccQueue 1 2 [] [] =
        some ⟨true, a :: restA, g :: restG, [] ++ sA ++ [a], [] ++ sG ++ [g]⟩ ∧
      (sA ++ [a]).length = (sG ++ [g]).length ∧
      StampsPaired (sA ++ [a]) (sG ++ [g]) ∧
      (∀ x ∈ sA ++ [a], (1 : ℚ) < x.1) ∧ (∀ x ∈ sA, x.1 < (2 : ℚ)) ∧ (2 : ℚ) ≤ a.1 ∧
      (∀ x ∈ dA, x.1 ≤ (1 : ℚ)) ∧ (∀ x ∈ a :: restA, (1 : ℚ) < x.1) :=
  ⟨rfl, by decide!, rfl, by norm_num, by norm_num, by decide!,
    getIMUInterval_slice demoAccQueue demoAccQueue 1 2 [] [] (3, 0) rfl (by decide!) rfl
      (by norm_num) (by norm_num)⟩

/-- C27 as stated fails: equal length and non-decreasing timestamps of the two queues do
not make the timestamps of the returned vectors agree.  On `demoAccQueue` (stamps 1, 2,
3) and `demoGyrQueueShifted` (stamps 3/2, 5/2, 7/2), with `t0 = 0` and `t1 = 2`, the
call returns acceleration samples stamped 1 and 2 with gyroscope samples stamped 3/2
and 5/2. -/
theorem getIMUInterval_slice_unpaired :
    demoAccQueue.length = demoGyrQueueShifted.length ∧
    demoAccQueue.Pairwise (fun x y => x.1 ≤ y.1) ∧
    demoGyrQueueShifted.Pairwise (fun x y => x.1 ≤ y.1) ∧
    demoAccQueue.getLast? = some (3, 0) ∧ (0 : ℚ) < 2 ∧ (2 : ℚ) ≤ ((3, 0) : Stamped).1 ∧
    getIMUIntervalQueues demoAccQueue demoGyrQueueShifted 0 2 [] [] =
      some ⟨true, [(2, 0), (3, 0)], [(5 / 2, 0), (7 / 2, 0)],
        [(1, 0), (2, 0)], [(3 / 2, 0), (5 / 2, 0)]⟩ ∧
    ¬ StampsPaired [((1 : ℚ), (0 : Vector3d)), (2, 0)] [(3 / 2, 0), (5 / 2, 0)] := by
  refine ⟨rfl, by decide!, by decide!, rfl, by norm_num, by norm_num, by decide!, by decide!⟩

/-! ## `slideWindow`, MARGIN_SECOND_NEW: the merged IMU interval -/

/-- Writing a slot twice keeps the second value. -/
theorem setAt_setAt {α : Type} (a : Nat → α) (i : Nat) (v w : α) :
    setAt (setAt a i v) i w = setAt a i w := by
  funext j
  unfold setAt
  split_ifs <;> rfl

/-- Reading the first `n` entries of a list by index gives its first `n` entries. -/
theorem map_getD_range {α : Type} (l : List α) (d : α) (n : Nat) (hn : n ≤ l.length) :
    (List.range n).map (fun i => l.getD i d) = l.take n := by
  apply List.ext_getElem
  · simp [hn]
  · intro i h1 h2
    simp only [List.length_map, List.length_range] at h1
    rw [List.getElem_map, List.getElem_range, List.getElem_take,
      List.getD_eq_getElem _ _ (by omega)]

/-- Pushing samples one by one extends the three buffers of a pre-integration. -/
theorem foldl_push_back (dt : Nat → ℚ) (acc gyr : Nat → Vector3d) (n : Nat)
    (p : IntegrationBase) :
    (List.range n).foldl (fun q i => q.push_back (dt i) (acc i) (gyr i)) p =
      p.pushed ((List.range n).map dt) ((List.range n).map acc) ((List.range n).map gyr) := by
  induction n with
  | zero => simp [IntegrationBase.pushed]
  | succ n ih =>
    rw [List.range_succ, List.foldl_append, ih]
    simp [IntegrationBase.pushed, IntegrationBase.push_back, List.append_assoc]

/-- The merging loop of `slideWindow` after `n` iterations: the first `n` samples of
slot `frame_count`, read by index, are appended to the buffers of slot
`frame_count - 1` and pushed into its pre-integration. -/
theorem slideWindowMerge_loop (s : Estimator) (hfc : 0 < s.frame_count) (n : Nat) :
    ((List.range n).foldl slideWindowMergeStep s).frame_count = s.frame_count ∧
    ((List.range n).foldl slideWindowMergeStep s).dt_buf =
      setAt s.dt_buf (s.frame_count - 1) (s.dt_buf (s.frame_count - 1) ++
        (List.range n).map (fun i => (s.dt_buf s.frame_count).getD i 0)) ∧
    ((List.range n).foldl slideWindowMergeStep s).linear_acceleration_buf =
      setAt s.linear_acceleration_buf (s.frame_count - 1)
        (s.linear_acceleration_buf (s.frame_count - 1) ++
          (List.range n).map (fun i => (s.linear_acceleration_buf s.frame_count).getD i 0)) ∧
    ((List.range n).foldl slideWindowMergeStep s).angular_velocity_buf =
      setAt s.angular_velocity_buf (s.frame_count - 1)
        (s.angular_velocity_buf (s.frame_count - 1) ++
          (List.range n).map (fun i => (s.angular_velocity_buf s.frame_count).getD i 0)) ∧
    ((List.range n).foldl slideWindowMergeStep s).pre_integrations =
      setAt s.pre_integrations (s.frame_count - 1)
        ((s.pre_integrations (s.frame_count - 1)).map (fun p =>
          p.pushed ((List.range n).map (fun i => (s.dt_buf s.frame_count).getD i 0))
            ((List.range n).map (fun i => (s.linear_acceleration_buf s.frame_count).getD i 0))
            ((List.range n).map (fun i => (s.angular_velocity_buf s.frame_count).getD i 0)))) := by
  have hne : ¬ s.frame_count = s.frame_count - 1 := by omega
  induction n with
  | zero =>
    refine ⟨rfl, ?_, ?_, ?_, ?_⟩
    · funext j
      simp only [List.range_zero, List.foldl_nil, List.map_nil, List.append_nil, setAt]
      split_ifs with h
      · rw [h]
      · rfl
    · funext j
      simp only [List.range_zero, List.foldl_nil, List.map_nil, List.append_nil, setAt]
      split_ifs with h
      · rw [h]
      · rfl
    · funext j
      simp only [List.range_zero, List.foldl_nil, List.map_nil, List.append_nil, setAt]
      split_ifs with h
      · rw [h]
      · rfl
    · funext j
      simp only [List.range_zero, List.foldl_nil, List.map_nil, setAt]
      split_ifs with h
      · rw [h]
        cases s.pre_integrations (s.frame_count - 1) <;>
          simp [IntegrationBase.pushed]
      · rfl
  | succ n ih =>
    obtain ⟨h1, h2, h3, h4, h5⟩ := ih
    rw [List.range_succ, List.foldl_append]
    simp only [List.foldl_cons, List.foldl_nil]
    generalize (List.range n).foldl slideWindowMergeStep s = r at h1 h2 h3 h4 h5 ⊢
    unfold slideWindowMergeStep
    simp only [h1, h2, h3, h4, h5]
    refine ⟨trivial, ?_, ?_, ?_, ?_⟩
    · rw [setAt_setAt]
      simp [setAt, hne, List.append_assoc]
    · rw [setAt_setAt]
      simp [setAt, hne, List.append_assoc]
    · rw [setAt_setAt]
      simp [setAt, hne, List.append_assoc]
    · rw [setAt_setAt]
      simp only [setAt, if_true, hne, if_false]
      cases s.pre_integrations (s.frame_count - 1) with
      | none => rfl
      | some p =>
        simp [IntegrationBase.pushed, IntegrationBase.push_back, List.append_assoc]

/-- The sample buffers and the pre-integrations after the MARGIN_SECOND_NEW slide of a
full window with `USE_IMU`: the merging loop, then the reset of slot `WINDOW_SIZE`. -/
theorem slideWindow_second_new_buffers (ext : Externals) (cfg : Config) (s : Estimator)
    (hU : cfg.USE_IMU = true) (hfull : s.frame_count = cfg.WINDOW_SIZE)
    (hflag : s.marginalization_flag = MarginalizationFlag.MARGIN_SECOND_NEW) :
    (slideWindow ext cfg s).dt_buf =
      setAt (setAt s.dt_buf (s.frame_count - 1) (s.dt_buf (s.frame_count - 1) ++
        (List.range (s.dt_buf s.frame_count).length).map
          (fun i => (s.dt_buf s.frame_count).getD i 0))) cfg.WINDOW_SIZE [] ∧
    (slideWindow ext cfg s).linear_acceleration_buf =
      setAt (setAt s.linear_acceleration_buf (s.frame_count - 1)
        (s.linear_acceleration_buf (s.frame_count - 1) ++
          (List.range (s.dt_buf s.frame_count).length).map
            (fun i => (s.linear_acceleration_buf s.frame_count).getD i 0)))
        cfg.WINDOW_SIZE [] ∧
    (slideWindow ext cfg s).angular_velocity_buf =
      setAt (setAt s.angular_velocity_buf (s.frame_count - 1)
        (s.angular_velocity_buf (s.frame_count - 1) ++
          (List.range (s.dt_buf s.frame_count).length).map
            (fun i => (s.angular_velocity_buf s.frame_count).getD i 0)))
        cfg.WINDOW_SIZE [] ∧
    ∀ j, j ≠ cfg.WINDOW_SIZE → (slideWindow ext cfg s).pre_integrations j =
      setAt s.pre_integrations (s.frame_count - 1)
        ((s.pre_integrations (s.frame_count - 1)).map (fun p =>
          p.pushed
            ((List.range (s.dt_buf s.frame_count).length).map
              (fun i => (s.dt_buf s.frame_count).getD i 0))
            ((List.range (s.dt_buf s.frame_count).length).map
              (fun i => (s.linear_acceleration_buf s.frame_count).getD i 0))
            ((List.range (s.dt_buf s.frame_count).length).map
              (fun i => (s.angular_velocity_buf s.frame_count).getD i 0)))) j := by
  have hW := cfg.window_pos
  obtain ⟨_, k2, k3, k4, k5⟩ := slideWindowMerge_loop
    ({ s with Headers := setAt s.Headers (s.frame_count - 1) (s.Headers s.frame_count),
              Ps := setAt s.Ps (s.frame_count - 1) (s.Ps s.frame_count),
              Rs := setAt s.Rs (s.frame_count - 1) (s.Rs s.frame_count) } : Estimator)
    (by show 0 < s.frame_count; omega) (s.dt_buf s.frame_count).length
  have hslide : slideWindow ext cfg s = slideWindowNew ext (resetNewestSlot cfg
      (let s11 := (List.range (s.dt_buf s.frame_count).length).foldl slideWindowMergeStep
        ({ s with Headers := setAt s.Headers (s.frame_count - 1) (s.Headers s.frame_count),
                  Ps := setAt s.Ps (s.frame_count - 1) (s.Ps s.frame_count),
                  Rs := setAt s.Rs (s.frame_count - 1) (s.Rs s.frame_count) } : Estimator)
       { s11 with Vs := setAt s11.Vs (s.frame_count - 1) (s11.Vs s.frame_count),
                  Bas := setAt s11.Bas (s.frame_count - 1) (s11.Bas s.frame_count),
                  Bgs := setAt s11.Bgs (s.frame_count - 1) (s11.Bgs s.frame_count) })) := by
    unfold slideWindow
    rw [hflag]
    simp only []
    rw [if_pos hfull]
    simp only [hU, if_true]
  rw [hslide]
  refine ⟨?_, ?_, ?_, ?_⟩
  · exact (congrArg (fun f => setAt f cfg.WINDOW_SIZE []) k2).trans rfl
  · exact (congrArg (fun f => setAt f cfg.WINDOW_SIZE []) k3).trans rfl
  · exact (congrArg (fun f => setAt f cfg.WINDOW_SIZE []) k4).trans rfl
  · intro j hj
    have h : (slideWindowNew ext (resetNewestSlot cfg
      (let s11 := (List.range (s.dt_buf s.frame_count).length).foldl slideWindowMergeStep
        ({ s with Headers := setAt s.Headers (s.frame_count - 1) (s.Headers s.frame_count),
                  Ps := setAt s.Ps (s.frame_count - 1) (s.Ps s.frame_count),
                  Rs := setAt s.Rs (s.frame_count - 1) (s.Rs s.frame_count) } : Estimator)
       { s11 with Vs := setAt s11.Vs (s.frame_count - 1) (s11.Vs s.frame_count),
                  Bas := setAt s11.Bas (s.frame_count - 1) (s11.Bas s.frame_count),
                  Bgs := setAt s11.Bgs (s.frame_count - 1) (s11.Bgs s.frame_count) }))).pre_integrations j
        = ((List.range (s.dt_buf s.frame_count).length).foldl slideWindowMergeStep
        ({ s with Headers := setAt s.Headers (s.frame_count - 1) (s.Headers s.frame_count),
                  Ps := setAt s.Ps (s.frame_count - 1) (s.Ps s.frame_count),
                  Rs := setAt s.Rs (s.frame_count - 1) (s.Rs s.frame_count) } :
          Estimator)).pre_integrations j := by
      show setAt _ cfg.WINDOW_SIZE _ j = _
      unfold setAt
      rw [if_neg hj]
    rw [h, k5]

/-- C29: with `USE_IMU`, a full window and `MARGIN_SECOND_NEW`, on a window whose slot
`WINDOW_SIZE` holds equally many samples in its three buffers, `slideWindow` merges the
two newest IMU intervals.  The buffers `dt_buf`, `linear_acceleration_buf` and
`angular_velocity_buf` of slot `WINDOW_SIZE - 1` are their pre-slide contents followed
by the pre-slide contents of slot `WINDOW_SIZE`, exactly these samples are pushed into
`pre_integrations[WINDOW_SIZE - 1]`, the three buffers of slot `WINDOW_SIZE` are empty,
the buffers of the other slots are untouched, buffers of equal length keep equal
length in every slot, and the merged `dt_buf` sums to the sum of the two intervals. -/
theorem slideWindow_margin_second_new_merge (ext : Externals) (cfg : Config) (s : Estimator)
    (hU : cfg.USE_IMU = true) (hfull : s.frame_count = cfg.WINDOW_SIZE)
    (hflag : s.marginalization_flag = MarginalizationFlag.MARGIN_SECOND_NEW)
    (hnew : BuffersAligned s cfg.WINDOW_SIZE) :
    (slideWindow ext cfg s).dt_buf (cfg.WINDOW_SIZE - 1) =
      s.dt_buf (cfg.WINDOW_SIZE - 1) ++ s.dt_buf cfg.WINDOW_SIZE ∧
    (slideWindow ext cfg s).linear_acceleration_buf (cfg.WINDOW_SIZE - 1) =
      s.linear_acceleration_buf (cfg.WINDOW_SIZE - 1) ++
        s.linear_acceleration_buf cfg.WINDOW_SIZE ∧
    (slideWindow ext cfg s).angular_velocity_buf (cfg.WINDOW_SIZE - 1) =
      s.angular_velocity_buf (cfg.WINDOW_SIZE - 1) ++
        s.angular_velocity_buf cfg.WINDOW_SIZE ∧
    (slideWindow ext cfg s).pre_integrations (cfg.WINDOW_SIZE - 1) =
      (s.pre_integrations (cfg.WINDOW_SIZE - 1)).map (fun p =>
        p.pushed (s.dt_buf cfg.WINDOW_SIZE) (s.linear_acceleration_buf cfg.WINDOW_SIZE)
          (s.angular_velocity_buf cfg.WINDOW_SIZE)) ∧
    ((slideWindow ext cfg s).dt_buf cfg.WINDOW_SIZE = [] ∧
      (slideWindow ext cfg s).linear_acceleration_buf cfg.WINDOW_SIZE = [] ∧
      (slideWindow ext cfg s).angular_velocity_buf cfg.WINDOW_SIZE = []) ∧
    (∀ i, i ≠ cfg.WINDOW_SIZE - 1 → i ≠ cfg.WINDOW_SIZE →
      (slideWindow ext cfg s).dt_buf i = s.dt_buf i ∧
      (slideWindow ext cfg s).linear_acceleration_buf i = s.linear_acceleration_buf i ∧
      (slideWindow ext cfg s).angular_velocity_buf i = s.angular_velocity_buf i) ∧
    ((∀ i, BuffersAligned s i) → ∀ i, BuffersAligned (slideWindow ext cfg s) i) ∧
    ((slideWindow ext cfg s).dt_buf (cfg.WINDOW_SIZE - 1)).sum =
      (s.dt_buf (cfg.WINDOW_SIZE - 1)).sum + (s.dt_buf cfg.WINDOW_SIZE).sum := by
  have hW := cfg.window_pos
  have hne : ¬ cfg.WINDOW_SIZE - 1 = cfg.WINDOW_SIZE := by omega
  obtain ⟨hacc, hgyr⟩ := hnew
  obtain ⟨b1, b2, b3, b4⟩ := slideWindow_second_new_buffers ext cfg s hU hfull hflag
  rw [hfull] at b1 b2 b3 b4
  have e1 : (List.range (s.dt_buf cfg.WINDOW_SIZE).length).map
      (fun i => (s.dt_buf cfg.WINDOW_SIZE).getD i 0) = s.dt_buf cfg.WINDOW_SIZE := by
    rw [map_getD_range _ _ _ (le_refl _), List.take_length]
  have e2 : (List.range (s.dt_buf cfg.WINDOW_SIZE).length).map
      (fun i => (s.linear_acceleration_buf cfg.WINDOW_SIZE).getD i 0) =
      s.linear_acceleration_buf cfg.WINDOW_SIZE := by
    rw [← hacc, map_getD_range _ _ _ (le_refl _), List.take_length]
  have e3 : (List.range (s.dt_buf cfg.WINDOW_SIZE).length).map
      (fun i => (s.angular_velocity_buf cfg.WINDOW_SIZE).getD i 0) =
      s.angular_velocity_buf cfg.WINDOW_SIZE := by
    rw [← hgyr, map_getD_range _ _ _ (le_refl _), List.take_length]
  rw [e1] at b1
  rw [e2] at b2
  rw [e3] at b3
  simp only [e1, e2, e3] at b4
  have hdt : (slideWindow ext cfg s).dt_buf (cfg.WINDOW_SIZE - 1) =
      s.dt_buf (cfg.WINDOW_SIZE - 1) ++ s.dt_buf cfg.WINDOW_SIZE := by
    rw [b1]
    simp [setAt, hne]
  have hla : (slideWindow ext cfg s).linear_acceleration_buf (cfg.WINDOW_SIZE - 1) =
      s.linear_acceleration_buf (cfg.WINDOW_SIZE - 1) ++
        s.linear_acceleration_buf cfg.WINDOW_SIZE := by
    rw [b2]
    simp [setAt, hne]
  have hav : (slideWindow ext cfg s).angular_velocity_buf (cfg.WINDOW_SIZE - 1) =
      s.angular_velocity_buf (cfg.WINDOW_SIZE - 1) ++
        s.angular_velocity_buf cfg.WINDOW_SIZE := by
    rw [b3]
    simp [setAt, hne]
  have hempty : (slideWindow ext cfg s).dt_buf cfg.WINDOW_SIZE = [] ∧
      (slideWindow ext cfg s).linear_acceleration_buf cfg.WINDOW_SIZE = [] ∧
      (slideWindow ext cfg s).angular_velocity_buf cfg.WINDOW_SIZE = [] := by
    rw [b1, b2, b3]
    simp [setAt]
  have hother : ∀ i, i ≠ cfg.WINDOW_SIZE - 1 → i ≠ cfg.WINDOW_SIZE →
      (slideWindow ext cfg s).dt_buf i = s.dt_buf i ∧
      (slideWindow ext cfg s).linear_acceleration_buf i = s.linear_acceleration_buf i ∧
      (slideWindow ext cfg s).angular_velocity_buf i = s.angular_velocity_buf i := by
    intro i h1 h2
    rw [b1, b2, b3]
    simp [setAt, h1, h2]
  refine ⟨hdt, hla, hav, ?_, hempty, hother, ?_, ?_⟩
  · rw [b4 _ hne]
    simp [setAt]
  · intro hall i
    unfold BuffersAligned
    by_cases h2 : i = cfg.WINDOW_SIZE
    · rw [h2, hempty.1, hempty.2.1, hempty.2.2]
      exact ⟨rfl, rfl⟩
    · by_cases h1 : i = cfg.WINDOW_SIZE - 1
      · rw [h1, hdt, hla, hav]
        obtain ⟨p1, p2⟩ := hall (cfg.WINDOW_SIZE - 1)
        simp only [List.length_append, p1, p2, hacc, hgyr]
        exact ⟨trivial, trivial⟩
      · obtain ⟨q1, q2, q3⟩ := hother i h1 h2
        rw [q1, q2, q3]
        exact hall i
  · rw [hdt, List.sum_append]

/-- Witness of C29 on `demoMergeWindow` (one sample of 1/100 s in slot 1, two samples of
1/200 s in slot 2): after the slide slot 1 holds the three samples and covers 1/50 s,
slot 2 is empty. -/
theorem slideWindow_margin_second_new_merge_witness :
    demoConfig.USE_IMU = true ∧ demoMergeWindow.frame_count = demoConfig.WINDOW_SIZE ∧
    demoMergeWindow.marginalization_flag = MarginalizationFlag.MARGIN_SECOND_NEW ∧
    BuffersAligned demoMergeWindow demoConfig.WINDOW_SIZE ∧
    (slideWindow demoExternals demoConfig demoMergeWindow).dt_buf 1 =
      [1 / 100, 1 / 200, 1 / 200] ∧
    ((slideWindow demoExternals demoConfig demoMergeWindow).pre_integrations 1).map
      (fun p => (p.dt_buf, p.acc_buf, p.gyr_buf)) =
      some ([1 / 200, 1 / 200], [⟨0, 0, 1⟩, ⟨0, 0, 2⟩], [⟨1, 0, 0⟩, ⟨2, 0, 0⟩]) ∧
    (slideWindow demoExternals demoConfig demoMergeWindow).dt_buf 2 = [] ∧
    ((slideWindow demoExternals demoConfig demoMergeWindow).dt_buf
      (demoConfig.WINDOW_SIZE - 1)).sum =
      (demoMergeWindow.dt_buf (demoConfig.WINDOW_SIZE - 1)).sum +
        (demoMergeWindow.dt_buf demoConfig.WINDOW_SIZE).sum := by
  have hA : BuffersAligned demoMergeWindow demoConfig.WINDOW_SIZE := by decide
  refine ⟨rfl, rfl, rfl, hA, by decide!, by decide!, by decide!,
    (slideWindow_margin_second_new_merge demoExternals demoConfig demoMergeWindow rfl rfl rfl
      hA).2.2.2.2.2.2.2⟩

/-! ## `visualInitialAlign`: the positions of the new world frame -/

/-- The rescaling loop of `visualInitialAlign` over the slots `n, n - 1, .., 0` writes
positions only; every slot is shifted by the rescaled position of slot 0 as it was
before the loop, since slot 0 comes last. -/
theorem visualInitialAlignScale_loop (scale : ℚ) :
    ∀ (n : Nat) (s : Estimator),
      ∃ Ps, (List.range (n + 1)).reverse.foldl (visualInitialAlignScale scale) s =
          { s with Ps := Ps } ∧
        ∀ i, Ps i = if i ≤ n then
            scale * s.Ps i - s.Rs i * s.TIC 0 - (scale * s.Ps 0 - s.Rs 0 * s.TIC 0)
          else s.Ps i := by
  intro n
  induction n with
  | zero =>
    intro s
    refine ⟨setAt s.Ps 0
      (scale * s.Ps 0 - s.Rs 0 * s.TIC 0 - (scale * s.Ps 0 - s.Rs 0 * s.TIC 0)), rfl, ?_⟩
    intro i
    by_cases hi : i = 0
    · subst hi
      simp [setAt]
    · simp [setAt, hi]
  | succ n ih =>
    intro s
    obtain ⟨Ps, hfold, hPs⟩ := ih (visualInitialAlignScale scale s (n + 1))
    refine ⟨Ps, ?_, ?_⟩
    · rw [List.range_succ, List.reverse_append, List.reverse_singleton, List.singleton_append,
        List.foldl_cons, hfold]
      rfl
    · intro i
      rw [hPs i]
      have h0 : ¬ 0 = n + 1 := by omega
      by_cases hi : i ≤ n
      · have h1 : ¬ i = n + 1 := by omega
        rw [if_pos hi, if_pos (by omega)]
        simp [visualInitialAlignScale, setAt, h1, h0]
      · rw [if_neg hi]
        by_cases h1 : i = n + 1
        · subst h1
          rw [if_pos (le_refl _)]
          simp [visualInitialAlignScale, setAt]
        · rw [if_neg (by omega)]
          simp [visualInitialAlignScale, setAt, h1]

/-- The velocity loop of `visualInitialAlign` writes velocities only. -/
theorem visualInitialAlignVelocity_loop (x : List ℚ) :
    ∀ (frames : List (ℚ × ImageFrame)) (st : Int × Estimator),
      ∃ Vs, (frames.foldl (visualInitialAlignVelocity x) st).2 = { st.2 with Vs := Vs } := by
  intro frames
  induction frames with
  | nil => intro st; exact ⟨st.2.Vs, rfl⟩
  | cons e rest ih =>
    intro st
    rw [List.foldl_cons]
    obtain ⟨Vs, h⟩ := ih (visualInitialAlignVelocity x st e)
    refine ⟨Vs, ?_⟩
    rw [h]
    unfold visualInitialAlignVelocity
    split_ifs <;> rfl

/-- The final loop of `visualInitialAlign` over the slots `0 .. n - 1` writes positions,
rotations and velocities only, and turns the position of each of these slots by
`rot_diff`. -/
theorem visualInitialAlignRotate_loop (rot_diff : Matrix3d) (s : Estimator) :
    ∀ n, ∃ Ps Rs Vs,
      (List.range n).foldl (visualInitialAlignRotate rot_diff) s =
        { s with Ps := Ps, Rs := Rs, Vs := Vs } ∧
      ∀ i, Ps i = if i < n then rot_diff * s.Ps i else s.Ps i := by
  intro n
  induction n with
  | zero => exact ⟨s.Ps, s.Rs, s.Vs, rfl, fun i => by simp⟩
  | succ n ih =>
    obtain ⟨Ps, Rs, Vs, hfold, hPs⟩ := ih
    refine ⟨setAt Ps n (rot_diff * Ps n), setAt Rs n (rot_diff * Rs n),
      setAt Vs n (rot_diff * Vs n), ?_, ?_⟩
    · rw [List.range_succ, List.foldl_append, hfold]
      rfl
    · intro i
      by_cases hi : i = n
      · subst hi
        simp [setAt, hPs i]
      · have h1 : i < n + 1 ↔ i < n := by omega
        simp only [setAt, hi, if_false, hPs i, h1]

/-- The function `visualInitialAlign` with its last part named. -/
theorem visualInitialAlign_eq_tail (ext : Externals) (cfg : Config) (s : Estimator) :
    visualInitialAlign ext cfg s =
      if (s.alignment ext).result = false then
        some (false, { s with all_image_frame := (s.alignment ext).all_image_frame,
                              Bgs := (s.alignment ext).Bgs, g := (s.alignment ext).g })
      else
        match (List.range (s.frame_count + 1)).foldlM visualInitialAlignSlot
          { s with all_image_frame := (s.alignment ext).all_image_frame,
                   Bgs := (s.alignment ext).Bgs, g := (s.alignment ext).g } with
        | none => none
        | some s2 =>
          match (List.range (cfg.WINDOW_SIZE + 1)).foldlM repropagateSlot s2 with
          | none => none
          | some s3 => some (true, visualInitialAlignTail ext (s.alignment ext).x s3) := rfl

/-- One iteration of the observation loop of `optimization`, for the observation `k`
slots after the anchor: the counter advances and the residuals of
`observationResiduals` are appended. -/
theorem problemObservation_eq (cfg : Config) (f : FeaturePerId) (first : FeaturePerFrame)
    (feature_index : Nat) (k : Nat) (p : Problem) (o : FeaturePerFrame) :
    problemObservation cfg f first feature_index (f.start_frame - 1 + k, p) o =
      (f.start_frame - 1 + (k + 1 : Nat),
       { p with residual_blocks := p.residual_blocks ++
          observationResiduals cfg f.start_frame f.main_cam first feature_index k o }) := by
  have hj : f.start_frame - 1 + (k : Int) + 1 = f.start_frame + k := by ring
  have hj2 : f.start_frame - 1 + ((k + 1 : Nat) : Int) = f.start_frame + k := by
    push_cast
    ring
  have hne : (f.start_frame ≠ f.start_frame + (k : Int)) ↔ k ≠ 0 := by
    constructor
    · intro h hk
      apply h
      rw [hk]
      simp
    · intro h he
      apply h
      have : (k : Int) = 0 := by linarith
      exact_mod_cast this
  unfold problemObservation observationResiduals
  simp only [hj, hj2, Problem.AddResidualBlock]
  by_cases hk : k = 0
  · subst hk
    by_cases hs : cfg.STEREO = true ∧ o.is_stereo = true
    · have hs2 : (cfg.STEREO && o.is_stereo) = true := by simp [hs.1, hs.2]
      simp [hs2, hs.1, hs.2]
    · have hs2 : ¬ (cfg.STEREO && o.is_stereo) = true := by
        simpa [Bool.and_eq_true] using hs
      simp only [hs2, hs]
      simp
  · have hne2 : f.start_frame ≠ f.start_frame + (k : Int) := hne.mpr hk
    by_cases hs : cfg.STEREO = true ∧ o.is_stereo = true
    · have hs2 : (cfg.STEREO && o.is_stereo) = true := by simp [hs.1, hs.2]
      simp [hs2, hs.1, hs.2, hk, hne2, List.append_assoc]
    · have hs2 : ¬ (cfg.STEREO && o.is_stereo) = true := by
        simpa [Bool.and_eq_true] using hs
      simp only [hs2, hs]
      simp [hk, hne2]

/-- The observation loop of `optimization` over the observations `l`, the first of
which is `k` slots after the anchor, appends the residuals of
`observationResidualsFrom`. -/
theorem problemObservation_loop_eq (cfg : Config) (f : FeaturePerId)
    (first : FeaturePerFrame) (feature_index : Nat) :
    ∀ (l : List FeaturePerFrame) (k : Nat) (p : Problem),
      (l.foldl (problemObservation cfg f first feature_index) (f.start_frame - 1 + k, p)).2 =
        { p with residual_blocks := p.residual_blocks ++
          observationResidualsFrom cfg f.start_frame f.main_cam first feature_index k l } := by
  intro l
  induction l with
  | nil =>
    intro k p
    simp [observationResidualsFrom]
  | cons o rest ih =>
    intro k p
    rw [List.foldl_cons, problemObservation_eq, ih]
    simp [observationResidualsFrom, List.append_assoc]

/-- One iteration of the feature loop of `optimization` on an id that names an observed
feature: the residuals of `featureResiduals` are appended, `used_num` and the index map
are written. -/
theorem optimizationFeature_eq (cfg : Config) (s : Estimator) (p : Problem) (id : Int)
    (f : FeaturePerId) (hl : s.f_manager.feature.lookup id = some f)
    (hne : f.feature_per_frame ≠ []) :
    optimizationFeature cfg (s, p) id =
      some ({ s with
          f_manager := { s.f_manager with
            feature := mapSet s.f_manager.feature id
              { f with used_num := f.feature_per_frame.length } },
          param_feature_id_to_index := featureIndexMap s f.feature_id },
        { p with residual_blocks := p.residual_blocks ++ featureResiduals cfg s id }) := by
  cases hfp : f.feature_per_frame with
  | nil => exact absurd hfp hne
  | cons first rest =>
    have h := problemObservation_loop_eq cfg f first (featureIndex s f.feature_id)
      (first :: rest) 0 p
    simp only [Nat.cast_zero, add_zero] at h
    simp only [optimizationFeature, hl, hfp, featureResiduals, h]

/-- The index `param_feature_id_to_index[feature_id]` reads the same after the read of
any key has entered it. -/
theorem featureIndex_featureIndexMap (s s1 : Estimator) (fid fid2 : Int)
    (h : s1.param_feature_id_to_index = featureIndexMap s fid) :
    featureIndex s1 fid2 = featureIndex s fid2 := by
  unfold featureIndex
  rw [h]
  unfold featureIndexMap
  cases hk : s.param_feature_id_to_index.lookup fid with
  | some v => rfl
  | none =>
    simp only []
    by_cases h2 : fid2 = fid
    · subst h2
      rw [lookup_mapSet_self, hk]
      rfl
    · rw [lookup_mapSet_ne _ _ _ h2]

/-- The residuals of every feature are the same after one iteration of the feature loop
of `optimization`, which writes `used_num` and the index map only. -/
theorem featureResiduals_step (cfg : Config) (s : Estimator) (id id2 : Int)
    (f : FeaturePerId) (hl : s.f_manager.feature.lookup id = some f) (n : Nat) :
    featureResiduals cfg
      { s with
        f_manager := { s.f_manager with
          feature := mapSet s.f_manager.feature id { f with used_num := n } },
        param_feature_id_to_index := featureIndexMap s f.feature_id } id2 =
    featureResiduals cfg s id2 := by
  have hidx : ∀ fid2, featureIndex
      { s with
        f_manager := { s.f_manager with
          feature := mapSet s.f_manager.feature id { f with used_num := n } },
        param_feature_id_to_index := featureIndexMap s f.feature_id } fid2 =
      featureIndex s fid2 :=
    fun fid2 => featureIndex_featureIndexMap s _ f.feature_id fid2 rfl
  unfold featureResiduals
  simp only [hidx]
  by_cases h2 : id2 = id
  · subst h2
    rw [lookup_mapSet_self, hl]
  · rw [lookup_mapSet_ne _ _ _ h2]

/-- The feature loop of `optimization` over ids that name observed features returns; it
appends the residuals of the features in the order of the ids. -/
theorem optimizationFeature_loop_eq (cfg : Config) :
    ∀ (ids : List Int) (s : Estimator) (p : Problem), ObservedIn s.f_manager.feature ids →
      ∃ s1, ids.foldlM (optimizationFeature cfg) (s, p) =
          some (s1, { p with
            residual_blocks :=
              p.residual_blocks ++ ids.flatMap (featureResiduals cfg s) }) ∧
        ∀ id2, featureResiduals cfg s1 id2 = featureResiduals cfg s id2 := by
  intro ids
  induction ids with
  | nil =>
    intro s p _
    exact ⟨s, by simp, fun _ => rfl⟩
  | cons id rest ih =>
    intro s p h
    obtain ⟨f, hl, hne⟩ := h id (List.mem_cons_self _ _)
    obtain ⟨s1, p1, hstep, hobs, _⟩ := optimizationFeature_step cfg s p id rest h
    have heq := optimizationFeature_eq cfg s p id f hl hne
    rw [heq] at hstep
    obtain ⟨hs1, hp1⟩ := Prod.mk.inj (Option.some.inj hstep)
    have hsame : ∀ id2, featureResiduals cfg s1 id2 = featureResiduals cfg s id2 := by
      intro id2
      rw [← hs1]
      exact featureResiduals_step cfg s id id2 f hl _
    obtain ⟨s2, hfold, hsame2⟩ := ih s1 p1 hobs
    refine ⟨s2, ?_, fun id2 => (hsame2 id2).trans (hsame id2)⟩
    rw [List.foldlM_cons, heq]
    simp only [Option.bind_eq_bind, Option.some_bind]
    rw [hs1, hp1, hfold, ← hp1]
    have hflat : rest.flatMap (featureResiduals cfg s1) =
        rest.flatMap (featureResiduals cfg s) := by
      congr 1
      funext id2
      exact hsame id2
    simp [hflat, List.append_assoc]

/-- The problem `optimization` hands to the solver: the residual blocks are the prior,
the IMU factors, and the reprojection residuals of the features of `param_feature_id`
in order. -/
theorem optimizationProblem_residuals (ext : Externals) (cfg : Config) (s : Estimator)
    (hpre : PreIntegrationsPresent cfg s)
    (hobs : ObservedIn s.f_manager.feature s.param_feature_id) :
    ∃ s1 p, optimizationProblem ext cfg s = some (s1, p) ∧
      p.residual_blocks = priorResidual s ++ imuResiduals cfg s ++
        s.param_feature_id.flatMap (featureResiduals cfg s) := by
  rw [optimizationProblem_eq ext cfg s hpre]
  obtain ⟨s1, hfold, _⟩ := optimizationFeature_loop_eq cfg s.param_feature_id
    { s with openExEstimation := openExEstimationAfter ext cfg s }
    (problemBeforeFeatures ext cfg s) hobs
  exact ⟨s1, _, hfold, rfl⟩

/-- The residuals of observations after the anchor slot: one two-frame one-camera
residual each, one two-frame two-camera residual for each stereo observation when
`STEREO` is on, no one-frame residual. -/
theorem observationResidualsFrom_count (cfg : Config) (imu_i : Int) (main_cam : Nat)
    (first : FeaturePerFrame) (feature_index : Nat) :
    ∀ (l : List FeaturePerFrame) (k : Nat), k ≠ 0 →
      (observationResidualsFrom cfg imu_i main_cam first feature_index k l).countP
          (fun rb => rb.cost_function.isTwoFrameOneCam) = l.length ∧
      (observationResidualsFrom cfg imu_i main_cam first feature_index k l).countP
          (fun rb => rb.cost_function.isTwoFrameTwoCam) =
        (if cfg.STEREO = true then l.countP (fun o => o.is_stereo) else 0) ∧
      (observationResidualsFrom cfg imu_i main_cam first feature_index k l).countP
          (fun rb => rb.cost_function.isOneFrameTwoCam) = 0 := by
  intro l
  induction l with
  | nil =>
    intro k _
    simp [observationResidualsFrom]
  | cons o rest ih =>
    intro k hk
    obtain ⟨h1, h2, h3⟩ := ih (k + 1) (Nat.succ_ne_zero k)
    simp only [observationResidualsFrom, List.countP_append, h1, h2, h3]
    unfold observationResiduals
    by_cases hS : cfg.STEREO = true
    · by_cases ho : o.is_stereo = true
      · simp [hk, hS, ho, Factor.isTwoFrameOneCam, Factor.isTwoFrameTwoCam,
          Factor.isOneFrameTwoCam, List.countP_cons]
        omega
      · simp [hk, hS, ho, Factor.isTwoFrameOneCam, Factor.isTwoFrameTwoCam,
          Factor.isOneFrameTwoCam, List.countP_cons]
        omega
    · simp [hk, hS, Factor.isTwoFrameOneCam, Factor.isTwoFrameTwoCam,
        Factor.isOneFrameTwoCam]
      omega

/-- The residuals of a feature with observations `first :: rest`: one two-frame
one-camera residual for each observation after the anchor, and with `STEREO` one
one-frame two-camera residual if the anchor observation is stereo and one two-frame
two-camera residual for each later stereo observation. -/
theorem observationResidualsFrom_zero_count (cfg : Config) (imu_i : Int) (main_cam : Nat)
    (first : FeaturePerFrame) (feature_index : Nat) (rest : List FeaturePerFrame) :
    (observationResidualsFrom cfg imu_i main_cam first feature_index 0
        (first :: rest)).countP (fun rb => rb.cost_function.isTwoFrameOneCam) =
      rest.length ∧
    (observationResidualsFrom cfg imu_i main_cam first feature_index 0
        (first :: rest)).countP (fun rb => rb.cost_function.isTwoFrameTwoCam) =
      (if cfg.STEREO = true then rest.countP (fun o => o.is_stereo) else 0) ∧
    (observationResidualsFrom cfg imu_i main_cam first feature_index 0
        (first :: rest)).countP (fun rb => rb.cost_function.isOneFrameTwoCam) =
      (if cfg.STEREO = true ∧ first.is_stereo = true then 1 else 0) := by
  obtain ⟨h1, h2, h3⟩ := observationResidualsFrom_count cfg imu_i main_cam first
    feature_index rest 1 (by decide)
  simp only [observationResidualsFrom, List.countP_append, Nat.zero_add, h1, h2, h3]
  unfold observationResiduals
  by_cases hs : cfg.STEREO = true ∧ first.is_stereo = true
  · simp [hs.1, hs.2, Factor.isTwoFrameOneCam, Factor.isTwoFrameTwoCam,
      Factor.isOneFrameTwoCam]
  · simp only [hs, if_false]
    simp [Factor.isTwoFrameOneCam, Factor.isTwoFrameTwoCam, Factor.isOneFrameTwoCam]

/-- C21: on a window whose pre-integrations exist and whose feature ids name observed
features, `optimization` builds its problem, and the residual blocks of the problem are
the prior, the IMU factors and, for the features of `param_feature_id` in order, the
reprojection residuals of `featureResiduals`.  For a feature with observations
`first :: rest` anchored at slot `i` these are, observation by observation: one
two-frame one-camera residual for each observation at a slot `j ≠ i` (`rest.length` in
total, on the blocks pose `i`, pose `j`, extrinsic of `main_cam`, inverse depth, td),
and with `STEREO` one further residual for each stereo observation, one-frame
two-camera at the anchor slot and two-frame two-camera elsewhere; with `STEREO` off
there is no two-camera residual. -/
theorem optimization_reprojection_structure (ext : Externals) (cfg : Config) (s : Estimator)
    (hpre : PreIntegrationsPresent cfg s)
    (hobs : ObservedIn s.f_manager.feature s.param_feature_id) :
    ∃ s1 p, optimizationProblem ext cfg s = some (s1, p) ∧
      p.residual_blocks = priorResidual s ++ imuResiduals cfg s ++
        s.param_feature_id.flatMap (featureResiduals cfg s) ∧
      ∀ id ∈ s.param_feature_id, ∃ f first rest,
        s.f_manager.feature.lookup id = some f ∧ f.feature_per_frame = first :: rest ∧
        featureResiduals cfg s id =
          observationResidualsFrom cfg f.start_frame f.main_cam first
            (featureIndex s f.feature_id) 0 (first :: rest) ∧
        (featureResiduals cfg s id).countP (fun rb => rb.cost_function.isTwoFrameOneCam) =
          rest.length ∧
        (featureResiduals cfg s id).countP (fun rb => rb.cost_function.isTwoFrameTwoCam) =
          (if cfg.STEREO = true then rest.countP (fun o => o.is_stereo) else 0) ∧
        (featureResiduals cfg s id).countP (fun rb => rb.cost_function.isOneFrameTwoCam) =
          (if cfg.STEREO = true ∧ first.is_stereo = true then 1 else 0) := by
  obtain ⟨s1, p, hprob, hres⟩ := optimizationProblem_residuals ext cfg s hpre hobs
  refine ⟨s1, p, hprob, hres, ?_⟩
  intro id hid
  obtain ⟨f, hl, hne⟩ := hobs id hid
  cases hfp : f.feature_per_frame with
  | nil => exact absurd hfp hne
  | cons first rest =>
    have hfr : featureResiduals cfg s id =
        observationResidualsFrom cfg f.start_frame f.main_cam first
          (featureIndex s f.feature_id) 0 (first :: rest) := by
      simp only [featureResiduals, hl, hfp]
    obtain ⟨h1, h2, h3⟩ := observationResidualsFrom_zero_count cfg f.start_frame f.main_cam
      first (featureIndex s f.feature_id) rest
    exact ⟨f, first, rest, hl, hfp, hfr, by rw [hfr]; exact h1, by rw [hfr]; exact h2,
      by rw [hfr]; exact h3⟩

/-- Witness of C21 on `demoStereoWindow 0` (stereo on, one feature seen in stereo at
slots 0 and 1 and in the main camera at slot 2): the problem is built, and the feature
contributes a one-frame two-camera residual for slot 0, a two-frame one-camera and a
two-frame two-camera residual for slot 1 and a two-frame one-camera residual for
slot 2. -/
theorem optimization_reprojection_structure_witness :
    PreIntegrationsPresent demoConfig (demoStereoWindow 0) ∧
    ObservedIn (demoStereoWindow 0).f_manager.feature (demoStereoWindow 0).param_feature_id ∧
    (featureResiduals demoConfig (demoStereoWindow 0) 5).map
        (fun rb => rb.parameter_blocks) =
      [[BlockId.para_Ex_Pose 0, BlockId.para_Ex_Pose 1, BlockId.para_Feature 0,
        BlockId.para_Td 0],
       [BlockId.para_Pose 0, BlockId.para_Pose 1, BlockId.para_Ex_Pose 0,
        BlockId.para_Feature 0, BlockId.para_Td 0],
       [BlockId.para_Pose 0, BlockId.para_Pose 1, BlockId.para_Ex_Pose 0,
        BlockId.para_Ex_Pose 1, BlockId.para_Feature 0, BlockId.para_Td 0],
       [BlockId.para_Pose 0, BlockId.para_Pose 2, BlockId.para_Ex_Pose 0,
        BlockId.para_Feature 0, BlockId.para_Td 0]] ∧
    ∃ s1 p, optimizationProblem demoExternals demoConfig (demoStereoWindow 0) =
        some (s1, p) ∧
      p.residual_blocks = priorResidual (demoStereoWindow 0) ++
        imuResiduals demoConfig (demoStereoWindow 0) ++
        featureResiduals demoConfig (demoStereoWindow 0) 5 := by
  have hpre : PreIntegrationsPresent demoConfig (demoStereoWindow 0) := by
    intro _ j _ _
    simp [demoStereoWindow]
  have hobs : ObservedIn (demoStereoWindow 0).f_manager.feature
      (demoStereoWindow 0).param_feature_id := by
    intro id hid
    have h : id = 5 := by simpa [demoStereoWindow] using hid
    subst h
    exact ⟨_, rfl, by simp [stereoFeature]⟩
  obtain ⟨s1, p, hprob, hres, _⟩ :=
    optimization_reprojection_structure demoExternals demoConfig (demoStereoWindow 0)
      hpre hobs
  refine ⟨hpre, hobs, by decide, s1, p, hprob, ?_⟩
  rw [hres]
  simp [demoStereoWindow]

/-! ## `optimization`: the MARGIN_OLD submodel against the problem -/

/-- Equal control members give an equal phase. -/
theorem phase_of_control {s s1 : Estimator} (h : s1.control = s.control) :
    s1.phase = s.phase :=
  congrArg (fun c : WindowControl => (c.frame_count, c.solver_flag)) h

/-- Equal mode members give an equal phase. -/
theorem phase_of_mode {s s1 : Estimator} (h : s1.mode = s.mode) : s1.phase = s.phase :=
  congrArg (fun m : Nat × SolverFlag × MarginalizationFlag => (m.1, m.2.1)) h

/-- A returning `optimization` call leaves `frame_count` and `solver_flag` alone. -/
theorem optimization_phase (ext : Externals) (cfg : Config) (s s1 : Estimator)
    (h : optimization ext cfg s = some s1) : s1.phase = s.phase := by
  unfold optimization at h
  cases hsolved : optimizationSolved ext cfg s with
  | none => simp [hsolved] at h
  | some r =>
    obtain ⟨s4, p⟩ := r
    simp only [hsolved] at h
    have h4 : s4.phase = s.phase :=
      phase_of_control (optimizationSolved_control ext cfg s s4 p hsolved)
    have hv : (vector2double ext cfg s4).phase = s4.phase :=
      phase_of_control (vector2double_control ext cfg s4)
    by_cases hlt : s4.frame_count < cfg.WINDOW_SIZE
    · rw [if_pos hlt] at h
      rw [← Option.some.inj h]
      exact h4
    · rw [if_neg hlt] at h
      by_cases hflag : s4.marginalization_flag = MarginalizationFlag.MARGIN_OLD
      · rw [if_pos hflag] at h
        unfold marginalizeOld at h
        simp only [] at h
        cases hm : margOldResidualBlocks cfg (vector2double ext cfg s4) with
        | none => simp [hm] at h
        | some r2 =>
          obtain ⟨s5, infos⟩ := r2
          simp only [hm, Option.some.injEq] at h
          obtain ⟨⟨idx, hs5⟩, _⟩ := margOldResidualBlocks_frame cfg _ s5 infos hm
          rw [← h, hs5]
          exact hv.trans h4
      · rw [if_neg hflag] at h
        unfold marginalizeSecondNew at h
        by_cases hruns : margSecondNewRuns cfg s4
        · rw [if_pos hruns] at h
          simp only [] at h
          cases hm : margSecondNewResidualBlocks cfg (vector2double ext cfg s4) with
          | none => simp [hm] at h
          | some infos =>
            simp only [hm, Option.some.injEq] at h
            rw [← h]
            exact hv.trans h4
        · rw [if_neg hruns] at h
          rw [← Option.some.inj h]
          exact h4

/-- A returning `outliersRejection` leaves `frame_count` and `solver_flag` alone. -/
theorem outliersRejection_phase (ext : Externals) (cfg : Config) (s s1 : Estimator)
    (rI rI1 : Finset Int) (h : outliersRejection ext cfg s rI = some (s1, rI1)) :
    s1.phase = s.phase := by
  have key := foldlM_preserves
    (fun (a b : Estimator × Finset Int) => b.1.phase = a.1.phase)
    (outliersRejectionFeature ext cfg) (fun _ => rfl) (fun _ _ _ h1 h2 => h2.trans h1)
    (fun b a b1 hb => by
      unfold outliersRejectionFeature at hb
      simp only [] at hb
      split at hb
      · exact Option.noConfusion hb
      · split at hb
        · exact Option.noConfusion hb
        · split_ifs at hb <;>
          · rw [← Option.some.inj hb]
            rfl)
  exact key _ _ _ h

/-- The loop of `updateLatestStates` leaves `frame_count` and `solver_flag` alone. -/
theorem updateLatestStatesLoop_phase (ext : Externals) :
    ∀ (acc gyr : List Stamped) (s s1 : Estimator),
      updateLatestStatesLoop ext acc gyr s = some s1 → s1.phase = s.phase := by
  intro acc
  induction acc with
  | nil =>
    intro gyr s s1 h
    simp only [updateLatestStatesLoop, Option.some.injEq] at h
    rw [h]
  | cons a acc ih =>
    intro gyr s s1 h
    cases gyr with
    | nil => simp [updateLatestStatesLoop] at h
    | cons g gyr =>
      obtain ⟨t, av⟩ := a
      obtain ⟨t2, gv⟩ := g
      simp only [updateLatestStatesLoop] at h
      have h1 := ih gyr _ s1 h
      rw [h1]
      unfold fastPredictIMU
      split_ifs <;> rfl

/-- A returning `updateLatestStates` leaves `frame_count` and `solver_flag` alone. -/
theorem updateLatestStates_phase (ext : Externals) (s s1 : Estimator)
    (h : updateLatestStates ext s = some s1) : s1.phase = s.phase := by
  unfold updateLatestStates at h
  simp only [] at h
  split at h
  · exact Option.noConfusion h
  · exact (updateLatestStatesLoop_phase ext _ _ _ s1 h).trans rfl

/-- The function `failureDetection` returns false, so the `NON_LINEAR` branch of
`processImage` never resets the estimator: a returning call leaves `frame_count` and
`solver_flag` alone. -/
theorem processImageNonLinear_phase (ext : Externals) (cfg : Config) (s s1 : Estimator)
    (header : ℚ) (h : processImageNonLinear ext cfg s header = some s1) :
    s1.phase = s.phase := by
  unfold processImageNonLinear at h
  simp only [] at h
  split at h
  · exact Option.noConfusion h
  · rename_i s2 ho
    split at h
    · exact Option.noConfusion h
    · rename_i s3 removeIndex hout
      simp only [failureDetection, Bool.false_eq_true, if_false] at h
      have h1 := updateLatestStates_phase ext _ s1 h
      have h2 := outliersRejection_phase ext cfg s2 s3 ∅ removeIndex hout
      have h3 := optimization_phase ext cfg _ s2 ho
      have h4 : (predictPtsInNextFrame ext
          { s3 with f_manager := ext.fmRemoveOutlier s3.f_manager removeIndex }).phase =
          s3.phase := by
        unfold predictPtsInNextFrame
        split_ifs <;> rfl
      have h5 := phase_of_mode (slideWindow_mode ext cfg (predictPtsInNextFrame ext
          { s3 with f_manager := ext.fmRemoveOutlier s3.f_manager removeIndex }))
      have h6 : (if cfg.USE_IMU = true then s else initFramePoseByPnP ext s).phase =
          s.phase := by
        split_ifs <;> rfl
      exact h1.trans (h5.trans (h4.trans (h2.trans (h3.trans h6))))

/-- A returning `processImage` call entered with `solver_flag == NON_LINEAR` leaves
`frame_count` and `solver_flag` alone. -/
theorem processImage_nonlinear (ext : Externals) (cfg : Config) (s s1 : Estimator)
    (image : FeatureFrame) (header : ℚ)
    (h : processImage ext cfg s image header = some s1)
    (hflag : s.solver_flag = SolverFlag.NON_LINEAR) : s1.phase = s.phase := by
  unfold processImage at h
  cases hh : processImageHead ext s image header with
  | none =>
    rw [hh] at h
    exact Option.noConfusion h
  | some t1 =>
    rw [hh] at h
    simp only [] at h
    have hp1 : t1.phase = s.phase :=
      congrArg (fun m : Nat × SolverFlag × MarginalizationFlag => (m.1, m.2.1))
        (processImageHead_mode ext s t1 image header hh)
    have hf1 : ¬ t1.solver_flag = SolverFlag.INITIAL := by
      have e : t1.solver_flag = s.solver_flag := congrArg Prod.snd hp1
      rw [e, hflag]
      exact SolverFlag.noConfusion
    rw [if_neg hf1] at h
    exact (processImageNonLinear_phase ext cfg t1 s1 header h).trans hp1

/-- The function `setParameter` leaves `solver_flag` alone. -/
theorem setParameter_solver_flag (ext : Externals) (cfg : Config) (s : Estimator) :
    (setParameter ext cfg s).solver_flag = s.solver_flag := by
  unfold setParameter
  exact foldl_preserves Estimator.solver_flag
    (fun (s : Estimator) i =>
      { s with tic := setAt s.tic i (s.TIC i), ric := setAt s.ric i (s.RIC i) })
    (fun _ _ => rfl) (List.range cfg.NUM_OF_CAM) s

/-- C24: `failureDetection` returns false for every estimator, so a `processImage` call
entered with `solver_flag == NON_LINEAR` that returns has not taken the reset path
(the state it leaves is not one that `clearState` and `setParameter` leave) and leaves
`solver_flag` at `NON_LINEAR` and `frame_count` as it was; hence `solver_flag` stays
`NON_LINEAR` over any sequence of returning `processImage` calls. -/
theorem failureDetection_never_resets (ext : Externals) (cfg : Config) :
    (∀ s : Estimator, failureDetection s = false) ∧
    (∀ (s s1 : Estimator) (image : FeatureFrame) (header : ℚ),
      processImage ext cfg s image header = some s1 →
      s.solver_flag = SolverFlag.NON_LINEAR →
      s1.solver_flag = SolverFlag.NON_LINEAR ∧ s1.frame_count = s.frame_count ∧
      ∀ t, s1 ≠ setParameter ext cfg (clearState ext cfg t)) ∧
    (∀ (calls : List (FeatureFrame × ℚ)) (s s1 : Estimator),
      processImages ext cfg s calls = some s1 →
      s.solver_flag = SolverFlag.NON_LINEAR → s1.solver_flag = SolverFlag.NON_LINEAR) := by
  have hstep : ∀ (s s1 : Estimator) (image : FeatureFrame) (header : ℚ),
      processImage ext cfg s image header = some s1 →
      s.solver_flag = SolverFlag.NON_LINEAR →
      s1.solver_flag = SolverFlag.NON_LINEAR ∧ s1.frame_count = s.frame_count := by
    intro s s1 image header h hflag
    have hp := processImage_nonlinear ext cfg s s1 image header h hflag
    exact ⟨(congrArg Prod.snd hp).trans hflag, congrArg Prod.fst hp⟩
  refine ⟨fun _ => rfl, ?_, ?_⟩
  · intro s s1 image header h hflag
    obtain ⟨h1, h2⟩ := hstep s s1 image header h hflag
    refine ⟨h1, h2, ?_⟩
    intro t ht
    rw [ht, setParameter_solver_flag] at h1
    exact SolverFlag.noConfusion h1
  · intro calls
    induction calls with
    | nil =>
      intro s s1 h hflag
      simp only [processImages, List.foldlM_nil, Option.pure_def, Option.some.injEq] at h
      rw [← h]
      exact hflag
    | cons c rest ih =>
      intro s s1 h hflag
      simp only [processImages, List.foldlM_cons, Option.bind_eq_bind] at h
      cases hc : processImage ext cfg s c.1 c.2 with
      | none =>
        rw [hc] at h
        exact Option.noConfusion h
      | some s2 =>
        rw [hc] at h
        exact ih s2 s1 h (hstep s s2 c.1 c.2 hc hflag).1

/-- Witness of C24 on `demoNonLinear`: the call returns, and leaves
`solver_flag = NON_LINEAR` and `frame_count = 2`. -/
theorem failureDetection_never_resets_witness :
    demoNonLinear.solver_flag = SolverFlag.NON_LINEAR ∧
    ∃ s1, processImage demoExternals demoConfig demoNonLinear [] 3 = some s1 ∧
      s1.solver_flag = SolverFlag.NON_LINEAR ∧ s1.frame_count = demoNonLinear.frame_count := by
  have hd : (processImage demoExternals demoConfig demoNonLinear [] 3).map Estimator.phase =
      some (2, SolverFlag.NON_LINEAR) := by decide!
  cases h : processImage demoExternals demoConfig demoNonLinear [] 3 with
  | none =>
    rw [h] at hd
    exact Option.noConfusion hd
  | some s1 =>
    have hs := (failureDetection_never_resets demoExternals demoConfig).2.1
      demoNonLinear s1 [] 3 h rfl
    exact ⟨rfl, s1, rfl, hs.1, hs.2.1⟩

theorem latchKept_refl (a : Estimator) : LatchKept a a := fun h => h

theorem latchKept_trans {a b c : Estimator} (h1 : LatchKept a b) (h2 : LatchKept b c) :
    LatchKept a c := fun h => h2 (h1 h)

theorem latchKept_of_eq {a b : Estimator} (h : b.openExEstimation = a.openExEstimation) :
    LatchKept a b := fun ha => h.trans ha

/-- The conversion `vector2double` leaves `openExEstimation` alone. -/
theorem vector2double_latch (ext : Externals) (cfg : Config) (s : Estimator) :
    (vector2double ext cfg s).openExEstimation = s.openExEstimation := by
  obtain ⟨pf, idx, ids, h⟩ := vector2double_eq ext cfg s
  rw [h]

/-- The conversion `double2vector` leaves `openExEstimation` alone. -/
theorem double2vector_latch (ext : Externals) (cfg : Config) (s : Estimator) :
    (double2vector ext cfg s).openExEstimation = s.openExEstimation := by
  unfold double2vector
  simp only []
  split_ifs <;>
    first
    | exact (foldl_preserves Estimator.openExEstimation (double2vectorCam ext)
        (fun _ _ => rfl) _ _).trans
        ((foldl_preserves Estimator.openExEstimation (double2vectorSlot ext _ _)
          (fun _ _ => rfl) _ _).trans rfl)
    | exact (foldl_preserves Estimator.openExEstimation (double2vectorSlotVisual ext)
        (fun _ _ => rfl) _ _).trans rfl

/-- A returning iteration of the feature loop of `optimization` leaves
`openExEstimation` alone. -/
theorem optimizationFeature_latch (cfg : Config) (st st1 : Estimator × Problem) (id : Int)
    (h : optimizationFeature cfg st id = some st1) :
    st1.1.openExEstimation = st.1.openExEstimation := by
  unfold optimizationFeature at h
  cases hl : st.1.f_manager.feature.lookup id with
  | none => simp [hl] at h
  | some f =>
    cases hfp : f.feature_per_frame with
    | nil => simp [hl, hfp] at h
    | cons first more =>
      simp only [hl, hfp, Option.some.injEq] at h
      rw [← h]

/-- The camera loop of `optimization` never clears the latch. -/
theorem openExEstimationAfter_of_set (ext : Externals) (cfg : Config) (s : Estimator)
    (h : s.openExEstimation = true) : openExEstimationAfter ext cfg s = true := by
  unfold openExEstimationAfter
  split_ifs
  · rfl
  · exact h

/-- A returning construction of the problem leaves `openExEstimation` at the value the
camera loop gave it, which is set if it was set before. -/
theorem optimizationProblem_latch (ext : Externals) (cfg : Config) (s s1 : Estimator)
    (p : Problem) (h : optimizationProblem ext cfg s = some (s1, p)) :
    s1.openExEstimation = openExEstimationAfter ext cfg s ∧ LatchKept s s1 := by
  have h1 : s1.openExEstimation = openExEstimationAfter ext cfg s := by
    unfold optimizationProblem at h
    simp only [] at h
    split at h
    · exact Option.noConfusion h
    · have key := foldlM_preserves
        (fun (a b : Estimator × Problem) => b.1.openExEstimation = a.1.openExEstimation)
        (optimizationFeature cfg) (fun _ => rfl)
        (fun a b c (h1 : b.1.openExEstimation = a.1.openExEstimation)
          (h2 : c.1.openExEstimation = b.1.openExEstimation) => h2.trans h1)
        (fun b a b1 hb => optimizationFeature_latch cfg b b1 a hb)
      have h2 := key _ _ _ h
      rw [optimizationBlocks_eq] at h2
      exact h2
  exact ⟨h1, fun hs => h1.trans (openExEstimationAfter_of_set ext cfg s hs)⟩

/-- A returning first part of `optimization` does not clear the latch. -/
theorem optimizationSolved_latch (ext : Externals) (cfg : Config) (s s4 : Estimator)
    (p : Problem) (h : optimizationSolved ext cfg s = some (s4, p)) : LatchKept s s4 := by
  unfold optimizationSolved at h
  simp only [] at h
  split at h
  · exact Option.noConfusion h
  · rename_i s2 problem hp
    simp only [Option.some.injEq, Prod.mk.injEq] at h
    have h2 := (optimizationProblem_latch ext cfg _ s2 problem hp).2
    have h1 : LatchKept s (vector2double ext cfg s) :=
      latchKept_of_eq (vector2double_latch ext cfg s)
    have h3 : LatchKept s2 s4 := by
      rw [← h.1]
      exact latchKept_of_eq ((double2vector_latch ext cfg _).trans rfl)
    exact latchKept_trans h1 (latchKept_trans h2 h3)

/-- A returning `optimization` call does not clear the latch. -/
theorem optimization_latch (ext : Externals) (cfg : Config) (s s1 : Estimator)
    (h : optimization ext cfg s = some s1) : LatchKept s s1 := by
  unfold optimization at h
  cases hsolved : optimizationSolved ext cfg s with
  | none => simp [hsolved] at h
  | some r =>
    obtain ⟨s4, p⟩ := r
    simp only [hsolved] at h
    have h4 : LatchKept s s4 := optimizationSolved_latch ext cfg s s4 p hsolved
    have hv : (vector2double ext cfg s4).openExEstimation = s4.openExEstimation :=
      vector2double_latch ext cfg s4
    by_cases hlt : s4.frame_count < cfg.WINDOW_SIZE
    · rw [if_pos hlt] at h
      rw [← Option.some.inj h]
      exact h4
    · rw [if_neg hlt] at h
      by_cases hflag : s4.marginalization_flag = MarginalizationFlag.MARGIN_OLD
      · rw [if_pos hflag] at h
        unfold marginalizeOld at h
        simp only [] at h
        cases hm : margOldResidualBlocks cfg (vector2double ext cfg s4) with
        | none => simp [hm] at h
        | some r2 =>
          obtain ⟨s5, infos⟩ := r2
          simp only [hm, Option.some.injEq] at h
          obtain ⟨⟨idx, hs5⟩, _⟩ := margOldResidualBlocks_frame cfg _ s5 infos hm
          refine latchKept_trans h4 (latchKept_of_eq ?_)
          rw [← h, hs5]
          exact hv
      · rw [if_neg hflag] at h
        unfold marginalizeSecondNew at h
        by_cases hruns : margSecondNewRuns cfg s4
        · rw [if_pos hruns] at h
          simp only [] at h
          cases hm : margSecondNewResidualBlocks cfg (vector2double ext cfg s4) with
          | none => simp [hm] at h
          | some infos =>
            simp only [hm, Option.some.injEq] at h
            refine latchKept_trans h4 (latchKept_of_eq ?_)
            rw [← h]
            exact hv
        · rw [if_neg hruns] at h
          rw [← Option.some.inj h]
          exact h4

/-- The function `slideWindow` leaves `openExEstimation` alone. -/
theorem slideWindow_latch (ext : Externals) (cfg : Config) (s : Estimator) :
    (slideWindow ext cfg s).openExEstimation = s.openExEstimation := by
  unfold slideWindow
  cases hflag : s.marginalization_flag
  · simp only []
    by_cases hfull : s.frame_count = cfg.WINDOW_SIZE
    · rw [if_pos hfull]
      unfold slideWindowOld
      simp only []
      have hstep : ∀ (b : Estimator) (a : Nat),
          (slideWindowShiftStep cfg b a).openExEstimation = b.openExEstimation := by
        intro b a
        unfold slideWindowShiftStep
        split_ifs
        all_goals rfl
      by_cases hu : cfg.USE_IMU = true <;> split_ifs <;>
        exact (foldl_preserves Estimator.openExEstimation (slideWindowShiftStep cfg)
          hstep _ _).trans rfl
    · rw [if_neg hfull]
  · simp only []
    by_cases hfull : s.frame_count = cfg.WINDOW_SIZE
    · rw [if_pos hfull]
      by_cases hu : cfg.USE_IMU = true
      · simp only [hu, if_true]
        exact (foldl_preserves Estimator.openExEstimation slideWindowMergeStep
          (fun _ _ => rfl) _ _).trans rfl
      · simp only [hu, Bool.false_eq_true, if_false]
        rfl
    · rw [if_neg hfull]

/-- The last part of `visualInitialAlign` leaves `openExEstimation` alone. -/
theorem visualInitialAlignTail_latch (ext : Externals) (x : List ℚ) (s3 : Estimator) :
    (visualInitialAlignTail ext x s3).openExEstimation = s3.openExEstimation := by
  obtain ⟨Ps4, h4, _⟩ := visualInitialAlignScale_loop (x.getLastD 0) s3.frame_count s3
  unfold visualInitialAlignTail
  simp only []
  rw [h4]
  obtain ⟨Vs5, h5⟩ := visualInitialAlignVelocity_loop x s3.all_image_frame
    (-1, { s3 with Ps := Ps4 })
  simp only [] at h5 ⊢
  rw [h5]
  simp only []
  obtain ⟨Ps7, Rs7, Vs7, h7, _⟩ := visualInitialAlignRotate_loop
    (ext.ypr2R ⟨-(ext.R2ypr (ext.g2R s3.g * s3.Rs 0)).x, 0, 0⟩ * ext.g2R s3.g)
    ({ s3 with Ps := Ps4, Vs := Vs5,
               g := ext.ypr2R ⟨-(ext.R2ypr (ext.g2R s3.g * s3.Rs 0)).x, 0, 0⟩ * ext.g2R s3.g *
                 s3.g } : Estimator)
    (s3.frame_count + 1)
  simp only [] at h7
  rw [h7]

/-- A returning `visualInitialAlign` leaves `openExEstimation` alone. -/
theorem visualInitialAlign_latch (ext : Externals) (cfg : Config) (s s1 : Estimator)
    (b : Bool) (h : visualInitialAlign ext cfg s = some (b, s1)) :
    s1.openExEstimation = s.openExEstimation := by
  rw [visualInitialAlign_eq_tail] at h
  by_cases hres : (s.alignment ext).result = false
  · rw [if_pos hres] at h
    rw [← (Prod.mk.inj (Option.some.inj h)).2]
  · rw [if_neg hres] at h
    split at h
    · exact Option.noConfusion h
    · rename_i s2 h2
      split at h
      · exact Option.noConfusion h
      · rename_i s3 h3
        rw [← (Prod.mk.inj (Option.some.inj h)).2, visualInitialAlignTail_latch]
        have k2 := foldlM_preserves
          (fun (a b : Estimator) => b.openExEstimation = a.openExEstimation)
          visualInitialAlignSlot (fun _ => rfl) (fun _ _ _ h1 h2 => h2.trans h1)
          (fun b a b1 hb => by
            unfold visualInitialAlignSlot at hb
            split at hb
            · exact Option.noConfusion hb
            · rw [← Option.some.inj hb])
        have k3 := foldlM_preserves
          (fun (a b : Estimator) => b.openExEstimation = a.openExEstimation)
          repropagateSlot (fun _ => rfl) (fun _ _ _ h1 h2 => h2.trans h1)
          (fun b a b1 hb => by
            unfold repropagateSlot at hb
            split at hb
            · exact Option.noConfusion hb
            · rw [← Option.some.inj hb])
        exact (k3 _ _ _ h3).trans ((k2 _ _ _ h2).trans rfl)

/-- A returning `initialStructure` leaves `openExEstimation` alone. -/
theorem initialStructure_latch (ext : Externals) (cfg : Config) (s s2 : Estimator)
    (outcome : InitialStructureOutcome)
    (h : initialStructure ext cfg s = some (outcome, s2)) :
    s2.openExEstimation = s.openExEstimation := by
  unfold initialStructure at h
  split at h
  · exact Option.noConfusion h
  · split at h
    · simp only [] at h
      split at h
      · rw [← (Prod.mk.inj (Option.some.inj h)).2]
      · split at h
        · rw [← (Prod.mk.inj (Option.some.inj h)).2]
        · split at h
          · rw [← (Prod.mk.inj (Option.some.inj h)).2]
          · split at h
            · exact Option.noConfusion h
            · rename_i s3 hvia
              rw [← (Prod.mk.inj (Option.some.inj h)).2]
              exact (visualInitialAlign_latch ext cfg _ s3 true hvia).trans rfl
            · rename_i s3 hvia
              rw [← (Prod.mk.inj (Option.some.inj h)).2]
              exact (visualInitialAlign_latch ext cfg _ s3 false hvia).trans rfl
    · exact Option.noConfusion h

/-- A returning `outliersRejection` leaves `openExEstimation` alone. -/
theorem outliersRejection_latch (ext : Externals) (cfg : Config) (s s1 : Estimator)
    (rI rI1 : Finset Int) (h : outliersRejection ext cfg s rI = some (s1, rI1)) :
    s1.openExEstimation = s.openExEstimation := by
  have key := foldlM_preserves
    (fun (a b : Estimator × Finset Int) => b.1.openExEstimation = a.1.openExEstimation)
    (outliersRejectionFeature ext cfg) (fun _ => rfl) (fun _ _ _ h1 h2 => h2.trans h1)
    (fun b a b1 hb => by
      unfold outliersRejectionFeature at hb
      simp only [] at hb
      split at hb
      · exact Option.noConfusion hb
      · split at hb
        · exact Option.noConfusion hb
        · split_ifs at hb <;>
          · rw [← Option.some.inj hb])
  exact key _ _ _ h

/-- The loop of `updateLatestStates` leaves `openExEstimation` alone. -/
theorem updateLatestStatesLoop_latch (ext : Externals) :
    ∀ (acc gyr : List Stamped) (s s1 : Estimator),
      updateLatestStatesLoop ext acc gyr s = some s1 →
      s1.openExEstimation = s.openExEstimation := by
  intro acc
  induction acc with
  | nil =>
    intro gyr s s1 h
    simp only [updateLatestStatesLoop, Option.some.injEq] at h
    rw [h]
  | cons a acc ih =>
    intro gyr s s1 h
    cases gyr with
    | nil => simp [updateLatestStatesLoop] at h
    | cons g gyr =>
      obtain ⟨t, av⟩ := a
      obtain ⟨t2, gv⟩ := g
      simp only [updateLatestStatesLoop] at h
      have h1 := ih gyr _ s1 h
      rw [h1]
      unfold fastPredictIMU
      split_ifs <;> rfl

/-- A returning `updateLatestStates` leaves `openExEstimation` alone. -/
theorem updateLatestStates_latch (ext : Externals) (s s1 : Estimator)
    (h : updateLatestStates ext s = some s1) :
    s1.openExEstimation = s.openExEstimation := by
  unfold updateLatestStates at h
  simp only [] at h
  split at h
  · exact Option.noConfusion h
  · exact (updateLatestStatesLoop_latch ext _ _ _ s1 h).trans rfl

/-- The head of `processImage` leaves `openExEstimation` alone. -/
theorem processImageHead_latch (ext : Externals) (s s1 : Estimator) (image : FeatureFrame)
    (header : ℚ) (h : processImageHead ext s image header = some s1) :
    s1.openExEstimation = s.openExEstimation := by
  unfold processImageHead at h
  simp only [] at h
  have key : ∀ t : Estimator, t.openExEstimation = s.openExEstimation → some t = some s1 →
      s1.openExEstimation = s.openExEstimation :=
    fun t ht he => (Option.some.inj he) ▸ ht
  by_cases h2 : s.ESTIMATE_EXTRINSIC = 2
  · rw [if_pos h2] at h
    by_cases h0 : s.frame_count ≠ 0
    · rw [if_pos h0] at h
      split at h
      · exact Option.noConfusion h
      · split at h
        · exact key _ (by rfl) h
        · exact key _ (by rfl) h
    · rw [if_neg h0] at h
      exact key _ (by rfl) h
  · rw [if_neg h2] at h
    exact key _ (by rfl) h

/-- The functions `clearState` and `setParameter` leave `openExEstimation` alone: the
member is cleared in the constructor only. -/
theorem clearState_latch (ext : Externals) (cfg : Config) (s : Estimator) :
    (clearState ext cfg s).openExEstimation = s.openExEstimation ∧
    (setParameter ext cfg s).openExEstimation = s.openExEstimation := by
  constructor
  · unfold clearState
    exact (foldl_preserves Estimator.openExEstimation clearStateCam (fun _ _ => rfl) _ _).trans
      (foldl_preserves Estimator.openExEstimation clearStateSlot (fun _ _ => rfl) _ _)
  · unfold setParameter
    exact foldl_preserves Estimator.openExEstimation
      (fun (s : Estimator) i =>
        { s with tic := setAt s.tic i (s.TIC i), ric := setAt s.ric i (s.RIC i) })
      (fun _ _ => rfl) (List.range cfg.NUM_OF_CAM) s

/-- The input functions and `getIMUInterval` leave `openExEstimation` alone. -/
theorem input_latch (ext : Externals) (cfg : Config) (s : Estimator) :
    (∀ t acc gyr, (inputIMU ext s t acc gyr).openExEstimation = s.openExEstimation) ∧
    (∀ t img img1 ff, (inputImage s t img img1 ff).openExEstimation = s.openExEstimation) ∧
    (∀ t up down ff,
      (inputFisheyeImage cfg s t up down ff).openExEstimation = s.openExEstimation) ∧
    (∀ t0 t1 accVector gyrVector r, getIMUInterval s t0 t1 accVector gyrVector = some r →
      r.est.openExEstimation = s.openExEstimation) := by
  refine ⟨?_, ?_, ?_, ?_⟩
  · intro t acc gyr
    unfold inputIMU fastPredictIMU
    simp only []
    split_ifs <;> rfl
  · intro t img img1 ff
    unfold inputImage
    simp only []
    split_ifs <;> rfl
  · intro t up down ff
    unfold inputFisheyeImage
    simp only []
    split_ifs <;> rfl
  · intro t0 t1 accVector gyrVector r h
    simp only [getIMUInterval, Option.map_eq_some'] at h
    obtain ⟨q, _, rfl⟩ := h
    rfl

/-- The branches of `optimization` that marginalize leave `openExEstimation` alone. -/
theorem marginalize_latch (ext : Externals) (cfg : Config) (s s1 : Estimator) :
    (marginalizeOld ext cfg s = some s1 → s1.openExEstimation = s.openExEstimation) ∧
    (marginalizeSecondNew ext cfg s = some s1 →
      s1.openExEstimation = s.openExEstimation) := by
  have hv : (vector2double ext cfg s).openExEstimation = s.openExEstimation :=
    vector2double_latch ext cfg s
  constructor
  · intro h
    unfold marginalizeOld at h
    simp only [] at h
    cases hm : margOldResidualBlocks cfg (vector2double ext cfg s) with
    | none => simp [hm] at h
    | some r2 =>
      obtain ⟨s5, infos⟩ := r2
      simp only [hm, Option.some.injEq] at h
      obtain ⟨⟨idx, hs5⟩, _⟩ := margOldResidualBlocks_frame cfg _ s5 infos hm
      rw [← h, hs5]
      exact hv
  · intro h
    unfold marginalizeSecondNew at h
    by_cases hruns : margSecondNewRuns cfg s
    · rw [if_pos hruns] at h
      simp only [] at h
      cases hm : margSecondNewResidualBlocks cfg (vector2double ext cfg s) with
      | none => simp [hm] at h
      | some infos =>
        simp only [hm, Option.some.injEq] at h
        rw [← h]
        exact hv
    · rw [if_neg hruns] at h
      rw [← Option.some.inj h]

/-- A returning `optimization` followed by the slide does not clear the latch. -/
theorem optimization_slide_latch (ext : Externals) (cfg : Config) (s s1 : Estimator)
    (h : (optimization ext cfg s).map (slideWindow ext cfg) = some s1) : LatchKept s s1 := by
  cases ho : optimization ext cfg s with
  | none =>
    rw [ho] at h
    exact Option.noConfusion h
  | some s2 =>
    rw [ho] at h
    rw [← Option.some.inj h]
    exact latchKept_trans (optimization_latch ext cfg s s2 ho)
      (latchKept_of_eq (slideWindow_latch ext cfg s2))

/-- A returning monocular initialization block does not clear the latch. -/
theorem processImageMonoInit_latch (ext : Externals) (cfg : Config) (s s1 : Estimator)
    (header : ℚ) (h : processImageMonoInit ext cfg s header = some s1) :
    LatchKept s s1 := by
  unfold processImageMonoInit at h
  by_cases hm : cfg.STEREO = false ∧ cfg.USE_IMU = true
  · rw [if_pos hm] at h
    by_cases hfull : s.frame_count = cfg.WINDOW_SIZE
    · rw [if_pos hfull] at h
      by_cases ha : s.ESTIMATE_EXTRINSIC ≠ 2 ∧ header - s.initial_timestamp > 1 / 10
      · rw [if_pos ha] at h
        cases hi : initialStructure ext cfg s with
        | none =>
          rw [hi] at h
          exact Option.noConfusion h
        | some r =>
          obtain ⟨outcome, s2⟩ := r
          rw [hi] at h
          simp only [] at h
          have hp2 := initialStructure_latch ext cfg s s2 outcome hi
          by_cases hok : outcome = InitialStructureOutcome.success
          · rw [if_pos hok] at h
            have hx := optimization_slide_latch ext cfg _ s1 h
            exact fun hs => hx (hp2.trans hs)
          · rw [if_neg hok] at h
            rw [← Option.some.inj h]
            exact latchKept_of_eq ((slideWindow_latch ext cfg _).trans hp2)
      · rw [if_neg ha] at h
        rw [← Option.some.inj h]
        exact latchKept_of_eq (slideWindow_latch ext cfg s)
    · rw [if_neg hfull] at h
      rw [← Option.some.inj h]
      exact latchKept_refl s
  · rw [if_neg hm] at h
    rw [← Option.some.inj h]
    exact latchKept_refl s

/-- A returning stereo + IMU initialization block does not clear the latch. -/
theorem processImageStereoImuInit_latch (ext : Externals) (cfg : Config) (s s1 : Estimator)
    (h : processImageStereoImuInit ext cfg s = some s1) : LatchKept s s1 := by
  unfold processImageStereoImuInit at h
  by_cases hm : cfg.STEREO = true ∧ cfg.USE_IMU = true
  · rw [if_pos hm] at h
    simp only [] at h
    by_cases hfull : (triangulate ext (initFramePoseByPnP ext s)).frame_count =
        cfg.WINDOW_SIZE
    · rw [if_pos hfull] at h
      split at h
      · exact Option.noConfusion h
      · rename_i s3 h3
        have k3 := foldlM_preserves
          (fun (a b : Estimator) => b.openExEstimation = a.openExEstimation)
          repropagateSlot (fun _ => rfl) (fun _ _ _ h1 h2 => h2.trans h1)
          (fun b a b1 hb => by
            unfold repropagateSlot at hb
            split at hb
            · exact Option.noConfusion hb
            · rw [← Option.some.inj hb])
        have hx := optimization_slide_latch ext cfg _ s1 h
        have e3 := k3 _ _ _ h3
        exact fun hs => hx (e3.trans hs)
    · rw [if_neg hfull] at h
      rw [← Option.some.inj h]
      exact latchKept_of_eq rfl
  · rw [if_neg hm] at h
    rw [← Option.some.inj h]
    exact latchKept_refl s

/-- A returning stereo-only initialization block does not clear the latch. -/
theorem processImageStereoInit_latch (ext : Externals) (cfg : Config) (s s1 : Estimator)
    (h : processImageStereoInit ext cfg s = some s1) : LatchKept s s1 := by
  unfold processImageStereoInit at h
  by_cases hm : cfg.STEREO = true ∧ cfg.USE_IMU = false
  · rw [if_pos hm] at h
    cases ho : optimization ext cfg (triangulate ext (initFramePoseByPnP ext s)) with
    | none =>
      rw [ho] at h
      exact Option.noConfusion h
    | some s2 =>
      rw [ho] at h
      simp only [] at h
      have ho2 := optimization_latch ext cfg _ s2 ho
      have hp2 : LatchKept s s2 := fun hs => ho2 hs
      by_cases hfull : s2.frame_count = cfg.WINDOW_SIZE
      · rw [if_pos hfull] at h
        rw [← Option.some.inj h]
        exact latchKept_trans hp2 (latchKept_of_eq ((slideWindow_latch ext cfg _).trans rfl))
      · rw [if_neg hfull] at h
        rw [← Option.some.inj h]
        exact hp2
  · rw [if_neg hm] at h
    rw [← Option.some.inj h]
    exact latchKept_refl s

/-- A returning `NON_LINEAR` branch of `processImage` does not clear the latch. -/
theorem processImageNonLinear_latch (ext : Externals) (cfg : Config) (s s1 : Estimator)
    (header : ℚ) (h : processImageNonLinear ext cfg s header = some s1) :
    LatchKept s s1 := by
  unfold processImageNonLinear at h
  simp only [] at h
  split at h
  · exact Option.noConfusion h
  · rename_i s2 ho
    split at h
    · exact Option.noConfusion h
    · rename_i s3 removeIndex hout
      simp only [failureDetection, Bool.false_eq_true, if_false] at h
      have h1 := updateLatestStates_latch ext _ s1 h
      have h2 := outliersRejection_latch ext cfg s2 s3 ∅ removeIndex hout
      have h3 := optimization_latch ext cfg _ s2 ho
      have h4 : (predictPtsInNextFrame ext
          { s3 with f_manager := ext.fmRemoveOutlier s3.f_manager removeIndex }).openExEstimation =
          s3.openExEstimation := by
        unfold predictPtsInNextFrame
        split_ifs <;> rfl
      have h5 := slideWindow_latch ext cfg (predictPtsInNextFrame ext
          { s3 with f_manager := ext.fmRemoveOutlier s3.f_manager removeIndex })
      have h6 : (triangulate ext
          (if cfg.USE_IMU = true then s else initFramePoseByPnP ext s)).openExEstimation =
          s.openExEstimation := by
        split_ifs <;> rfl
      exact latchKept_trans (latchKept_of_eq h6)
        (latchKept_trans h3 (latchKept_of_eq (h1.trans (h5.trans (h4.trans h2)))))

/-- A returning `processImage` call does not clear the latch. -/
theorem processImage_latch (ext : Externals) (cfg : Config) (s s1 : Estimator)
    (image : FeatureFrame) (header : ℚ)
    (h : processImage ext cfg s image header = some s1) : LatchKept s s1 := by
  unfold processImage at h
  cases hh : processImageHead ext s image header with
  | none =>
    rw [hh] at h
    exact Option.noConfusion h
  | some t1 =>
    rw [hh] at h
    simp only [] at h
    have hp1 : LatchKept s t1 :=
      latchKept_of_eq (processImageHead_latch ext s t1 image header hh)
    by_cases hf1 : t1.solver_flag = SolverFlag.INITIAL
    · rw [if_pos hf1] at h
      cases h2 : processImageMonoInit ext cfg t1 header with
      | none =>
        rw [h2] at h
        exact Option.noConfusion h
      | some t2 =>
        rw [h2] at h
        simp only [] at h
        cases h3 : processImageStereoImuInit ext cfg t2 with
        | none =>
          rw [h3] at h
          exact Option.noConfusion h
        | some t3 =>
          rw [h3] at h
          simp only [] at h
          cases h4 : processImageStereoInit ext cfg t3 with
          | none =>
            rw [h4] at h
            exact Option.noConfusion h
          | some t4 =>
            rw [h4] at h
            simp only [] at h
            have h5 : LatchKept t4 s1 := by
              rw [← Option.some.inj h]
              unfold processImageAdvance
              split_ifs
              · exact latchKept_of_eq rfl
              · exact latchKept_refl t4
            exact latchKept_trans hp1
              (latchKept_trans (processImageMonoInit_latch ext cfg t1 t2 header h2)
                (latchKept_trans (processImageStereoImuInit_latch ext cfg t2 t3 h3)
                  (latchKept_trans (processImageStereoInit_latch ext cfg t3 t4 h4) h5)))
    · rw [if_neg hf1] at h
      exact latchKept_trans hp1 (processImageNonLinear_latch ext cfg t1 s1 header h)

/-- No later state of the estimator has the latch cleared. -/
theorem laterState_latch (ext : Externals) (cfg : Config) (s b : Estimator)
    (h : LaterState ext cfg s b) : LatchKept s b := by
  induction h with
  | start => exact latchKept_refl s
  | processImage a b image header _ hb ih =>
    exact latchKept_trans ih (processImage_latch ext cfg a b image header hb)
  | optimization a b _ hb ih => exact latchKept_trans ih (optimization_latch ext cfg a b hb)
  | solve a arrays _ ih =>
    exact latchKept_trans ih (latchKept_of_eq ((double2vector_latch ext cfg _).trans rfl))
  | vector2double a _ ih =>
    exact latchKept_trans ih (latchKept_of_eq (vector2double_latch ext cfg a))
  | marginalizeOld a b _ hb ih =>
    exact latchKept_trans ih (latchKept_of_eq ((marginalize_latch ext cfg a b).1 hb))
  | marginalizeSecondNew a b _ hb ih =>
    exact latchKept_trans ih (latchKept_of_eq ((marginalize_latch ext cfg a b).2 hb))
  | slideWindow a _ ih =>
    exact latchKept_trans ih (latchKept_of_eq (slideWindow_latch ext cfg a))
  | clearState a _ ih =>
    exact latchKept_trans ih (latchKept_of_eq (clearState_latch ext cfg a).1)
  | setParameter a _ ih =>
    exact latchKept_trans ih (latchKept_of_eq (clearState_latch ext cfg a).2)
  | inputIMU a t acc gyr _ ih =>
    exact latchKept_trans ih (latchKept_of_eq ((input_latch ext cfg a).1 t acc gyr))
  | inputImage a t img img1 ff _ ih =>
    exact latchKept_trans ih (latchKept_of_eq ((input_latch ext cfg a).2.1 t img img1 ff))
  | inputFisheyeImage a t up down ff _ ih =>
    exact latchKept_trans ih (latchKept_of_eq ((input_latch ext cfg a).2.2.1 t up down ff))
  | getIMUInterval a t0 t1 accVector gyrVector r _ hr ih =>
    exact latchKept_trans ih
      (latchKept_of_eq ((input_latch ext cfg a).2.2.2 t0 t1 accVector gyrVector r hr))

/-- In one step every extrinsic block is free exactly when the latch was set
before or the calibration condition holds, and the step then sets the latch. -/
theorem extrinsicBlocks_of_step (ext : Externals) (cfg : Config) (s : Estimator)
    (hpre : PreIntegrationsPresent cfg s)
    (hobs : ObservedIn s.f_manager.feature s.param_feature_id) :
    ∃ s1 p, optimizationProblem ext cfg s = some (s1, p) ∧
      (∀ i, i < cfg.NUM_OF_CAM →
        (p.IsFree (BlockId.para_Ex_Pose i) ↔
          (ExtrinsicsEstimated ext cfg s ∨ s.openExEstimation = true)) ∧
        (BlockId.para_Ex_Pose i ∈ p.constant_blocks ↔
          ¬ (ExtrinsicsEstimated ext cfg s ∨ s.openExEstimation = true))) ∧
      (0 < cfg.NUM_OF_CAM →
        (s1.openExEstimation = true ↔
          (ExtrinsicsEstimated ext cfg s ∨ s.openExEstimation = true))) ∧
      (s.openExEstimation = false → ∀ i, i < cfg.NUM_OF_CAM →
        (p.IsFree (BlockId.para_Ex_Pose i) ↔ ExtrinsicsEstimated ext cfg s)) := by
  obtain ⟨s1, p, hres, ⟨m, idx, hs1⟩, hpb, hcb, _⟩ :=
    optimizationProblem_spec ext cfg s hpre hobs
  have hfree : ∀ i, i < cfg.NUM_OF_CAM →
      (p.IsFree (BlockId.para_Ex_Pose i) ↔
        (ExtrinsicsEstimated ext cfg s ∨ s.openExEstimation = true)) := by
    intro i hi
    unfold Problem.IsFree
    rw [hpb, hcb, mem_constantBlocks_ex]
    have hmem : BlockId.para_Ex_Pose i ∈ windowBlocks cfg s ++
        (List.range cfg.NUM_OF_CAM).map BlockId.para_Ex_Pose ++ [BlockId.para_Td 0] := by
      simp only [List.mem_append, List.mem_map, List.mem_range]
      exact Or.inl (Or.inr ⟨i, hi, rfl⟩)
    constructor
    · rintro ⟨_, h⟩
      by_contra hc
      exact h ⟨hi, hc⟩
    · intro h
      exact ⟨hmem, fun hc => hc.2 h⟩
  refine ⟨s1, p, hres, ?_, ?_, ?_⟩
  · intro i hi
    refine ⟨hfree i hi, ?_⟩
    rw [hcb, mem_constantBlocks_ex]
    exact ⟨fun h => h.2, fun h => ⟨hi, h⟩⟩
  · intro hn
    have hn0 : cfg.NUM_OF_CAM ≠ 0 := by omega
    rw [hs1]
    show openExEstimationAfter ext cfg s = true ↔ _
    unfold openExEstimationAfter
    by_cases hc : ExtrinsicsEstimated ext cfg s ∨ s.openExEstimation = true
    · simp [hc, hn0]
    · have hb : ¬ s.openExEstimation = true := fun h => hc (Or.inr h)
      have hE : ¬ ExtrinsicsEstimated ext cfg s := fun h => hc (Or.inl h)
      simp [hE, hb]
  · intro hclear i hi
    rw [hfree i hi]
    simp [hclear]

/-- C18 (as amended): in every optimization step on a window whose pre-integrations
exist and whose feature ids name observed features, the problem is built, and each
camera's extrinsic block is free if and only if `openExEstimation` was already set by
an earlier step or, in this step, `ESTIMATE_EXTRINSIC` is active, the window is full
and the norm of `Vs[0]` exceeds 0.2; otherwise the block is set constant.  With at
least one camera the step leaves `openExEstimation` set exactly in the first case.
While `openExEstimation` is clear the blocks are free if and only if the three
conditions hold.  Once set, `openExEstimation` is set in every later state of the
estimator (whatever returning calls of `processImage`, `optimization` and its parts,
`slideWindow`, `clearState`, `setParameter`, the input functions and `getIMUInterval`
follow), so after a step in which the blocks are free every later step builds its
problem with every extrinsic block free. -/
theorem optimization_extrinsic_blocks (ext : Externals) (cfg : Config) (s : Estimator)
    (hpre : PreIntegrationsPresent cfg s)
    (hobs : ObservedIn s.f_manager.feature s.param_feature_id) :
    ∃ s1 p, optimizationProblem ext cfg s = some (s1, p) ∧
      (∀ i, i < cfg.NUM_OF_CAM →
        (p.IsFree (BlockId.para_Ex_Pose i) ↔
          (ExtrinsicsEstimated ext cfg s ∨ s.openExEstimation = true)) ∧
        (BlockId.para_Ex_Pose i ∈ p.constant_blocks ↔
          ¬ (ExtrinsicsEstimated ext cfg s ∨ s.openExEstimation = true))) ∧
      (0 < cfg.NUM_OF_CAM →
        (s1.openExEstimation = true ↔
          (ExtrinsicsEstimated ext cfg s ∨ s.openExEstimation = true))) ∧
      (s.openExEstimation = false → ∀ i, i < cfg.NUM_OF_CAM →
        (p.IsFree (BlockId.para_Ex_Pose i) ↔ ExtrinsicsEstimated ext cfg s)) ∧
      (s1.openExEstimation = true → ∀ b, LaterState ext cfg s1 b →
        b.openExEstimation = true) ∧
      (0 < cfg.NUM_OF_CAM → (ExtrinsicsEstimated ext cfg s ∨ s.openExEstimation = true) →
        ∀ b, LaterState ext cfg s1 b → PreIntegrationsPresent cfg b →
          ObservedIn b.f_manager.feature b.param_feature_id →
          ∃ b1 p2, optimizationProblem ext cfg b = some (b1, p2) ∧
            b1.openExEstimation = true ∧
            ∀ i, i < cfg.NUM_OF_CAM →
              p2.IsFree (BlockId.para_Ex_Pose i) ∧
              BlockId.para_Ex_Pose i ∉ p2.constant_blocks) := by
  obtain ⟨s1, p, hres, h1, h2, h3⟩ := extrinsicBlocks_of_step ext cfg s hpre hobs
  refine ⟨s1, p, hres, h1, h2, h3, ?_, ?_⟩
  · intro hset b hb
    exact laterState_latch ext cfg s1 b hb hset
  · intro hn hc b hb hpreb hobsb
    have hset : b.openExEstimation = true :=
      laterState_latch ext cfg s1 b hb ((h2 hn).2 hc)
    obtain ⟨b1, p2, hresb, g1, g2, _⟩ := extrinsicBlocks_of_step ext cfg b hpreb hobsb
    refine ⟨b1, p2, hresb, (g2 hn).2 (Or.inr hset), ?_⟩
    intro i hi
    exact ⟨(g1 i hi).1.2 (Or.inr hset), fun hmem => (g1 i hi).2.1 hmem (Or.inr hset)⟩

/-- Witness of C18 (as amended) on `demoCalibrating`: the three conditions hold, both
extrinsic blocks are free, and the step sets `openExEstimation`; it is still set after
`clearState`, and the problem built on the cleared estimator, where the window is no
longer full, again has both extrinsic blocks free. -/
theorem optimization_extrinsic_blocks_witness :
    PreIntegrationsPresent demoConfig demoCalibrating ∧
    ObservedIn demoCalibrating.f_manager.feature demoCalibrating.param_feature_id ∧
    ExtrinsicsEstimated demoExternals demoConfig demoCalibrating ∧
    ∃ s1 p, optimizationProblem demoExternals demoConfig demoCalibrating = some (s1, p) ∧
      p.IsFree (BlockId.para_Ex_Pose 0) ∧ p.IsFree (BlockId.para_Ex_Pose 1) ∧
      s1.openExEstimation = true ∧
      (clearState demoExternals demoConfig s1).openExEstimation = true ∧
      ¬ ExtrinsicsEstimated demoExternals demoConfig
        (vector2double demoExternals demoConfig (clearState demoExternals demoConfig s1)) ∧
      ∃ b1 p2, optimizationProblem demoExternals demoConfig
          (vector2double demoExternals demoConfig (clearState demoExternals demoConfig s1)) =
            some (b1, p2) ∧
        p2.IsFree (BlockId.para_Ex_Pose 0) ∧ p2.IsFree (BlockId.para_Ex_Pose 1) := by
  have hpre : PreIntegrationsPresent demoConfig demoCalibrating := by
    intro _ j _ _
    simp [demoCalibrating]
  have hobs : ObservedIn demoCalibrating.f_manager.feature
      demoCalibrating.param_feature_id := by
    intro id hid
    simp [demoCalibrating, demoWindowOld, blankEstimator] at hid
  have hcond : ExtrinsicsEstimated demoExternals demoConfig demoCalibrating := by
    decide!
  obtain ⟨s1, p, hres, hfree, hlatch, _, hkeep, hlater⟩ :=
    optimization_extrinsic_blocks demoExternals demoConfig demoCalibrating hpre hobs
  have hset : s1.openExEstimation = true := (hlatch (by decide)).2 (Or.inl hcond)
  have hb : LaterState demoExternals demoConfig s1
      (vector2double demoExternals demoConfig (clearState demoExternals demoConfig s1)) :=
    LaterState.vector2double _ (LaterState.clearState _ LaterState.start)
  have hfc : (vector2double demoExternals demoConfig
      (clearState demoExternals demoConfig s1)).frame_count = 0 := by
    have h := congrArg WindowControl.frame_count
      (vector2double_control demoExternals demoConfig
        (clearState demoExternals demoConfig s1))
    exact h.trans rfl
  have hpreb : PreIntegrationsPresent demoConfig
      (vector2double demoExternals demoConfig (clearState demoExternals demoConfig s1)) := by
    intro _ j h1 h2
    rw [hfc] at h2
    omega
  have hobsb : ObservedIn
      (vector2double demoExternals demoConfig
        (clearState demoExternals demoConfig s1)).f_manager.feature
      (vector2double demoExternals demoConfig
        (clearState demoExternals demoConfig s1)).param_feature_id := by
    intro id hid
    rw [(vector2double_features demoExternals demoConfig _).2] at hid
    simp [demoExternals] at hid
  obtain ⟨b1, p2, hresb, _, hfreeb⟩ :=
    hlater (by decide) (Or.inl hcond) _ hb hpreb hobsb
  refine ⟨hpre, hobs, hcond, s1, p, hres,
    ((hfree 0 (by decide)).1).2 (Or.inl hcond), ((hfree 1 (by decide)).1).2 (Or.inl hcond),
    hset, hkeep hset _ (LaterState.clearState _ LaterState.start), ?_, b1, p2, hresb,
    (hfreeb 0 (by decide)).1, (hfreeb 1 (by decide)).1⟩
  intro hce
  have h2 := hce.2.1
  rw [hfc] at h2
  exact absurd h2 (by decide)

end VinsFisheye
